import Mathlib

/-!
Verification of a partially persistent red-black tree (Python sources:
no.py, arvore_rubro_negra.py, processador_operacoes.py).

Shallow embedding: nodes live in a heap (a list indexed by node id) and
carry per-version histories of color, children and parent, exactly as the
Python class No does with its dictionaries.  Mutating methods become
functions from heap to heap; the tree object becomes a record of heap,
roots table and current version.  Recursion on the heap uses explicit
fuel (Python recursion is unbounded; every theorem either supplies enough
fuel or holds for all fuel).
-/

namespace RBN

/-- Colors, from class Cor in no.py (VERMELHO = "R", PRETO = "N"). -/
inductive Cor where
  | VERMELHO
  | PRETO
deriving DecidableEq, Repr

/-- Cor.value in no.py: the single-character color code. -/
def Cor.value : Cor → String
  | .VERMELHO => "R"
  | .PRETO => "N"

/-- Node identity: index into the heap. -/
abbrev NodeId := Nat

/-- Class No of no.py.  The Python dictionaries keyed by version become
association lists with the newest write first, so that assignment
(overwrite at the same key) is modelled by prepending. -/
structure No where
  valor : Int
  versao_criacao : Nat
  historico_cores : List (Nat × Cor)
  historico_filhos : List (Nat × (Option NodeId × Option NodeId))
  historico_pais : List (Nat × Option NodeId)
  versao_remocao : Option Nat
deriving DecidableEq, Repr

/-- No.__init__: fresh node with singleton histories at the creation
version and no removal version. -/
def No.novo (valor : Int) (cor : Cor) (versao_criacao : Nat) : No :=
  { valor := valor
    versao_criacao := versao_criacao
    historico_cores := [(versao_criacao, cor)]
    historico_filhos := [(versao_criacao, (none, none))]
    historico_pais := [(versao_criacao, none)]
    versao_remocao := none }

/-- No._obter_versao_valida: the greatest history key that is at most the
requested version, or 0 when no key qualifies (Python:
max([v for v in historico if v <= versao]) if nonempty else 0). -/
def obterVersaoValida (chaves : List Nat) (versao : Int) : Nat :=
  (chaves.filter (fun k : Nat => decide ((k : Int) ≤ versao))).foldr max 0

/-- Dictionary read with default: first (newest) entry at the given key,
like dict.get. -/
def lerHistorico {α : Type} (h : List (Nat × α)) (chave : Nat) (padrao : α) : α :=
  match h.lookup chave with
  | some x => x
  | none => padrao

/-- No.obter_cor: color at a version, defaulting to BLACK. -/
def No.obter_cor (n : No) (versao : Int) : Cor :=
  lerHistorico n.historico_cores
    (obterVersaoValida (n.historico_cores.map Prod.fst) versao) Cor.PRETO

/-- No.definir_cor: record a color at a version (dict assignment). -/
def No.definir_cor (n : No) (cor : Cor) (versao : Nat) : No :=
  { n with historico_cores := (versao, cor) :: n.historico_cores }

/-- No.obter_filhos: both children at a version, defaulting to (none, none). -/
def No.obter_filhos (n : No) (versao : Int) : Option NodeId × Option NodeId :=
  lerHistorico n.historico_filhos
    (obterVersaoValida (n.historico_filhos.map Prod.fst) versao) (none, none)

/-- No.obter_filho_esquerdo. -/
def No.obter_filho_esquerdo (n : No) (versao : Int) : Option NodeId :=
  (n.obter_filhos versao).1

/-- No.obter_filho_direito. -/
def No.obter_filho_direito (n : No) (versao : Int) : Option NodeId :=
  (n.obter_filhos versao).2

/-- No.definir_filho_esquerdo: reads the pair at the version, replaces the
left component, records the pair at the version. -/
def No.definir_filho_esquerdo (n : No) (filho : Option NodeId) (versao : Nat) : No :=
  let atuais := n.obter_filhos (versao : Int)
  { n with historico_filhos := (versao, (filho, atuais.2)) :: n.historico_filhos }

/-- No.definir_filho_direito. -/
def No.definir_filho_direito (n : No) (filho : Option NodeId) (versao : Nat) : No :=
  let atuais := n.obter_filhos (versao : Int)
  { n with historico_filhos := (versao, (atuais.1, filho)) :: n.historico_filhos }

/-- No.definir_filhos: record both children at a version. -/
def No.definir_filhos (n : No) (esq dir : Option NodeId) (versao : Nat) : No :=
  { n with historico_filhos := (versao, (esq, dir)) :: n.historico_filhos }

/-- No.obter_pai: parent at a version, defaulting to none. -/
def No.obter_pai (n : No) (versao : Int) : Option NodeId :=
  lerHistorico n.historico_pais
    (obterVersaoValida (n.historico_pais.map Prod.fst) versao) none

/-- No.definir_pai. -/
def No.definir_pai (n : No) (pai : Option NodeId) (versao : Nat) : No :=
  { n with historico_pais := (versao, pai) :: n.historico_pais }

/-- No.esta_ativo: alive at a version iff created at or before it and not
yet removed at it. -/
def No.esta_ativo (n : No) (versao : Int) : Bool :=
  (n.versao_criacao : Int) ≤ versao &&
    (match n.versao_remocao with
     | none => true
     | some r => versao < (r : Int))

/-- No.remover: unconditionally records the removal version. -/
def No.remover_no (n : No) (versao : Nat) : No :=
  { n with versao_remocao := some versao }

/-! ## The heap of nodes -/

abbrev Heap := List No

/-- Default node returned for an out-of-range id (never reached on
well-formed heaps). -/
def noPadrao : No := No.novo 0 Cor.PRETO 0

/-- Read a node from the heap. -/
def lerNo (h : Heap) (i : NodeId) : No :=
  (h.get? i).getD noPadrao

/-- Write a node back to the heap (in-place update of the object). -/
def escreverNo (h : Heap) (i : NodeId) (n : No) : Heap :=
  h.set i n

def valorDe (h : Heap) (i : NodeId) : Int := (lerNo h i).valor

def obterCor (h : Heap) (i : NodeId) (versao : Int) : Cor :=
  (lerNo h i).obter_cor versao

def obterFilhos (h : Heap) (i : NodeId) (versao : Int) :
    Option NodeId × Option NodeId :=
  (lerNo h i).obter_filhos versao

def obterFilhoEsquerdo (h : Heap) (i : NodeId) (versao : Int) : Option NodeId :=
  (lerNo h i).obter_filho_esquerdo versao

def obterFilhoDireito (h : Heap) (i : NodeId) (versao : Int) : Option NodeId :=
  (lerNo h i).obter_filho_direito versao

def obterPai (h : Heap) (i : NodeId) (versao : Int) : Option NodeId :=
  (lerNo h i).obter_pai versao

def estaAtivo (h : Heap) (i : NodeId) (versao : Int) : Bool :=
  (lerNo h i).esta_ativo versao

def definirCor (h : Heap) (i : NodeId) (cor : Cor) (versao : Nat) : Heap :=
  escreverNo h i ((lerNo h i).definir_cor cor versao)

def definirFilhoEsquerdo (h : Heap) (i : NodeId) (filho : Option NodeId)
    (versao : Nat) : Heap :=
  escreverNo h i ((lerNo h i).definir_filho_esquerdo filho versao)

def definirFilhoDireito (h : Heap) (i : NodeId) (filho : Option NodeId)
    (versao : Nat) : Heap :=
  escreverNo h i ((lerNo h i).definir_filho_direito filho versao)

def definirFilhos (h : Heap) (i : NodeId) (esq dir : Option NodeId)
    (versao : Nat) : Heap :=
  escreverNo h i ((lerNo h i).definir_filhos esq dir versao)

def definirPai (h : Heap) (i : NodeId) (pai : Option NodeId) (versao : Nat) : Heap :=
  escreverNo h i ((lerNo h i).definir_pai pai versao)

def marcarRemovido (h : Heap) (i : NodeId) (versao : Nat) : Heap :=
  escreverNo h i ((lerNo h i).remover_no versao)

/-- Python truthiness test "if filho:" followed by a color comparison:
the optional node is non-None and RED at the version. -/
def ehVermelho (h : Heap) (oi : Option NodeId) (versao : Int) : Bool :=
  match oi with
  | some i => obterCor h i versao = Cor.VERMELHO
  | none => false

/-! ## Balancing after insertion (arvore_rubro_negra.py) -/

/-- _balancear_caso_esquerda_esquerda.  The caller guarantees that the
left child and the left-left grandchild exist; the .getD 0 defaults are
never reached under that guarantee. -/
def balancearCasoEsquerdaEsquerda (h : Heap) (no : NodeId) (versao : Nat) :
    Heap × NodeId :=
  let v : Int := versao
  let filho_esquerdo := (obterFilhoEsquerdo h no v).getD 0
  let neto_esq_esq := (obterFilhoEsquerdo h filho_esquerdo v).getD 0
  let neto_esq_dir := obterFilhoDireito h filho_esquerdo v
  let filho_direito := obterFilhoDireito h no v
  let h := definirCor h filho_esquerdo Cor.VERMELHO versao
  let h := definirCor h neto_esq_esq Cor.PRETO versao
  let h := definirCor h no Cor.PRETO versao
  let h := definirFilhos h filho_esquerdo (some neto_esq_esq) (some no) versao
  let h := definirFilhos h no neto_esq_dir filho_direito versao
  let h := match neto_esq_dir with
    | some x => definirPai h x (some no) versao
    | none => h
  let h := definirPai h no (some filho_esquerdo) versao
  let h := definirPai h neto_esq_esq (some filho_esquerdo) versao
  (h, filho_esquerdo)

/-- _balancear_caso_esquerda_direita. -/
def balancearCasoEsquerdaDireita (h : Heap) (no : NodeId) (versao : Nat) :
    Heap × NodeId :=
  let v : Int := versao
  let filho_esquerdo := (obterFilhoEsquerdo h no v).getD 0
  let neto_esq_dir := (obterFilhoDireito h filho_esquerdo v).getD 0
  let bisneto_esq := obterFilhoEsquerdo h neto_esq_dir v
  let bisneto_dir := obterFilhoDireito h neto_esq_dir v
  let filho_direito := obterFilhoDireito h no v
  let h := definirCor h neto_esq_dir Cor.VERMELHO versao
  let h := definirCor h filho_esquerdo Cor.PRETO versao
  let h := definirCor h no Cor.PRETO versao
  let h := definirFilhos h neto_esq_dir (some filho_esquerdo) (some no) versao
  let h := definirFilhos h filho_esquerdo (obterFilhoEsquerdo h filho_esquerdo v)
    bisneto_esq versao
  let h := definirFilhos h no bisneto_dir filho_direito versao
  let h := match bisneto_esq with
    | some x => definirPai h x (some filho_esquerdo) versao
    | none => h
  let h := match bisneto_dir with
    | some x => definirPai h x (some no) versao
    | none => h
  let h := definirPai h filho_esquerdo (some neto_esq_dir) versao
  let h := definirPai h no (some neto_esq_dir) versao
  (h, neto_esq_dir)

/-- _balancear_caso_direita_esquerda. -/
def balancearCasoDireitaEsquerda (h : Heap) (no : NodeId) (versao : Nat) :
    Heap × NodeId :=
  let v : Int := versao
  let filho_direito := (obterFilhoDireito h no v).getD 0
  let neto_dir_esq := (obterFilhoEsquerdo h filho_direito v).getD 0
  let bisneto_esq := obterFilhoEsquerdo h neto_dir_esq v
  let bisneto_dir := obterFilhoDireito h neto_dir_esq v
  let filho_esquerdo := obterFilhoEsquerdo h no v
  let h := definirCor h neto_dir_esq Cor.VERMELHO versao
  let h := definirCor h no Cor.PRETO versao
  let h := definirCor h filho_direito Cor.PRETO versao
  let h := definirFilhos h neto_dir_esq (some no) (some filho_direito) versao
  let h := definirFilhos h no filho_esquerdo bisneto_esq versao
  let h := definirFilhos h filho_direito bisneto_dir
    (obterFilhoDireito h filho_direito v) versao
  let h := match bisneto_esq with
    | some x => definirPai h x (some no) versao
    | none => h
  let h := match bisneto_dir with
    | some x => definirPai h x (some filho_direito) versao
    | none => h
  let h := definirPai h no (some neto_dir_esq) versao
  let h := definirPai h filho_direito (some neto_dir_esq) versao
  (h, neto_dir_esq)

/-- _balancear_caso_direita_direita. -/
def balancearCasoDireitaDireita (h : Heap) (no : NodeId) (versao : Nat) :
    Heap × NodeId :=
  let v : Int := versao
  let filho_direito := (obterFilhoDireito h no v).getD 0
  let neto_dir_dir := (obterFilhoDireito h filho_direito v).getD 0
  let neto_dir_esq := obterFilhoEsquerdo h filho_direito v
  let filho_esquerdo := obterFilhoEsquerdo h no v
  let h := definirCor h filho_direito Cor.VERMELHO versao
  let h := definirCor h no Cor.PRETO versao
  let h := definirCor h neto_dir_dir Cor.PRETO versao
  let h := definirFilhos h filho_direito (some no) (some neto_dir_dir) versao
  let h := definirFilhos h no filho_esquerdo neto_dir_esq versao
  let h := match neto_dir_esq with
    | some x => definirPai h x (some no) versao
    | none => h
  let h := definirPai h no (some filho_direito) versao
  let h := definirPai h neto_dir_dir (some filho_direito) versao
  (h, filho_direito)

/-- The right-child half of _balancear_apos_inclusao (reached either when
the left child is not RED, or when it is RED but has no RED grandchild). -/
def balancearChecaDireita (h : Heap) (no : NodeId) (versao : Nat) :
    Heap × NodeId :=
  let v : Int := versao
  let filho_direito := obterFilhoDireito h no v
  if ehVermelho h filho_direito v then
    let f := filho_direito.getD 0
    let neto_dir_esq := obterFilhoEsquerdo h f v
    let neto_dir_dir := obterFilhoDireito h f v
    if ehVermelho h neto_dir_esq v then
      balancearCasoDireitaEsquerda h no versao
    else if ehVermelho h neto_dir_dir v then
      balancearCasoDireitaDireita h no versao
    else
      (h, no)
  else
    (h, no)

/-- _balancear_apos_inclusao: the four-case cascade, left side first. -/
def balancearAposInclusao (h : Heap) (no : NodeId) (versao : Nat) :
    Heap × NodeId :=
  let v : Int := versao
  let filho_esquerdo := obterFilhoEsquerdo h no v
  if ehVermelho h filho_esquerdo v then
    let f := filho_esquerdo.getD 0
    let neto_esq_esq := obterFilhoEsquerdo h f v
    let neto_esq_dir := obterFilhoDireito h f v
    if ehVermelho h neto_esq_esq v then
      balancearCasoEsquerdaEsquerda h no versao
    else if ehVermelho h neto_esq_dir v then
      balancearCasoEsquerdaDireita h no versao
    else
      balancearChecaDireita h no versao
  else
    balancearChecaDireita h no versao

/-! ## Insertion and removal -/

/-- _incluir_recursivo.  Always returns the (non-None) subtree root the
Python function returns.  Fuel 0 returns the input unchanged, a case no
theorem relies on (enough fuel is always supplied). -/
def incluirRecursivo (h : Heap) (no : Option NodeId) (valor : Int)
    (versao : Nat) : Nat → Heap × NodeId
  | 0 => (h, 0)
  | fuel + 1 =>
    match no with
    | none => (h ++ [No.novo valor Cor.VERMELHO versao], h.length)
    | some i =>
      if !estaAtivo h i (versao : Int) then
        (h ++ [No.novo valor Cor.VERMELHO versao], h.length)
      else if valor < valorDe h i then
        let r := incluirRecursivo h (obterFilhoEsquerdo h i (versao : Int))
          valor versao fuel
        let h₁ := definirFilhoEsquerdo r.1 i (some r.2) versao
        let h₂ := definirPai h₁ r.2 (some i) versao
        balancearAposInclusao h₂ i versao
      else if valor > valorDe h i then
        let r := incluirRecursivo h (obterFilhoDireito h i (versao : Int))
          valor versao fuel
        let h₁ := definirFilhoDireito r.1 i (some r.2) versao
        let h₂ := definirPai h₁ r.2 (some i) versao
        balancearAposInclusao h₂ i versao
      else
        (h, i)

/-- _encontrar_minimo: descend left links while the left child exists and
is alive. -/
def encontrarMinimo (h : Heap) (no : Option NodeId) (versao : Int) :
    Nat → Option NodeId
  | 0 => no
  | fuel + 1 =>
    match no with
    | none => none
    | some i =>
      match obterFilhoEsquerdo h i versao with
      | none => some i
      | some f =>
        if estaAtivo h f versao then encontrarMinimo h (some f) versao fuel
        else some i

/-- _corrigir_violacoes_remocao: only re-blacks a node whose recorded
parent at the version is none. -/
def corrigirViolacoesRemocao (h : Heap) (no : NodeId) (versao : Nat) :
    Heap × Option NodeId :=
  if obterPai h no (versao : Int) = none then
    (definirCor h no Cor.PRETO versao, some no)
  else
    (h, some no)

/-- _balancear_apos_remocao. -/
def balancearAposRemocao (h : Heap) (no : Option NodeId) (versao : Nat) :
    Heap × Option NodeId :=
  match no with
  | none => (h, none)
  | some i => corrigirViolacoesRemocao h i versao

/-- _remover_recursivo together with the inlined _remover_no (the latter
is only called from the former; the two-children case recurses back into
the removal with the successor key, consuming fuel). -/
def removerRecursivo (h : Heap) (no : Option NodeId) (valor : Int)
    (versao : Nat) : Nat → Heap × Option NodeId
  | 0 => (h, no)
  | fuel + 1 =>
    match no with
    | none => (h, no)
    | some i =>
      if !estaAtivo h i (versao : Int) then (h, no)
      else if valor < valorDe h i then
        let r := removerRecursivo h (obterFilhoEsquerdo h i (versao : Int))
          valor versao fuel
        let h₁ := definirFilhoEsquerdo r.1 i r.2 versao
        let h₂ := match r.2 with
          | some f => definirPai h₁ f (some i) versao
          | none => h₁
        balancearAposRemocao h₂ (some i) versao
      else if valor > valorDe h i then
        let r := removerRecursivo h (obterFilhoDireito h i (versao : Int))
          valor versao fuel
        let h₁ := definirFilhoDireito r.1 i r.2 versao
        let h₂ := match r.2 with
          | some f => definirPai h₁ f (some i) versao
          | none => h₁
        balancearAposRemocao h₂ (some i) versao
      else
        -- _remover_no(no, versao)
        let filho_esquerdo := obterFilhoEsquerdo h i (versao : Int)
        let filho_direito := obterFilhoDireito h i (versao : Int)
        match filho_esquerdo, filho_direito with
        | none, _ => (marcarRemovido h i versao, filho_direito)
        | some _, none => (marcarRemovido h i versao, filho_esquerdo)
        | some _, some _ =>
          let sucessor := (encontrarMinimo h filho_direito (versao : Int)
            (h.length + 1)).getD 0
          let h₁ := escreverNo h i { lerNo h i with valor := valorDe h sucessor }
          let r := removerRecursivo h₁ filho_direito (valorDe h₁ sucessor)
            versao fuel
          let h₂ := definirFilhoDireito r.1 i r.2 versao
          let h₃ := match r.2 with
            | some f => definirPai h₂ f (some i) versao
            | none => h₂
          (h₃, some i)

/-! ## The tree object (class ArvoreRubroNegra) -/

/-- Python list read l[i], with negative indexing and IndexError. -/
def lerIndice (l : List (Option NodeId)) (i : Int) :
    Except String (Option NodeId) :=
  if 0 ≤ i ∧ i < (l.length : Int) then
    Except.ok (l.getD i.toNat none)
  else if -(l.length : Int) ≤ i ∧ i < 0 then
    Except.ok (l.getD (l.length - (-i).toNat) none)
  else
    Except.error "IndexError: list index out of range"

/-- Python list assignment l[i] = x for a non-negative index, with
IndexError when out of range. -/
def escreverIndice (l : List (Option NodeId)) (i : Nat) (x : Option NodeId) :
    Except String (List (Option NodeId)) :=
  if i < l.length then Except.ok (l.set i x)
  else Except.error "IndexError: list assignment index out of range"

structure ArvoreRubroNegra where
  heap : Heap
  raizes : List (Option NodeId)
  versao_atual : Nat
deriving DecidableEq, Repr

/-- ArvoreRubroNegra.__init__: 100 empty root slots, version 0. -/
def arvoreNova : ArvoreRubroNegra :=
  { heap := []
    raizes := List.replicate 100 none
    versao_atual := 0 }

/-- Fuel ample for any descent in an acyclic heap. -/
def combustivel (h : Heap) : Nat := h.length + 1

/-- ArvoreRubroNegra.incluir.  The second component is the uncaught
exception, if any: reading the current root or storing the new one can
raise IndexError; in that case the partially mutated heap survives (the
Python object keeps the history entries already written) while the roots
table and version counter are left as they were. -/
def incluir (t : ArvoreRubroNegra) (valor : Int) :
    ArvoreRubroNegra × Option String :=
  let nova_versao := t.versao_atual + 1
  match lerIndice t.raizes (t.versao_atual : Int) with
  | Except.error e => (t, some e)
  | Except.ok raizAtual =>
    let r := incluirRecursivo t.heap raizAtual valor nova_versao
      (combustivel t.heap)
    let h := definirCor r.1 r.2 Cor.PRETO nova_versao
    match escreverIndice t.raizes nova_versao (some r.2) with
    | Except.ok rs =>
      ({ heap := h, raizes := rs, versao_atual := nova_versao }, none)
    | Except.error e => ({ t with heap := h }, some e)

/-- ArvoreRubroNegra.remover. -/
def remover (t : ArvoreRubroNegra) (valor : Int) :
    ArvoreRubroNegra × Option String :=
  let nova_versao := t.versao_atual + 1
  match lerIndice t.raizes (t.versao_atual : Int) with
  | Except.error e => (t, some e)
  | Except.ok raizAtual =>
    let r := removerRecursivo t.heap raizAtual valor nova_versao
      (combustivel t.heap)
    let h := match r.2 with
      | some i => definirCor r.1 i Cor.PRETO nova_versao
      | none => r.1
    match escreverIndice t.raizes nova_versao r.2 with
    | Except.ok rs =>
      ({ heap := h, raizes := rs, versao_atual := nova_versao }, none)
    | Except.error e => ({ t with heap := h }, some e)

/-! ## Queries -/

/-- The while loop of buscar_sucessor. -/
def sucessorLaco (h : Heap) (atual : Option NodeId) (valor : Int)
    (versao : Int) (sucessor : Option Int) : Nat → Option Int
  | 0 => sucessor
  | fuel + 1 =>
    match atual with
    | none => sucessor
    | some i =>
      if estaAtivo h i versao then
        if valorDe h i > valor then
          sucessorLaco h (obterFilhoEsquerdo h i versao) valor versao
            (some (valorDe h i)) fuel
        else
          sucessorLaco h (obterFilhoDireito h i versao) valor versao
            sucessor fuel
      else sucessor

/-- ArvoreRubroNegra.buscar_sucessor; versao none means the Python
default argument.  Versions above the current one are clamped; the error
case is the IndexError a too-negative version raises. -/
def buscarSucessor (t : ArvoreRubroNegra) (valor : Int) (versao : Option Int) :
    Except String (Option Int) :=
  let v : Int := match versao with
    | none => (t.versao_atual : Int)
    | some u => if u > (t.versao_atual : Int) then (t.versao_atual : Int) else u
  match lerIndice t.raizes v with
  | Except.error e => Except.error e
  | Except.ok raiz =>
    Except.ok (sucessorLaco t.heap raiz valor v none (combustivel t.heap))

/-- _percorrer_em_ordem, collecting "valor,profundidade,cor" entries. -/
def percorrerEmOrdem (h : Heap) (no : NodeId) (versao : Int)
    (profundidade : Nat) : Nat → List String
  | 0 => []
  | fuel + 1 =>
    if !estaAtivo h no versao then []
    else
      let esq := match obterFilhoEsquerdo h no versao with
        | some f => percorrerEmOrdem h f versao (profundidade + 1) fuel
        | none => []
      let entrada := toString (valorDe h no) ++ "," ++ toString profundidade
        ++ "," ++ (obterCor h no versao).value
      let dir := match obterFilhoDireito h no versao with
        | some f => percorrerEmOrdem h f versao (profundidade + 1) fuel
        | none => []
      esq ++ [entrada] ++ dir

/-- ArvoreRubroNegra.imprimir_arvore. -/
def imprimirArvore (t : ArvoreRubroNegra) (versao : Option Int) :
    Except String (List String) :=
  let v : Int := match versao with
    | none => (t.versao_atual : Int)
    | some u => if u > (t.versao_atual : Int) then (t.versao_atual : Int) else u
  match lerIndice t.raizes v with
  | Except.error e => Except.error e
  | Except.ok raiz =>
    Except.ok (match raiz with
      | some r => percorrerEmOrdem t.heap r v 0 (combustivel t.heap)
      | none => [])

/-! ## Observation helpers used to state the spec-side properties -/

/-- Keys of the alive nodes visited by the in-order traversal at a
version (the same pruning as _percorrer_em_ordem, keys only). -/
def chavesEmOrdem (h : Heap) (no : NodeId) (versao : Int) : Nat → List Int
  | 0 => []
  | fuel + 1 =>
    if !estaAtivo h no versao then []
    else
      let esq := match obterFilhoEsquerdo h no versao with
        | some f => chavesEmOrdem h f versao fuel
        | none => []
      let dir := match obterFilhoDireito h no versao with
        | some f => chavesEmOrdem h f versao fuel
        | none => []
      esq ++ [valorDe h no] ++ dir

/-- Alive keys of a whole tree at a version (empty for an empty root). -/
def chavesVivas (t : ArvoreRubroNegra) (versao : Int) : List Int :=
  match lerIndice t.raizes versao with
  | Except.error _ => []
  | Except.ok none => []
  | Except.ok (some r) => chavesEmOrdem t.heap r versao (combustivel t.heap)

/-- Least element of a list of keys strictly above a bound ("the least
alive key greater than k"). -/
def menorAcima (chaves : List Int) (k : Int) : Option Int :=
  (chaves.filter (fun x => k < x)).foldr
    (fun x acc => match acc with
      | none => some x
      | some y => some (min x y)) none

/-- Whether an Except outcome is an error. -/
def ehErro {α : Type} : Except String α → Bool
  | Except.error _ => true
  | Except.ok _ => false

/-! ## The operation processor (processador_operacoes.py) -/

/-- Parsed commands (the text parsing itself is out of scope; these are
the four operations processar_operacao dispatches on). -/
inductive Operacao where
  | INC (valor : Int)
  | REM (valor : Int)
  | SUC (valor : Int) (versao : Int)
  | IMP (versao : Int)
deriving DecidableEq, Repr

/-- processar_operacao: runs one command; IndexError (and ValueError)
raised by the tree call is caught, a diagnostic is emitted and None is
returned, so processing continues.  Result: tree afterwards, output
lines, diagnostic (if the except branch fired). -/
def processarOperacao (t : ArvoreRubroNegra) (op : Operacao) :
    ArvoreRubroNegra × List String × Option String :=
  match op with
  | Operacao.INC v =>
    let r := incluir t v
    match r.2 with
    | none => (r.1, [], none)
    | some e => (r.1, [], some ("Erro ao processar operação: " ++ e))
  | Operacao.REM v =>
    let r := remover t v
    match r.2 with
    | none => (r.1, [], none)
    | some e => (r.1, [], some ("Erro ao processar operação: " ++ e))
  | Operacao.SUC v k =>
    match buscarSucessor t v (some k) with
    | Except.ok s =>
      let linha := match s with
        | some x => toString x
        | none => "infinito"
      (t, ["SUC " ++ toString v ++ " " ++ toString k, linha], none)
    | Except.error e => (t, [], some ("Erro ao processar operação: " ++ e))
  | Operacao.IMP k =>
    match imprimirArvore t (some k) with
    | Except.ok els =>
      (t, ["IMP " ++ toString k, String.intercalate " " els], none)
    | Except.error e => (t, [], some ("Erro ao processar operação: " ++ e))

/-- The loop of processar_arquivo over already-parsed lines: every
operation is processed, outputs are concatenated, diagnostics are
collected, and processing always continues past a caught error. -/
def processarLinhas (t : ArvoreRubroNegra) :
    List Operacao → ArvoreRubroNegra × List String × List String
  | [] => (t, [], [])
  | op :: resto =>
    let r := processarOperacao t op
    let rr := processarLinhas r.1 resto
    (rr.1, r.2.1 ++ rr.2.1,
      (match r.2.2 with | some d => [d] | none => []) ++ rr.2.2)

/-- Run a list of operations from the fresh tree. -/
def executar (ops : List Operacao) : ArvoreRubroNegra :=
  (processarLinhas arvoreNova ops).1

/-! ## Pure snapshots

A version of the tree, extracted from the heap by the same pruning rule
every traversal of the source uses (a missing or non-alive node is a
leaf).  `ArvoreIds` keeps node identities, `ArvoreBin` forgets them. -/

inductive ArvoreBin where
  | folha
  | nodo (cor : Cor) (valor : Int) (esq dir : ArvoreBin)
deriving DecidableEq, Repr

inductive ArvoreIds where
  | folha
  | nodo (id : NodeId) (cor : Cor) (valor : Int) (esq dir : ArvoreIds)
deriving DecidableEq, Repr

/-- Forget identities. -/
def ArvoreIds.apaga : ArvoreIds → ArvoreBin
  | .folha => .folha
  | .nodo _ c x l r => .nodo c x l.apaga r.apaga

/-- In-order list of node identities. -/
def ArvoreIds.ids : ArvoreIds → List NodeId
  | .folha => []
  | .nodo i _ _ l r => l.ids ++ i :: r.ids

/-- In-order list of keys. -/
def ArvoreBin.emOrdem : ArvoreBin → List Int
  | .folha => []
  | .nodo _ x l r => l.emOrdem ++ x :: r.emOrdem

/-- Depth of a pure tree. -/
def ArvoreBin.altura : ArvoreBin → Nat
  | .folha => 0
  | .nodo _ _ l r => max l.altura r.altura + 1

def ArvoreIds.altura : ArvoreIds → Nat
  | .folha => 0
  | .nodo _ _ _ l r => max l.altura r.altura + 1

/-- The in-order rendering "valor,profundidade,cor" of a pure tree,
matching _percorrer_em_ordem. -/
def renderiza : ArvoreBin → Nat → List String
  | .folha, _ => []
  | .nodo c x l r, prof =>
    renderiza l (prof + 1)
      ++ [toString x ++ "," ++ toString prof ++ "," ++ c.value]
      ++ renderiza r (prof + 1)

/-- Extract the version-v snapshot below a node, keeping identities.
Fails (none) only when the fuel runs out. -/
def snapIds (h : Heap) (no : Option NodeId) (v : Int) :
    Nat → Option ArvoreIds
  | 0 => none
  | fuel + 1 =>
    match no with
    | none => some .folha
    | some i =>
      if estaAtivo h i v then
        match snapIds h (obterFilhoEsquerdo h i v) v fuel,
            snapIds h (obterFilhoDireito h i v) v fuel with
        | some l, some r =>
          some (.nodo i (obterCor h i v) (valorDe h i) l r)
        | _, _ => none
      else some .folha

/-- The pure mirror of the buscar_sucessor loop. -/
def buscaPura : ArvoreBin → Int → Option Int → Option Int
  | .folha, _, sucessor => sucessor
  | .nodo _ x l r, valor, sucessor =>
    if x > valor then buscaPura l valor (some x)
    else buscaPura r valor sucessor

/-! ## Well-formedness (decidable) -/

/-- Every version recorded in a node is at most v. -/
def noLimitado (n : No) (v : Nat) : Bool :=
  n.versao_criacao ≤ v
    && n.historico_cores.all (fun p => p.1 ≤ v)
    && n.historico_filhos.all (fun p => p.1 ≤ v)
    && n.historico_pais.all (fun p => p.1 ≤ v)
    && (match n.versao_remocao with
        | none => true
        | some r => r ≤ v)

def heapLimitado (h : Heap) (v : Nat) : Bool :=
  h.all (fun n => noLimitado n v)

/-- Every child identity a node ever recorded is below the bound. -/
def noFechado (n : No) (limite : Nat) : Bool :=
  n.historico_filhos.all (fun p =>
    (match p.2.1 with | some j => j < limite | none => true)
      && (match p.2.2 with | some j => j < limite | none => true))

def heapFechado (h : Heap) : Bool :=
  h.all (fun n => noFechado n h.length)

/-- Root table sanity: the slots name nodes of the heap. -/
def raizesBoas (t : ArvoreRubroNegra) : Bool :=
  t.raizes.all (fun r =>
    match r with
    | some i => i < t.heap.length
    | none => true)

/-- No alive RED node at v has an alive RED child at v (claim C5's
property, read off the heap). -/
def semVermelhoVermelho (h : Heap) (v : Int) : Bool :=
  (List.range h.length).all fun i =>
    !(estaAtivo h i v && obterCor h i v = Cor.VERMELHO)
      || ((match obterFilhoEsquerdo h i v with
            | some j => !(estaAtivo h j v && obterCor h j v = Cor.VERMELHO)
            | none => true)
          && (match obterFilhoDireito h i v with
            | some j => !(estaAtivo h j v && obterCor h j v = Cor.VERMELHO)
            | none => true))

/-- Extract the list from an in-order dump, empty on error. -/
def linhasOuVazio : Except String (List String) → List String
  | Except.ok l => l
  | Except.error _ => []

/-! ## Pure mirrors of the mutating algorithms

These replay _balancear_apos_inclusao / _incluir_recursivo /
_remover_recursivo on version snapshots; the simulation lemmas below
show the heap code implements them. -/

def ehVermelhoP : ArvoreBin → Bool
  | .nodo Cor.VERMELHO _ _ _ => true
  | _ => false

/-- Pure mirror of _balancear_apos_inclusao.  The match arms are tried
in the same order as the source's cascade (LL, LR, RL, RR, no case). -/
def balP : ArvoreBin → ArvoreBin
  | .nodo _c x (.nodo Cor.VERMELHO lx (.nodo Cor.VERMELHO llx a b) lr) r =>
    .nodo Cor.VERMELHO lx (.nodo Cor.PRETO llx a b) (.nodo Cor.PRETO x lr r)
  | .nodo _c x (.nodo Cor.VERMELHO lx ll (.nodo Cor.VERMELHO lrx m n)) r =>
    .nodo Cor.VERMELHO lrx (.nodo Cor.PRETO lx ll m) (.nodo Cor.PRETO x n r)
  | .nodo _c x l (.nodo Cor.VERMELHO rx (.nodo Cor.VERMELHO rlx m n) rr) =>
    .nodo Cor.VERMELHO rlx (.nodo Cor.PRETO x l m) (.nodo Cor.PRETO rx n rr)
  | .nodo _c x l (.nodo Cor.VERMELHO rx rl (.nodo Cor.VERMELHO rrx m n)) =>
    .nodo Cor.VERMELHO rx (.nodo Cor.PRETO x l rl) (.nodo Cor.PRETO rrx m n)
  | t => t

/-- Pure mirror of _incluir_recursivo. -/
def insereP (x : Int) : ArvoreBin → ArvoreBin
  | .folha => .nodo Cor.VERMELHO x .folha .folha
  | .nodo c y l r =>
    if x < y then balP (.nodo c y (insereP x l) r)
    else if y < x then balP (.nodo c y l (insereP x r))
    else .nodo c y l r

/-- Force the root black (the tail of incluir / remover). -/
def pretaRaiz : ArvoreBin → ArvoreBin
  | .folha => .folha
  | .nodo _ x l r => .nodo Cor.PRETO x l r

/-- Insertion into a sorted list of keys. -/
def insereOrdenado (x : Int) : List Int → List Int
  | [] => [x]
  | y :: resto => if x < y then x :: y :: resto else y :: insereOrdenado x resto

/-- No red node has a red child (pure version). -/
def semVermelhoP : ArvoreBin → Bool
  | .folha => true
  | .nodo c _ l r =>
    (match c with
     | Cor.VERMELHO => !ehVermelhoP l && !ehVermelhoP r
     | Cor.PRETO => true)
      && semVermelhoP l && semVermelhoP r

/-- At most a root-level violation: both subtrees are fine and a red
root has no red grandchild through a red child beyond one level.  This
is the standard "infrared" invariant for Okasaki insertion: the tree is
clean except possibly the root is red with one red child whose own
subtrees are clean. -/
def quaseSemVermelhoP : ArvoreBin → Bool
  | .folha => true
  | .nodo _ _ l r => semVermelhoP l && semVermelhoP r

/-- Combined heap well-formedness at a version: every stored child
identity is in range and every recorded version is at most v. -/
def WFH (v : Nat) (h : Heap) : Prop :=
  heapFechado h = true ∧ heapLimitado h v = true

/-- All observations at versions strictly below vq agree between the two
heaps, and the heap only grew. -/
def ObsIguais (vq : Nat) (h h' : Heap) : Prop :=
  h.length ≤ h'.length ∧ ∀ i, i < h.length →
    valorDe h' i = valorDe h i ∧
    ∀ u : Int, u < (vq : Int) →
      estaAtivo h' i u = estaAtivo h i u ∧
      obterCor h' i u = obterCor h i u ∧
      obterFilhos h' i u = obterFilhos h i u ∧
      obterPai h' i u = obterPai h i u

/-- The weaker frame a removal guarantees: colors read strictly below vq
are unchanged (removal may rewrite valor fields, so ObsIguais fails). -/
def CoresIguais (vq : Nat) (h h' : Heap) : Prop :=
  h.length ≤ h'.length ∧ ∀ i, i < h.length →
    ∀ u : Int, u < (vq : Int) → obterCor h' i u = obterCor h i u

/-- Every recorded root up to the current version reads PRETO at its own
version (the property claim C6 asserts). -/
def RaizesPretas (t : ArvoreRubroNegra) : Prop :=
  ∀ u : Nat, u ≤ t.versao_atual →
    ∀ i, lerIndice t.raizes (u : Int) = Except.ok (some i) →
      obterCor t.heap i (u : Int) = Cor.PRETO

/-- The invariant every reachable tree satisfies: the roots table keeps
its 100 slots, the version stays below the cap, the heap is closed and
version-bounded (one past the current version, to absorb the partial
writes a cap error leaves behind), roots point into the heap, and every
recorded root is black. -/
def Invariante (t : ArvoreRubroNegra) : Prop :=
  t.raizes.length = 100 ∧ t.versao_atual < 100 ∧
  WFH (t.versao_atual + 1) t.heap ∧ raizesBoas t = true ∧ RaizesPretas t

/-- A concrete three-node heap: node 0 (key 10, black root) with left
child node 1 (key 5, red) whose left child is node 2 (key 3, red) — the
left-left configuration reached in the middle of INC 3 into the tree
{10, 5}, just before _balancear_apos_inclusao runs at the root. -/
def hC3 : Heap :=
  [{ valor := 10, versao_criacao := 1,
     historico_cores := [(1, Cor.PRETO)],
     historico_filhos := [(3, (some 1, none)), (1, (none, none))],
     historico_pais := [(1, none)], versao_remocao := none },
   { valor := 5, versao_criacao := 2,
     historico_cores := [(2, Cor.VERMELHO)],
     historico_filhos := [(3, (some 2, none)), (2, (none, none))],
     historico_pais := [(2, some 0)], versao_remocao := none },
   { valor := 3, versao_criacao := 3,
     historico_cores := [(3, Cor.VERMELHO)],
     historico_filhos := [(3, (none, none))],
     historico_pais := [(3, some 1)], versao_remocao := none }]

/-- A tree state sitting exactly at the version cap: the next mutation
must install its root at slot 100 of a 100-slot table. -/
def arvoreNoTopo : ArvoreRubroNegra :=
  { heap := []
    raizes := List.replicate 100 none
    versao_atual := 99 }

/-! ## Definitions used by the red-red freedom development (claim C5) -/

/-- Top-level red-red freedom: a red root has no red child. -/
def topoSemVV : ArvoreBin → Bool
  | .nodo Cor.VERMELHO _ a b => !ehVermelhoP a && !ehVermelhoP b
  | _ => true

/-- All heap slots (and the default node) are alive at v. -/
def TodosAtivos (h : Heap) (v : Int) : Prop :=
  ∀ j : NodeId, estaAtivo h j v = true

/-- Root identity of a snapshot. -/
def raizI : ArvoreIds → Option NodeId
  | .folha => none
  | .nodo i _ _ _ _ => some i

/-- The writes of the insertion path never change a node's creation
version, removal version or key. -/
def MesmaVida (h h' : Heap) : Prop :=
  ∀ j : NodeId,
    (lerNo h' j).versao_criacao = (lerNo h j).versao_criacao ∧
    (lerNo h' j).versao_remocao = (lerNo h j).versao_remocao ∧
    (lerNo h' j).valor = (lerNo h j).valor

def InvVermelho (t : ArvoreRubroNegra) : Prop :=
  Invariante t ∧
  (∀ i, i < t.heap.length → (lerNo t.heap i).versao_remocao = none) ∧
  (heapLimitado t.heap t.versao_atual = true ∨ t.versao_atual = 99) ∧
  (∀ u : Nat, u ≤ t.versao_atual →
    semVermelhoVermelho t.heap (u : Int) = true) ∧
  ∃ s : ArvoreIds,
    snapIds t.heap (t.raizes.getD t.versao_atual none)
      (t.versao_atual : Int) (combustivel t.heap) = some s ∧
    (∀ i, i < t.heap.length →
      estaAtivo t.heap i (t.versao_atual : Int) = true → i ∈ s.ids) ∧
    s.ids.Nodup ∧ (∀ i ∈ s.ids, i < t.heap.length) ∧
    semVermelhoP s.apaga = true

theorem foldr_max_le {l : List Nat} {b : Nat} (hl : ∀ x ∈ l, x ≤ b) :
    l.foldr max 0 ≤ b := by
  induction l with
  | nil => exact Nat.zero_le b
  | cons a t ih =>
    simp only [List.foldr_cons]
    exact max_le (hl a (by simp)) (ih fun x hx => hl x (by simp [hx]))

theorem foldr_max_lt {l : List Nat} {b : Nat} (hb : 0 < b)
    (hl : ∀ x ∈ l, x < b) : l.foldr max 0 < b := by
  induction l with
  | nil => exact hb
  | cons a t ih =>
    simp only [List.foldr_cons]
    exact max_lt (hl a (by simp)) (ih fun x hx => hl x (by simp [hx]))

theorem obterVersaoValida_le {ks : List Nat} {u : Int} {b : Nat}
    (h : u ≤ (b : Int)) : obterVersaoValida ks u ≤ b := by
  refine foldr_max_le fun x hx => ?_
  have := (List.mem_filter.mp hx).2
  have hxu : (x : Int) ≤ u := by simpa using this
  exact_mod_cast hxu.trans h

theorem obterVersaoValida_lt {ks : List Nat} {u : Int} {b : Nat}
    (hb : 0 < b) (h : u < (b : Int)) : obterVersaoValida ks u < b := by
  refine foldr_max_lt hb fun x hx => ?_
  have := (List.mem_filter.mp hx).2
  have hxu : (x : Int) ≤ u := by simpa using this
  exact_mod_cast lt_of_le_of_lt hxu h

theorem obterVersaoValida_cons_ge {v : Nat} {ks : List Nat} {u : Int}
    (h : (v : Int) ≤ u) :
    obterVersaoValida (v :: ks) u = max v (obterVersaoValida ks u) := by
  simp [obterVersaoValida, List.filter_cons, h]

theorem obterVersaoValida_cons_lt {v : Nat} {ks : List Nat} {u : Int}
    (h : u < (v : Int)) :
    obterVersaoValida (v :: ks) u = obterVersaoValida ks u := by
  simp [obterVersaoValida, List.filter_cons, not_le.mpr h]

theorem obterVersaoValida_cons_self (v : Nat) (ks : List Nat) :
    obterVersaoValida (v :: ks) (v : Int) = v := by
  rw [obterVersaoValida_cons_ge le_rfl]
  exact max_eq_left (obterVersaoValida_le le_rfl)

theorem lerHistorico_cons_self {α : Type} (v : Nat) (x : α)
    (rest : List (Nat × α)) (d : α) :
    lerHistorico ((v, x) :: rest) v d = x := by
  simp [lerHistorico, List.lookup]

theorem lerHistorico_cons_ne {α : Type} {v k : Nat} (x : α)
    (rest : List (Nat × α)) (d : α) (h : k ≠ v) :
    lerHistorico ((v, x) :: rest) k d = lerHistorico rest k d := by
  simp [lerHistorico, List.lookup, beq_eq_false_iff_ne.mpr h]

/-! ## Node-level reads after writes -/

theorem No.obter_cor_definir_cor_self (n : No) (c : Cor) (v : Nat) :
    (n.definir_cor c v).obter_cor (v : Int) = c := by
  unfold No.obter_cor No.definir_cor
  simp only [List.map_cons]
  rw [obterVersaoValida_cons_self, lerHistorico_cons_self]

theorem No.obter_cor_definir_cor_lt {u : Int} {v : Nat} (n : No) (c : Cor)
    (hv : 0 < v) (hu : u < (v : Int)) :
    (n.definir_cor c v).obter_cor u = n.obter_cor u := by
  unfold No.obter_cor No.definir_cor
  simp only [List.map_cons]
  rw [obterVersaoValida_cons_lt hu,
    lerHistorico_cons_ne _ _ _ (Nat.ne_of_lt (obterVersaoValida_lt hv hu))]

theorem No.obter_filhos_definir_filhos_self (n : No) (e d : Option NodeId)
    (v : Nat) : (n.definir_filhos e d v).obter_filhos (v : Int) = (e, d) := by
  unfold No.obter_filhos No.definir_filhos
  simp only [List.map_cons]
  rw [obterVersaoValida_cons_self, lerHistorico_cons_self]

theorem No.obter_filhos_definir_filhos_lt {u : Int} {v : Nat} (n : No)
    (e d : Option NodeId) (hv : 0 < v) (hu : u < (v : Int)) :
    (n.definir_filhos e d v).obter_filhos u = n.obter_filhos u := by
  unfold No.obter_filhos No.definir_filhos
  simp only [List.map_cons]
  rw [obterVersaoValida_cons_lt hu,
    lerHistorico_cons_ne _ _ _ (Nat.ne_of_lt (obterVersaoValida_lt hv hu))]

theorem No.obter_filhos_definir_esq_self (n : No) (f : Option NodeId)
    (v : Nat) : (n.definir_filho_esquerdo f v).obter_filhos (v : Int)
      = (f, (n.obter_filhos (v : Int)).2) := by
  unfold No.obter_filhos No.definir_filho_esquerdo
  simp only [List.map_cons]
  rw [obterVersaoValida_cons_self, lerHistorico_cons_self]
  rfl

theorem No.obter_filhos_definir_esq_lt {u : Int} {v : Nat} (n : No)
    (f : Option NodeId) (hv : 0 < v) (hu : u < (v : Int)) :
    (n.definir_filho_esquerdo f v).obter_filhos u = n.obter_filhos u := by
  unfold No.obter_filhos No.definir_filho_esquerdo
  simp only [List.map_cons]
  rw [obterVersaoValida_cons_lt hu,
    lerHistorico_cons_ne _ _ _ (Nat.ne_of_lt (obterVersaoValida_lt hv hu))]

theorem No.obter_filhos_definir_dir_self (n : No) (f : Option NodeId)
    (v : Nat) : (n.definir_filho_direito f v).obter_filhos (v : Int)
      = ((n.obter_filhos (v : Int)).1, f) := by
  unfold No.obter_filhos No.definir_filho_direito
  simp only [List.map_cons]
  rw [obterVersaoValida_cons_self, lerHistorico_cons_self]
  rfl

theorem No.obter_filhos_definir_dir_lt {u : Int} {v : Nat} (n : No)
    (f : Option NodeId) (hv : 0 < v) (hu : u < (v : Int)) :
    (n.definir_filho_direito f v).obter_filhos u = n.obter_filhos u := by
  unfold No.obter_filhos No.definir_filho_direito
  simp only [List.map_cons]
  rw [obterVersaoValida_cons_lt hu,
    lerHistorico_cons_ne _ _ _ (Nat.ne_of_lt (obterVersaoValida_lt hv hu))]

theorem No.obter_pai_definir_pai_self (n : No) (p : Option NodeId) (v : Nat) :
    (n.definir_pai p v).obter_pai (v : Int) = p := by
  unfold No.obter_pai No.definir_pai
  simp only [List.map_cons]
  rw [obterVersaoValida_cons_self, lerHistorico_cons_self]

theorem No.obter_pai_definir_pai_lt {u : Int} {v : Nat} (n : No)
    (p : Option NodeId) (hv : 0 < v) (hu : u < (v : Int)) :
    (n.definir_pai p v).obter_pai u = n.obter_pai u := by
  unfold No.obter_pai No.definir_pai
  simp only [List.map_cons]
  rw [obterVersaoValida_cons_lt hu,
    lerHistorico_cons_ne _ _ _ (Nat.ne_of_lt (obterVersaoValida_lt hv hu))]

/-! Writes to one history leave the other observations untouched
(record updates keep the other fields definitionally equal). -/

theorem No.obter_cor_definir_filhos (n : No) (e d : Option NodeId) (v : Nat)
    (u : Int) : (n.definir_filhos e d v).obter_cor u = n.obter_cor u := rfl

theorem No.obter_cor_definir_esq (n : No) (f : Option NodeId) (v : Nat)
    (u : Int) : (n.definir_filho_esquerdo f v).obter_cor u = n.obter_cor u := rfl

theorem No.obter_cor_definir_dir (n : No) (f : Option NodeId) (v : Nat)
    (u : Int) : (n.definir_filho_direito f v).obter_cor u = n.obter_cor u := rfl

theorem No.obter_cor_definir_pai (n : No) (p : Option NodeId) (v : Nat)
    (u : Int) : (n.definir_pai p v).obter_cor u = n.obter_cor u := rfl

theorem No.obter_cor_remover_no (n : No) (v : Nat) (u : Int) :
    (n.remover_no v).obter_cor u = n.obter_cor u := rfl

theorem No.obter_filhos_definir_cor (n : No) (c : Cor) (v : Nat) (u : Int) :
    (n.definir_cor c v).obter_filhos u = n.obter_filhos u := rfl

theorem No.obter_filhos_definir_pai (n : No) (p : Option NodeId) (v : Nat)
    (u : Int) : (n.definir_pai p v).obter_filhos u = n.obter_filhos u := rfl

theorem No.obter_filhos_remover_no (n : No) (v : Nat) (u : Int) :
    (n.remover_no v).obter_filhos u = n.obter_filhos u := rfl

theorem No.obter_pai_definir_cor (n : No) (c : Cor) (v : Nat) (u : Int) :
    (n.definir_cor c v).obter_pai u = n.obter_pai u := rfl

theorem No.obter_pai_definir_filhos (n : No) (e d : Option NodeId) (v : Nat)
    (u : Int) : (n.definir_filhos e d v).obter_pai u = n.obter_pai u := rfl

theorem No.obter_pai_definir_esq (n : No) (f : Option NodeId) (v : Nat)
    (u : Int) : (n.definir_filho_esquerdo f v).obter_pai u = n.obter_pai u := rfl

theorem No.obter_pai_definir_dir (n : No) (f : Option NodeId) (v : Nat)
    (u : Int) : (n.definir_filho_direito f v).obter_pai u = n.obter_pai u := rfl

theorem No.obter_pai_remover_no (n : No) (v : Nat) (u : Int) :
    (n.remover_no v).obter_pai u = n.obter_pai u := rfl

theorem No.esta_ativo_definir_cor (n : No) (c : Cor) (v : Nat) (u : Int) :
    (n.definir_cor c v).esta_ativo u = n.esta_ativo u := rfl

theorem No.esta_ativo_definir_filhos (n : No) (e d : Option NodeId) (v : Nat)
    (u : Int) : (n.definir_filhos e d v).esta_ativo u = n.esta_ativo u := rfl

theorem No.esta_ativo_definir_esq (n : No) (f : Option NodeId) (v : Nat)
    (u : Int) : (n.definir_filho_esquerdo f v).esta_ativo u = n.esta_ativo u := rfl

theorem No.esta_ativo_definir_dir (n : No) (f : Option NodeId) (v : Nat)
    (u : Int) : (n.definir_filho_direito f v).esta_ativo u = n.esta_ativo u := rfl

theorem No.esta_ativo_definir_pai (n : No) (p : Option NodeId) (v : Nat)
    (u : Int) : (n.definir_pai p v).esta_ativo u = n.esta_ativo u := rfl

theorem No.valor_definir_cor (n : No) (c : Cor) (v : Nat) :
    (n.definir_cor c v).valor = n.valor := rfl

theorem No.valor_definir_filhos (n : No) (e d : Option NodeId) (v : Nat) :
    (n.definir_filhos e d v).valor = n.valor := rfl

theorem No.valor_definir_esq (n : No) (f : Option NodeId) (v : Nat) :
    (n.definir_filho_esquerdo f v).valor = n.valor := rfl

theorem No.valor_definir_dir (n : No) (f : Option NodeId) (v : Nat) :
    (n.definir_filho_direito f v).valor = n.valor := rfl

theorem No.valor_definir_pai (n : No) (p : Option NodeId) (v : Nat) :
    (n.definir_pai p v).valor = n.valor := rfl

theorem No.valor_remover_no (n : No) (v : Nat) :
    (n.remover_no v).valor = n.valor := rfl

/-- Marking removal at vq keeps liveness at strictly earlier versions,
provided the node was alive at vq. -/
theorem No.esta_ativo_remover_no_lt {n : No} {vq : Nat} {u : Int}
    (hat : n.esta_ativo (vq : Int) = true) (hu : u < (vq : Int)) :
    (n.remover_no vq).esta_ativo u = n.esta_ativo u := by
  unfold No.esta_ativo No.remover_no at *
  cases hrem : n.versao_remocao with
  | none =>
    simp only [hrem, Bool.and_true] at hat ⊢
    simp only [decide_eq_true_eq] at hat
    simp [hu]
  | some r =>
    simp only [hrem] at hat ⊢
    have h2 : (vq : Int) < (r : Int) := by
      have := (Bool.and_eq_true _ _).mp hat
      simpa using this.2
    simp [hu.trans h2, hu]

/-! ## Heap-level reads after writes -/

theorem comprimento_escreverNo (h : Heap) (i : NodeId) (n : No) :
    (escreverNo h i n).length = h.length := List.length_set h i n

theorem lerNo_escreverNo_self {h : Heap} {i : NodeId} (n : No)
    (hi : i < h.length) : lerNo (escreverNo h i n) i = n := by
  simp [lerNo, escreverNo, List.getElem?_set_eq_of_lt n hi]

theorem lerNo_escreverNo_ne {h : Heap} {i j : NodeId} (n : No)
    (hij : i ≠ j) : lerNo (escreverNo h i n) j = lerNo h j := by
  simp [lerNo, escreverNo, List.getElem?_set_ne hij]

theorem escreverNo_fora {h : Heap} {i : NodeId} (n : No)
    (hi : h.length ≤ i) : escreverNo h i n = h :=
  List.set_eq_of_length_le hi

theorem lerNo_append_lt {h : Heap} {l : Heap} {i : NodeId}
    (hi : i < h.length) : lerNo (h ++ l) i = lerNo h i := by
  simp [lerNo, List.getElem?_append_left hi]

theorem lerNo_append_self (h : Heap) (n : No) :
    lerNo (h ++ [n]) h.length = n := by
  simp [lerNo, List.getElem?_concat_length]

/-! ## The frame relation: observations strictly below a version -/

theorem obsIguais_refl (vq : Nat) (h : Heap) : ObsIguais vq h h :=
  ⟨le_rfl, fun _ _ => ⟨rfl, fun _ _ => ⟨rfl, rfl, rfl, rfl⟩⟩⟩

theorem ObsIguais.depois {vq : Nat} {h₁ h₂ h₃ : Heap}
    (a : ObsIguais vq h₁ h₂) (b : ObsIguais vq h₂ h₃) : ObsIguais vq h₁ h₃ := by
  refine ⟨a.1.trans b.1, fun i hi => ?_⟩
  have ha := a.2 i hi
  have hb := b.2 i (lt_of_lt_of_le hi a.1)
  refine ⟨hb.1.trans ha.1, fun u hu => ?_⟩
  have ha2 := ha.2 u hu
  have hb2 := hb.2 u hu
  exact ⟨hb2.1.trans ha2.1, hb2.2.1.trans ha2.2.1,
    hb2.2.2.1.trans ha2.2.2.1, hb2.2.2.2.trans ha2.2.2.2⟩

/-- Rewriting one node with a transformation that preserves all
observations below vq preserves the frame relation. -/
theorem obsIguais_escreverNo {vq : Nat} {h : Heap} {i : NodeId} {f : No → No}
    (hval : ∀ n, (f n).valor = n.valor)
    (hobs : ∀ n, ∀ u : Int, u < (vq : Int) →
      (f n).esta_ativo u = n.esta_ativo u ∧
      (f n).obter_cor u = n.obter_cor u ∧
      (f n).obter_filhos u = n.obter_filhos u ∧
      (f n).obter_pai u = n.obter_pai u) :
    ObsIguais vq h (escreverNo h i (f (lerNo h i))) := by
  by_cases hi : i < h.length
  · refine ⟨(comprimento_escreverNo h i _).ge, fun j hj => ?_⟩
    by_cases hij : i = j
    · subst hij
      have hle : lerNo (escreverNo h i (f (lerNo h i))) i = f (lerNo h i) :=
        lerNo_escreverNo_self _ hi
      simp only [valorDe, estaAtivo, obterCor, obterFilhos, obterPai, hle]
      exact ⟨hval _, fun u hu =>
        by
          have := hobs (lerNo h i) u hu
          exact ⟨this.1, this.2.1, this.2.2.1, this.2.2.2⟩⟩
    · have hle : lerNo (escreverNo h i (f (lerNo h i))) j = lerNo h j :=
        lerNo_escreverNo_ne _ hij
      simp [valorDe, estaAtivo, obterCor, obterFilhos, obterPai, hle]
  · rw [escreverNo_fora _ (le_of_not_lt hi)]
    exact obsIguais_refl vq h

theorem obsIguais_definirCor {vq : Nat} (h : Heap) (i : NodeId) (c : Cor)
    (hv : 0 < vq) : ObsIguais vq h (definirCor h i c vq) := by
  refine @obsIguais_escreverNo vq h i (fun n => n.definir_cor c vq)
    (fun n => rfl) (fun n u hu => ?_)
  exact ⟨rfl, No.obter_cor_definir_cor_lt n c hv hu, rfl, rfl⟩

theorem obsIguais_definirFilhoEsquerdo {vq : Nat} (h : Heap) (i : NodeId)
    (f : Option NodeId) (hv : 0 < vq) :
    ObsIguais vq h (definirFilhoEsquerdo h i f vq) := by
  refine @obsIguais_escreverNo vq h i (fun n => n.definir_filho_esquerdo f vq)
    (fun n => rfl) (fun n u hu => ?_)
  exact ⟨rfl, rfl, No.obter_filhos_definir_esq_lt n f hv hu, rfl⟩

theorem obsIguais_definirFilhoDireito {vq : Nat} (h : Heap) (i : NodeId)
    (f : Option NodeId) (hv : 0 < vq) :
    ObsIguais vq h (definirFilhoDireito h i f vq) := by
  refine @obsIguais_escreverNo vq h i (fun n => n.definir_filho_direito f vq)
    (fun n => rfl) (fun n u hu => ?_)
  exact ⟨rfl, rfl, No.obter_filhos_definir_dir_lt n f hv hu, rfl⟩

theorem obsIguais_definirFilhos {vq : Nat} (h : Heap) (i : NodeId)
    (e d : Option NodeId) (hv : 0 < vq) :
    ObsIguais vq h (definirFilhos h i e d vq) := by
  refine @obsIguais_escreverNo vq h i (fun n => n.definir_filhos e d vq)
    (fun n => rfl) (fun n u hu => ?_)
  exact ⟨rfl, rfl, No.obter_filhos_definir_filhos_lt n e d hv hu, rfl⟩

theorem obsIguais_definirPai {vq : Nat} (h : Heap) (i : NodeId)
    (p : Option NodeId) (hv : 0 < vq) :
    ObsIguais vq h (definirPai h i p vq) := by
  refine @obsIguais_escreverNo vq h i (fun n => n.definir_pai p vq)
    (fun n => rfl) (fun n u hu => ?_)
  exact ⟨rfl, rfl, rfl, No.obter_pai_definir_pai_lt n p hv hu⟩

theorem obsIguais_marcarRemovido {vq : Nat} {h : Heap} {i : NodeId}
    (hat : estaAtivo h i (vq : Int) = true) :
    ObsIguais vq h (marcarRemovido h i vq) := by
  by_cases hi : i < h.length
  · refine ⟨(comprimento_escreverNo h i _).ge, fun j hj => ?_⟩
    by_cases hij : i = j
    · subst hij
      have hle : lerNo (marcarRemovido h i vq) i = (lerNo h i).remover_no vq :=
        lerNo_escreverNo_self _ hi
      simp only [valorDe, estaAtivo, obterCor, obterFilhos, obterPai,
        marcarRemovido] at hle ⊢
      rw [hle]
      exact ⟨rfl, fun u hu =>
        ⟨No.esta_ativo_remover_no_lt hat hu, rfl, rfl, rfl⟩⟩
    · have hle : lerNo (escreverNo h i ((lerNo h i).remover_no vq)) j
          = lerNo h j := lerNo_escreverNo_ne _ hij
      simp [valorDe, estaAtivo, obterCor, obterFilhos, obterPai,
        marcarRemovido, hle]
  · rw [marcarRemovido, escreverNo_fora _ (le_of_not_lt hi)]
    exact obsIguais_refl vq h

theorem obsIguais_append {vq : Nat} (h : Heap) (l : Heap) :
    ObsIguais vq h (h ++ l) := by
  refine ⟨by simp, fun i hi => ?_⟩
  have hle : lerNo (h ++ l) i = lerNo h i := lerNo_append_lt hi
  simp [valorDe, estaAtivo, obterCor, obterFilhos, obterPai, hle]

/-! Forward-composition versions of the primitive frame lemmas. -/

theorem ObsIguais.maisCor {vq : Nat} {h0 h : Heap} (i : NodeId) (c : Cor)
    (hv : 0 < vq) (base : ObsIguais vq h0 h) :
    ObsIguais vq h0 (definirCor h i c vq) :=
  base.depois (obsIguais_definirCor h i c hv)

theorem ObsIguais.maisEsq {vq : Nat} {h0 h : Heap} (i : NodeId)
    (f : Option NodeId) (hv : 0 < vq) (base : ObsIguais vq h0 h) :
    ObsIguais vq h0 (definirFilhoEsquerdo h i f vq) :=
  base.depois (obsIguais_definirFilhoEsquerdo h i f hv)

theorem ObsIguais.maisDir {vq : Nat} {h0 h : Heap} (i : NodeId)
    (f : Option NodeId) (hv : 0 < vq) (base : ObsIguais vq h0 h) :
    ObsIguais vq h0 (definirFilhoDireito h i f vq) :=
  base.depois (obsIguais_definirFilhoDireito h i f hv)

theorem ObsIguais.maisFilhos {vq : Nat} {h0 h : Heap} (i : NodeId)
    (e d : Option NodeId) (hv : 0 < vq) (base : ObsIguais vq h0 h) :
    ObsIguais vq h0 (definirFilhos h i e d vq) :=
  base.depois (obsIguais_definirFilhos h i e d hv)

theorem ObsIguais.maisPai {vq : Nat} {h0 h : Heap} (i : NodeId)
    (p : Option NodeId) (hv : 0 < vq) (base : ObsIguais vq h0 h) :
    ObsIguais vq h0 (definirPai h i p vq) :=
  base.depois (obsIguais_definirPai h i p hv)

theorem ObsIguais.maisTalvezPai {vq : Nat} {h0 h : Heap} (o : Option NodeId)
    (p : Option NodeId) (hv : 0 < vq) (base : ObsIguais vq h0 h) :
    ObsIguais vq h0
      (match o with
       | some x => definirPai h x p vq
       | none => h) := by
  cases o with
  | none => exact base
  | some x => exact base.maisPai x p hv

/-! The balance helpers and the insertion recursion only write at the
mutation version, so they preserve every observation below it. -/

theorem obsIguais_balancearLL {versao : Nat} (h : Heap) (no : NodeId)
    (hv : 0 < versao) :
    ObsIguais versao h (balancearCasoEsquerdaEsquerda h no versao).1 := by
  simp only [balancearCasoEsquerdaEsquerda]
  exact ((((((((obsIguais_refl versao h).maisCor _ _ hv).maisCor _ _ hv).maisCor _ _
    hv).maisFilhos _ _ _ hv).maisFilhos _ _ _ hv).maisTalvezPai _ _ hv).maisPai _ _
    hv).maisPai _ _ hv

theorem obsIguais_balancearLR {versao : Nat} (h : Heap) (no : NodeId)
    (hv : 0 < versao) :
    ObsIguais versao h (balancearCasoEsquerdaDireita h no versao).1 := by
  simp only [balancearCasoEsquerdaDireita]
  exact ((((((((((obsIguais_refl versao h).maisCor _ _ hv).maisCor _ _ hv).maisCor _ _
    hv).maisFilhos _ _ _ hv).maisFilhos _ _ _ hv).maisFilhos _ _ _ hv).maisTalvezPai _ _
    hv).maisTalvezPai _ _ hv).maisPai _ _ hv).maisPai _ _ hv

theorem obsIguais_balancearRL {versao : Nat} (h : Heap) (no : NodeId)
    (hv : 0 < versao) :
    ObsIguais versao h (balancearCasoDireitaEsquerda h no versao).1 := by
  simp only [balancearCasoDireitaEsquerda]
  exact ((((((((((obsIguais_refl versao h).maisCor _ _ hv).maisCor _ _ hv).maisCor _ _
    hv).maisFilhos _ _ _ hv).maisFilhos _ _ _ hv).maisFilhos _ _ _ hv).maisTalvezPai _ _
    hv).maisTalvezPai _ _ hv).maisPai _ _ hv).maisPai _ _ hv

theorem obsIguais_balancearRR {versao : Nat} (h : Heap) (no : NodeId)
    (hv : 0 < versao) :
    ObsIguais versao h (balancearCasoDireitaDireita h no versao).1 := by
  simp only [balancearCasoDireitaDireita]
  exact ((((((((obsIguais_refl versao h).maisCor _ _ hv).maisCor _ _ hv).maisCor _ _
    hv).maisFilhos _ _ _ hv).maisFilhos _ _ _ hv).maisTalvezPai _ _ hv).maisPai _ _
    hv).maisPai _ _ hv

theorem obsIguais_balancearChecaDireita {versao : Nat} (h : Heap)
    (no : NodeId) (hv : 0 < versao) :
    ObsIguais versao h (balancearChecaDireita h no versao).1 := by
  simp only [balancearChecaDireita]
  split
  · split
    · exact obsIguais_balancearRL h no hv
    · split
      · exact obsIguais_balancearRR h no hv
      · exact obsIguais_refl versao h
  · exact obsIguais_refl versao h

theorem obsIguais_balancearAposInclusao {versao : Nat} (h : Heap)
    (no : NodeId) (hv : 0 < versao) :
    ObsIguais versao h (balancearAposInclusao h no versao).1 := by
  simp only [balancearAposInclusao]
  split
  · split
    · exact obsIguais_balancearLL h no hv
    · split
      · exact obsIguais_balancearLR h no hv
      · exact obsIguais_balancearChecaDireita h no hv
  · exact obsIguais_balancearChecaDireita h no hv

theorem obsIguais_incluirRecursivo {versao : Nat} (valor : Int)
    (hv : 0 < versao) :
    ∀ (fuel : Nat) (h : Heap) (no : Option NodeId),
      ObsIguais versao h (incluirRecursivo h no valor versao fuel).1 := by
  intro fuel
  induction fuel with
  | zero => intro h no; exact obsIguais_refl versao h
  | succ fuel ih =>
    intro h no
    cases no with
    | none => exact obsIguais_append h _
    | some i =>
      simp only [incluirRecursivo]
      split
      · exact obsIguais_append h _
      · split
        · exact (((ih h _).maisEsq _ _ hv).maisPai _ _ hv).depois
            (obsIguais_balancearAposInclusao _ i hv)
        · split
          · exact (((ih h _).maisDir _ _ hv).maisPai _ _ hv).depois
              (obsIguais_balancearAposInclusao _ i hv)
          · exact obsIguais_refl versao h

theorem obsIguais_balancearAposRemocao {versao : Nat} (h : Heap)
    (no : Option NodeId) (hv : 0 < versao) :
    ObsIguais versao h (balancearAposRemocao h no versao).1 := by
  cases no with
  | none => exact obsIguais_refl versao h
  | some i =>
    simp only [balancearAposRemocao, corrigirViolacoesRemocao]
    split
    · exact (obsIguais_refl versao h).maisCor _ _ hv
    · exact obsIguais_refl versao h

/-- Unfolding of the key traversal at an alive node. -/
theorem chavesEmOrdem_cons {h : Heap} {i : NodeId} {versao : Int}
    {fuel : Nat} (hat : estaAtivo h i versao = true) :
    chavesEmOrdem h i versao (fuel + 1) =
      (match obterFilhoEsquerdo h i versao with
       | some f => chavesEmOrdem h f versao fuel
       | none => []) ++ valorDe h i ::
      (match obterFilhoDireito h i versao with
       | some f => chavesEmOrdem h f versao fuel
       | none => []) := by
  rw [chavesEmOrdem, if_neg (by simp [hat])]
  simp [List.append_assoc]

/-- Removing an absent key only writes history entries at the mutation
version: every visited node compares unequal, so neither the key
overwrite nor the retirement is reached. -/
theorem obsIguais_removerRecursivo {versao : Nat} (valor : Int)
    (hv : 0 < versao) :
    ∀ (fuel : Nat) (h : Heap) (no : Option NodeId),
      (∀ i, no = some i → estaAtivo h i (versao : Int) = true →
        valor ∉ chavesEmOrdem h i (versao : Int) fuel) →
      ObsIguais versao h (removerRecursivo h no valor versao fuel).1 := by
  intro fuel
  induction fuel with
  | zero => intro h no _; exact obsIguais_refl versao h
  | succ fuel ih =>
    intro h no hno
    cases no with
    | none => exact obsIguais_refl versao h
    | some i =>
      simp only [removerRecursivo]
      by_cases hat : estaAtivo h i (versao : Int) = true
      · have hnotin := hno i rfl hat
        rw [@chavesEmOrdem_cons _ _ _ fuel hat] at hnotin
        rw [if_neg (by simp [hat])]
        by_cases hlt : valor < valorDe h i
        · rw [if_pos hlt]
          refine (((ih h _ ?_).maisEsq _ _ hv).maisTalvezPai _ _ hv).depois
            (obsIguais_balancearAposRemocao _ _ hv)
          intro j hj _ hmem
          apply hnotin
          simp only [hj]
          exact List.mem_append.mpr (Or.inl hmem)
        · rw [if_neg hlt]
          by_cases hgt : valor > valorDe h i
          · rw [if_pos hgt]
            refine (((ih h _ ?_).maisDir _ _ hv).maisTalvezPai _ _ hv).depois
              (obsIguais_balancearAposRemocao _ _ hv)
            intro j hj _ hmem
            apply hnotin
            simp only [hj]
            exact List.mem_append.mpr (Or.inr (List.mem_cons_of_mem _ hmem))
          · exfalso
            have heq : valor = valorDe h i :=
              le_antisymm (not_lt.mp hgt) (not_lt.mp hlt)
            exact hnotin (List.mem_append.mpr (Or.inr (heq ▸ List.mem_cons_self _ _)))
      · have hat' : estaAtivo h i (versao : Int) = false := by
          revert hat; cases estaAtivo h i (versao : Int) <;> simp
        rw [if_pos (by simp [hat'])]
        exact obsIguais_refl versao h

/-- Reads at or above the recorded bound all agree. -/
theorem No.leituras_estaveis {n : No} {V : Nat} {u u' : Int}
    (hn : noLimitado n V = true) (hu : (V : Int) ≤ u) (hu' : (V : Int) ≤ u') :
    n.obter_cor u = n.obter_cor u' ∧
    n.obter_filhos u = n.obter_filhos u' ∧
    n.obter_pai u = n.obter_pai u' ∧
    n.esta_ativo u = n.esta_ativo u' := by
  unfold noLimitado at hn
  simp only [Bool.and_eq_true, List.all_eq_true, decide_eq_true_eq] at hn
  obtain ⟨⟨⟨⟨hcri, hcor⟩, hfil⟩, hpai⟩, hrem⟩ := hn
  have fkeys : ∀ (ks : List Nat), (∀ k ∈ ks, k ≤ V) →
      obterVersaoValida ks u = obterVersaoValida ks u' := by
    intro ks hks
    unfold obterVersaoValida
    have h1 : ks.filter (fun k : Nat => decide ((k : Int) ≤ u)) = ks := by
      refine List.filter_eq_self.mpr fun k hk => by
        have : (k : Int) ≤ (V : Int) := by exact_mod_cast hks k hk
        simp [this.trans hu]
    have h2 : ks.filter (fun k : Nat => decide ((k : Int) ≤ u')) = ks := by
      refine List.filter_eq_self.mpr fun k hk => by
        have : (k : Int) ≤ (V : Int) := by exact_mod_cast hks k hk
        simp [this.trans hu']
    rw [h1, h2]
  refine ⟨?_, ?_, ?_, ?_⟩
  · unfold No.obter_cor
    rw [fkeys _ (fun k hk => by
      obtain ⟨p, hp, hpk⟩ := List.mem_map.mp hk
      exact hpk ▸ hcor p hp)]
  · unfold No.obter_filhos
    rw [fkeys _ (fun k hk => by
      obtain ⟨p, hp, hpk⟩ := List.mem_map.mp hk
      exact hpk ▸ hfil p hp)]
  · unfold No.obter_pai
    rw [fkeys _ (fun k hk => by
      obtain ⟨p, hp, hpk⟩ := List.mem_map.mp hk
      exact hpk ▸ hpai p hp)]
  · unfold No.esta_ativo
    have hc : (n.versao_criacao : Int) ≤ u := by
      have : (n.versao_criacao : Int) ≤ (V : Int) := by exact_mod_cast hcri
      exact this.trans hu
    have hc' : (n.versao_criacao : Int) ≤ u' := by
      have : (n.versao_criacao : Int) ≤ (V : Int) := by exact_mod_cast hcri
      exact this.trans hu'
    cases hr : n.versao_remocao with
    | none => simp [hc, hc']
    | some r =>
      rw [hr] at hrem
      have hrV : r ≤ V := by simpa using hrem
      have h1 : ¬(u < (r : Int)) := by
        have : (r : Int) ≤ (V : Int) := by exact_mod_cast hrV
        exact not_lt.mpr (this.trans hu)
      have h2 : ¬(u' < (r : Int)) := by
        have : (r : Int) ≤ (V : Int) := by exact_mod_cast hrV
        exact not_lt.mpr (this.trans hu')
      simp [hc, hc', h1, h2]

/-! ## Snapshot lemmas -/

theorem lerHistorico_mem_ou_padrao {α : Type} (l : List (Nat × α)) (k : Nat)
    (d : α) : lerHistorico l k d = d ∨ (k, lerHistorico l k d) ∈ l := by
  induction l with
  | nil => exact Or.inl rfl
  | cons p rest ih =>
    obtain ⟨a, b⟩ := p
    by_cases hk : a = k
    · subst hk
      rw [lerHistorico_cons_self]
      exact Or.inr (by simp)
    · rw [lerHistorico_cons_ne _ _ _ (fun hh => hk hh.symm)]
      rcases ih with hcase | hcase
      · exact Or.inl hcase
      · exact Or.inr (List.mem_cons_of_mem _ hcase)

theorem noFechado_filhos {n : No} {len : Nat} (hf : noFechado n len = true)
    (u : Int) :
    (∀ j, (n.obter_filhos u).1 = some j → j < len) ∧
    (∀ j, (n.obter_filhos u).2 = some j → j < len) := by
  unfold noFechado at hf
  simp only [List.all_eq_true, Bool.and_eq_true] at hf
  unfold No.obter_filhos
  rcases lerHistorico_mem_ou_padrao n.historico_filhos
    (obterVersaoValida (n.historico_filhos.map Prod.fst) u) (none, none) with
    hdef | hmem
  · rw [hdef]
    exact ⟨fun j hj => by simp at hj, fun j hj => by simp at hj⟩
  · have := hf _ hmem
    constructor
    · intro j hj
      have h1 := this.1
      rw [hj] at h1
      simpa using h1
    · intro j hj
      have h2 := this.2
      rw [hj] at h2
      simpa using h2

theorem heapFechado_no {h : Heap} (hf : heapFechado h = true) {i : NodeId}
    (hi : i < h.length) : noFechado (lerNo h i) h.length = true := by
  unfold heapFechado at hf
  simp only [List.all_eq_true] at hf
  have hm : lerNo h i ∈ h := by
    unfold lerNo
    have : h.get? i = some (h.get ⟨i, hi⟩) := List.get?_eq_get hi
    rw [this]
    exact List.get_mem h i hi
  exact hf _ hm

theorem snapIds_mono {h : Heap} {no : Option NodeId} {u : Int} :
    ∀ {f f' : Nat} {s : ArvoreIds}, snapIds h no u f = some s → f ≤ f' →
      snapIds h no u f' = some s := by
  intro f
  induction f generalizing no with
  | zero => intro f' s hs; simp [snapIds] at hs
  | succ f ih =>
    intro f' s hs hff
    obtain ⟨f'', rfl⟩ : ∃ f'', f' = f'' + 1 :=
      ⟨f' - 1, by omega⟩
    have hf2 : f ≤ f'' := by omega
    cases no with
    | none => simpa [snapIds] using hs
    | some i =>
      simp only [snapIds] at hs ⊢
      by_cases hat : estaAtivo h i u = true
      · simp only [hat, if_true] at hs ⊢
        cases hl : snapIds h (obterFilhoEsquerdo h i u) u f with
        | none => rw [hl] at hs; cases hr : snapIds h (obterFilhoDireito h i u) u f <;>
            simp [hr] at hs
        | some sl =>
          cases hr : snapIds h (obterFilhoDireito h i u) u f with
          | none => rw [hl, hr] at hs; simp at hs
          | some sr =>
            rw [hl, hr] at hs
            rw [ih hl hf2, ih hr hf2]
            exact hs
      · simp only [hat, if_false] at hs ⊢
        simp at hat
        simp [hat] at hs ⊢
        exact hs

/-- Snapshots agree whenever all per-node reads agree (possibly at two
different versions in two different heaps). -/
theorem snapIds_congr {h h' : Heap} {u u' : Int}
    (hr : ∀ i, i < h.length →
      estaAtivo h' i u' = estaAtivo h i u ∧
      obterCor h' i u' = obterCor h i u ∧
      valorDe h' i = valorDe h i ∧
      obterFilhos h' i u' = obterFilhos h i u)
    (hfech : heapFechado h = true) :
    ∀ {f : Nat} {no : Option NodeId}, (∀ j, no = some j → j < h.length) →
      snapIds h' no u' f = snapIds h no u f := by
  intro f
  induction f with
  | zero => intro no _; simp [snapIds]
  | succ f ih =>
    intro no hno
    cases no with
    | none => simp [snapIds]
    | some i =>
      have hi : i < h.length := hno i rfl
      obtain ⟨hativo, hcor, hval, hfil⟩ := hr i hi
      have hbounds := noFechado_filhos (heapFechado_no hfech hi) u
      simp only [snapIds, hativo, hcor, hval]
      have hesq : obterFilhoEsquerdo h' i u' = obterFilhoEsquerdo h i u := by
        unfold obterFilhoEsquerdo No.obter_filho_esquerdo
        unfold obterFilhos No.obter_filhos at hfil
        rw [show (lerNo h' i).obter_filhos u' = (lerNo h i).obter_filhos u
          from hfil]
      have hdir : obterFilhoDireito h' i u' = obterFilhoDireito h i u := by
        unfold obterFilhoDireito No.obter_filho_direito
        unfold obterFilhos No.obter_filhos at hfil
        rw [show (lerNo h' i).obter_filhos u' = (lerNo h i).obter_filhos u
          from hfil]
      have hb1 : ∀ j, obterFilhoEsquerdo h i u = some j → j < h.length :=
        fun j hj => hbounds.1 j hj
      have hb2 : ∀ j, obterFilhoDireito h i u = some j → j < h.length :=
        fun j hj => hbounds.2 j hj
      rw [hesq, hdir, ih hb1, ih hb2]

theorem snapIds_none_eq {h : Heap} {v : Int} {f : Nat} {s : ArvoreIds}
    (hs : snapIds h none v f = some s) : s = ArvoreIds.folha := by
  cases f with
  | zero => simp [snapIds] at hs
  | succ f => simpa [snapIds] using hs.symm

theorem snapIds_some_inv {h : Heap} {v : Int} {f : Nat} {i : NodeId}
    {s : ArvoreIds} (hs : snapIds h (some i) v (f + 1) = some s)
    (hat : estaAtivo h i v = true) :
    ∃ sl sr, snapIds h (obterFilhoEsquerdo h i v) v f = some sl ∧
      snapIds h (obterFilhoDireito h i v) v f = some sr ∧
      s = ArvoreIds.nodo i (obterCor h i v) (valorDe h i) sl sr := by
  simp only [snapIds, hat, if_true] at hs
  cases hl : snapIds h (obterFilhoEsquerdo h i v) v f with
  | none => rw [hl] at hs; simp at hs
  | some sl =>
    cases hr : snapIds h (obterFilhoDireito h i v) v f with
    | none => rw [hl, hr] at hs; simp at hs
    | some sr =>
      rw [hl, hr] at hs
      simp only [Option.some_inj] at hs
      exact ⟨sl, sr, rfl, rfl, hs.symm⟩

theorem snapIds_morto {h : Heap} {v : Int} {f : Nat} {i : NodeId}
    {s : ArvoreIds} (hs : snapIds h (some i) v (f + 1) = some s)
    (hat : estaAtivo h i v = false) : s = ArvoreIds.folha := by
  simp only [snapIds, hat] at hs
  simpa using hs.symm

/-- _percorrer_em_ordem renders exactly the snapshot. -/
theorem percorrer_snap {h : Heap} {v : Int} :
    ∀ {f : Nat} {i : NodeId} {s : ArvoreIds} {d : Nat},
      snapIds h (some i) v f = some s →
      percorrerEmOrdem h i v d f = renderiza s.apaga d := by
  intro f
  induction f with
  | zero => intro i s d hs; simp [snapIds] at hs
  | succ f ih =>
    intro i s d hs
    by_cases hat : estaAtivo h i v = true
    · obtain ⟨sl, sr, hl, hr, rfl⟩ := snapIds_some_inv hs hat
      rw [percorrerEmOrdem, if_neg (by simp [hat])]
      have hesq : (match obterFilhoEsquerdo h i v with
          | some f' => percorrerEmOrdem h f' v (d + 1) f
          | none => []) = renderiza sl.apaga (d + 1) := by
        cases he : obterFilhoEsquerdo h i v with
        | none =>
          rw [he] at hl
          rw [snapIds_none_eq hl]
          rfl
        | some j =>
          rw [he] at hl
          exact ih hl
      have hdir : (match obterFilhoDireito h i v with
          | some f' => percorrerEmOrdem h f' v (d + 1) f
          | none => []) = renderiza sr.apaga (d + 1) := by
        cases he : obterFilhoDireito h i v with
        | none =>
          rw [he] at hr
          rw [snapIds_none_eq hr]
          rfl
        | some j =>
          rw [he] at hr
          exact ih hr
      rw [hesq, hdir]
      rfl
    · have hat' : estaAtivo h i v = false := by
        revert hat; cases estaAtivo h i v <;> simp
      rw [snapIds_morto hs hat']
      rw [percorrerEmOrdem, if_pos (by simp [hat'])]
      rfl

/-- The in-order keys are those of the snapshot. -/
theorem chaves_snap {h : Heap} {v : Int} :
    ∀ {f : Nat} {i : NodeId} {s : ArvoreIds},
      snapIds h (some i) v f = some s →
      chavesEmOrdem h i v f = s.apaga.emOrdem := by
  intro f
  induction f with
  | zero => intro i s hs; simp [snapIds] at hs
  | succ f ih =>
    intro i s hs
    by_cases hat : estaAtivo h i v = true
    · obtain ⟨sl, sr, hl, hr, rfl⟩ := snapIds_some_inv hs hat
      rw [@chavesEmOrdem_cons _ _ _ f hat]
      have hesq : (match obterFilhoEsquerdo h i v with
          | some f' => chavesEmOrdem h f' v f
          | none => []) = sl.apaga.emOrdem := by
        cases he : obterFilhoEsquerdo h i v with
        | none => rw [he] at hl; rw [snapIds_none_eq hl]; rfl
        | some j => rw [he] at hl; exact ih hl
      have hdir : (match obterFilhoDireito h i v with
          | some f' => chavesEmOrdem h f' v f
          | none => []) = sr.apaga.emOrdem := by
        cases he : obterFilhoDireito h i v with
        | none => rw [he] at hr; rw [snapIds_none_eq hr]; rfl
        | some j => rw [he] at hr; exact ih hr
      rw [hesq, hdir]
      rfl
    · have hat' : estaAtivo h i v = false := by
        revert hat; cases estaAtivo h i v <;> simp
      rw [snapIds_morto hs hat']
      rw [chavesEmOrdem, if_pos (by simp [hat'])]
      rfl

/-- The buscar_sucessor loop computes the pure walk on the snapshot. -/
theorem laco_snap {h : Heap} {v : Int} {valor : Int} :
    ∀ {f : Nat} {no : Option NodeId} {s : ArvoreIds} {acc : Option Int},
      snapIds h no v f = some s →
      sucessorLaco h no valor v acc f = buscaPura s.apaga valor acc := by
  intro f
  induction f with
  | zero => intro no s acc hs; simp [snapIds] at hs
  | succ f ih =>
    intro no s acc hs
    cases no with
    | none =>
      rw [snapIds_none_eq hs]
      rfl
    | some i =>
      by_cases hat : estaAtivo h i v = true
      · obtain ⟨sl, sr, hl, hr, rfl⟩ := snapIds_some_inv hs hat
        rw [sucessorLaco, if_pos hat]
        by_cases hgt : valorDe h i > valor
        · rw [if_pos hgt]
          have : buscaPura (ArvoreIds.nodo i (obterCor h i v) (valorDe h i)
              sl sr).apaga valor acc = buscaPura sl.apaga valor (some (valorDe h i)) := by
            simp [ArvoreIds.apaga, buscaPura, hgt]
          rw [this]
          exact ih hl
        · rw [if_neg hgt]
          have : buscaPura (ArvoreIds.nodo i (obterCor h i v) (valorDe h i)
              sl sr).apaga valor acc = buscaPura sr.apaga valor acc := by
            simp [ArvoreIds.apaga, buscaPura, hgt]
          rw [this]
          exact ih hr
      · have hat' : estaAtivo h i v = false := by
          revert hat; cases estaAtivo h i v <;> simp
        rw [snapIds_morto hs hat']
        rw [sucessorLaco, if_neg (by simp [hat'])]
        rfl

/-! ## Reads of the roots table -/

theorem mem_de_getElem {α : Type} {l : List α} {i : Nat} {a : α}
    (h : l[i]? = some a) : a ∈ l := by
  have hi : i < l.length := by
    by_contra hc
    rw [List.getElem?_eq_none (by omega)] at h
    exact Option.noConfusion h
  rw [List.getElem?_eq_getElem hi] at h
  have := List.getElem_mem hi
  rwa [Option.some_inj.mp h] at this

theorem lerIndice_set_ne {l : List (Option NodeId)} {j : Nat}
    (a : Option NodeId) {w : Int} (hw : 0 ≤ w) (hne : w.toNat ≠ j) :
    lerIndice (l.set j a) w = lerIndice l w := by
  unfold lerIndice
  rw [List.length_set]
  by_cases hb : 0 ≤ w ∧ w < (l.length : Int)
  · rw [if_pos hb, if_pos hb]
    have : (l.set j a).getD w.toNat none = l.getD w.toNat none := by
      rw [List.getD_eq_getElem?_getD, List.getD_eq_getElem?_getD,
        List.getElem?_set_ne (fun hh => hne hh.symm)]
    rw [this]
  · rw [if_neg hb, if_neg hb]
    have hneg : ¬(-(l.length : Int) ≤ w ∧ w < 0) := by
      intro hc
      exact absurd hw (not_le.mpr hc.2)
    rw [if_neg hneg, if_neg hneg]

theorem raizesBoas_lerIndice {t : ArvoreRubroNegra} {w : Int} {i : NodeId}
    (hboas : raizesBoas t = true)
    (hler : lerIndice t.raizes w = Except.ok (some i)) : i < t.heap.length := by
  unfold raizesBoas at hboas
  simp only [List.all_eq_true] at hboas
  unfold lerIndice at hler
  have hmem : (some i) ∈ t.raizes := by
    by_cases hb : 0 ≤ w ∧ w < (t.raizes.length : Int)
    · rw [if_pos hb] at hler
      have : t.raizes.getD w.toNat none = some i := by
        injection hler
      rw [List.getD_eq_getElem?_getD] at this
      cases hg : t.raizes[w.toNat]? with
      | none => rw [hg] at this; exact absurd this (by simp)
      | some r =>
        rw [hg] at this
        simp only [Option.getD_some] at this
        exact this ▸ mem_de_getElem hg
    · rw [if_neg hb] at hler
      by_cases hneg : -(t.raizes.length : Int) ≤ w ∧ w < 0
      · rw [if_pos hneg] at hler
        have : t.raizes.getD (t.raizes.length - (-w).toNat) none = some i := by
          injection hler
        rw [List.getD_eq_getElem?_getD] at this
        cases hg : t.raizes[t.raizes.length - (-w).toNat]? with
        | none => rw [hg] at this; exact absurd this (by simp)
        | some r =>
          rw [hg] at this
          simp only [Option.getD_some] at this
          exact this ▸ mem_de_getElem hg
      · rw [if_neg hneg] at hler
        exact absurd hler (by simp)
  have := hboas _ hmem
  simpa using this

theorem heapLimitado_no {h : Heap} {V : Nat} (hlim : heapLimitado h V = true)
    {i : NodeId} (hi : i < h.length) : noLimitado (lerNo h i) V = true := by
  unfold heapLimitado at hlim
  simp only [List.all_eq_true] at hlim
  have hm : lerNo h i ∈ h := by
    unfold lerNo
    have : h.get? i = some (h.get ⟨i, hi⟩) := List.get?_eq_get hi
    rw [this]
    exact List.get_mem h i hi
  exact hlim _ hm

/-- Per-node reads are stable at or above the recorded version bound. -/
theorem leituraEstavel {h : Heap} {V : Nat} {u u' : Int}
    (hlim : heapLimitado h V = true) (hu : (V : Int) ≤ u) (hu' : (V : Int) ≤ u') :
    ∀ i, i < h.length →
      estaAtivo h i u' = estaAtivo h i u ∧
      obterCor h i u' = obterCor h i u ∧
      valorDe h i = valorDe h i ∧
      obterFilhos h i u' = obterFilhos h i u := by
  intro i hi
  have := No.leituras_estaveis (heapLimitado_no hlim hi) hu hu'
  exact ⟨this.2.2.2.symm, this.1.symm, rfl, this.2.1.symm⟩

theorem sucessorLaco_none (h : Heap) (valor : Int) (v : Int)
    (acc : Option Int) : ∀ f, sucessorLaco h none valor v acc f = acc := by
  intro f
  cases f <;> rfl

/-! ## Queries are stable under a mutation of the next version -/

/-- If a new heap agrees with the old one on all observations below
version V+1, then the two trees answer imprimir_arvore and
buscar_sucessor identically at any version u ≤ V. -/
theorem leituras_apos_mutacao {t : ArvoreRubroNegra} {h' : Heap}
    {raizes' : List (Option NodeId)} {va' : Nat}
    (obs : ObsIguais (t.versao_atual + 1) t.heap h')
    (hfech : heapFechado t.heap = true)
    (hboas : raizesBoas t = true)
    {u : Nat} (hu : u ≤ t.versao_atual) (hva : t.versao_atual ≤ va')
    (hraiz : lerIndice raizes' (u : Int) = lerIndice t.raizes (u : Int))
    (hsnap : ∀ i, lerIndice t.raizes (u : Int) = Except.ok (some i) →
      (snapIds t.heap (some i) (u : Int) (combustivel t.heap)).isSome = true) :
    imprimirArvore ⟨h', raizes', va'⟩ (some (u : Int))
      = imprimirArvore t (some (u : Int)) ∧
    ∀ k, buscarSucessor ⟨h', raizes', va'⟩ k (some (u : Int))
      = buscarSucessor t k (some (u : Int)) := by
  have hclamp : ¬((u : Int) > (t.versao_atual : Int)) := by
    simp only [not_lt]
    exact_mod_cast hu
  have hclamp' : ¬((u : Int) > (va' : Int)) := by
    simp only [not_lt]
    exact_mod_cast hu.trans hva
  have hsnaptransfer : ∀ i, lerIndice t.raizes (u : Int) = Except.ok (some i) →
      ∀ s, snapIds t.heap (some i) (u : Int) (combustivel t.heap) = some s →
      snapIds h' (some i) (u : Int) (combustivel h') = some s := by
    intro i hler s hs
    have hi : i < t.heap.length := raizesBoas_lerIndice hboas hler
    have hcongr : snapIds h' (some i) (u : Int) (combustivel t.heap)
        = snapIds t.heap (some i) (u : Int) (combustivel t.heap) := by
      refine snapIds_congr ?_ hfech (fun j hj => (Option.some_inj.mp hj) ▸ hi)
      intro j hj
      have hobsj := obs.2 j hj
      have hobs := hobsj.2 (u : Int)
        (by exact_mod_cast Nat.lt_succ_of_le hu)
      exact ⟨hobs.1, hobs.2.1, hobsj.1, hobs.2.2.1⟩
    have hcomb : combustivel t.heap ≤ combustivel h' :=
      Nat.succ_le_succ obs.1
    exact snapIds_mono (hcongr.trans hs) hcomb
  constructor
  · unfold imprimirArvore
    simp only [hclamp, hclamp', if_false]
    rw [hraiz]
    cases hler : lerIndice t.raizes (u : Int) with
    | error e => rfl
    | ok raiz =>
      cases raiz with
      | none => rfl
      | some i =>
        have hsome := hsnap i hler
        rw [Option.isSome_iff_exists] at hsome
        obtain ⟨s, hs⟩ := hsome
        have hs' := hsnaptransfer i hler s hs
        dsimp only
        rw [percorrer_snap hs, percorrer_snap hs']
  · intro k
    unfold buscarSucessor
    simp only [hclamp, hclamp', if_false]
    rw [hraiz]
    cases hler : lerIndice t.raizes (u : Int) with
    | error e => rfl
    | ok raiz =>
      cases raiz with
      | none =>
        dsimp only
        rw [sucessorLaco_none, sucessorLaco_none]
      | some i =>
        have hsome := hsnap i hler
        rw [Option.isSome_iff_exists] at hsome
        obtain ⟨s, hs⟩ := hsome
        have hs' := hsnaptransfer i hler s hs
        dsimp only
        rw [laco_snap hs, laco_snap hs']

set_option maxHeartbeats 1000000

/-- Insertion (any key, duplicate or not) advances the version by one on
success, leaves the version alone on the cap error, and in both cases
leaves every query at a version u ≤ V unchanged. -/
theorem quadroInclusao (t : ArvoreRubroNegra) (x : Int)
    (hfech : heapFechado t.heap = true) (hboas : raizesBoas t = true)
    {u : Nat} (hu : u ≤ t.versao_atual)
    (hsnap : ∀ i, lerIndice t.raizes (u : Int) = Except.ok (some i) →
      (snapIds t.heap (some i) (u : Int) (combustivel t.heap)).isSome = true) :
    imprimirArvore (incluir t x).1 (some (u : Int))
      = imprimirArvore t (some (u : Int)) ∧
    ∀ k, buscarSucessor (incluir t x).1 k (some (u : Int))
      = buscarSucessor t k (some (u : Int)) := by
  unfold incluir
  cases hler : lerIndice t.raizes (t.versao_atual : Int) with
  | error e => exact ⟨rfl, fun k => rfl⟩
  | ok raizAtual =>
    have hv : 0 < t.versao_atual + 1 := Nat.succ_pos _
    have obs : ObsIguais (t.versao_atual + 1) t.heap
        (definirCor (incluirRecursivo t.heap raizAtual x (t.versao_atual + 1)
          (combustivel t.heap)).1
          (incluirRecursivo t.heap raizAtual x (t.versao_atual + 1)
            (combustivel t.heap)).2 Cor.PRETO (t.versao_atual + 1)) :=
      (obsIguais_incluirRecursivo x hv _ t.heap raizAtual).maisCor _ _ hv
    cases hesc : escreverIndice t.raizes (t.versao_atual + 1)
        (some (incluirRecursivo t.heap raizAtual x (t.versao_atual + 1)
          (combustivel t.heap)).2) with
    | ok rs =>
      dsimp only
      rw [hesc]
      dsimp only
      refine leituras_apos_mutacao obs hfech hboas hu (Nat.le_succ _) ?_ hsnap
      unfold escreverIndice at hesc
      by_cases hlt : t.versao_atual + 1 < t.raizes.length
      · rw [if_pos hlt] at hesc
        have hrs : t.raizes.set (t.versao_atual + 1)
            (some (incluirRecursivo t.heap raizAtual x (t.versao_atual + 1)
              (combustivel t.heap)).2) = rs := by
          injection hesc
        rw [← hrs]
        exact lerIndice_set_ne _ (by positivity) (by simp; omega)
      · rw [if_neg hlt] at hesc
        exact absurd hesc (by simp)
    | error e =>
      dsimp only
      rw [hesc]
      dsimp only
      exact leituras_apos_mutacao obs hfech hboas hu le_rfl rfl hsnap

/-- Removal of a key absent at the current version: same frame result. -/
theorem quadroRemocaoAusente (t : ArvoreRubroNegra) (x : Int)
    (hfech : heapFechado t.heap = true) (hboas : raizesBoas t = true)
    (hlim : heapLimitado t.heap t.versao_atual = true)
    (hsnapV : ∀ i, lerIndice t.raizes (t.versao_atual : Int)
        = Except.ok (some i) →
      (snapIds t.heap (some i) (t.versao_atual : Int)
        (combustivel t.heap)).isSome = true)
    (habs : x ∉ chavesVivas t (t.versao_atual : Int))
    {u : Nat} (hu : u ≤ t.versao_atual)
    (hsnap : ∀ i, lerIndice t.raizes (u : Int) = Except.ok (some i) →
      (snapIds t.heap (some i) (u : Int) (combustivel t.heap)).isSome = true) :
    imprimirArvore (remover t x).1 (some (u : Int))
      = imprimirArvore t (some (u : Int)) ∧
    ∀ k, buscarSucessor (remover t x).1 k (some (u : Int))
      = buscarSucessor t k (some (u : Int)) := by
  unfold remover
  cases hler : lerIndice t.raizes (t.versao_atual : Int) with
  | error e => exact ⟨rfl, fun k => rfl⟩
  | ok raizAtual =>
    have hv : 0 < t.versao_atual + 1 := Nat.succ_pos _
    have habsrec : ∀ i, raizAtual = some i →
        estaAtivo t.heap i ((t.versao_atual + 1 : Nat) : Int) = true →
        x ∉ chavesEmOrdem t.heap i ((t.versao_atual + 1 : Nat) : Int)
          (combustivel t.heap) := by
      intro i hi _
      subst hi
      have hsome := hsnapV i hler
      rw [Option.isSome_iff_exists] at hsome
      obtain ⟨s, hs⟩ := hsome
      have hstep : snapIds t.heap (some i) ((t.versao_atual + 1 : Nat) : Int)
          (combustivel t.heap) = some s := by
        have : snapIds t.heap (some i) ((t.versao_atual + 1 : Nat) : Int)
            (combustivel t.heap)
            = snapIds t.heap (some i) (t.versao_atual : Int)
              (combustivel t.heap) := by
          refine snapIds_congr ?_ hfech
            (fun j hj => (Option.some_inj.mp hj) ▸
              raizesBoas_lerIndice hboas hler)
          exact leituraEstavel hlim le_rfl (by push_cast; omega)
        rw [this]
        exact hs
      rw [chaves_snap hstep]
      have hvivas : chavesVivas t (t.versao_atual : Int) = s.apaga.emOrdem := by
        unfold chavesVivas
        rw [hler]
        exact chaves_snap hs
      rw [hvivas] at habs
      exact habs
    have obs : ObsIguais (t.versao_atual + 1) t.heap
        (removerRecursivo t.heap raizAtual x (t.versao_atual + 1)
          (combustivel t.heap)).1 :=
      obsIguais_removerRecursivo x hv _ t.heap raizAtual habsrec
    have obs2 : ObsIguais (t.versao_atual + 1) t.heap
        (match (removerRecursivo t.heap raizAtual x (t.versao_atual + 1)
            (combustivel t.heap)).2 with
          | some i => definirCor (removerRecursivo t.heap raizAtual x
              (t.versao_atual + 1) (combustivel t.heap)).1 i Cor.PRETO
              (t.versao_atual + 1)
          | none => (removerRecursivo t.heap raizAtual x (t.versao_atual + 1)
              (combustivel t.heap)).1) := by
      cases hres : (removerRecursivo t.heap raizAtual x (t.versao_atual + 1)
          (combustivel t.heap)).2 with
      | none => exact obs
      | some i => exact obs.maisCor _ _ hv
    cases hesc : escreverIndice t.raizes (t.versao_atual + 1)
        (removerRecursivo t.heap raizAtual x (t.versao_atual + 1)
          (combustivel t.heap)).2 with
    | ok rs =>
      dsimp only
      rw [hesc]
      dsimp only
      refine leituras_apos_mutacao obs2 hfech hboas hu (Nat.le_succ _) ?_ hsnap
      unfold escreverIndice at hesc
      by_cases hlt : t.versao_atual + 1 < t.raizes.length
      · rw [if_pos hlt] at hesc
        have hrs : t.raizes.set (t.versao_atual + 1)
            (removerRecursivo t.heap raizAtual x (t.versao_atual + 1)
              (combustivel t.heap)).2 = rs := by
          injection hesc
        rw [← hrs]
        exact lerIndice_set_ne _ (by positivity) (by simp; omega)
      · rw [if_neg hlt] at hesc
        exact absurd hesc (by simp)
    | error e =>
      dsimp only
      rw [hesc]
      dsimp only
      exact leituras_apos_mutacao obs2 hfech hboas hu le_rfl rfl hsnap

/-! ## Preservation of heap well-formedness by the mutators -/

theorem noFechado_mono {n : No} {len len' : Nat} (hf : noFechado n len = true)
    (hle : len ≤ len') : noFechado n len' = true := by
  unfold noFechado at *
  simp only [List.all_eq_true, Bool.and_eq_true] at hf ⊢
  intro p hp
  have := hf p hp
  constructor
  · cases hcase : p.2.1 with
    | none => simp
    | some j =>
      have h1 := this.1
      rw [hcase] at h1
      simp only [decide_eq_true_eq] at h1 ⊢
      exact lt_of_lt_of_le h1 hle
  · cases hcase : p.2.2 with
    | none => simp
    | some j =>
      have h2 := this.2
      rw [hcase] at h2
      simp only [decide_eq_true_eq] at h2 ⊢
      exact lt_of_lt_of_le h2 hle

theorem noLimitado_mono {n : No} {v v' : Nat} (hl : noLimitado n v = true)
    (hle : v ≤ v') : noLimitado n v' = true := by
  unfold noLimitado at *
  simp only [Bool.and_eq_true, List.all_eq_true, decide_eq_true_eq] at hl ⊢
  obtain ⟨⟨⟨⟨h1, h2⟩, h3⟩, h4⟩, h5⟩ := hl
  refine ⟨⟨⟨⟨by omega, fun p hp => by have := h2 p hp; omega⟩,
    fun p hp => by have := h3 p hp; omega⟩,
    fun p hp => by have := h4 p hp; omega⟩, ?_⟩
  cases hr : n.versao_remocao with
  | none => simp
  | some r =>
    rw [hr] at h5
    simp only [decide_eq_true_eq] at h5 ⊢
    omega

theorem heapLimitado_mono {h : Heap} {v v' : Nat}
    (hl : heapLimitado h v = true) (hle : v ≤ v') :
    heapLimitado h v' = true := by
  unfold heapLimitado at *
  simp only [List.all_eq_true] at hl ⊢
  exact fun n hn => noLimitado_mono (hl n hn) hle

theorem heapFechado_escreverNo {h : Heap} {i : NodeId} {n : No}
    (hf : heapFechado h = true) (hn : noFechado n h.length = true) :
    heapFechado (escreverNo h i n) = true := by
  unfold heapFechado at *
  simp only [List.all_eq_true] at hf ⊢
  intro m hm
  rw [comprimento_escreverNo]
  rcases List.mem_or_eq_of_mem_set hm with hmem | rfl
  · exact hf m hmem
  · exact hn

theorem heapLimitado_escreverNo {h : Heap} {i : NodeId} {n : No} {v : Nat}
    (hl : heapLimitado h v = true) (hn : noLimitado n v = true) :
    heapLimitado (escreverNo h i n) v = true := by
  unfold heapLimitado at *
  simp only [List.all_eq_true] at hl ⊢
  intro m hm
  rcases List.mem_or_eq_of_mem_set hm with hmem | rfl
  · exact hl m hmem
  · exact hn

theorem noFechado_definir_cor {n : No} {len : Nat} (c : Cor) (v : Nat)
    (hf : noFechado n len = true) : noFechado (n.definir_cor c v) len = true := hf

theorem noFechado_definir_pai {n : No} {len : Nat} (p : Option NodeId) (v : Nat)
    (hf : noFechado n len = true) : noFechado (n.definir_pai p v) len = true := hf

theorem noFechado_remover_no {n : No} {len : Nat} (v : Nat)
    (hf : noFechado n len = true) : noFechado (n.remover_no v) len = true := hf

theorem noFechado_valor {n : No} {len : Nat} (x : Int)
    (hf : noFechado n len = true) :
    noFechado { n with valor := x } len = true := hf

theorem noFechado_definir_filhos {n : No} {len : Nat} {e d : Option NodeId}
    (v : Nat) (hf : noFechado n len = true)
    (he : ∀ j, e = some j → j < len) (hd : ∀ j, d = some j → j < len) :
    noFechado (n.definir_filhos e d v) len = true := by
  unfold noFechado at *
  simp only [List.all_eq_true, Bool.and_eq_true] at hf ⊢
  intro p hp
  rcases List.mem_cons.mp hp with rfl | hmem
  · constructor
    · cases hce : e with
      | none => simp
      | some j => simpa using he j hce
    · cases hcd : d with
      | none => simp
      | some j => simpa using hd j hcd
  · exact hf p hmem

theorem noFechado_definir_esq {n : No} {len : Nat} {f : Option NodeId}
    (v : Nat) (hf : noFechado n len = true)
    (hb : ∀ j, f = some j → j < len) :
    noFechado (n.definir_filho_esquerdo f v) len = true := by
  have hd := (noFechado_filhos hf (v : Int)).2
  unfold No.definir_filho_esquerdo
  exact noFechado_definir_filhos v hf hb hd

theorem noFechado_definir_dir {n : No} {len : Nat} {f : Option NodeId}
    (v : Nat) (hf : noFechado n len = true)
    (hb : ∀ j, f = some j → j < len) :
    noFechado (n.definir_filho_direito f v) len = true := by
  have he := (noFechado_filhos hf (v : Int)).1
  unfold No.definir_filho_direito
  exact noFechado_definir_filhos v hf he hb

theorem noLimitado_definir_cor {n : No} {v : Nat} (c : Cor)
    (hl : noLimitado n v = true) : noLimitado (n.definir_cor c v) v = true := by
  unfold noLimitado at *
  simp only [Bool.and_eq_true, List.all_eq_true, decide_eq_true_eq] at hl ⊢
  obtain ⟨⟨⟨⟨h1, h2⟩, h3⟩, h4⟩, h5⟩ := hl
  exact ⟨⟨⟨⟨h1, by
    intro p hp
    rcases List.mem_cons.mp hp with rfl | hmem
    · simp
    · exact h2 p hmem⟩, h3⟩, h4⟩, h5⟩

theorem noLimitado_definir_filhos {n : No} {v : Nat} (e d : Option NodeId)
    (hl : noLimitado n v = true) :
    noLimitado (n.definir_filhos e d v) v = true := by
  unfold noLimitado at *
  simp only [Bool.and_eq_true, List.all_eq_true, decide_eq_true_eq] at hl ⊢
  obtain ⟨⟨⟨⟨h1, h2⟩, h3⟩, h4⟩, h5⟩ := hl
  exact ⟨⟨⟨⟨h1, h2⟩, by
    intro p hp
    rcases List.mem_cons.mp hp with rfl | hmem
    · simp
    · exact h3 p hmem⟩, h4⟩, h5⟩

theorem noLimitado_definir_esq {n : No} {v : Nat} (f : Option NodeId)
    (hl : noLimitado n v = true) :
    noLimitado (n.definir_filho_esquerdo f v) v = true :=
  noLimitado_definir_filhos _ _ hl

theorem noLimitado_definir_dir {n : No} {v : Nat} (f : Option NodeId)
    (hl : noLimitado n v = true) :
    noLimitado (n.definir_filho_direito f v) v = true :=
  noLimitado_definir_filhos _ _ hl

theorem noLimitado_definir_pai {n : No} {v : Nat} (p : Option NodeId)
    (hl : noLimitado n v = true) :
    noLimitado (n.definir_pai p v) v = true := by
  unfold noLimitado at *
  simp only [Bool.and_eq_true, List.all_eq_true, decide_eq_true_eq] at hl ⊢
  obtain ⟨⟨⟨⟨h1, h2⟩, h3⟩, h4⟩, h5⟩ := hl
  exact ⟨⟨⟨⟨h1, h2⟩, h3⟩, by
    intro q hq
    rcases List.mem_cons.mp hq with rfl | hmem
    · simp
    · exact h4 q hmem⟩, h5⟩

theorem noLimitado_remover_no {n : No} {v : Nat}
    (hl : noLimitado n v = true) : noLimitado (n.remover_no v) v = true := by
  unfold noLimitado at *
  simp only [Bool.and_eq_true, List.all_eq_true, decide_eq_true_eq] at hl ⊢
  obtain ⟨⟨⟨⟨h1, h2⟩, h3⟩, h4⟩, _⟩ := hl
  exact ⟨⟨⟨⟨h1, h2⟩, h3⟩, h4⟩, by simp [No.remover_no]⟩

theorem noLimitado_valor {n : No} {v : Nat} (x : Int)
    (hl : noLimitado n v = true) :
    noLimitado { n with valor := x } v = true := hl

theorem noLimitado_novo (x : Int) (c : Cor) (v : Nat) :
    noLimitado (No.novo x c v) v = true := by
  simp [noLimitado, No.novo]

theorem noFechado_novo (x : Int) (c : Cor) (v : Nat) (len : Nat) :
    noFechado (No.novo x c v) len = true := by
  simp [noFechado, No.novo]

theorem heapFechado_append_novo {h : Heap} (x : Int) (c : Cor) (v : Nat)
    (hf : heapFechado h = true) :
    heapFechado (h ++ [No.novo x c v]) = true := by
  unfold heapFechado at *
  simp only [List.all_eq_true] at hf ⊢
  intro n hn
  rcases List.mem_append.mp hn with hmem | hmem
  · exact noFechado_mono (by simpa using hf n hmem) (by simp)
  · simp only [List.mem_singleton] at hmem
    subst hmem
    exact noFechado_novo _ _ _ _

theorem heapLimitado_append_novo {h : Heap} {v : Nat} (x : Int) (c : Cor)
    (hl : heapLimitado h v = true) :
    heapLimitado (h ++ [No.novo x c v]) v = true := by
  unfold heapLimitado at *
  simp only [List.all_eq_true] at hl ⊢
  intro n hn
  rcases List.mem_append.mp hn with hmem | hmem
  · exact hl n hmem
  · simp only [List.mem_singleton] at hmem
    subst hmem
    exact noLimitado_novo _ _ _

/-- Generic step: overwriting node i with a transformation that keeps
closedness and boundedness keeps the heap well formed. -/
theorem WFH.escrevePasso {v : Nat} {h : Heap} {i : NodeId} {f : No → No}
    (w : WFH v h)
    (hf : ∀ n, noFechado n h.length = true → noFechado (f n) h.length = true)
    (hl : ∀ n, noLimitado n v = true → noLimitado (f n) v = true) :
    WFH v (escreverNo h i (f (lerNo h i))) := by
  by_cases hi : i < h.length
  · constructor
    · exact heapFechado_escreverNo w.1 (hf _ (heapFechado_no w.1 hi))
    · exact heapLimitado_escreverNo w.2 (hl _ (heapLimitado_no w.2 hi))
  · rw [escreverNo_fora _ (le_of_not_lt hi)]
    exact w

theorem WFH.poeCor {v : Nat} {h : Heap} (i : NodeId) (c : Cor) (w : WFH v h) :
    WFH v (definirCor h i c v) :=
  w.escrevePasso (fun n hn => noFechado_definir_cor c v hn)
    (fun n hn => noLimitado_definir_cor c hn)

theorem WFH.poePai {v : Nat} {h : Heap} (i : NodeId) (p : Option NodeId)
    (w : WFH v h) : WFH v (definirPai h i p v) :=
  w.escrevePasso (fun n hn => noFechado_definir_pai p v hn)
    (fun n hn => noLimitado_definir_pai p hn)

theorem WFH.poeTalvezPai {v : Nat} {h : Heap} (o : Option NodeId)
    (p : Option NodeId) (w : WFH v h) :
    WFH v (match o with
           | some x => definirPai h x p v
           | none => h) := by
  cases o with
  | none => exact w
  | some x => exact w.poePai x p

theorem WFH.poeEsq {v : Nat} {h : Heap} (i : NodeId) {f : Option NodeId}
    (w : WFH v h) (hb : ∀ j, f = some j → j < h.length) :
    WFH v (definirFilhoEsquerdo h i f v) :=
  w.escrevePasso (fun n hn => noFechado_definir_esq v hn hb)
    (fun n hn => noLimitado_definir_esq f hn)

theorem WFH.poeDir {v : Nat} {h : Heap} (i : NodeId) {f : Option NodeId}
    (w : WFH v h) (hb : ∀ j, f = some j → j < h.length) :
    WFH v (definirFilhoDireito h i f v) :=
  w.escrevePasso (fun n hn => noFechado_definir_dir v hn hb)
    (fun n hn => noLimitado_definir_dir f hn)

theorem WFH.poeFilhos {v : Nat} {h : Heap} (i : NodeId) {e d : Option NodeId}
    (w : WFH v h) (hbe : ∀ j, e = some j → j < h.length)
    (hbd : ∀ j, d = some j → j < h.length) :
    WFH v (definirFilhos h i e d v) :=
  w.escrevePasso (fun n hn => noFechado_definir_filhos v hn hbe hbd)
    (fun n hn => noLimitado_definir_filhos e d hn)

theorem WFH.poeMarcado {v : Nat} {h : Heap} (i : NodeId) (w : WFH v h) :
    WFH v (marcarRemovido h i v) :=
  w.escrevePasso (fun n hn => noFechado_remover_no v hn)
    (fun n hn => noLimitado_remover_no hn)

theorem WFH.poeValor {v : Nat} {h : Heap} (i : NodeId) (x : Int)
    (w : WFH v h) :
    WFH v (escreverNo h i { lerNo h i with valor := x }) :=
  w.escrevePasso (fun n hn => noFechado_valor x hn) (fun n hn => noLimitado_valor x hn)

theorem WFH.fresco {v : Nat} {h : Heap} (x : Int) (c : Cor) (w : WFH v h) :
    WFH v (h ++ [No.novo x c v]) :=
  ⟨heapFechado_append_novo x c v w.1, heapLimitado_append_novo x c w.2⟩

/-- The lengths after the primitive writes. -/
theorem comprimento_definirCor (h : Heap) (i : NodeId) (c : Cor) (v : Nat) :
    (definirCor h i c v).length = h.length := comprimento_escreverNo _ _ _

theorem comprimento_definirFilhoEsquerdo (h : Heap) (i : NodeId)
    (f : Option NodeId) (v : Nat) :
    (definirFilhoEsquerdo h i f v).length = h.length := comprimento_escreverNo _ _ _

theorem comprimento_definirFilhoDireito (h : Heap) (i : NodeId)
    (f : Option NodeId) (v : Nat) :
    (definirFilhoDireito h i f v).length = h.length := comprimento_escreverNo _ _ _

theorem comprimento_definirFilhos (h : Heap) (i : NodeId)
    (e d : Option NodeId) (v : Nat) :
    (definirFilhos h i e d v).length = h.length := comprimento_escreverNo _ _ _

theorem comprimento_definirPai (h : Heap) (i : NodeId) (p : Option NodeId)
    (v : Nat) : (definirPai h i p v).length = h.length :=
  comprimento_escreverNo _ _ _

theorem comprimento_marcarRemovido (h : Heap) (i : NodeId) (v : Nat) :
    (marcarRemovido h i v).length = h.length := comprimento_escreverNo _ _ _

theorem comprimento_talvezPai (h : Heap) (o : Option NodeId)
    (p : Option NodeId) (v : Nat) :
    (match o with
     | some x => definirPai h x p v
     | none => h).length = h.length := by
  cases o with
  | none => rfl
  | some x => exact comprimento_definirPai h x p v

/-- Heap children reads are bounded on a closed heap. -/
theorem obterFilhos_limites {h : Heap} (hf : heapFechado h = true)
    {i : NodeId} (hi : i < h.length) (u : Int) :
    (∀ j, obterFilhoEsquerdo h i u = some j → j < h.length) ∧
    (∀ j, obterFilhoDireito h i u = some j → j < h.length) := by
  have := noFechado_filhos (heapFechado_no hf hi) u
  exact ⟨fun j hj => this.1 j hj, fun j hj => this.2 j hj⟩

theorem ehVermelho_existe {h : Heap} {o : Option NodeId} {v : Int}
    (hv : ehVermelho h o v = true) : ∃ j, o = some j := by
  cases o with
  | none => simp [ehVermelho] at hv
  | some j => exact ⟨j, rfl⟩

/-! The balancing helpers keep the heap well formed, keep its length,
and return an identity inside it. -/

theorem balancearLL_limites {v : Nat} {h : Heap} {no : NodeId}
    (w : WFH v h) (hno : no < h.length) {f g : NodeId}
    (hfe : obterFilhoEsquerdo h no (v : Int) = some f)
    (hnee : obterFilhoEsquerdo h f (v : Int) = some g) :
    WFH v (balancearCasoEsquerdaEsquerda h no v).1 ∧
    (balancearCasoEsquerdaEsquerda h no v).1.length = h.length ∧
    (balancearCasoEsquerdaEsquerda h no v).2 < h.length := by
  have hf : f < h.length := (obterFilhos_limites w.1 hno _).1 f hfe
  have hg : g < h.length := (obterFilhos_limites w.1 hf _).1 g hnee
  have hned := (obterFilhos_limites w.1 hf (v : Int)).2
  have hfd := (obterFilhos_limites w.1 hno (v : Int)).2
  simp only [balancearCasoEsquerdaEsquerda, hfe, hnee, Option.getD_some]
  refine ⟨?_, ?_, hf⟩
  · have w3 : WFH v (definirCor (definirCor (definirCor h f Cor.VERMELHO v)
        g Cor.PRETO v) no Cor.PRETO v) :=
      WFH.poeCor _ _ (WFH.poeCor _ _ (WFH.poeCor _ _ w))
    have w4 := @WFH.poeFilhos v _ f (some g) (some no) w3
      (fun j hj => by
        simp only [comprimento_definirCor]
        exact (Option.some_inj.mp hj) ▸ hg)
      (fun j hj => by
        simp only [comprimento_definirCor]
        exact (Option.some_inj.mp hj) ▸ hno)
    have w5 := @WFH.poeFilhos v _ no _ _ w4
      (fun j hj => by
        simp only [comprimento_definirFilhos, comprimento_definirCor]
        exact hned j hj)
      (fun j hj => by
        simp only [comprimento_definirFilhos, comprimento_definirCor]
        exact hfd j hj)
    exact WFH.poePai _ _ (WFH.poePai _ _ (WFH.poeTalvezPai _ _ w5))
  · simp only [comprimento_definirPai, comprimento_talvezPai,
      comprimento_definirFilhos, comprimento_definirCor]

theorem balancearLR_limites {v : Nat} {h : Heap} {no : NodeId}
    (w : WFH v h) (hno : no < h.length) {f g : NodeId}
    (hfe : obterFilhoEsquerdo h no (v : Int) = some f)
    (hned : obterFilhoDireito h f (v : Int) = some g) :
    WFH v (balancearCasoEsquerdaDireita h no v).1 ∧
    (balancearCasoEsquerdaDireita h no v).1.length = h.length ∧
    (balancearCasoEsquerdaDireita h no v).2 < h.length := by
  have hf : f < h.length := (obterFilhos_limites w.1 hno _).1 f hfe
  have hg : g < h.length := (obterFilhos_limites w.1 hf _).2 g hned
  have hbe := (obterFilhos_limites w.1 hg (v : Int)).1
  have hbd := (obterFilhos_limites w.1 hg (v : Int)).2
  have hfd := (obterFilhos_limites w.1 hno (v : Int)).2
  simp only [balancearCasoEsquerdaDireita, hfe, hned, Option.getD_some]
  refine ⟨?_, ?_, hg⟩
  · have w3 : WFH v (definirCor (definirCor (definirCor h g Cor.VERMELHO v)
        f Cor.PRETO v) no Cor.PRETO v) :=
      WFH.poeCor _ _ (WFH.poeCor _ _ (WFH.poeCor _ _ w))
    have w4 := @WFH.poeFilhos v _ g (some f) (some no) w3
      (fun j hj => by
        simp only [comprimento_definirCor]
        exact (Option.some_inj.mp hj) ▸ hf)
      (fun j hj => by
        simp only [comprimento_definirCor]
        exact (Option.some_inj.mp hj) ▸ hno)
    have hlen4 : (definirFilhos (definirCor (definirCor (definirCor h g
        Cor.VERMELHO v) f Cor.PRETO v) no Cor.PRETO v) g (some f) (some no)
        v).length = h.length := by
      simp only [comprimento_definirFilhos, comprimento_definirCor]
    have w5 := @WFH.poeFilhos v _ f _ _ w4
      (fun j hj =>
        (obterFilhos_limites w4.1 (by rw [hlen4]; exact hf) (v : Int)).1 j hj)
      (fun j hj => by
        rw [hlen4]
        exact hbe j hj)
    have w6 := @WFH.poeFilhos v _ no _ _ w5
      (fun j hj => by
        simp only [comprimento_definirFilhos, comprimento_definirCor]
        exact hbd j hj)
      (fun j hj => by
        simp only [comprimento_definirFilhos, comprimento_definirCor]
        exact hfd j hj)
    exact WFH.poePai _ _ (WFH.poePai _ _ (WFH.poeTalvezPai _ _ (WFH.poeTalvezPai _ _ w6)))
  · simp only [comprimento_definirPai, comprimento_talvezPai,
      comprimento_definirFilhos, comprimento_definirCor]

theorem balancearRL_limites {v : Nat} {h : Heap} {no : NodeId}
    (w : WFH v h) (hno : no < h.length) {f g : NodeId}
    (hfd : obterFilhoDireito h no (v : Int) = some f)
    (hnde : obterFilhoEsquerdo h f (v : Int) = some g) :
    WFH v (balancearCasoDireitaEsquerda h no v).1 ∧
    (balancearCasoDireitaEsquerda h no v).1.length = h.length ∧
    (balancearCasoDireitaEsquerda h no v).2 < h.length := by
  have hf : f < h.length := (obterFilhos_limites w.1 hno _).2 f hfd
  have hg : g < h.length := (obterFilhos_limites w.1 hf _).1 g hnde
  have hbe := (obterFilhos_limites w.1 hg (v : Int)).1
  have hbd := (obterFilhos_limites w.1 hg (v : Int)).2
  have hfe := (obterFilhos_limites w.1 hno (v : Int)).1
  simp only [balancearCasoDireitaEsquerda, hfd, hnde, Option.getD_some]
  refine ⟨?_, ?_, hg⟩
  · have w3 : WFH v (definirCor (definirCor (definirCor h g Cor.VERMELHO v)
        no Cor.PRETO v) f Cor.PRETO v) :=
      WFH.poeCor _ _ (WFH.poeCor _ _ (WFH.poeCor _ _ w))
    have w4 := @WFH.poeFilhos v _ g (some no) (some f) w3
      (fun j hj => by
        simp only [comprimento_definirCor]
        exact (Option.some_inj.mp hj) ▸ hno)
      (fun j hj => by
        simp only [comprimento_definirCor]
        exact (Option.some_inj.mp hj) ▸ hf)
    have w5 := @WFH.poeFilhos v _ no _ _ w4
      (fun j hj => by
        simp only [comprimento_definirFilhos, comprimento_definirCor]
        exact hfe j hj)
      (fun j hj => by
        simp only [comprimento_definirFilhos, comprimento_definirCor]
        exact hbe j hj)
    have hlen5 : (definirFilhos (definirFilhos (definirCor (definirCor
        (definirCor h g Cor.VERMELHO v) no Cor.PRETO v) f Cor.PRETO v) g
        (some no) (some f) v) no (obterFilhoEsquerdo h no (v : Int))
        (obterFilhoEsquerdo h g (v : Int)) v).length = h.length := by
      simp only [comprimento_definirFilhos, comprimento_definirCor]
    have w6 := @WFH.poeFilhos v _ f _ _ w5
      (fun j hj => by
        rw [hlen5]
        exact hbd j hj)
      (fun j hj =>
        (obterFilhos_limites w5.1 (by rw [hlen5]; exact hf) (v : Int)).2 j hj)
    exact WFH.poePai _ _ (WFH.poePai _ _ (WFH.poeTalvezPai _ _ (WFH.poeTalvezPai _ _ w6)))
  · simp only [comprimento_definirPai, comprimento_talvezPai,
      comprimento_definirFilhos, comprimento_definirCor]

theorem balancearRR_limites {v : Nat} {h : Heap} {no : NodeId}
    (w : WFH v h) (hno : no < h.length) {f g : NodeId}
    (hfd : obterFilhoDireito h no (v : Int) = some f)
    (hndd : obterFilhoDireito h f (v : Int) = some g) :
    WFH v (balancearCasoDireitaDireita h no v).1 ∧
    (balancearCasoDireitaDireita h no v).1.length = h.length ∧
    (balancearCasoDireitaDireita h no v).2 < h.length := by
  have hf : f < h.length := (obterFilhos_limites w.1 hno _).2 f hfd
  have hg : g < h.length := (obterFilhos_limites w.1 hf _).2 g hndd
  have hnde := (obterFilhos_limites w.1 hf (v : Int)).1
  have hfe := (obterFilhos_limites w.1 hno (v : Int)).1
  simp only [balancearCasoDireitaDireita, hfd, hndd, Option.getD_some]
  refine ⟨?_, ?_, hf⟩
  · have w3 : WFH v (definirCor (definirCor (definirCor h f Cor.VERMELHO v)
        no Cor.PRETO v) g Cor.PRETO v) :=
      WFH.poeCor _ _ (WFH.poeCor _ _ (WFH.poeCor _ _ w))
    have w4 := @WFH.poeFilhos v _ f (some no) (some g) w3
      (fun j hj => by
        simp only [comprimento_definirCor]
        exact (Option.some_inj.mp hj) ▸ hno)
      (fun j hj => by
        simp only [comprimento_definirCor]
        exact (Option.some_inj.mp hj) ▸ hg)
    have w5 := @WFH.poeFilhos v _ no _ _ w4
      (fun j hj => by
        simp only [comprimento_definirFilhos, comprimento_definirCor]
        exact hfe j hj)
      (fun j hj => by
        simp only [comprimento_definirFilhos, comprimento_definirCor]
        exact hnde j hj)
    exact WFH.poePai _ _ (WFH.poePai _ _ (WFH.poeTalvezPai _ _ w5))
  · simp only [comprimento_definirPai, comprimento_talvezPai,
      comprimento_definirFilhos, comprimento_definirCor]

theorem balancearChecaDireita_limites {v : Nat} {h : Heap} {no : NodeId}
    (w : WFH v h) (hno : no < h.length) :
    WFH v (balancearChecaDireita h no v).1 ∧
    (balancearChecaDireita h no v).1.length = h.length ∧
    (balancearChecaDireita h no v).2 < h.length := by
  simp only [balancearChecaDireita]
  split
  · next hred =>
    obtain ⟨f, hf⟩ := ehVermelho_existe hred
    split
    · next hred2 =>
      obtain ⟨g, hg⟩ := ehVermelho_existe hred2
      rw [hf] at hg
      simp only [Option.getD_some] at hg
      exact balancearRL_limites w hno hf hg
    · split
      · next hred2 =>
        obtain ⟨g, hg⟩ := ehVermelho_existe hred2
        rw [hf] at hg
        simp only [Option.getD_some] at hg
        exact balancearRR_limites w hno hf hg
      · exact ⟨w, rfl, hno⟩
  · exact ⟨w, rfl, hno⟩

theorem balancearAposInclusao_limites {v : Nat} {h : Heap} {no : NodeId}
    (w : WFH v h) (hno : no < h.length) :
    WFH v (balancearAposInclusao h no v).1 ∧
    (balancearAposInclusao h no v).1.length = h.length ∧
    (balancearAposInclusao h no v).2 < h.length := by
  simp only [balancearAposInclusao]
  split
  · next hred =>
    obtain ⟨f, hf⟩ := ehVermelho_existe hred
    split
    · next hred2 =>
      obtain ⟨g, hg⟩ := ehVermelho_existe hred2
      rw [hf] at hg
      simp only [Option.getD_some] at hg
      exact balancearLL_limites w hno hf hg
    · split
      · next hred2 =>
        obtain ⟨g, hg⟩ := ehVermelho_existe hred2
        rw [hf] at hg
        simp only [Option.getD_some] at hg
        exact balancearLR_limites w hno hf hg
      · exact balancearChecaDireita_limites w hno
  · exact balancearChecaDireita_limites w hno

/-- The insertion recursion keeps the heap well formed, only grows it,
and returns an identity inside it. -/
theorem incluirRecursivo_limites {v : Nat} (x : Int) :
    ∀ (fuel : Nat) (h : Heap) (no : Option NodeId), WFH v h →
      (∀ i, no = some i → i < h.length) → (0 < fuel ∨ 0 < h.length) →
      WFH v (incluirRecursivo h no x v fuel).1 ∧
      h.length ≤ (incluirRecursivo h no x v fuel).1.length ∧
      (incluirRecursivo h no x v fuel).2
        < (incluirRecursivo h no x v fuel).1.length := by
  intro fuel
  induction fuel with
  | zero =>
    intro h no w hno hok
    rcases hok with hok | hok
    · omega
    · exact ⟨w, le_rfl, hok⟩
  | succ fuel ih =>
    intro h no w hno _
    cases no with
    | none =>
      simp only [incluirRecursivo]
      refine ⟨w.fresco x Cor.VERMELHO, by simp, by simp⟩
    | some i =>
      have hi : i < h.length := hno i rfl
      simp only [incluirRecursivo]
      split
      · exact ⟨w.fresco x Cor.VERMELHO, by simp, by simp⟩
      · split
        · have hrec := ih h (obterFilhoEsquerdo h i (v : Int)) w
            (fun j hj => (obterFilhos_limites w.1 hi _).1 j hj)
            (Or.inr (Nat.lt_of_le_of_lt (Nat.zero_le i) hi))
          obtain ⟨w1, hlen1, hid1⟩ := hrec
          have w2 := (w1.poeEsq i (fun j hj => (Option.some_inj.mp hj) ▸
            hid1)).poePai (incluirRecursivo h (obterFilhoEsquerdo h i (v : Int))
              x v fuel).2 (some i)
          have hlen2 : (definirPai (definirFilhoEsquerdo
              (incluirRecursivo h (obterFilhoEsquerdo h i (v : Int)) x v
                fuel).1 i (some (incluirRecursivo h (obterFilhoEsquerdo h i
                (v : Int)) x v fuel).2) v) (incluirRecursivo h
                  (obterFilhoEsquerdo h i (v : Int)) x v fuel).2 (some i)
                v).length
              = (incluirRecursivo h (obterFilhoEsquerdo h i (v : Int)) x v
                fuel).1.length := by
            simp only [comprimento_definirPai, comprimento_definirFilhoEsquerdo]
          have hbal := balancearAposInclusao_limites w2
            (by rw [hlen2]; exact lt_of_lt_of_le hi hlen1)
          refine ⟨hbal.1, ?_, ?_⟩
          · rw [hbal.2.1, hlen2]
            exact hlen1
          · rw [hbal.2.1]
            exact lt_of_lt_of_le hbal.2.2 (by rw [hlen2])
        · split
          · have hrec := ih h (obterFilhoDireito h i (v : Int)) w
              (fun j hj => (obterFilhos_limites w.1 hi _).2 j hj)
              (Or.inr (Nat.lt_of_le_of_lt (Nat.zero_le i) hi))
            obtain ⟨w1, hlen1, hid1⟩ := hrec
            have w2 := (w1.poeDir i (fun j hj => (Option.some_inj.mp hj) ▸
              hid1)).poePai (incluirRecursivo h (obterFilhoDireito h i (v : Int))
                x v fuel).2 (some i)
            have hlen2 : (definirPai (definirFilhoDireito
                (incluirRecursivo h (obterFilhoDireito h i (v : Int)) x v
                  fuel).1 i (some (incluirRecursivo h (obterFilhoDireito h i
                  (v : Int)) x v fuel).2) v) (incluirRecursivo h
                    (obterFilhoDireito h i (v : Int)) x v fuel).2 (some i)
                  v).length
                = (incluirRecursivo h (obterFilhoDireito h i (v : Int)) x v
                  fuel).1.length := by
              simp only [comprimento_definirPai, comprimento_definirFilhoDireito]
            have hbal := balancearAposInclusao_limites w2
              (by rw [hlen2]; exact lt_of_lt_of_le hi hlen1)
            refine ⟨hbal.1, ?_, ?_⟩
            · rw [hbal.2.1, hlen2]
              exact hlen1
            · rw [hbal.2.1]
              exact lt_of_lt_of_le hbal.2.2 (by rw [hlen2])
          · exact ⟨w, le_rfl, hi⟩

theorem balancearAposRemocao_limites {v : Nat} {h : Heap}
    (no : Option NodeId) (w : WFH v h) :
    WFH v (balancearAposRemocao h no v).1 ∧
    (balancearAposRemocao h no v).1.length = h.length ∧
    (balancearAposRemocao h no v).2 = no := by
  cases no with
  | none => exact ⟨w, rfl, rfl⟩
  | some i =>
    simp only [balancearAposRemocao, corrigirViolacoesRemocao]
    split
    · exact ⟨w.poeCor i Cor.PRETO, comprimento_definirCor _ _ _ _, rfl⟩
    · exact ⟨w, rfl, rfl⟩

theorem encontrarMinimo_limites {h : Heap} {v : Int}
    (hfech : heapFechado h = true) :
    ∀ (fuel : Nat) (no : Option NodeId),
      (∀ i, no = some i → i < h.length) →
      ∀ j, encontrarMinimo h no v fuel = some j → j < h.length := by
  intro fuel
  induction fuel with
  | zero => intro no hno j hj; exact hno j hj
  | succ fuel ih =>
    intro no hno j hj
    cases no with
    | none => simp [encontrarMinimo] at hj
    | some i =>
      have hi := hno i rfl
      simp only [encontrarMinimo] at hj
      cases hfe : obterFilhoEsquerdo h i v with
      | none =>
        rw [hfe] at hj
        dsimp only at hj
        simp only [Option.some_inj] at hj
        exact hj ▸ hi
      | some f =>
        have hf : f < h.length := (obterFilhos_limites hfech hi v).1 f hfe
        rw [hfe] at hj
        dsimp only at hj
        by_cases hat : estaAtivo h f v = true
        · rw [if_pos hat] at hj
          exact ih (some f) (fun j2 hj2 => (Option.some_inj.mp hj2) ▸ hf) j hj
        · rw [if_neg hat] at hj
          simp only [Option.some_inj] at hj
          exact hj ▸ hi

/-- The removal recursion keeps the heap well formed, keeps its length,
and returns either none or an identity inside the heap. -/
theorem removerRecursivo_limites {v : Nat} (x : Int) :
    ∀ (fuel : Nat) (h : Heap) (no : Option NodeId), WFH v h →
      (∀ i, no = some i → i < h.length) →
      WFH v (removerRecursivo h no x v fuel).1 ∧
      (removerRecursivo h no x v fuel).1.length = h.length ∧
      (∀ j, (removerRecursivo h no x v fuel).2 = some j →
        j < (removerRecursivo h no x v fuel).1.length) := by
  intro fuel
  induction fuel generalizing x with
  | zero => intro h no w hno; exact ⟨w, rfl, fun j hj => hno j hj⟩
  | succ fuel ih =>
    intro h no w hno
    cases no with
    | none => exact ⟨w, rfl, by simp [removerRecursivo]⟩
    | some i =>
      have hi : i < h.length := hno i rfl
      simp only [removerRecursivo]
      split
      · exact ⟨w, rfl, fun j hj => (Option.some_inj.mp hj) ▸ hi⟩
      · split
        · obtain ⟨w1, hlen1, hid1⟩ := ih x h
            (obterFilhoEsquerdo h i (v : Int)) w
            (fun j hj => (obterFilhos_limites w.1 hi _).1 j hj)
          have w2 := w1.poeEsq i (fun j hj => hid1 j hj)
          have w3 := @WFH.poeTalvezPai v _ (removerRecursivo h
            (obterFilhoEsquerdo h i (v : Int)) x v fuel).2 (some i) w2
          have hlen3 : (match (removerRecursivo h
              (obterFilhoEsquerdo h i (v : Int)) x v fuel).2 with
              | some f => definirPai (definirFilhoEsquerdo (removerRecursivo h
                  (obterFilhoEsquerdo h i (v : Int)) x v fuel).1 i
                  (removerRecursivo h (obterFilhoEsquerdo h i (v : Int)) x v
                    fuel).2 v) f (some i) v
              | none => definirFilhoEsquerdo (removerRecursivo h
                  (obterFilhoEsquerdo h i (v : Int)) x v fuel).1 i
                  (removerRecursivo h (obterFilhoEsquerdo h i (v : Int)) x v
                    fuel).2 v).length = h.length := by
            rw [comprimento_talvezPai, comprimento_definirFilhoEsquerdo, hlen1]
          obtain ⟨wb, hlenb, hidb⟩ := balancearAposRemocao_limites
            (some i) w3
          refine ⟨wb, by rw [hlenb, hlen3], fun j hj => ?_⟩
          rw [hidb] at hj
          rw [hlenb, hlen3]
          exact (Option.some_inj.mp hj) ▸ hi
        · split
          · obtain ⟨w1, hlen1, hid1⟩ := ih x h
              (obterFilhoDireito h i (v : Int)) w
              (fun j hj => (obterFilhos_limites w.1 hi _).2 j hj)
            have w2 := w1.poeDir i (fun j hj => hid1 j hj)
            have w3 := @WFH.poeTalvezPai v _ (removerRecursivo h
              (obterFilhoDireito h i (v : Int)) x v fuel).2 (some i) w2
            have hlen3 : (match (removerRecursivo h
                (obterFilhoDireito h i (v : Int)) x v fuel).2 with
                | some f => definirPai (definirFilhoDireito (removerRecursivo h
                    (obterFilhoDireito h i (v : Int)) x v fuel).1 i
                    (removerRecursivo h (obterFilhoDireito h i (v : Int)) x v
                      fuel).2 v) f (some i) v
                | none => definirFilhoDireito (removerRecursivo h
                    (obterFilhoDireito h i (v : Int)) x v fuel).1 i
                    (removerRecursivo h (obterFilhoDireito h i (v : Int)) x v
                      fuel).2 v).length = h.length := by
              rw [comprimento_talvezPai, comprimento_definirFilhoDireito, hlen1]
            obtain ⟨wb, hlenb, hidb⟩ := balancearAposRemocao_limites
              (some i) w3
            refine ⟨wb, by rw [hlenb, hlen3], fun j hj => ?_⟩
            rw [hidb] at hj
            rw [hlenb, hlen3]
            exact (Option.some_inj.mp hj) ▸ hi
          · cases hfe : obterFilhoEsquerdo h i (v : Int) with
            | none =>
              refine ⟨w.poeMarcado i, comprimento_marcarRemovido _ _ _,
                fun j hj => ?_⟩
              rw [comprimento_marcarRemovido]
              exact (obterFilhos_limites w.1 hi _).2 j hj
            | some fe =>
              cases hfd : obterFilhoDireito h i (v : Int) with
              | none =>
                refine ⟨w.poeMarcado i, comprimento_marcarRemovido _ _ _,
                  fun j hj => ?_⟩
                rw [comprimento_marcarRemovido]
                exact (Option.some_inj.mp hj) ▸
                  (obterFilhos_limites w.1 hi _).1 fe hfe
              | some fd =>
                have w1 := w.poeValor i (valorDe h
                  ((encontrarMinimo h (some fd) (v : Int) (h.length + 1)).getD 0))
                have hlen1 : (escreverNo h i { lerNo h i with valor := valorDe h ((encontrarMinimo h (some fd) (v : Int) (h.length + 1)).getD 0) }).length = h.length :=
                  comprimento_escreverNo _ _ _
                have hfd' : fd < h.length :=
                  (obterFilhos_limites w.1 hi _).2 fd hfd
                obtain ⟨w2, hlen2, hid2⟩ := ih _ _ (some fd) w1
                  (fun j hj => by
                    rw [hlen1]
                    exact (Option.some_inj.mp hj) ▸ hfd')
                have w3 := w2.poeDir i (fun j hj => hid2 j hj)
                refine ⟨@WFH.poeTalvezPai v _ _ (some i) w3, ?_, fun j hj => ?_⟩
                · rw [comprimento_talvezPai, comprimento_definirFilhoDireito,
                    hlen2, hlen1]
                · rw [comprimento_talvezPai, comprimento_definirFilhoDireito,
                    hlen2, hlen1]
                  exact (Option.some_inj.mp hj) ▸ hi

/-! ## Heap-level reads after single writes -/

theorem obterCor_definirCor_self {h : Heap} {i : NodeId} (c : Cor) (v : Nat)
    (hi : i < h.length) : obterCor (definirCor h i c v) i (v : Int) = c := by
  unfold obterCor definirCor
  rw [lerNo_escreverNo_self _ hi]
  exact No.obter_cor_definir_cor_self _ _ _

theorem obterCor_definirCor_outro {h : Heap} {i j : NodeId} (c : Cor) (v : Nat)
    (hij : i ≠ j) (u : Int) :
    obterCor (definirCor h i c v) j u = obterCor h j u := by
  unfold obterCor definirCor
  rw [lerNo_escreverNo_ne _ hij]

theorem obterCor_definirFilhos (h : Heap) (i : NodeId) (e d : Option NodeId)
    (v : Nat) (j : NodeId) (u : Int) :
    obterCor (definirFilhos h i e d v) j u = obterCor h j u := by
  unfold obterCor definirFilhos
  by_cases hij : i = j
  · subst hij
    by_cases hi : i < h.length
    · rw [lerNo_escreverNo_self _ hi]; rfl
    · rw [escreverNo_fora _ (le_of_not_lt hi)]
  · rw [lerNo_escreverNo_ne _ hij]

theorem obterCor_definirFilhoEsquerdo (h : Heap) (i : NodeId)
    (f : Option NodeId) (v : Nat) (j : NodeId) (u : Int) :
    obterCor (definirFilhoEsquerdo h i f v) j u = obterCor h j u := by
  unfold obterCor definirFilhoEsquerdo
  by_cases hij : i = j
  · subst hij
    by_cases hi : i < h.length
    · rw [lerNo_escreverNo_self _ hi]; rfl
    · rw [escreverNo_fora _ (le_of_not_lt hi)]
  · rw [lerNo_escreverNo_ne _ hij]

theorem obterCor_definirFilhoDireito (h : Heap) (i : NodeId)
    (f : Option NodeId) (v : Nat) (j : NodeId) (u : Int) :
    obterCor (definirFilhoDireito h i f v) j u = obterCor h j u := by
  unfold obterCor definirFilhoDireito
  by_cases hij : i = j
  · subst hij
    by_cases hi : i < h.length
    · rw [lerNo_escreverNo_self _ hi]; rfl
    · rw [escreverNo_fora _ (le_of_not_lt hi)]
  · rw [lerNo_escreverNo_ne _ hij]

theorem obterCor_definirPai (h : Heap) (i : NodeId) (p : Option NodeId)
    (v : Nat) (j : NodeId) (u : Int) :
    obterCor (definirPai h i p v) j u = obterCor h j u := by
  unfold obterCor definirPai
  by_cases hij : i = j
  · subst hij
    by_cases hi : i < h.length
    · rw [lerNo_escreverNo_self _ hi]; rfl
    · rw [escreverNo_fora _ (le_of_not_lt hi)]
  · rw [lerNo_escreverNo_ne _ hij]

theorem obterCor_marcarRemovido (h : Heap) (i : NodeId) (v : Nat)
    (j : NodeId) (u : Int) :
    obterCor (marcarRemovido h i v) j u = obterCor h j u := by
  unfold obterCor marcarRemovido
  by_cases hij : i = j
  · subst hij
    by_cases hi : i < h.length
    · rw [lerNo_escreverNo_self _ hi]; rfl
    · rw [escreverNo_fora _ (le_of_not_lt hi)]
  · rw [lerNo_escreverNo_ne _ hij]

theorem obterCor_talvezPai (h : Heap) (o : Option NodeId) (p : Option NodeId)
    (v : Nat) (j : NodeId) (u : Int) :
    obterCor (match o with
      | some f => definirPai h f p v
      | none => h) j u = obterCor h j u := by
  cases o with
  | none => rfl
  | some f => exact obterCor_definirPai h f p v j u

theorem obterFilhos_definirCor (h : Heap) (i : NodeId) (c : Cor) (v : Nat)
    (j : NodeId) (u : Int) :
    obterFilhos (definirCor h i c v) j u = obterFilhos h j u := by
  unfold obterFilhos definirCor
  by_cases hij : i = j
  · subst hij
    by_cases hi : i < h.length
    · rw [lerNo_escreverNo_self _ hi]; rfl
    · rw [escreverNo_fora _ (le_of_not_lt hi)]
  · rw [lerNo_escreverNo_ne _ hij]

theorem obterFilhos_definirPai (h : Heap) (i : NodeId) (p : Option NodeId)
    (v : Nat) (j : NodeId) (u : Int) :
    obterFilhos (definirPai h i p v) j u = obterFilhos h j u := by
  unfold obterFilhos definirPai
  by_cases hij : i = j
  · subst hij
    by_cases hi : i < h.length
    · rw [lerNo_escreverNo_self _ hi]; rfl
    · rw [escreverNo_fora _ (le_of_not_lt hi)]
  · rw [lerNo_escreverNo_ne _ hij]

theorem obterFilhos_talvezPai (h : Heap) (o : Option NodeId)
    (p : Option NodeId) (v : Nat) (j : NodeId) (u : Int) :
    obterFilhos (match o with
      | some f => definirPai h f p v
      | none => h) j u = obterFilhos h j u := by
  cases o with
  | none => rfl
  | some f => exact obterFilhos_definirPai h f p v j u

theorem obterFilhos_definirFilhos_self {h : Heap} {i : NodeId}
    (e d : Option NodeId) (v : Nat) (hi : i < h.length) :
    obterFilhos (definirFilhos h i e d v) i (v : Int) = (e, d) := by
  unfold obterFilhos definirFilhos
  rw [lerNo_escreverNo_self _ hi]
  exact No.obter_filhos_definir_filhos_self _ _ _ _

theorem obterFilhos_definirFilhos_outro {h : Heap} {i j : NodeId}
    (e d : Option NodeId) (v : Nat) (hij : i ≠ j) (u : Int) :
    obterFilhos (definirFilhos h i e d v) j u = obterFilhos h j u := by
  unfold obterFilhos definirFilhos
  rw [lerNo_escreverNo_ne _ hij]

/-! ## Python list index helpers -/

theorem lerIndice_nat_ok {l : List (Option NodeId)} {u : Nat}
    (hu : u < l.length) :
    lerIndice l (u : Int) = Except.ok (l.getD u none) := by
  unfold lerIndice
  rw [if_pos ⟨Int.ofNat_nonneg u, by exact_mod_cast hu⟩]
  simp

theorem getD_set_self {l : List (Option NodeId)} {j : Nat} (a : Option NodeId)
    (hj : j < l.length) : (l.set j a).getD j none = a := by
  rw [List.getD_eq_getElem?_getD, List.getElem?_set_eq_of_lt a hj]
  rfl

theorem raizesBoas_dest {t : ArvoreRubroNegra} (hboas : raizesBoas t = true) :
    ∀ r ∈ t.raizes, ∀ i, r = some i → i < t.heap.length := by
  unfold raizesBoas at hboas
  simp only [List.all_eq_true] at hboas
  intro r hr i hri
  subst hri
  simpa using hboas (some i) hr

theorem raizesBoas_mk {h' : Heap} {rs : List (Option NodeId)} {va : Nat}
    (hslots : ∀ r ∈ rs, ∀ i, r = some i → i < h'.length) :
    raizesBoas ⟨h', rs, va⟩ = true := by
  unfold raizesBoas
  simp only [List.all_eq_true]
  intro r hr
  cases r with
  | none => rfl
  | some i => simpa using hslots (some i) hr i rfl

theorem WFH.mono {v v' : Nat} {h : Heap} (w : WFH v h) (hle : v ≤ v') :
    WFH v' h :=
  ⟨w.1, heapLimitado_mono w.2 hle⟩

/-! ## The colors the four insertion-rebalancing cases write -/

theorem balancearLL_cores {h : Heap} {no fe g : NodeId} {versao : Nat}
    (hfeEq : obterFilhoEsquerdo h no (versao : Int) = some fe)
    (hgEq : obterFilhoEsquerdo h fe (versao : Int) = some g)
    (hno : no < h.length) (hfe : fe < h.length) (hg : g < h.length)
    (hfeno : fe ≠ no) (hfeg : fe ≠ g) (hgno : g ≠ no) :
    (balancearCasoEsquerdaEsquerda h no versao).2 = fe ∧
    obterCor (balancearCasoEsquerdaEsquerda h no versao).1 fe (versao : Int)
      = Cor.VERMELHO ∧
    obterFilhos (balancearCasoEsquerdaEsquerda h no versao).1 fe (versao : Int)
      = (some g, some no) ∧
    obterCor (balancearCasoEsquerdaEsquerda h no versao).1 g (versao : Int)
      = Cor.PRETO ∧
    obterCor (balancearCasoEsquerdaEsquerda h no versao).1 no (versao : Int)
      = Cor.PRETO := by
  simp only [balancearCasoEsquerdaEsquerda, hfeEq, hgEq, Option.getD_some]
  refine ⟨by trivial, ?_, ?_, ?_, ?_⟩
  · rw [obterCor_definirPai, obterCor_definirPai, obterCor_talvezPai,
      obterCor_definirFilhos, obterCor_definirFilhos,
      obterCor_definirCor_outro _ _ (Ne.symm hfeno),
      obterCor_definirCor_outro _ _ (Ne.symm hfeg)]
    exact obterCor_definirCor_self _ _ hfe
  · rw [obterFilhos_definirPai, obterFilhos_definirPai, obterFilhos_talvezPai,
      obterFilhos_definirFilhos_outro _ _ _ (Ne.symm hfeno)]
    refine obterFilhos_definirFilhos_self _ _ _ ?_
    rw [comprimento_definirCor, comprimento_definirCor, comprimento_definirCor]
    exact hfe
  · rw [obterCor_definirPai, obterCor_definirPai, obterCor_talvezPai,
      obterCor_definirFilhos, obterCor_definirFilhos,
      obterCor_definirCor_outro _ _ (Ne.symm hgno)]
    refine obterCor_definirCor_self _ _ ?_
    rw [comprimento_definirCor]
    exact hg
  · rw [obterCor_definirPai, obterCor_definirPai, obterCor_talvezPai,
      obterCor_definirFilhos, obterCor_definirFilhos]
    refine obterCor_definirCor_self _ _ ?_
    rw [comprimento_definirCor, comprimento_definirCor]
    exact hno

theorem balancearLR_cores {h : Heap} {no fe ng : NodeId} {versao : Nat}
    (hfeEq : obterFilhoEsquerdo h no (versao : Int) = some fe)
    (hngEq : obterFilhoDireito h fe (versao : Int) = some ng)
    (hno : no < h.length) (hfe : fe < h.length) (hng : ng < h.length)
    (hngfe : ng ≠ fe) (hngno : ng ≠ no) (hfeno : fe ≠ no) :
    (balancearCasoEsquerdaDireita h no versao).2 = ng ∧
    obterCor (balancearCasoEsquerdaDireita h no versao).1 ng (versao : Int)
      = Cor.VERMELHO ∧
    obterFilhos (balancearCasoEsquerdaDireita h no versao).1 ng (versao : Int)
      = (some fe, some no) ∧
    obterCor (balancearCasoEsquerdaDireita h no versao).1 fe (versao : Int)
      = Cor.PRETO ∧
    obterCor (balancearCasoEsquerdaDireita h no versao).1 no (versao : Int)
      = Cor.PRETO := by
  simp only [balancearCasoEsquerdaDireita, hfeEq, hngEq, Option.getD_some]
  refine ⟨by trivial, ?_, ?_, ?_, ?_⟩
  · rw [obterCor_definirPai, obterCor_definirPai, obterCor_talvezPai,
      obterCor_talvezPai, obterCor_definirFilhos, obterCor_definirFilhos,
      obterCor_definirFilhos,
      obterCor_definirCor_outro _ _ (Ne.symm hngno),
      obterCor_definirCor_outro _ _ (Ne.symm hngfe)]
    exact obterCor_definirCor_self _ _ hng
  · rw [obterFilhos_definirPai, obterFilhos_definirPai, obterFilhos_talvezPai,
      obterFilhos_talvezPai,
      obterFilhos_definirFilhos_outro _ _ _ (Ne.symm hngno),
      obterFilhos_definirFilhos_outro _ _ _ (Ne.symm hngfe)]
    refine obterFilhos_definirFilhos_self _ _ _ ?_
    rw [comprimento_definirCor, comprimento_definirCor, comprimento_definirCor]
    exact hng
  · rw [obterCor_definirPai, obterCor_definirPai, obterCor_talvezPai,
      obterCor_talvezPai, obterCor_definirFilhos, obterCor_definirFilhos,
      obterCor_definirFilhos,
      obterCor_definirCor_outro _ _ (Ne.symm hfeno)]
    refine obterCor_definirCor_self _ _ ?_
    rw [comprimento_definirCor]
    exact hfe
  · rw [obterCor_definirPai, obterCor_definirPai, obterCor_talvezPai,
      obterCor_talvezPai, obterCor_definirFilhos, obterCor_definirFilhos,
      obterCor_definirFilhos]
    refine obterCor_definirCor_self _ _ ?_
    rw [comprimento_definirCor, comprimento_definirCor]
    exact hno

theorem balancearRL_cores {h : Heap} {no fd ng : NodeId} {versao : Nat}
    (hfdEq : obterFilhoDireito h no (versao : Int) = some fd)
    (hngEq : obterFilhoEsquerdo h fd (versao : Int) = some ng)
    (hno : no < h.length) (hfd : fd < h.length) (hng : ng < h.length)
    (hngfd : ng ≠ fd) (hngno : ng ≠ no) (hfdno : fd ≠ no) :
    (balancearCasoDireitaEsquerda h no versao).2 = ng ∧
    obterCor (balancearCasoDireitaEsquerda h no versao).1 ng (versao : Int)
      = Cor.VERMELHO ∧
    obterFilhos (balancearCasoDireitaEsquerda h no versao).1 ng (versao : Int)
      = (some no, some fd) ∧
    obterCor (balancearCasoDireitaEsquerda h no versao).1 no (versao : Int)
      = Cor.PRETO ∧
    obterCor (balancearCasoDireitaEsquerda h no versao).1 fd (versao : Int)
      = Cor.PRETO := by
  simp only [balancearCasoDireitaEsquerda, hfdEq, hngEq, Option.getD_some]
  refine ⟨by trivial, ?_, ?_, ?_, ?_⟩
  · rw [obterCor_definirPai, obterCor_definirPai, obterCor_talvezPai,
      obterCor_talvezPai, obterCor_definirFilhos, obterCor_definirFilhos,
      obterCor_definirFilhos,
      obterCor_definirCor_outro _ _ (Ne.symm hngfd),
      obterCor_definirCor_outro _ _ (Ne.symm hngno)]
    exact obterCor_definirCor_self _ _ hng
  · rw [obterFilhos_definirPai, obterFilhos_definirPai, obterFilhos_talvezPai,
      obterFilhos_talvezPai,
      obterFilhos_definirFilhos_outro _ _ _ (Ne.symm hngfd),
      obterFilhos_definirFilhos_outro _ _ _ (Ne.symm hngno)]
    refine obterFilhos_definirFilhos_self _ _ _ ?_
    rw [comprimento_definirCor, comprimento_definirCor, comprimento_definirCor]
    exact hng
  · rw [obterCor_definirPai, obterCor_definirPai, obterCor_talvezPai,
      obterCor_talvezPai, obterCor_definirFilhos, obterCor_definirFilhos,
      obterCor_definirFilhos,
      obterCor_definirCor_outro _ _ hfdno]
    refine obterCor_definirCor_self _ _ ?_
    rw [comprimento_definirCor]
    exact hno
  · rw [obterCor_definirPai, obterCor_definirPai, obterCor_talvezPai,
      obterCor_talvezPai, obterCor_definirFilhos, obterCor_definirFilhos,
      obterCor_definirFilhos]
    refine obterCor_definirCor_self _ _ ?_
    rw [comprimento_definirCor, comprimento_definirCor]
    exact hfd

theorem balancearRR_cores {h : Heap} {no fd g : NodeId} {versao : Nat}
    (hfdEq : obterFilhoDireito h no (versao : Int) = some fd)
    (hgEq : obterFilhoDireito h fd (versao : Int) = some g)
    (hno : no < h.length) (hfd : fd < h.length) (hg : g < h.length)
    (hfdno : fd ≠ no) (hfdg : fd ≠ g) (hgno : g ≠ no) :
    (balancearCasoDireitaDireita h no versao).2 = fd ∧
    obterCor (balancearCasoDireitaDireita h no versao).1 fd (versao : Int)
      = Cor.VERMELHO ∧
    obterFilhos (balancearCasoDireitaDireita h no versao).1 fd (versao : Int)
      = (some no, some g) ∧
    obterCor (balancearCasoDireitaDireita h no versao).1 no (versao : Int)
      = Cor.PRETO ∧
    obterCor (balancearCasoDireitaDireita h no versao).1 g (versao : Int)
      = Cor.PRETO := by
  simp only [balancearCasoDireitaDireita, hfdEq, hgEq, Option.getD_some]
  refine ⟨by trivial, ?_, ?_, ?_, ?_⟩
  · rw [obterCor_definirPai, obterCor_definirPai, obterCor_talvezPai,
      obterCor_definirFilhos, obterCor_definirFilhos,
      obterCor_definirCor_outro _ _ (Ne.symm hfdg),
      obterCor_definirCor_outro _ _ (Ne.symm hfdno)]
    exact obterCor_definirCor_self _ _ hfd
  · rw [obterFilhos_definirPai, obterFilhos_definirPai, obterFilhos_talvezPai,
      obterFilhos_definirFilhos_outro _ _ _ (Ne.symm hfdno)]
    refine obterFilhos_definirFilhos_self _ _ _ ?_
    rw [comprimento_definirCor, comprimento_definirCor, comprimento_definirCor]
    exact hfd
  · rw [obterCor_definirPai, obterCor_definirPai, obterCor_talvezPai,
      obterCor_definirFilhos, obterCor_definirFilhos,
      obterCor_definirCor_outro _ _ hgno]
    refine obterCor_definirCor_self _ _ ?_
    rw [comprimento_definirCor]
    exact hno
  · rw [obterCor_definirPai, obterCor_definirPai, obterCor_talvezPai,
      obterCor_definirFilhos, obterCor_definirFilhos]
    refine obterCor_definirCor_self _ _ ?_
    rw [comprimento_definirCor, comprimento_definirCor]
    exact hg

/-! ## Color stability below the writing version (removal frame) -/

theorem obterCor_definirCor_abaixo {h : Heap} {i : NodeId} {c : Cor}
    {vq : Nat} (hv : 0 < vq) {j : NodeId} {u : Int} (hu : u < (vq : Int)) :
    obterCor (definirCor h i c vq) j u = obterCor h j u := by
  unfold obterCor definirCor
  by_cases hij : i = j
  · subst hij
    by_cases hi : i < h.length
    · rw [lerNo_escreverNo_self _ hi]
      exact No.obter_cor_definir_cor_lt _ _ hv hu
    · rw [escreverNo_fora _ (le_of_not_lt hi)]
  · rw [lerNo_escreverNo_ne _ hij]

theorem obterCor_escreverValor (h : Heap) (i : NodeId) (x : Int)
    (j : NodeId) (u : Int) :
    obterCor (escreverNo h i { lerNo h i with valor := x }) j u
      = obterCor h j u := by
  unfold obterCor
  by_cases hij : i = j
  · subst hij
    by_cases hi : i < h.length
    · rw [lerNo_escreverNo_self _ hi]; rfl
    · rw [escreverNo_fora _ (le_of_not_lt hi)]
  · rw [lerNo_escreverNo_ne _ hij]

theorem coresIguais_refl (vq : Nat) (h : Heap) : CoresIguais vq h h :=
  ⟨le_rfl, fun _ _ _ _ => rfl⟩

theorem CoresIguais.seguida {vq : Nat} {h₁ h₂ h₃ : Heap}
    (a : CoresIguais vq h₁ h₂) (b : CoresIguais vq h₂ h₃) :
    CoresIguais vq h₁ h₃ :=
  ⟨a.1.trans b.1, fun i hi u hu =>
    (b.2 i (lt_of_lt_of_le hi a.1) u hu).trans (a.2 i hi u hu)⟩

theorem CoresIguais.umPasso {vq : Nat} {h0 h h' : Heap}
    (base : CoresIguais vq h0 h) (hlen : h.length ≤ h'.length)
    (hcor : ∀ j u, u < (vq : Int) → obterCor h' j u = obterCor h j u) :
    CoresIguais vq h0 h' :=
  ⟨base.1.trans hlen, fun i hi u hu =>
    (hcor i u hu).trans (base.2 i hi u hu)⟩

theorem CoresIguais.comCor {vq : Nat} {h0 h : Heap} (i : NodeId) (c : Cor)
    (hv : 0 < vq) (base : CoresIguais vq h0 h) :
    CoresIguais vq h0 (definirCor h i c vq) :=
  base.umPasso (comprimento_definirCor h i c vq).ge
    (fun _ _ hu => obterCor_definirCor_abaixo hv hu)

theorem CoresIguais.comEsq {vq : Nat} {h0 h : Heap} (i : NodeId)
    (f : Option NodeId) (v : Nat) (base : CoresIguais vq h0 h) :
    CoresIguais vq h0 (definirFilhoEsquerdo h i f v) :=
  base.umPasso (comprimento_definirFilhoEsquerdo h i f v).ge
    (fun j u _ => obterCor_definirFilhoEsquerdo h i f v j u)

theorem CoresIguais.comDir {vq : Nat} {h0 h : Heap} (i : NodeId)
    (f : Option NodeId) (v : Nat) (base : CoresIguais vq h0 h) :
    CoresIguais vq h0 (definirFilhoDireito h i f v) :=
  base.umPasso (comprimento_definirFilhoDireito h i f v).ge
    (fun j u _ => obterCor_definirFilhoDireito h i f v j u)

theorem CoresIguais.comPai {vq : Nat} {h0 h : Heap} (i : NodeId)
    (p : Option NodeId) (v : Nat) (base : CoresIguais vq h0 h) :
    CoresIguais vq h0 (definirPai h i p v) :=
  base.umPasso (comprimento_definirPai h i p v).ge
    (fun j u _ => obterCor_definirPai h i p v j u)

theorem CoresIguais.comTalvezPai {vq : Nat} {h0 h : Heap} (o : Option NodeId)
    (p : Option NodeId) (v : Nat) (base : CoresIguais vq h0 h) :
    CoresIguais vq h0
      (match o with
       | some x => definirPai h x p v
       | none => h) := by
  cases o with
  | none => exact base
  | some x => exact base.comPai x p v

theorem CoresIguais.comMarcado {vq : Nat} {h0 h : Heap} (i : NodeId) (v : Nat)
    (base : CoresIguais vq h0 h) :
    CoresIguais vq h0 (marcarRemovido h i v) :=
  base.umPasso (comprimento_marcarRemovido h i v).ge
    (fun j u _ => obterCor_marcarRemovido h i v j u)

theorem CoresIguais.comValor {vq : Nat} {h0 h : Heap} (i : NodeId)
    (x : Int) (base : CoresIguais vq h0 h) :
    CoresIguais vq h0 (escreverNo h i { lerNo h i with valor := x }) :=
  base.umPasso (comprimento_escreverNo h i _).ge
    (fun j u _ => obterCor_escreverValor h i x j u)

theorem CoresIguais.balRemocao {vq : Nat} {h0 h : Heap} (no : Option NodeId)
    (hv : 0 < vq) (base : CoresIguais vq h0 h) :
    CoresIguais vq h0 (balancearAposRemocao h no vq).1 := by
  cases no with
  | none => exact base
  | some i =>
    simp only [balancearAposRemocao, corrigirViolacoesRemocao]
    split
    · exact base.comCor i Cor.PRETO hv
    · exact base

theorem coresIguais_removerRecursivo {vq : Nat} (x : Int) (hv : 0 < vq) :
    ∀ (fuel : Nat) (h : Heap) (no : Option NodeId),
      CoresIguais vq h (removerRecursivo h no x vq fuel).1 := by
  intro fuel
  induction fuel generalizing x with
  | zero => intro h no; exact coresIguais_refl vq h
  | succ fuel ih =>
    intro h no
    cases no with
    | none => exact coresIguais_refl vq h
    | some i =>
      simp only [removerRecursivo]
      split
      · exact coresIguais_refl vq h
      · split
        · exact (((ih x h (obterFilhoEsquerdo h i (vq : Int))).comEsq i _ vq).comTalvezPai
            _ (some i) vq).balRemocao (some i) hv
        · split
          · exact (((ih x h (obterFilhoDireito h i (vq : Int))).comDir i _ vq).comTalvezPai
              _ (some i) vq).balRemocao (some i) hv
          · cases hfe : obterFilhoEsquerdo h i (vq : Int) with
            | none => exact (coresIguais_refl vq h).comMarcado i vq
            | some fe =>
              cases hfd : obterFilhoDireito h i (vq : Int) with
              | none => exact (coresIguais_refl vq h).comMarcado i vq
              | some fd =>
                exact ((((coresIguais_refl vq h).comValor i _).seguida
                  (ih _ _ (some fd))).comDir i _ vq).comTalvezPai _ (some i) vq

/-! ## The reachable-state invariant (claim C6) -/

theorem getD_mem_de_lt {l : List (Option NodeId)} {n : Nat}
    (hn : n < l.length) : l.getD n none ∈ l := by
  rw [List.getD_eq_getElem?_getD]
  cases hg : l[n]? with
  | none =>
    rw [List.getElem?_eq_getElem hn] at hg
    exact absurd hg (by simp)
  | some a =>
    simp only [Option.getD_some]
    exact mem_de_getElem hg

theorem invariante_nova : Invariante arvoreNova := by
  refine ⟨by decide, by decide, ⟨by decide, by decide⟩, by decide, ?_⟩
  intro u hu i hler
  have hu0 : u = 0 := Nat.le_zero.mp hu
  subst hu0
  have hval : lerIndice arvoreNova.raizes ((0 : Nat) : Int)
      = Except.ok none := rfl
  rw [hval] at hler
  simp at hler

theorem invariante_incluir {t : ArvoreRubroNegra} (x : Int)
    (inv : Invariante t) : Invariante (incluir t x).1 := by
  obtain ⟨hlen, hva, hwf, hboas, hpretas⟩ := inv
  have hvalen : t.versao_atual < t.raizes.length := by rw [hlen]; exact hva
  have hlerval : lerIndice t.raizes (t.versao_atual : Int)
      = Except.ok (t.raizes.getD t.versao_atual none) := lerIndice_nat_ok hvalen
  unfold incluir
  cases hler : lerIndice t.raizes (t.versao_atual : Int) with
  | error e =>
    rw [hlerval] at hler
    exact absurd hler (by simp)
  | ok raizAtual =>
    rw [hlerval] at hler
    have hraizAtual : t.raizes.getD t.versao_atual none = raizAtual := by
      injection hler
    subst hraizAtual
    have hroot : ∀ j, t.raizes.getD t.versao_atual none = some j →
        j < t.heap.length :=
      fun j hj => raizesBoas_dest hboas _ (getD_mem_de_lt hvalen) j hj
    obtain ⟨hwfr, hlenr, hrootlt⟩ := incluirRecursivo_limites x
      (combustivel t.heap) t.heap (t.raizes.getD t.versao_atual none) hwf hroot
      (Or.inl (Nat.succ_pos _))
    have obs : ObsIguais (t.versao_atual + 1) t.heap
        (definirCor (incluirRecursivo t.heap
            (t.raizes.getD t.versao_atual none) x (t.versao_atual + 1)
            (combustivel t.heap)).1
          (incluirRecursivo t.heap (t.raizes.getD t.versao_atual none) x
            (t.versao_atual + 1) (combustivel t.heap)).2 Cor.PRETO
          (t.versao_atual + 1)) :=
      (obsIguais_incluirRecursivo x (Nat.succ_pos _) _ t.heap _).maisCor _ _
        (Nat.succ_pos _)
    have hwfd : WFH (t.versao_atual + 1)
        (definirCor (incluirRecursivo t.heap
            (t.raizes.getD t.versao_atual none) x (t.versao_atual + 1)
            (combustivel t.heap)).1
          (incluirRecursivo t.heap (t.raizes.getD t.versao_atual none) x
            (t.versao_atual + 1) (combustivel t.heap)).2 Cor.PRETO
          (t.versao_atual + 1)) :=
      hwfr.poeCor _ Cor.PRETO
    have hlend : (definirCor (incluirRecursivo t.heap
            (t.raizes.getD t.versao_atual none) x (t.versao_atual + 1)
            (combustivel t.heap)).1
          (incluirRecursivo t.heap (t.raizes.getD t.versao_atual none) x
            (t.versao_atual + 1) (combustivel t.heap)).2 Cor.PRETO
          (t.versao_atual + 1)).length
        = (incluirRecursivo t.heap (t.raizes.getD t.versao_atual none) x
            (t.versao_atual + 1) (combustivel t.heap)).1.length :=
      comprimento_definirCor _ _ _ _
    cases hesc : escreverIndice t.raizes (t.versao_atual + 1)
        (some (incluirRecursivo t.heap (t.raizes.getD t.versao_atual none) x
          (t.versao_atual + 1) (combustivel t.heap)).2) with
    | ok rs =>
      dsimp only
      rw [hesc]
      dsimp only
      unfold escreverIndice at hesc
      by_cases hlt : t.versao_atual + 1 < t.raizes.length
      · rw [if_pos hlt] at hesc
        have hrs : t.raizes.set (t.versao_atual + 1)
            (some (incluirRecursivo t.heap (t.raizes.getD t.versao_atual none)
              x (t.versao_atual + 1) (combustivel t.heap)).2) = rs := by
          injection hesc
        refine ⟨?_, ?_, ?_, ?_, ?_⟩
        · show rs.length = 100
          rw [← hrs, List.length_set]
          exact hlen
        · show t.versao_atual + 1 < 100
          rw [← hlen]
          exact hlt
        · exact hwfd.mono (Nat.le_succ _)
        · refine raizesBoas_mk ?_
          intro r hr j hj
          rw [← hrs] at hr
          rcases List.mem_or_eq_of_mem_set hr with hmem | heq
          · exact lt_of_lt_of_le (raizesBoas_dest hboas r hmem j hj)
              (hlenr.trans hlend.ge)
          · rw [heq] at hj
            have : (incluirRecursivo t.heap
                (t.raizes.getD t.versao_atual none) x (t.versao_atual + 1)
                (combustivel t.heap)).2 = j := by injection hj
            rw [← this, hlend]
            exact hrootlt
        · intro u hu i hler3
          rcases Nat.lt_or_ge u (t.versao_atual + 1) with hu2 | hu2
          · have hne : lerIndice rs (u : Int)
                = lerIndice t.raizes (u : Int) := by
              rw [← hrs]
              exact lerIndice_set_ne _ (by positivity) (by simp; omega)
            rw [hne] at hler3
            have hi := raizesBoas_lerIndice hboas hler3
            have hobs := (obs.2 i hi).2 (u : Int) (by exact_mod_cast hu2)
            rw [hobs.2.1]
            exact hpretas u (Nat.lt_succ_iff.mp hu2) i hler3
          · have hu3 : u = t.versao_atual + 1 := le_antisymm hu hu2
            subst hu3
            have hlerrs : lerIndice rs ((t.versao_atual + 1 : Nat) : Int)
                = Except.ok (rs.getD (t.versao_atual + 1) none) :=
              lerIndice_nat_ok (by rw [← hrs, List.length_set]; exact hlt)
            rw [hlerrs] at hler3
            have hgetD : rs.getD (t.versao_atual + 1) none
                = some (incluirRecursivo t.heap
                    (t.raizes.getD t.versao_atual none) x (t.versao_atual + 1)
                    (combustivel t.heap)).2 := by
              rw [← hrs]
              exact getD_set_self _ hlt
            rw [hgetD] at hler3
            have h4 : some (incluirRecursivo t.heap
                (t.raizes.getD t.versao_atual none) x (t.versao_atual + 1)
                (combustivel t.heap)).2 = some i := by injection hler3
            have h5 : (incluirRecursivo t.heap
                (t.raizes.getD t.versao_atual none) x (t.versao_atual + 1)
                (combustivel t.heap)).2 = i := by injection h4
            rw [← h5]
            exact obterCor_definirCor_self _ _ hrootlt
      · rw [if_neg hlt] at hesc
        exact absurd hesc (by simp)
    | error e =>
      dsimp only
      rw [hesc]
      dsimp only
      refine ⟨hlen, hva, hwfd, ?_, ?_⟩
      · refine raizesBoas_mk ?_
        intro r hr j hj
        exact lt_of_lt_of_le (raizesBoas_dest hboas r hr j hj)
          (hlenr.trans hlend.ge)
      · intro u hu i hler3
        have hi := raizesBoas_lerIndice hboas hler3
        have hobs := (obs.2 i hi).2 (u : Int)
          (by exact_mod_cast Nat.lt_succ_of_le hu)
        rw [hobs.2.1]
        exact hpretas u hu i hler3

theorem invariante_remover {t : ArvoreRubroNegra} (x : Int)
    (inv : Invariante t) : Invariante (remover t x).1 := by
  obtain ⟨hlen, hva, hwf, hboas, hpretas⟩ := inv
  have hvalen : t.versao_atual < t.raizes.length := by rw [hlen]; exact hva
  have hlerval : lerIndice t.raizes (t.versao_atual : Int)
      = Except.ok (t.raizes.getD t.versao_atual none) := lerIndice_nat_ok hvalen
  unfold remover
  cases hler : lerIndice t.raizes (t.versao_atual : Int) with
  | error e =>
    rw [hlerval] at hler
    exact absurd hler (by simp)
  | ok raizAtual =>
    rw [hlerval] at hler
    have hraizAtual : t.raizes.getD t.versao_atual none = raizAtual := by
      injection hler
    subst hraizAtual
    have hroot : ∀ j, t.raizes.getD t.versao_atual none = some j →
        j < t.heap.length :=
      fun j hj => raizesBoas_dest hboas _ (getD_mem_de_lt hvalen) j hj
    obtain ⟨hwfr, hlenr, hid⟩ := removerRecursivo_limites x
      (combustivel t.heap) t.heap (t.raizes.getD t.versao_atual none) hwf hroot
    have cores : CoresIguais (t.versao_atual + 1) t.heap
        (removerRecursivo t.heap (t.raizes.getD t.versao_atual none) x
          (t.versao_atual + 1) (combustivel t.heap)).1 :=
      coresIguais_removerRecursivo x (Nat.succ_pos _) _ t.heap _
    have hwfd : WFH (t.versao_atual + 1)
        (match (removerRecursivo t.heap (t.raizes.getD t.versao_atual none) x
            (t.versao_atual + 1) (combustivel t.heap)).2 with
          | some i => definirCor (removerRecursivo t.heap
              (t.raizes.getD t.versao_atual none) x (t.versao_atual + 1)
              (combustivel t.heap)).1 i Cor.PRETO (t.versao_atual + 1)
          | none => (removerRecursivo t.heap
              (t.raizes.getD t.versao_atual none) x (t.versao_atual + 1)
              (combustivel t.heap)).1) := by
      cases (removerRecursivo t.heap (t.raizes.getD t.versao_atual none) x
          (t.versao_atual + 1) (combustivel t.heap)).2 with
      | none => exact hwfr
      | some i => exact hwfr.poeCor i Cor.PRETO
    have hlend : (match (removerRecursivo t.heap
            (t.raizes.getD t.versao_atual none) x (t.versao_atual + 1)
            (combustivel t.heap)).2 with
          | some i => definirCor (removerRecursivo t.heap
              (t.raizes.getD t.versao_atual none) x (t.versao_atual + 1)
              (combustivel t.heap)).1 i Cor.PRETO (t.versao_atual + 1)
          | none => (removerRecursivo t.heap
              (t.raizes.getD t.versao_atual none) x (t.versao_atual + 1)
              (combustivel t.heap)).1).length
        = (removerRecursivo t.heap (t.raizes.getD t.versao_atual none) x
            (t.versao_atual + 1) (combustivel t.heap)).1.length := by
      cases (removerRecursivo t.heap (t.raizes.getD t.versao_atual none) x
          (t.versao_atual + 1) (combustivel t.heap)).2 with
      | none => rfl
      | some i => exact comprimento_definirCor _ _ _ _
    have cores2 : CoresIguais (t.versao_atual + 1) t.heap
        (match (removerRecursivo t.heap (t.raizes.getD t.versao_atual none) x
            (t.versao_atual + 1) (combustivel t.heap)).2 with
          | some i => definirCor (removerRecursivo t.heap
              (t.raizes.getD t.versao_atual none) x (t.versao_atual + 1)
              (combustivel t.heap)).1 i Cor.PRETO (t.versao_atual + 1)
          | none => (removerRecursivo t.heap
              (t.raizes.getD t.versao_atual none) x (t.versao_atual + 1)
              (combustivel t.heap)).1) := by
      cases (removerRecursivo t.heap (t.raizes.getD t.versao_atual none) x
          (t.versao_atual + 1) (combustivel t.heap)).2 with
      | none => exact cores
      | some i => exact cores.comCor i Cor.PRETO (Nat.succ_pos _)
    cases hesc : escreverIndice t.raizes (t.versao_atual + 1)
        (removerRecursivo t.heap (t.raizes.getD t.versao_atual none) x
          (t.versao_atual + 1) (combustivel t.heap)).2 with
    | ok rs =>
      dsimp only
      rw [hesc]
      dsimp only
      unfold escreverIndice at hesc
      by_cases hlt : t.versao_atual + 1 < t.raizes.length
      · rw [if_pos hlt] at hesc
        have hrs : t.raizes.set (t.versao_atual + 1)
            (removerRecursivo t.heap (t.raizes.getD t.versao_atual none) x
              (t.versao_atual + 1) (combustivel t.heap)).2 = rs := by
          injection hesc
        refine ⟨?_, ?_, ?_, ?_, ?_⟩
        · show rs.length = 100
          rw [← hrs, List.length_set]
          exact hlen
        · show t.versao_atual + 1 < 100
          rw [← hlen]
          exact hlt
        · exact hwfd.mono (Nat.le_succ _)
        · refine raizesBoas_mk ?_
          intro r hr j hj
          rw [← hrs] at hr
          rcases List.mem_or_eq_of_mem_set hr with hmem | heq
          · exact lt_of_lt_of_le (raizesBoas_dest hboas r hmem j hj)
              (le_of_eq (hlenr.symm.trans hlend.symm))
          · rw [heq] at hj
            rw [hlend]
            exact hid j hj
        · intro u hu i hler3
          rcases Nat.lt_or_ge u (t.versao_atual + 1) with hu2 | hu2
          · have hne : lerIndice rs (u : Int)
                = lerIndice t.raizes (u : Int) := by
              rw [← hrs]
              exact lerIndice_set_ne _ (by positivity) (by simp; omega)
            rw [hne] at hler3
            have hi := raizesBoas_lerIndice hboas hler3
            rw [cores2.2 i hi (u : Int) (by exact_mod_cast hu2)]
            exact hpretas u (Nat.lt_succ_iff.mp hu2) i hler3
          · have hu3 : u = t.versao_atual + 1 := le_antisymm hu hu2
            subst hu3
            have hlerrs : lerIndice rs ((t.versao_atual + 1 : Nat) : Int)
                = Except.ok (rs.getD (t.versao_atual + 1) none) :=
              lerIndice_nat_ok (by rw [← hrs, List.length_set]; exact hlt)
            rw [hlerrs] at hler3
            have hgetD : rs.getD (t.versao_atual + 1) none
                = (removerRecursivo t.heap
                    (t.raizes.getD t.versao_atual none) x (t.versao_atual + 1)
                    (combustivel t.heap)).2 := by
              rw [← hrs]
              exact getD_set_self _ hlt
            rw [hgetD] at hler3
            have hres : (removerRecursivo t.heap
                (t.raizes.getD t.versao_atual none) x (t.versao_atual + 1)
                (combustivel t.heap)).2 = some i := by injection hler3
            rw [hres]
            dsimp only
            exact obterCor_definirCor_self _ _ (hid i hres)
      · rw [if_neg hlt] at hesc
        exact absurd hesc (by simp)
    | error e =>
      dsimp only
      rw [hesc]
      dsimp only
      refine ⟨hlen, hva, hwfd, ?_, ?_⟩
      · refine raizesBoas_mk ?_
        intro r hr j hj
        exact lt_of_lt_of_le (raizesBoas_dest hboas r hr j hj)
          (le_of_eq (hlenr.symm.trans hlend.symm))
      · intro u hu i hler3
        have hi := raizesBoas_lerIndice hboas hler3
        rw [cores2.2 i hi (u : Int)
          (by exact_mod_cast Nat.lt_succ_of_le hu)]
        exact hpretas u hu i hler3

theorem invariante_passo (t : ArvoreRubroNegra) (op : Operacao)
    (inv : Invariante t) : Invariante (processarOperacao t op).1 := by
  cases op with
  | INC v =>
    have hEq : (processarOperacao t (Operacao.INC v)).1 = (incluir t v).1 := by
      unfold processarOperacao
      dsimp only
      cases (incluir t v).2 <;> rfl
    rw [hEq]
    exact invariante_incluir v inv
  | REM v =>
    have hEq : (processarOperacao t (Operacao.REM v)).1 = (remover t v).1 := by
      unfold processarOperacao
      dsimp only
      cases (remover t v).2 <;> rfl
    rw [hEq]
    exact invariante_remover v inv
  | SUC v k =>
    have hEq : (processarOperacao t (Operacao.SUC v k)).1 = t := by
      unfold processarOperacao
      dsimp only
      cases buscarSucessor t v (some k) <;> rfl
    rw [hEq]
    exact inv
  | IMP k =>
    have hEq : (processarOperacao t (Operacao.IMP k)).1 = t := by
      unfold processarOperacao
      dsimp only
      cases imprimirArvore t (some k) <;> rfl
    rw [hEq]
    exact inv

theorem invariante_linhas (ops : List Operacao) :
    ∀ t : ArvoreRubroNegra, Invariante t →
      Invariante (processarLinhas t ops).1 := by
  induction ops with
  | nil => intro t inv; exact inv
  | cons op resto ih =>
    intro t inv
    exact ih _ (invariante_passo t op inv)

theorem invariante_executar (ops : List Operacao) :
    Invariante (executar ops) :=
  invariante_linhas ops arvoreNova invariante_nova

/-! ## Pure successor search over sorted keys (claim C4) -/

theorem menorAcima_cons_pos {x k : Int} (hk : k < x) (l : List Int) :
    menorAcima (x :: l) k = match menorAcima l k with
      | none => some x
      | some m => some (min x m) := by
  unfold menorAcima
  rw [List.filter_cons_of_pos (by simpa using hk)]
  rfl

theorem menorAcima_cons_neg {x k : Int} (hk : ¬k < x) (l : List Int) :
    menorAcima (x :: l) k = menorAcima l k := by
  unfold menorAcima
  rw [List.filter_cons_of_neg (by simpa using hk)]

theorem menorAcima_mem : ∀ {l : List Int} {k m : Int},
    menorAcima l k = some m → m ∈ l ∧ k < m := by
  intro l
  induction l with
  | nil => intro k m h; exact absurd h (by simp [menorAcima])
  | cons x xs ih =>
    intro k m h
    by_cases hk : k < x
    · rw [menorAcima_cons_pos hk] at h
      cases hml : menorAcima xs k with
      | none =>
        rw [hml] at h
        have hx : x = m := by injection h
        subst hx
        exact ⟨by simp, hk⟩
      | some m2 =>
        rw [hml] at h
        have hmem := ih hml
        have h2 : min x m2 = m := by injection h
        rcases le_total x m2 with hle | hle
        · rw [min_eq_left hle] at h2
          subst h2
          exact ⟨by simp, hk⟩
        · rw [min_eq_right hle] at h2
          subst h2
          exact ⟨List.mem_cons_of_mem _ hmem.1, hmem.2⟩
    · rw [menorAcima_cons_neg hk] at h
      have hmem := ih h
      exact ⟨List.mem_cons_of_mem _ hmem.1, hmem.2⟩

theorem menorAcima_nenhum {l : List Int} {k : Int} (h : ∀ y ∈ l, ¬k < y) :
    menorAcima l k = none := by
  induction l with
  | nil => rfl
  | cons x xs ih =>
    rw [menorAcima_cons_neg (h x (by simp))]
    exact ih (fun y hy => h y (by simp [hy]))

theorem menorAcima_append (xs ys : List Int) (k : Int) :
    menorAcima (xs ++ ys) k
      = match menorAcima xs k, menorAcima ys k with
        | none, o => o
        | some m, none => some m
        | some m, some m2 => some (min m m2) := by
  induction xs with
  | nil =>
    show menorAcima ys k = _
    rw [show menorAcima ([] : List Int) k = none from rfl]
  | cons x xs ih =>
    by_cases hk : k < x
    · rw [List.cons_append, menorAcima_cons_pos hk, menorAcima_cons_pos hk, ih]
      cases menorAcima xs k <;> cases menorAcima ys k <;>
        simp [min_assoc]
    · rw [List.cons_append, menorAcima_cons_neg hk, menorAcima_cons_neg hk, ih]

/-- On a tree whose in-order keys are strictly sorted, the successor loop
computes exactly the least key above the bound (with the accumulator as
fallback). -/
theorem buscaPura_ordenada : ∀ (t : ArvoreBin),
    List.Pairwise (· < ·) t.emOrdem → ∀ (k : Int) (acc : Option Int),
      buscaPura t k acc = match menorAcima t.emOrdem k with
        | some m => some m
        | none => acc := by
  intro t
  induction t with
  | folha => intro _ k acc; rfl
  | nodo c x l r ihl ihr =>
    intro hsorted k acc
    have hparts := List.pairwise_append.mp
      (by simpa [ArvoreBin.emOrdem] using hsorted)
    obtain ⟨hl, hxr, hcross⟩ := hparts
    have hxb : ∀ b ∈ r.emOrdem, x < b := (List.pairwise_cons.mp hxr).1
    have hr := (List.pairwise_cons.mp hxr).2
    have hlx : ∀ a ∈ l.emOrdem, a < x := fun a ha => hcross a ha x (by simp)
    simp only [ArvoreBin.emOrdem, buscaPura]
    by_cases hk : x > k
    · rw [if_pos hk, ihl hl k (some x), menorAcima_append,
        menorAcima_cons_pos hk]
      cases hml : menorAcima l.emOrdem k with
      | none =>
        cases hmr : menorAcima r.emOrdem k with
        | none => rfl
        | some mr =>
          have hxmr : x < mr := hxb mr (menorAcima_mem hmr).1
          simp [min_eq_left (le_of_lt hxmr)]
      | some ml =>
        have hmlx : ml < x := hlx ml (menorAcima_mem hml).1
        cases hmr : menorAcima r.emOrdem k with
        | none => simp [min_eq_left (le_of_lt hmlx)]
        | some mr =>
          have hxmr : x < mr := hxb mr (menorAcima_mem hmr).1
          simp [min_eq_left (le_of_lt hxmr), min_eq_left (le_of_lt hmlx)]
    · rw [if_neg hk, ihr hr k acc, menorAcima_append, menorAcima_cons_neg hk,
        menorAcima_nenhum (fun y hy => not_lt.mpr
          (le_of_lt (lt_of_lt_of_le (hlx y hy) (le_of_not_lt hk))))]

/-! ## The round trip insert-then-remove on small trees (claim C7) -/

set_option maxRecDepth 8000
set_option maxHeartbeats 2000000

theorem incluir_na_vazia (k : Int) : incluir arvoreNova k
    = ({ heap := [⟨k, 1, [(1, Cor.PRETO), (1, Cor.VERMELHO)],
          [(1, (none, none))], [(1, none)], none⟩],
         raizes := (List.replicate 100 (none : Option NodeId)).set 1 (some 0),
         versao_atual := 1 }, none) := rfl

theorem remover_apos_incluir_na_vazia (k : Int) :
    remover (incluir arvoreNova k).1 k
    = ({ heap := [⟨k, 1, [(1, Cor.PRETO), (1, Cor.VERMELHO)],
          [(1, (none, none))], [(1, none)], some 2⟩],
         raizes := ((List.replicate 100 (none : Option NodeId)).set 1
           (some 0)).set 2 none,
         versao_atual := 2 }, none) := by
  rw [incluir_na_vazia]
  simp +decide [remover, removerRecursivo, lerIndice, escreverIndice,
    combustivel, estaAtivo, lerNo, No.esta_ativo, valorDe,
    obterFilhoEsquerdo, obterFilhoDireito, No.obter_filho_esquerdo,
    No.obter_filho_direito, No.obter_filhos, obterVersaoValida, lerHistorico,
    List.filter, List.foldr, List.lookup, Option.getD,
    marcarRemovido, escreverNo, No.remover_no]

/-! ## Red-red freedom after insertion-only histories (claim C5) -/

theorem topoSemVV_de_sem {t : ArvoreBin} (h : semVermelhoP t = true) :
    topoSemVV t = true := by
  cases t with
  | folha => rfl
  | nodo c x l r =>
    cases c with
    | PRETO => rfl
    | VERMELHO =>
      simp only [semVermelhoP, Bool.and_eq_true] at h
      simp only [topoSemVV, Bool.and_eq_true]
      exact h.1.1

theorem balP_id {l r : ArvoreBin} (hl : topoSemVV l = true)
    (hr : topoSemVV r = true) (c : Cor) (y : Int) :
    balP (ArvoreBin.nodo c y l r) = ArvoreBin.nodo c y l r := by
  unfold balP
  split
  · rename_i x lx llx a b lr r' heq
    injection heq with h1 h2 h3 h4
    subst h3 h4
    simp [topoSemVV, ehVermelhoP] at hl
  · rename_i x lx ll lrx m n r' heq
    injection heq with h1 h2 h3 h4
    subst h3 h4
    simp [topoSemVV, ehVermelhoP] at hl
  · rename_i x l' rx rlx m n rr heq
    injection heq with h1 h2 h3 h4
    subst h3 h4
    simp [topoSemVV, ehVermelhoP] at hr
  · rename_i x l' rx rl rrx m n heq
    injection heq with h1 h2 h3 h4
    subst h3 h4
    simp [topoSemVV, ehVermelhoP] at hr
  · rfl

theorem semVermelhoP_nodo {c : Cor} {x : Int} {l r : ArvoreBin} :
    semVermelhoP (ArvoreBin.nodo c x l r) = true ↔
    ((c = Cor.VERMELHO → ehVermelhoP l = false ∧ ehVermelhoP r = false) ∧
      semVermelhoP l = true ∧ semVermelhoP r = true) := by
  cases c <;> simp [semVermelhoP, ehVermelhoP, and_assoc]

theorem semVermelhoP_quase {t : ArvoreBin} (h : semVermelhoP t = true) :
    quaseSemVermelhoP t = true := by
  cases t with
  | folha => rfl
  | nodo c x l r =>
    rcases semVermelhoP_nodo.mp h with ⟨_, hl, hr⟩
    simp [quaseSemVermelhoP, hl, hr]

theorem semVermelhoP_de_quase_topo {t : ArvoreBin}
    (hq : quaseSemVermelhoP t = true) (ht : topoSemVV t = true) :
    semVermelhoP t = true := by
  cases t with
  | folha => rfl
  | nodo c x l r =>
    simp only [quaseSemVermelhoP, Bool.and_eq_true] at hq
    refine semVermelhoP_nodo.mpr ⟨?_, hq.1, hq.2⟩
    intro hc
    subst hc
    simp only [topoSemVV, Bool.and_eq_true, Bool.not_eq_true'] at ht
    exact ht

theorem vermelho_forma {t : ArvoreBin} (h : ehVermelhoP t = true) :
    ∃ x l r, t = ArvoreBin.nodo Cor.VERMELHO x l r := by
  cases t with
  | folha => simp [ehVermelhoP] at h
  | nodo c x l r =>
    cases c with
    | VERMELHO => exact ⟨x, l, r, rfl⟩
    | PRETO => simp [ehVermelhoP] at h

theorem balP_arm1 (c : Cor) (y lx ax : Int) (al ar b r : ArvoreBin) :
    balP (ArvoreBin.nodo c y
        (ArvoreBin.nodo Cor.VERMELHO lx (ArvoreBin.nodo Cor.VERMELHO ax al ar) b) r)
      = ArvoreBin.nodo Cor.VERMELHO lx (ArvoreBin.nodo Cor.PRETO ax al ar)
          (ArvoreBin.nodo Cor.PRETO y b r) := by
  unfold balP
  split
  · rename_i heq
    injection heq with h1 h2 h3 h4
    injection h3 with h5 h6 h7 h8
    injection h7 with h9 h10 h11 h12
    subst h2 h4 h6 h8 h10 h11 h12
    rfl
  · rename_i hno heq
    injection heq with h1 h2 h3 h4
    injection h3 with h5 h6 h7 h8
    exact (hno _ _ _ h7.symm).elim
  · rename_i hno1 hno2 heq
    injection heq with h1 h2 h3 h4
    exact (hno1 _ _ _ _ _ h3.symm).elim
  · rename_i hno1 hno2 hno3 heq
    injection heq with h1 h2 h3 h4
    exact (hno1 _ _ _ _ _ h3.symm).elim
  · rename_i hno1 hno2 hno3 hno4
    exact (hno1 _ _ _ _ _ _ _ _ rfl).elim

theorem balP_arm2 {a : ArvoreBin} (ha : ehVermelhoP a = false) (c : Cor)
    (y lx bx : Int) (bl br r : ArvoreBin) :
    balP (ArvoreBin.nodo c y
        (ArvoreBin.nodo Cor.VERMELHO lx a (ArvoreBin.nodo Cor.VERMELHO bx bl br)) r)
      = ArvoreBin.nodo Cor.VERMELHO bx (ArvoreBin.nodo Cor.PRETO lx a bl)
          (ArvoreBin.nodo Cor.PRETO y br r) := by
  unfold balP
  split
  · rename_i heq
    injection heq with h1 h2 h3 h4
    injection h3 with h5 h6 h7 h8
    rw [h7] at ha
    simp [ehVermelhoP] at ha
  · rename_i hno heq
    injection heq with h1 h2 h3 h4
    injection h3 with h5 h6 h7 h8
    injection h8 with h9 h10 h11 h12
    subst h2 h4 h6 h7 h10 h11 h12
    rfl
  · rename_i hno1 hno2 heq
    injection heq with h1 h2 h3 h4
    exact (hno2 _ _ _ _ _ h3.symm).elim
  · rename_i hno1 hno2 hno3 heq
    injection heq with h1 h2 h3 h4
    exact (hno2 _ _ _ _ _ h3.symm).elim
  · rename_i hno1 hno2 hno3 hno4
    exact (hno2 _ _ _ _ _ _ _ _ rfl).elim

theorem balP_arm3 {l : ArvoreBin} (hl : topoSemVV l = true) (c : Cor)
    (y rx mx : Int) (ml mr n : ArvoreBin) :
    balP (ArvoreBin.nodo c y l
        (ArvoreBin.nodo Cor.VERMELHO rx (ArvoreBin.nodo Cor.VERMELHO mx ml mr) n))
      = ArvoreBin.nodo Cor.VERMELHO mx (ArvoreBin.nodo Cor.PRETO y l ml)
          (ArvoreBin.nodo Cor.PRETO rx mr n) := by
  unfold balP
  split
  · rename_i heq
    injection heq with h1 h2 h3 h4
    rw [h3] at hl
    simp [topoSemVV, ehVermelhoP] at hl
  · rename_i hno heq
    injection heq with h1 h2 h3 h4
    rw [h3] at hl
    simp [topoSemVV, ehVermelhoP] at hl
  · rename_i hno1 hno2 heq
    injection heq with h1 h2 h3 h4
    injection h4 with h5 h6 h7 h8
    injection h7 with h9 h10 h11 h12
    subst h2 h3 h6 h8 h10 h11 h12
    rfl
  · rename_i hno1 hno2 hno3 heq
    injection heq with h1 h2 h3 h4
    injection h4 with h5 h6 h7 h8
    exact (hno3 _ _ _ h7.symm).elim
  · rename_i hno1 hno2 hno3 hno4
    exact (hno3 _ _ _ _ _ _ _ _ rfl).elim

theorem balP_arm4 {l rl : ArvoreBin} (hl : topoSemVV l = true)
    (hrl : ehVermelhoP rl = false) (c : Cor) (y rx gx : Int) (m n : ArvoreBin) :
    balP (ArvoreBin.nodo c y l
        (ArvoreBin.nodo Cor.VERMELHO rx rl (ArvoreBin.nodo Cor.VERMELHO gx m n)))
      = ArvoreBin.nodo Cor.VERMELHO rx (ArvoreBin.nodo Cor.PRETO y l rl)
          (ArvoreBin.nodo Cor.PRETO gx m n) := by
  unfold balP
  split
  · rename_i heq
    injection heq with h1 h2 h3 h4
    rw [h3] at hl
    simp [topoSemVV, ehVermelhoP] at hl
  · rename_i hno heq
    injection heq with h1 h2 h3 h4
    rw [h3] at hl
    simp [topoSemVV, ehVermelhoP] at hl
  · rename_i hno1 hno2 heq
    injection heq with h1 h2 h3 h4
    injection h4 with h5 h6 h7 h8
    rw [h7] at hrl
    simp [ehVermelhoP] at hrl
  · rename_i hno1 hno2 hno3 heq
    injection heq with h1 h2 h3 h4
    injection h4 with h5 h6 h7 h8
    injection h8 with h9 h10 h11 h12
    subst h2 h3 h6 h7 h10 h11 h12
    rfl
  · rename_i hno1 hno2 hno3 hno4
    exact (hno4 _ _ _ _ _ _ _ _ rfl).elim

theorem balP_preto_esq {L r : ArvoreBin} (hq : quaseSemVermelhoP L = true)
    (hr : semVermelhoP r = true) (y : Int) :
    semVermelhoP (balP (ArvoreBin.nodo Cor.PRETO y L r)) = true := by
  by_cases ht : topoSemVV L = true
  · rw [balP_id ht (topoSemVV_de_sem hr)]
    exact semVermelhoP_nodo.mpr ⟨fun h => absurd h (by decide),
      semVermelhoP_de_quase_topo hq ht, hr⟩
  · rcases L with _ | ⟨lc, lx, a, b⟩
    · exact absurd rfl ht
    cases lc with
    | PRETO => exact absurd rfl ht
    | VERMELHO =>
      simp only [quaseSemVermelhoP, Bool.and_eq_true] at hq
      obtain ⟨hqa, hqb⟩ := hq
      by_cases hva : ehVermelhoP a = true
      · obtain ⟨ax, al, ar, rfl⟩ := vermelho_forma hva
        rw [balP_arm1]
        rcases semVermelhoP_nodo.mp hqa with ⟨hared, hal, har⟩
        obtain ⟨ha1, ha2⟩ := hared rfl
        refine semVermelhoP_nodo.mpr ⟨fun _ => ⟨by simp [ehVermelhoP], by simp [ehVermelhoP]⟩, ?_, ?_⟩
        · exact semVermelhoP_nodo.mpr ⟨fun h => absurd h (by decide), hal, har⟩
        · exact semVermelhoP_nodo.mpr ⟨fun h => absurd h (by decide), hqb, hr⟩
      · have hva' : ehVermelhoP a = false := by
          revert hva; cases ehVermelhoP a <;> simp
        have hvb : ehVermelhoP b = true := by
          revert ht hva'
          simp [topoSemVV]
        obtain ⟨bx, bl, br, rfl⟩ := vermelho_forma hvb
        rw [balP_arm2 hva']
        rcases semVermelhoP_nodo.mp hqb with ⟨hbred, hbl, hbr⟩
        obtain ⟨hb1, hb2⟩ := hbred rfl
        refine semVermelhoP_nodo.mpr ⟨fun _ => ⟨by simp [ehVermelhoP], by simp [ehVermelhoP]⟩, ?_, ?_⟩
        · exact semVermelhoP_nodo.mpr ⟨fun h => absurd h (by decide), hqa, hbl⟩
        · exact semVermelhoP_nodo.mpr ⟨fun h => absurd h (by decide), hbr, hr⟩

theorem balP_preto_dir {l R : ArvoreBin} (hl : semVermelhoP l = true)
    (hq : quaseSemVermelhoP R = true) (y : Int) :
    semVermelhoP (balP (ArvoreBin.nodo Cor.PRETO y l R)) = true := by
  by_cases ht : topoSemVV R = true
  · rw [balP_id (topoSemVV_de_sem hl) ht]
    exact semVermelhoP_nodo.mpr ⟨fun h => absurd h (by decide), hl,
      semVermelhoP_de_quase_topo hq ht⟩
  · rcases R with _ | ⟨rc, rx, m, n⟩
    · exact absurd rfl ht
    cases rc with
    | PRETO => exact absurd rfl ht
    | VERMELHO =>
      simp only [quaseSemVermelhoP, Bool.and_eq_true] at hq
      obtain ⟨hqm, hqn⟩ := hq
      by_cases hvm : ehVermelhoP m = true
      · obtain ⟨mx, ml, mr, rfl⟩ := vermelho_forma hvm
        rw [balP_arm3 (topoSemVV_de_sem hl)]
        rcases semVermelhoP_nodo.mp hqm with ⟨hmred, hml, hmr⟩
        obtain ⟨hm1, hm2⟩ := hmred rfl
        refine semVermelhoP_nodo.mpr ⟨fun _ => ⟨by simp [ehVermelhoP], by simp [ehVermelhoP]⟩, ?_, ?_⟩
        · exact semVermelhoP_nodo.mpr ⟨fun h => absurd h (by decide), hl, hml⟩
        · exact semVermelhoP_nodo.mpr ⟨fun h => absurd h (by decide), hmr, hqn⟩
      · have hvm' : ehVermelhoP m = false := by
          revert hvm; cases ehVermelhoP m <;> simp
        have hvn : ehVermelhoP n = true := by
          revert ht hvm'
          simp [topoSemVV]
        obtain ⟨nx, nl, nr, rfl⟩ := vermelho_forma hvn
        rw [balP_arm4 (topoSemVV_de_sem hl) hvm']
        rcases semVermelhoP_nodo.mp hqn with ⟨hnred, hnl, hnr⟩
        obtain ⟨hn1, hn2⟩ := hnred rfl
        refine semVermelhoP_nodo.mpr ⟨fun _ => ⟨by simp [ehVermelhoP], by simp [ehVermelhoP]⟩, ?_, ?_⟩
        · exact semVermelhoP_nodo.mpr ⟨fun h => absurd h (by decide), hl, hqm⟩
        · exact semVermelhoP_nodo.mpr ⟨fun h => absurd h (by decide), hnl, hnr⟩

theorem insereP_preserva (x : Int) : ∀ t : ArvoreBin, semVermelhoP t = true →
    quaseSemVermelhoP (insereP x t) = true ∧
    (ehVermelhoP t = false → semVermelhoP (insereP x t) = true) := by
  intro t
  induction t with
  | folha => exact fun _ => ⟨rfl, fun _ => rfl⟩
  | nodo c y l r ihl ihr =>
    intro hclean
    rcases semVermelhoP_nodo.mp hclean with ⟨hcred, hl, hr⟩
    by_cases hxy : x < y
    · rw [show insereP x (ArvoreBin.nodo c y l r)
          = balP (ArvoreBin.nodo c y (insereP x l) r) from by
        simp [insereP, hxy]]
      cases c with
      | PRETO =>
        have h1 := balP_preto_esq (ihl hl).1 hr y
        exact ⟨semVermelhoP_quase h1, fun _ => h1⟩
      | VERMELHO =>
        have hins : semVermelhoP (insereP x l) = true := (ihl hl).2 (hcred rfl).1
        rw [balP_id (topoSemVV_de_sem hins) (topoSemVV_de_sem hr)]
        refine ⟨by simp [quaseSemVermelhoP, hins, hr], fun hf => by simp [ehVermelhoP] at hf⟩
    · by_cases hyx : y < x
      · rw [show insereP x (ArvoreBin.nodo c y l r)
            = balP (ArvoreBin.nodo c y l (insereP x r)) from by
          simp [insereP, hxy, hyx]]
        cases c with
        | PRETO =>
          have h1 := balP_preto_dir hl (ihr hr).1 y
          exact ⟨semVermelhoP_quase h1, fun _ => h1⟩
        | VERMELHO =>
          have hins : semVermelhoP (insereP x r) = true := (ihr hr).2 (hcred rfl).2
          rw [balP_id (topoSemVV_de_sem hl) (topoSemVV_de_sem hins)]
          refine ⟨by simp [quaseSemVermelhoP, hl, hins], fun hf => by simp [ehVermelhoP] at hf⟩
      · rw [show insereP x (ArvoreBin.nodo c y l r) = ArvoreBin.nodo c y l r from by
          simp [insereP, hxy, hyx]]
        exact ⟨semVermelhoP_quase hclean, fun _ => hclean⟩

theorem insereP_raiz_preta (x : Int) (t : ArvoreBin)
    (h : semVermelhoP t = true) :
    semVermelhoP (pretaRaiz (insereP x t)) = true := by
  have hq := (insereP_preserva x t h).1
  cases hins : insereP x t with
  | folha => rfl
  | nodo c y a b =>
    rw [hins] at hq
    simp only [quaseSemVermelhoP, Bool.and_eq_true] at hq
    show semVermelhoP (ArvoreBin.nodo Cor.PRETO y a b) = true
    exact semVermelhoP_nodo.mpr ⟨fun hh => absurd hh (by decide), hq.1, hq.2⟩

theorem obterFilhoEsquerdo_fst (h : Heap) (i : NodeId) (v : Int) :
    obterFilhoEsquerdo h i v = (obterFilhos h i v).1 := rfl

theorem obterFilhoDireito_snd (h : Heap) (i : NodeId) (v : Int) :
    obterFilhoDireito h i v = (obterFilhos h i v).2 := rfl

theorem ids_nodo (i : NodeId) (c : Cor) (x : Int) (l r : ArvoreIds) :
    (ArvoreIds.nodo i c x l r).ids = l.ids ++ i :: r.ids := rfl

theorem snapIds_passo (h : Heap) (no : Option NodeId) (v : Int) (f : Nat) :
    snapIds h no v (f + 1) =
      match no with
      | none => some ArvoreIds.folha
      | some i =>
        if estaAtivo h i v then
          match snapIds h (obterFilhoEsquerdo h i v) v f,
              snapIds h (obterFilhoDireito h i v) v f with
          | some l, some r =>
            some (ArvoreIds.nodo i (obterCor h i v) (valorDe h i) l r)
          | _, _ => none
        else some ArvoreIds.folha := rfl

theorem snapIds_raiz {h : Heap} {v : Int} {f : Nat} {p : Option NodeId}
    {s : ArvoreIds} (ha : TodosAtivos h v) (hs : snapIds h p v f = some s) :
    p = raizI s := by
  cases f with
  | zero => simp [snapIds] at hs
  | succ f =>
    cases p with
    | none => rw [snapIds_none_eq hs]; rfl
    | some i =>
      obtain ⟨sl, sr, _, _, rfl⟩ := snapIds_some_inv hs (ha i)
      rfl

theorem snapIds_igual_em {h h' : Heap} {v : Int}
    (ha : TodosAtivos h v) (ha' : TodosAtivos h' v) :
    ∀ {f : Nat} {no : Option NodeId} {s : ArvoreIds},
      snapIds h no v f = some s →
      (∀ j ∈ s.ids, obterCor h' j v = obterCor h j v ∧
        valorDe h' j = valorDe h j ∧ obterFilhos h' j v = obterFilhos h j v) →
      snapIds h' no v f = some s := by
  intro f
  induction f with
  | zero => intro no s hs _; simp [snapIds] at hs
  | succ f ih =>
    intro no s hs hr
    cases no with
    | none => rw [snapIds_none_eq hs]; simp [snapIds]
    | some i =>
      obtain ⟨sl, sr, hl, hrr, rfl⟩ := snapIds_some_inv hs (ha i)
      have hmem : i ∈ (ArvoreIds.nodo i (obterCor h i v) (valorDe h i) sl sr).ids := by
        simp [ids_nodo]
      obtain ⟨hcor, hval, hfil⟩ := hr i hmem
      have hesq : obterFilhoEsquerdo h' i v = obterFilhoEsquerdo h i v := by
        rw [obterFilhoEsquerdo_fst, obterFilhoEsquerdo_fst, hfil]
      have hdir : obterFilhoDireito h' i v = obterFilhoDireito h i v := by
        rw [obterFilhoDireito_snd, obterFilhoDireito_snd, hfil]
      have hl' := ih hl (fun j hj => hr j (by simp [ids_nodo, hj]))
      have hr' := ih hrr (fun j hj => hr j (by simp [ids_nodo, hj]))
      simp only [snapIds, ha' i, if_true, hesq, hdir, hl', hr', hcor, hval]

theorem snap_ids_lt {h : Heap} {v : Int} (hfech : heapFechado h = true) :
    ∀ {f : Nat} {no : Option NodeId} {s : ArvoreIds},
      (∀ j, no = some j → j < h.length) →
      snapIds h no v f = some s →
      ∀ j ∈ s.ids, j < h.length := by
  intro f
  induction f with
  | zero => intro no s _ hs; simp [snapIds] at hs
  | succ f ih =>
    intro no s hno hs
    cases no with
    | none => rw [snapIds_none_eq hs]; intro j hj; simp [ArvoreIds.ids] at hj
    | some i =>
      by_cases hat : estaAtivo h i v = true
      · obtain ⟨sl, sr, hl, hrr, rfl⟩ := snapIds_some_inv hs hat
        have hi : i < h.length := hno i rfl
        have hb := obterFilhos_limites hfech hi v
        intro j hj
        simp only [ids_nodo, List.mem_append, List.mem_cons] at hj
        rcases hj with hj | hj | hj
        · exact ih (fun k hk => hb.1 k hk) hl j hj
        · exact hj ▸ hi
        · exact ih (fun k hk => hb.2 k hk) hrr j hj
      · have : s = ArvoreIds.folha :=
          snapIds_morto hs (by revert hat; cases estaAtivo h i v <;> simp)
        subst this
        intro j hj
        simp [ArvoreIds.ids] at hj

theorem altura_le_ids : ∀ s : ArvoreIds, s.altura ≤ s.ids.length := by
  intro s
  induction s with
  | folha => simp [ArvoreIds.altura]
  | nodo i c x l r ihl ihr =>
    simp only [ArvoreIds.altura, ids_nodo, List.length_append, List.length_cons]
    omega

theorem snapIds_exact {h : Heap} {v : Int} :
    ∀ {f : Nat} {no : Option NodeId} {s : ArvoreIds},
      snapIds h no v f = some s →
      snapIds h no v (s.altura + 1) = some s := by
  intro f
  induction f with
  | zero => intro no s hs; simp [snapIds] at hs
  | succ f ih =>
    intro no s hs
    cases no with
    | none => rw [snapIds_none_eq hs]; simp [snapIds]
    | some i =>
      by_cases hat : estaAtivo h i v = true
      · obtain ⟨sl, sr, hl, hrr, rfl⟩ := snapIds_some_inv hs hat
        have hmax : (ArvoreIds.nodo i (obterCor h i v) (valorDe h i) sl sr).altura
            = max sl.altura sr.altura + 1 := rfl
        have hl2 := snapIds_mono (ih hl)
          (show sl.altura + 1 ≤ max sl.altura sr.altura + 1 from by omega)
        have hr2 := snapIds_mono (ih hrr)
          (show sr.altura + 1 ≤ max sl.altura sr.altura + 1 from by omega)
        rw [hmax, snapIds_passo]
        simp only [hat, if_true, hl2, hr2]
      · have hfo : s = ArvoreIds.folha :=
          snapIds_morto hs (by revert hat; cases estaAtivo h i v <;> simp)
        subst hfo
        simp only [snapIds, ArvoreIds.altura]
        have hat' : estaAtivo h i v = false := by
          revert hat; cases estaAtivo h i v <;> simp
        simp [hat']

theorem ehVermelho_snap {h : Heap} {v : Int} {f : Nat} {p : Option NodeId}
    {s : ArvoreIds} (ha : TodosAtivos h v) (hs : snapIds h p v f = some s) :
    ehVermelho h p v = ehVermelhoP s.apaga := by
  cases f with
  | zero => simp [snapIds] at hs
  | succ f =>
    cases p with
    | none => rw [snapIds_none_eq hs]; rfl
    | some i =>
      obtain ⟨sl, sr, _, _, rfl⟩ := snapIds_some_inv hs (ha i)
      simp only [ehVermelho, ArvoreIds.apaga]
      cases hcor : obterCor h i v <;> simp [ehVermelhoP]

theorem semVV_sse {h : Heap} {v : Int} :
    semVermelhoVermelho h v = true ↔
    ∀ i, i < h.length → estaAtivo h i v = true → obterCor h i v = Cor.VERMELHO →
      (∀ j, obterFilhoEsquerdo h i v = some j →
        estaAtivo h j v = true → obterCor h j v = Cor.PRETO) ∧
      (∀ j, obterFilhoDireito h i v = some j →
        estaAtivo h j v = true → obterCor h j v = Cor.PRETO) := by
  unfold semVermelhoVermelho
  rw [List.all_eq_true]
  constructor
  · intro H i hi hat hred
    have hcl := H i (List.mem_range.mpr hi)
    simp only [hat, hred, decide_True, Bool.and_self, Bool.not_true,
      Bool.false_or, Bool.and_eq_true] at hcl
    constructor
    · intro j hj hja
      have h1 := hcl.1
      rw [hj] at h1
      simp only [hja, Bool.true_and, Bool.not_eq_true', decide_eq_false_iff_not] at h1
      cases hc : obterCor h j v
      · exact absurd hc h1
      · rfl
    · intro j hj hja
      have h2 := hcl.2
      rw [hj] at h2
      simp only [hja, Bool.true_and, Bool.not_eq_true', decide_eq_false_iff_not] at h2
      cases hc : obterCor h j v
      · exact absurd hc h2
      · rfl
  · intro H i hi
    have hi' := List.mem_range.mp hi
    by_cases hat : estaAtivo h i v = true
    · by_cases hred : obterCor h i v = Cor.VERMELHO
      · have hcl := H i hi' hat hred
        rw [Bool.or_eq_true]
        right
        rw [Bool.and_eq_true]
        constructor
        · cases hfe : obterFilhoEsquerdo h i v with
          | none => rfl
          | some j =>
            by_cases hja : estaAtivo h j v = true
            · simp [hja, hcl.1 j hfe hja]
            · simp [show estaAtivo h j v = false from by
                revert hja; cases estaAtivo h j v <;> simp]
        · cases hfd : obterFilhoDireito h i v with
          | none => rfl
          | some j =>
            by_cases hja : estaAtivo h j v = true
            · simp [hja, hcl.2 j hfd hja]
            · simp [show estaAtivo h j v = false from by
                revert hja; cases estaAtivo h j v <;> simp]
      · simp [show obterCor h i v ≠ Cor.VERMELHO from hred]
    · simp [show estaAtivo h i v = false from by
        revert hat; cases estaAtivo h i v <;> simp]

theorem snap_cor_raiz {h : Heap} {v : Int} {f : Nat} {j : NodeId} {s : ArvoreIds}
    (hs : snapIds h (some j) v f = some s) (hat : estaAtivo h j v = true) :
    ehVermelhoP s.apaga = decide (obterCor h j v = Cor.VERMELHO) := by
  cases f with
  | zero => simp [snapIds] at hs
  | succ f =>
    obtain ⟨sl, sr, _, _, rfl⟩ := snapIds_some_inv hs hat
    simp only [ArvoreIds.apaga]
    cases hc : obterCor h j v <;> simp [ehVermelhoP]

theorem snap_clausula {h : Heap} {v : Int} :
    ∀ {f : Nat} {p : Option NodeId} {s : ArvoreIds},
      snapIds h p v f = some s →
      semVermelhoP s.apaga = true →
      ∀ i ∈ s.ids, obterCor h i v = Cor.VERMELHO →
        (∀ j, obterFilhoEsquerdo h i v = some j → estaAtivo h j v = true →
          obterCor h j v = Cor.PRETO) ∧
        (∀ j, obterFilhoDireito h i v = some j → estaAtivo h j v = true →
          obterCor h j v = Cor.PRETO) := by
  intro f
  induction f with
  | zero => intro p s hs _ i hi _; simp [snapIds] at hs
  | succ f ih =>
    intro p s hs hsem i hi hired
    cases p with
    | none =>
      rw [snapIds_none_eq hs] at hi
      simp [ArvoreIds.ids] at hi
    | some k =>
      by_cases hat : estaAtivo h k v = true
      · obtain ⟨sl, sr, hl, hr, rfl⟩ := snapIds_some_inv hs hat
        simp only [ArvoreIds.apaga] at hsem
        rcases semVermelhoP_nodo.mp hsem with ⟨hred, hsl, hsr⟩
        simp only [ids_nodo, List.mem_append, List.mem_cons] at hi
        rcases hi with hi | hi | hi
        · exact ih hl hsl i hi hired
        · subst hi
          have hnr := hred hired
          constructor
          · intro j hj hja
            rw [hj] at hl
            have := snap_cor_raiz hl hja
            rw [hnr.1] at this
            cases hc : obterCor h j v
            · rw [hc] at this; simp at this
            · rfl
          · intro j hj hja
            rw [hj] at hr
            have := snap_cor_raiz hr hja
            rw [hnr.2] at this
            cases hc : obterCor h j v
            · rw [hc] at this; simp at this
            · rfl
        · exact ih hr hsr i hi hired
      · have hfo : _ = ArvoreIds.folha :=
          snapIds_morto hs (by revert hat; cases estaAtivo h k v <;> simp)
        rw [hfo] at hi
        simp [ArvoreIds.ids] at hi

theorem semVV_de_snap {h : Heap} {v : Int} {f : Nat} {p : Option NodeId}
    {s : ArvoreIds} (hs : snapIds h p v f = some s)
    (hsem : semVermelhoP s.apaga = true)
    (hcov : ∀ i, i < h.length → estaAtivo h i v = true → i ∈ s.ids) :
    semVermelhoVermelho h v = true := by
  rw [semVV_sse]
  intro i hi hat hred
  exact snap_clausula hs hsem i (hcov i hi hat) hred

theorem semVV_quadro {vq : Nat} {h h' : Heap} (obs : ObsIguais vq h h')
    (hfech : heapFechado h = true)
    (hnovos : ∀ j, h.length ≤ j → j < h'.length →
      vq ≤ (lerNo h' j).versao_criacao)
    {u : Int} (hu : u < (vq : Int))
    (hsem : semVermelhoVermelho h u = true) :
    semVermelhoVermelho h' u = true := by
  rw [semVV_sse] at hsem ⊢
  intro i hi hat hred
  by_cases hiv : i < h.length
  · obtain ⟨hval, hobs⟩ := obs.2 i hiv
    obtain ⟨hativo, hcor, hfil, hpai⟩ := hobs u hu
    have hfe : obterFilhoEsquerdo h' i u = obterFilhoEsquerdo h i u := by
      rw [obterFilhoEsquerdo_fst, obterFilhoEsquerdo_fst, hfil]
    have hfd : obterFilhoDireito h' i u = obterFilhoDireito h i u := by
      rw [obterFilhoDireito_snd, obterFilhoDireito_snd, hfil]
    have hcl := hsem i hiv (by rw [← hativo]; exact hat) (by rw [← hcor]; exact hred)
    have hlim := obterFilhos_limites hfech hiv u
    constructor
    · intro j hj hja
      rw [hfe] at hj
      have hjlt : j < h.length := hlim.1 j hj
      obtain ⟨_, hobsj⟩ := obs.2 j hjlt
      obtain ⟨hativoj, hcorj, _, _⟩ := hobsj u hu
      rw [hcorj]
      exact hcl.1 j hj (by rw [← hativoj]; exact hja)
    · intro j hj hja
      rw [hfd] at hj
      have hjlt : j < h.length := hlim.2 j hj
      obtain ⟨_, hobsj⟩ := obs.2 j hjlt
      obtain ⟨hativoj, hcorj, _, _⟩ := hobsj u hu
      rw [hcorj]
      exact hcl.2 j hj (by rw [← hativoj]; exact hja)
  · exfalso
    have hcri := hnovos i (le_of_not_lt hiv) hi
    unfold estaAtivo No.esta_ativo at hat
    simp only [Bool.and_eq_true, decide_eq_true_eq] at hat
    have : ((lerNo h' i).versao_criacao : Int) ≤ u := hat.1
    have hvq : (vq : Int) ≤ ((lerNo h' i).versao_criacao : Int) := by
      exact_mod_cast hcri
    omega

theorem mesmaVida_refl (h : Heap) : MesmaVida h h :=
  fun _ => ⟨rfl, rfl, rfl⟩

theorem MesmaVida.encadeia {h₁ h₂ h₃ : Heap} (a : MesmaVida h₁ h₂)
    (b : MesmaVida h₂ h₃) : MesmaVida h₁ h₃ := by
  intro j
  obtain ⟨a1, a2, a3⟩ := a j
  obtain ⟨b1, b2, b3⟩ := b j
  exact ⟨b1.trans a1, b2.trans a2, b3.trans a3⟩

theorem vida_escreverNo {h : Heap} {i : NodeId} {n : No}
    (hc : n.versao_criacao = (lerNo h i).versao_criacao)
    (hr : n.versao_remocao = (lerNo h i).versao_remocao)
    (hv : n.valor = (lerNo h i).valor) :
    MesmaVida h (escreverNo h i n) := by
  intro j
  by_cases hij : i = j
  · subst hij
    by_cases hi : i < h.length
    · rw [lerNo_escreverNo_self n hi]
      exact ⟨hc, hr, hv⟩
    · rw [escreverNo_fora n (le_of_not_lt hi)]
      exact ⟨rfl, rfl, rfl⟩
  · rw [lerNo_escreverNo_ne n hij]
    exact ⟨rfl, rfl, rfl⟩

theorem MesmaVida.poisCor {h0 h : Heap} (i : NodeId) (c : Cor) (v : Nat)
    (base : MesmaVida h0 h) : MesmaVida h0 (definirCor h i c v) :=
  base.encadeia (vida_escreverNo rfl rfl rfl)

theorem MesmaVida.poisEsq {h0 h : Heap} (i : NodeId) (f : Option NodeId)
    (v : Nat) (base : MesmaVida h0 h) :
    MesmaVida h0 (definirFilhoEsquerdo h i f v) :=
  base.encadeia (vida_escreverNo rfl rfl rfl)

theorem MesmaVida.poisDir {h0 h : Heap} (i : NodeId) (f : Option NodeId)
    (v : Nat) (base : MesmaVida h0 h) :
    MesmaVida h0 (definirFilhoDireito h i f v) :=
  base.encadeia (vida_escreverNo rfl rfl rfl)

theorem MesmaVida.poisFilhos {h0 h : Heap} (i : NodeId) (e d : Option NodeId)
    (v : Nat) (base : MesmaVida h0 h) : MesmaVida h0 (definirFilhos h i e d v) :=
  base.encadeia (vida_escreverNo rfl rfl rfl)

theorem MesmaVida.poisPai {h0 h : Heap} (i : NodeId) (p : Option NodeId)
    (v : Nat) (base : MesmaVida h0 h) : MesmaVida h0 (definirPai h i p v) :=
  base.encadeia (vida_escreverNo rfl rfl rfl)

theorem MesmaVida.poisTalvezPai {h0 h : Heap} (o : Option NodeId)
    (p : Option NodeId) (v : Nat) (base : MesmaVida h0 h) :
    MesmaVida h0
      (match o with
       | some x => definirPai h x p v
       | none => h) := by
  cases o with
  | none => exact base
  | some x => exact base.poisPai x p v

theorem vida_balancearLL (h : Heap) (no : NodeId) (v : Nat) :
    MesmaVida h (balancearCasoEsquerdaEsquerda h no v).1 := by
  simp only [balancearCasoEsquerdaEsquerda]
  exact ((((((((mesmaVida_refl h).poisCor _ _ _).poisCor _ _ _).poisCor _ _
    _).poisFilhos _ _ _ _).poisFilhos _ _ _ _).poisTalvezPai _ _ _).poisPai _ _
    _).poisPai _ _ _

theorem vida_balancearLR (h : Heap) (no : NodeId) (v : Nat) :
    MesmaVida h (balancearCasoEsquerdaDireita h no v).1 := by
  simp only [balancearCasoEsquerdaDireita]
  exact ((((((((((mesmaVida_refl h).poisCor _ _ _).poisCor _ _ _).poisCor _ _
    _).poisFilhos _ _ _ _).poisFilhos _ _ _ _).poisFilhos _ _ _ _).poisTalvezPai _ _
    _).poisTalvezPai _ _ _).poisPai _ _ _).poisPai _ _ _

theorem vida_balancearRL (h : Heap) (no : NodeId) (v : Nat) :
    MesmaVida h (balancearCasoDireitaEsquerda h no v).1 := by
  simp only [balancearCasoDireitaEsquerda]
  exact ((((((((((mesmaVida_refl h).poisCor _ _ _).poisCor _ _ _).poisCor _ _
    _).poisFilhos _ _ _ _).poisFilhos _ _ _ _).poisFilhos _ _ _ _).poisTalvezPai _ _
    _).poisTalvezPai _ _ _).poisPai _ _ _).poisPai _ _ _

theorem vida_balancearRR (h : Heap) (no : NodeId) (v : Nat) :
    MesmaVida h (balancearCasoDireitaDireita h no v).1 := by
  simp only [balancearCasoDireitaDireita]
  exact ((((((((mesmaVida_refl h).poisCor _ _ _).poisCor _ _ _).poisCor _ _
    _).poisFilhos _ _ _ _).poisFilhos _ _ _ _).poisTalvezPai _ _ _).poisPai _ _
    _).poisPai _ _ _

theorem vida_balancearChecaDireita (h : Heap) (no : NodeId) (v : Nat) :
    MesmaVida h (balancearChecaDireita h no v).1 := by
  simp only [balancearChecaDireita]
  split
  · split
    · exact vida_balancearRL h no v
    · split
      · exact vida_balancearRR h no v
      · exact mesmaVida_refl h
  · exact mesmaVida_refl h

theorem vida_balancearApos (h : Heap) (no : NodeId) (v : Nat) :
    MesmaVida h (balancearAposInclusao h no v).1 := by
  simp only [balancearAposInclusao]
  split
  · split
    · exact vida_balancearLL h no v
    · split
      · exact vida_balancearLR h no v
      · exact vida_balancearChecaDireita h no v
  · exact vida_balancearChecaDireita h no v

theorem comprimento_balancearLL (h : Heap) (no : NodeId) (v : Nat) :
    (balancearCasoEsquerdaEsquerda h no v).1.length = h.length := by
  simp only [balancearCasoEsquerdaEsquerda, comprimento_definirPai,
    comprimento_talvezPai, comprimento_definirFilhos, comprimento_definirCor]

theorem comprimento_balancearLR (h : Heap) (no : NodeId) (v : Nat) :
    (balancearCasoEsquerdaDireita h no v).1.length = h.length := by
  simp only [balancearCasoEsquerdaDireita, comprimento_definirPai,
    comprimento_talvezPai, comprimento_definirFilhos, comprimento_definirCor]

theorem comprimento_balancearRL (h : Heap) (no : NodeId) (v : Nat) :
    (balancearCasoDireitaEsquerda h no v).1.length = h.length := by
  simp only [balancearCasoDireitaEsquerda, comprimento_definirPai,
    comprimento_talvezPai, comprimento_definirFilhos, comprimento_definirCor]

theorem comprimento_balancearRR (h : Heap) (no : NodeId) (v : Nat) :
    (balancearCasoDireitaDireita h no v).1.length = h.length := by
  simp only [balancearCasoDireitaDireita, comprimento_definirPai,
    comprimento_talvezPai, comprimento_definirFilhos, comprimento_definirCor]

theorem comprimento_balancearChecaDireita (h : Heap) (no : NodeId) (v : Nat) :
    (balancearChecaDireita h no v).1.length = h.length := by
  simp only [balancearChecaDireita]
  split
  · split
    · exact comprimento_balancearRL h no v
    · split
      · exact comprimento_balancearRR h no v
      · rfl
  · rfl

theorem comprimento_balancearApos (h : Heap) (no : NodeId) (v : Nat) :
    (balancearAposInclusao h no v).1.length = h.length := by
  simp only [balancearAposInclusao]
  split
  · split
    · exact comprimento_balancearLL h no v
    · split
      · exact comprimento_balancearLR h no v
      · exact comprimento_balancearChecaDireita h no v
  · exact comprimento_balancearChecaDireita h no v

theorem estaAtivo_de_vida {h h' : Heap} {j : NodeId}
    (hc : (lerNo h' j).versao_criacao = (lerNo h j).versao_criacao)
    (hr : (lerNo h' j).versao_remocao = (lerNo h j).versao_remocao)
    (u : Int) : estaAtivo h' j u = estaAtivo h j u := by
  unfold estaAtivo No.esta_ativo
  rw [hc, hr]

theorem vida_incluirRecursivo (x : Int) (vq : Nat) :
    ∀ (fuel : Nat) (h : Heap) (no : Option NodeId),
      (∀ j, j < h.length →
        (lerNo (incluirRecursivo h no x vq fuel).1 j).versao_criacao
          = (lerNo h j).versao_criacao ∧
        (lerNo (incluirRecursivo h no x vq fuel).1 j).versao_remocao
          = (lerNo h j).versao_remocao ∧
        (lerNo (incluirRecursivo h no x vq fuel).1 j).valor
          = (lerNo h j).valor) ∧
      (∀ j, h.length ≤ j → j < (incluirRecursivo h no x vq fuel).1.length →
        (lerNo (incluirRecursivo h no x vq fuel).1 j).versao_criacao = vq ∧
        (lerNo (incluirRecursivo h no x vq fuel).1 j).versao_remocao = none) := by
  intro fuel
  induction fuel with
  | zero =>
    intro h no
    exact ⟨fun j _ => ⟨rfl, rfl, rfl⟩,
      fun j hj hj' => absurd hj' (not_lt.mpr hj)⟩
  | succ fuel ih =>
    intro h no
    have hnovo : ∀ j, (j < (h ++ [No.novo x Cor.VERMELHO vq]).length →
        h.length ≤ j →
        (lerNo (h ++ [No.novo x Cor.VERMELHO vq]) j).versao_criacao = vq ∧
        (lerNo (h ++ [No.novo x Cor.VERMELHO vq]) j).versao_remocao = none) := by
      intro j hj hj'
      have : j = h.length := by simp at hj; omega
      subst this
      rw [lerNo_append_self]
      exact ⟨rfl, rfl⟩
    cases no with
    | none =>
      simp only [incluirRecursivo]
      exact ⟨fun j hj => by rw [lerNo_append_lt hj]; exact ⟨rfl, rfl, rfl⟩,
        fun j hj hj' => hnovo j hj' hj⟩
    | some i =>
      simp only [incluirRecursivo]
      split
      · exact ⟨fun j hj => by rw [lerNo_append_lt hj]; exact ⟨rfl, rfl, rfl⟩,
          fun j hj hj' => hnovo j hj' hj⟩
      · split
        · have hrec := ih h (obterFilhoEsquerdo h i (vq : Int))
          have hvida : MesmaVida
              (incluirRecursivo h (obterFilhoEsquerdo h i (vq : Int)) x vq fuel).1
              (balancearAposInclusao (definirPai (definirFilhoEsquerdo
                (incluirRecursivo h (obterFilhoEsquerdo h i (vq : Int)) x vq fuel).1
                i (some (incluirRecursivo h (obterFilhoEsquerdo h i (vq : Int)) x vq
                  fuel).2) vq) (incluirRecursivo h (obterFilhoEsquerdo h i (vq : Int))
                  x vq fuel).2 (some i) vq) i vq).1 :=
            ((mesmaVida_refl _).poisEsq _ _ _).poisPai _ _ _ |>.encadeia
              (by exact vida_balancearApos _ i vq) |>.encadeia (mesmaVida_refl _)
          have hcomp : (balancearAposInclusao (definirPai (definirFilhoEsquerdo
                (incluirRecursivo h (obterFilhoEsquerdo h i (vq : Int)) x vq fuel).1
                i (some (incluirRecursivo h (obterFilhoEsquerdo h i (vq : Int)) x vq
                  fuel).2) vq) (incluirRecursivo h (obterFilhoEsquerdo h i (vq : Int))
                  x vq fuel).2 (some i) vq) i vq).1.length
              = (incluirRecursivo h (obterFilhoEsquerdo h i (vq : Int)) x vq
                  fuel).1.length := by
            rw [comprimento_balancearApos, comprimento_definirPai,
              comprimento_definirFilhoEsquerdo]
          constructor
          · intro j hj
            obtain ⟨v1, v2, v3⟩ := hvida j
            obtain ⟨w1, w2, w3⟩ := hrec.1 j hj
            exact ⟨v1.trans w1, v2.trans w2, v3.trans w3⟩
          · intro j hj hj'
            rw [hcomp] at hj'
            obtain ⟨v1, v2, _⟩ := hvida j
            obtain ⟨w1, w2⟩ := hrec.2 j hj hj'
            exact ⟨v1.trans w1, v2.trans w2⟩
        · split
          · have hrec := ih h (obterFilhoDireito h i (vq : Int))
            have hvida : MesmaVida
                (incluirRecursivo h (obterFilhoDireito h i (vq : Int)) x vq fuel).1
                (balancearAposInclusao (definirPai (definirFilhoDireito
                  (incluirRecursivo h (obterFilhoDireito h i (vq : Int)) x vq fuel).1
                  i (some (incluirRecursivo h (obterFilhoDireito h i (vq : Int)) x vq
                    fuel).2) vq) (incluirRecursivo h (obterFilhoDireito h i (vq : Int))
                    x vq fuel).2 (some i) vq) i vq).1 :=
              ((mesmaVida_refl _).poisDir _ _ _).poisPai _ _ _ |>.encadeia
                (by exact vida_balancearApos _ i vq)
            have hcomp : (balancearAposInclusao (definirPai (definirFilhoDireito
                  (incluirRecursivo h (obterFilhoDireito h i (vq : Int)) x vq fuel).1
                  i (some (incluirRecursivo h (obterFilhoDireito h i (vq : Int)) x vq
                    fuel).2) vq) (incluirRecursivo h (obterFilhoDireito h i (vq : Int))
                    x vq fuel).2 (some i) vq) i vq).1.length
                = (incluirRecursivo h (obterFilhoDireito h i (vq : Int)) x vq
                    fuel).1.length := by
              rw [comprimento_balancearApos, comprimento_definirPai,
                comprimento_definirFilhoDireito]
            constructor
            · intro j hj
              obtain ⟨v1, v2, v3⟩ := hvida j
              obtain ⟨w1, w2, w3⟩ := hrec.1 j hj
              exact ⟨v1.trans w1, v2.trans w2, v3.trans w3⟩
            · intro j hj hj'
              rw [hcomp] at hj'
              obtain ⟨v1, v2, _⟩ := hvida j
              obtain ⟨w1, w2⟩ := hrec.2 j hj hj'
              exact ⟨v1.trans w1, v2.trans w2⟩
          · exact ⟨fun j _ => ⟨rfl, rfl, rfl⟩,
              fun j hj hj' => absurd hj' (not_lt.mpr hj)⟩

theorem obterFilhos_poeEsq_self {h : Heap} {i : NodeId} (f : Option NodeId)
    (v : Nat) (hi : i < h.length) :
    obterFilhos (definirFilhoEsquerdo h i f v) i (v : Int)
      = (f, (obterFilhos h i (v : Int)).2) := by
  unfold obterFilhos definirFilhoEsquerdo
  rw [lerNo_escreverNo_self _ hi]
  exact No.obter_filhos_definir_esq_self _ _ _

theorem obterFilhos_poeEsq_outro {h : Heap} {i j : NodeId} (f : Option NodeId)
    (v : Nat) (hij : i ≠ j) (u : Int) :
    obterFilhos (definirFilhoEsquerdo h i f v) j u = obterFilhos h j u := by
  unfold obterFilhos definirFilhoEsquerdo
  rw [lerNo_escreverNo_ne _ hij]

theorem obterFilhos_poeDir_self {h : Heap} {i : NodeId} (f : Option NodeId)
    (v : Nat) (hi : i < h.length) :
    obterFilhos (definirFilhoDireito h i f v) i (v : Int)
      = ((obterFilhos h i (v : Int)).1, f) := by
  unfold obterFilhos definirFilhoDireito
  rw [lerNo_escreverNo_self _ hi]
  exact No.obter_filhos_definir_dir_self _ _ _

theorem obterFilhos_poeDir_outro {h : Heap} {i j : NodeId} (f : Option NodeId)
    (v : Nat) (hij : i ≠ j) (u : Int) :
    obterFilhos (definirFilhoDireito h i f v) j u = obterFilhos h j u := by
  unfold obterFilhos definirFilhoDireito
  rw [lerNo_escreverNo_ne _ hij]

theorem ativo_de_mesmaVida {h h' : Heap} (m : MesmaVida h h') (j : NodeId)
    (u : Int) : estaAtivo h' j u = estaAtivo h j u :=
  estaAtivo_de_vida (m j).1 (m j).2.1 u

theorem valor_de_mesmaVida {h h' : Heap} (m : MesmaVida h h') (j : NodeId) :
    valorDe h' j = valorDe h j := (m j).2.2

theorem todos_de_mesmaVida {h h' : Heap} (m : MesmaVida h h') {u : Int}
    (ha : TodosAtivos h u) : TodosAtivos h' u :=
  fun j => (ativo_de_mesmaVida m j u).trans (ha j)

/-- Assemble a snapshot node from its parts. -/
theorem snap_monta {h : Heap} {v : Int} {i : NodeId} {c : Cor} {x : Int}
    {sl sr : ArvoreIds} {fl fr : Nat}
    (hat : estaAtivo h i v = true)
    (hfil : obterFilhos h i v = (raizI sl, raizI sr))
    (hcor : obterCor h i v = c) (hval : valorDe h i = x)
    (hsl : snapIds h (raizI sl) v fl = some sl)
    (hsr : snapIds h (raizI sr) v fr = some sr) :
    snapIds h (some i) v (max fl fr + 1) = some (ArvoreIds.nodo i c x sl sr) := by
  rw [snapIds_passo]
  have hfe : obterFilhoEsquerdo h i v = raizI sl := by
    rw [obterFilhoEsquerdo_fst, hfil]
  have hfd : obterFilhoDireito h i v = raizI sr := by
    rw [obterFilhoDireito_snd, hfil]
  have hsl' := snapIds_mono hsl (le_max_left fl fr)
  have hsr' := snapIds_mono hsr (le_max_right fl fr)
  simp only [hat, if_true, hfe, hfd, hsl', hsr', hcor, hval]

/-- Full read characterization of the LL rotation at the written version. -/
theorem balancearLL_leituras {h : Heap} {no fe g : NodeId} {versao : Nat}
    (hfeEq : obterFilhoEsquerdo h no (versao : Int) = some fe)
    (hgEq : obterFilhoEsquerdo h fe (versao : Int) = some g)
    (hno : no < h.length) (hfe : fe < h.length) (hg : g < h.length)
    (hfeno : fe ≠ no) (hfeg : fe ≠ g) (hgno : g ≠ no) :
    (balancearCasoEsquerdaEsquerda h no versao).2 = fe ∧
    obterCor (balancearCasoEsquerdaEsquerda h no versao).1 fe (versao : Int)
      = Cor.VERMELHO ∧
    obterFilhos (balancearCasoEsquerdaEsquerda h no versao).1 fe (versao : Int)
      = (some g, some no) ∧
    obterCor (balancearCasoEsquerdaEsquerda h no versao).1 g (versao : Int)
      = Cor.PRETO ∧
    obterCor (balancearCasoEsquerdaEsquerda h no versao).1 no (versao : Int)
      = Cor.PRETO ∧
    obterFilhos (balancearCasoEsquerdaEsquerda h no versao).1 no (versao : Int)
      = (obterFilhoDireito h fe (versao : Int),
         obterFilhoDireito h no (versao : Int)) ∧
    (∀ j, j ≠ fe → j ≠ g → j ≠ no →
      obterCor (balancearCasoEsquerdaEsquerda h no versao).1 j (versao : Int)
        = obterCor h j (versao : Int)) ∧
    (∀ j, j ≠ fe → j ≠ no →
      obterFilhos (balancearCasoEsquerdaEsquerda h no versao).1 j (versao : Int)
        = obterFilhos h j (versao : Int)) := by
  simp only [balancearCasoEsquerdaEsquerda, hfeEq, hgEq, Option.getD_some]
  refine ⟨by trivial, ?_, ?_, ?_, ?_, ?_, ?_, ?_⟩
  · rw [obterCor_definirPai, obterCor_definirPai, obterCor_talvezPai,
      obterCor_definirFilhos, obterCor_definirFilhos,
      obterCor_definirCor_outro _ _ (Ne.symm hfeno),
      obterCor_definirCor_outro _ _ (Ne.symm hfeg)]
    exact obterCor_definirCor_self _ _ hfe
  · rw [obterFilhos_definirPai, obterFilhos_definirPai, obterFilhos_talvezPai,
      obterFilhos_definirFilhos_outro _ _ _ (Ne.symm hfeno)]
    refine obterFilhos_definirFilhos_self _ _ _ ?_
    rw [comprimento_definirCor, comprimento_definirCor, comprimento_definirCor]
    exact hfe
  · rw [obterCor_definirPai, obterCor_definirPai, obterCor_talvezPai,
      obterCor_definirFilhos, obterCor_definirFilhos,
      obterCor_definirCor_outro _ _ (Ne.symm hgno)]
    refine obterCor_definirCor_self _ _ ?_
    rw [comprimento_definirCor]
    exact hg
  · rw [obterCor_definirPai, obterCor_definirPai, obterCor_talvezPai,
      obterCor_definirFilhos, obterCor_definirFilhos]
    refine obterCor_definirCor_self _ _ ?_
    rw [comprimento_definirCor, comprimento_definirCor]
    exact hno
  · rw [obterFilhos_definirPai, obterFilhos_definirPai, obterFilhos_talvezPai]
    have hlen : no < (definirFilhos (definirCor (definirCor (definirCor h fe
        Cor.VERMELHO versao) g Cor.PRETO versao) no Cor.PRETO versao) fe
        (some g) (some no) versao).length := by
      rw [comprimento_definirFilhos, comprimento_definirCor,
        comprimento_definirCor, comprimento_definirCor]
      exact hno
    rw [obterFilhos_definirFilhos_self _ _ _ hlen]
  · intro j hjfe hjg hjno
    rw [obterCor_definirPai, obterCor_definirPai, obterCor_talvezPai,
      obterCor_definirFilhos, obterCor_definirFilhos,
      obterCor_definirCor_outro _ _ (fun hh => hjno hh.symm),
      obterCor_definirCor_outro _ _ (fun hh => hjg hh.symm),
      obterCor_definirCor_outro _ _ (fun hh => hjfe hh.symm)]
  · intro j hjfe hjno
    rw [obterFilhos_definirPai, obterFilhos_definirPai, obterFilhos_talvezPai,
      obterFilhos_definirFilhos_outro _ _ _ (fun hh => hjno hh.symm),
      obterFilhos_definirFilhos_outro _ _ _ (fun hh => hjfe hh.symm),
      obterFilhos_definirCor, obterFilhos_definirCor, obterFilhos_definirCor]

/-- The LL rotation rewrites the version-vq snapshot below the rotated
node exactly as the pure arm 1 of balP does. -/
theorem sim_LL {H : Heap} {vq : Nat} {no fe g : NodeId} {y yf yg : Int}
    {A B SLR sr : ArvoreIds} {fA fB fS fR : Nat}
    (hta : TodosAtivos H (vq : Int))
    (hfeEq : obterFilhoEsquerdo H no (vq : Int) = some fe)
    (hgEq : obterFilhoEsquerdo H fe (vq : Int) = some g)
    (hnedEq : obterFilhoDireito H fe (vq : Int) = raizI SLR)
    (hfdEq : obterFilhoDireito H no (vq : Int) = raizI sr)
    (hgl : obterFilhoEsquerdo H g (vq : Int) = raizI A)
    (hgr : obterFilhoDireito H g (vq : Int) = raizI B)
    (hyv : valorDe H no = y) (hyf : valorDe H fe = yf) (hyg : valorDe H g = yg)
    (hA : snapIds H (raizI A) (vq : Int) fA = some A)
    (hB : snapIds H (raizI B) (vq : Int) fB = some B)
    (hS : snapIds H (raizI SLR) (vq : Int) fS = some SLR)
    (hR : snapIds H (raizI sr) (vq : Int) fR = some sr)
    (hno : no < H.length) (hfe : fe < H.length) (hg : g < H.length)
    (hfeno : fe ≠ no) (hfeg : fe ≠ g) (hgno : g ≠ no)
    (hndA : ∀ j ∈ A.ids, j ≠ fe ∧ j ≠ g ∧ j ≠ no)
    (hndB : ∀ j ∈ B.ids, j ≠ fe ∧ j ≠ g ∧ j ≠ no)
    (hndS : ∀ j ∈ SLR.ids, j ≠ fe ∧ j ≠ g ∧ j ≠ no)
    (hndR : ∀ j ∈ sr.ids, j ≠ fe ∧ j ≠ g ∧ j ≠ no) :
    (balancearCasoEsquerdaEsquerda H no vq).2 = fe ∧
    (∀ j, j ≠ fe → j ≠ g → j ≠ no →
      obterCor (balancearCasoEsquerdaEsquerda H no vq).1 j (vq : Int)
        = obterCor H j (vq : Int) ∧
      obterFilhos (balancearCasoEsquerdaEsquerda H no vq).1 j (vq : Int)
        = obterFilhos H j (vq : Int)) ∧
    ∃ f', snapIds (balancearCasoEsquerdaEsquerda H no vq).1 (some fe)
        (vq : Int) f'
      = some (ArvoreIds.nodo fe Cor.VERMELHO yf
          (ArvoreIds.nodo g Cor.PRETO yg A B)
          (ArvoreIds.nodo no Cor.PRETO y SLR sr)) := by
  obtain ⟨hraiz, hcorfe, hfilfe, hcorg, hcorno, hfilno, hcorout, hfilout⟩ :=
    balancearLL_leituras hfeEq hgEq hno hfe hg hfeno hfeg hgno
  refine ⟨hraiz, fun j h1 h2 h3 => ⟨hcorout j h1 h2 h3, hfilout j h1 h3⟩, ?_⟩
  have hvida := vida_balancearLL H no vq
  have hta8 : TodosAtivos (balancearCasoEsquerdaEsquerda H no vq).1 (vq : Int) :=
    todos_de_mesmaVida hvida hta
  have hpres : ∀ (s : ArvoreIds) (fs : Nat),
      (∀ j ∈ s.ids, j ≠ fe ∧ j ≠ g ∧ j ≠ no) →
      snapIds H (raizI s) (vq : Int) fs = some s →
      snapIds (balancearCasoEsquerdaEsquerda H no vq).1 (raizI s) (vq : Int) fs
        = some s := by
    intro s fs hnd hsnap
    refine snapIds_igual_em hta hta8 hsnap ?_
    intro j hj
    obtain ⟨h1, h2, h3⟩ := hnd j hj
    exact ⟨hcorout j h1 h2 h3, valor_de_mesmaVida hvida j, hfilout j h1 h3⟩
  have hA' := hpres A fA hndA hA
  have hB' := hpres B fB hndB hB
  have hS' := hpres SLR fS hndS hS
  have hR' := hpres sr fR hndR hR
  have hg' : snapIds (balancearCasoEsquerdaEsquerda H no vq).1 (some g)
      (vq : Int) (max fA fB + 1)
      = some (ArvoreIds.nodo g Cor.PRETO yg A B) := by
    refine snap_monta (hta8 g) ?_ hcorg ?_ hA' hB'
    · rw [hfilout g (Ne.symm hfeg) hgno]
      rw [show obterFilhos H g (vq : Int)
          = ((obterFilhos H g (vq : Int)).1, (obterFilhos H g (vq : Int)).2)
        from rfl]
      rw [← obterFilhoEsquerdo_fst, ← obterFilhoDireito_snd, hgl, hgr]
    · rw [valor_de_mesmaVida hvida g, hyg]
  have hno' : snapIds (balancearCasoEsquerdaEsquerda H no vq).1 (some no)
      (vq : Int) (max fS fR + 1)
      = some (ArvoreIds.nodo no Cor.PRETO y SLR sr) := by
    refine snap_monta (hta8 no) ?_ hcorno ?_ hS' hR'
    · rw [hfilno, hnedEq, hfdEq]
    · rw [valor_de_mesmaVida hvida no, hyv]
  refine ⟨max (max fA fB + 1) (max fS fR + 1) + 1, ?_⟩
  refine snap_monta (hta8 fe) ?_ hcorfe ?_ hg' hno'
  · rw [hfilfe]; rfl
  · rw [valor_de_mesmaVida hvida fe, hyf]

theorem balancearLR_leituras {h : Heap} {no fe ng : NodeId} {versao : Nat}
    (hfeEq : obterFilhoEsquerdo h no (versao : Int) = some fe)
    (hngEq : obterFilhoDireito h fe (versao : Int) = some ng)
    (hno : no < h.length) (hfe : fe < h.length) (hng : ng < h.length)
    (hfeno : fe ≠ no) (hfeng : fe ≠ ng) (hngno : ng ≠ no) :
    (balancearCasoEsquerdaDireita h no versao).2 = ng ∧
    obterCor (balancearCasoEsquerdaDireita h no versao).1 ng (versao : Int)
      = Cor.VERMELHO ∧
    obterFilhos (balancearCasoEsquerdaDireita h no versao).1 ng (versao : Int)
      = (some fe, some no) ∧
    obterCor (balancearCasoEsquerdaDireita h no versao).1 fe (versao : Int)
      = Cor.PRETO ∧
    obterCor (balancearCasoEsquerdaDireita h no versao).1 no (versao : Int)
      = Cor.PRETO ∧
    obterFilhos (balancearCasoEsquerdaDireita h no versao).1 fe (versao : Int)
      = (obterFilhoEsquerdo h fe (versao : Int),
         obterFilhoEsquerdo h ng (versao : Int)) ∧
    obterFilhos (balancearCasoEsquerdaDireita h no versao).1 no (versao : Int)
      = (obterFilhoDireito h ng (versao : Int),
         obterFilhoDireito h no (versao : Int)) ∧
    (∀ j, j ≠ fe → j ≠ ng → j ≠ no →
      obterCor (balancearCasoEsquerdaDireita h no versao).1 j (versao : Int)
        = obterCor h j (versao : Int)) ∧
    (∀ j, j ≠ fe → j ≠ ng → j ≠ no →
      obterFilhos (balancearCasoEsquerdaDireita h no versao).1 j (versao : Int)
        = obterFilhos h j (versao : Int)) := by
  simp only [balancearCasoEsquerdaDireita, hfeEq, hngEq, Option.getD_some]
  have harg : obterFilhoEsquerdo (definirFilhos (definirCor (definirCor
      (definirCor h ng Cor.VERMELHO versao) fe Cor.PRETO versao) no Cor.PRETO
      versao) ng (some fe) (some no) versao) fe (versao : Int)
      = obterFilhoEsquerdo h fe (versao : Int) := by
    rw [obterFilhoEsquerdo_fst,
      obterFilhos_definirFilhos_outro _ _ _ (Ne.symm hfeng),
      obterFilhos_definirCor, obterFilhos_definirCor, obterFilhos_definirCor,
      ← obterFilhoEsquerdo_fst]
  rw [harg]
  have hlenfe : fe < (definirFilhos (definirCor (definirCor (definirCor h ng
      Cor.VERMELHO versao) fe Cor.PRETO versao) no Cor.PRETO versao) ng
      (some fe) (some no) versao).length := by
    rw [comprimento_definirFilhos, comprimento_definirCor,
      comprimento_definirCor, comprimento_definirCor]
    exact hfe
  have hlenno : no < (definirFilhos (definirFilhos (definirCor (definirCor
      (definirCor h ng Cor.VERMELHO versao) fe Cor.PRETO versao) no Cor.PRETO
      versao) ng (some fe) (some no) versao) fe
      (obterFilhoEsquerdo h fe (versao : Int))
      (obterFilhoEsquerdo h ng (versao : Int)) versao).length := by
    rw [comprimento_definirFilhos, comprimento_definirFilhos,
      comprimento_definirCor, comprimento_definirCor, comprimento_definirCor]
    exact hno
  refine ⟨by trivial, ?_, ?_, ?_, ?_, ?_, ?_, ?_, ?_⟩
  · rw [obterCor_definirPai, obterCor_definirPai, obterCor_talvezPai,
      obterCor_talvezPai, obterCor_definirFilhos, obterCor_definirFilhos,
      obterCor_definirFilhos, obterCor_definirCor_outro _ _ (Ne.symm hngno),
      obterCor_definirCor_outro _ _ hfeng]
    exact obterCor_definirCor_self _ _ hng
  · rw [obterFilhos_definirPai, obterFilhos_definirPai, obterFilhos_talvezPai,
      obterFilhos_talvezPai,
      obterFilhos_definirFilhos_outro _ _ _ (Ne.symm hngno),
      obterFilhos_definirFilhos_outro _ _ _ hfeng]
    refine obterFilhos_definirFilhos_self _ _ _ ?_
    rw [comprimento_definirCor, comprimento_definirCor, comprimento_definirCor]
    exact hng
  · rw [obterCor_definirPai, obterCor_definirPai, obterCor_talvezPai,
      obterCor_talvezPai, obterCor_definirFilhos, obterCor_definirFilhos,
      obterCor_definirFilhos, obterCor_definirCor_outro _ _ (Ne.symm hfeno)]
    exact obterCor_definirCor_self _ _ (by rw [comprimento_definirCor]; exact hfe)
  · rw [obterCor_definirPai, obterCor_definirPai, obterCor_talvezPai,
      obterCor_talvezPai, obterCor_definirFilhos, obterCor_definirFilhos,
      obterCor_definirFilhos]
    exact obterCor_definirCor_self _ _
      (by rw [comprimento_definirCor, comprimento_definirCor]; exact hno)
  · rw [obterFilhos_definirPai, obterFilhos_definirPai, obterFilhos_talvezPai,
      obterFilhos_talvezPai,
      obterFilhos_definirFilhos_outro _ _ _ (Ne.symm hfeno)]
    exact obterFilhos_definirFilhos_self _ _ _ hlenfe
  · rw [obterFilhos_definirPai, obterFilhos_definirPai, obterFilhos_talvezPai,
      obterFilhos_talvezPai]
    exact obterFilhos_definirFilhos_self _ _ _ hlenno
  · intro j hjfe hjng hjno
    rw [obterCor_definirPai, obterCor_definirPai, obterCor_talvezPai,
      obterCor_talvezPai, obterCor_definirFilhos, obterCor_definirFilhos,
      obterCor_definirFilhos, obterCor_definirCor_outro _ _ (fun hh => hjno hh.symm),
      obterCor_definirCor_outro _ _ (fun hh => hjfe hh.symm),
      obterCor_definirCor_outro _ _ (fun hh => hjng hh.symm)]
  · intro j hjfe hjng hjno
    rw [obterFilhos_definirPai, obterFilhos_definirPai, obterFilhos_talvezPai,
      obterFilhos_talvezPai,
      obterFilhos_definirFilhos_outro _ _ _ (fun hh => hjno hh.symm),
      obterFilhos_definirFilhos_outro _ _ _ (fun hh => hjfe hh.symm),
      obterFilhos_definirFilhos_outro _ _ _ (fun hh => hjng hh.symm),
      obterFilhos_definirCor, obterFilhos_definirCor, obterFilhos_definirCor]

theorem sim_LR {H : Heap} {vq : Nat} {no fe ng : NodeId} {y yf yg : Int}
    {SLL A B sr : ArvoreIds} {fL fA fB fR : Nat}
    (hta : TodosAtivos H (vq : Int))
    (hfeEq : obterFilhoEsquerdo H no (vq : Int) = some fe)
    (hngEq : obterFilhoDireito H fe (vq : Int) = some ng)
    (hsllEq : obterFilhoEsquerdo H fe (vq : Int) = raizI SLL)
    (hbeEq : obterFilhoEsquerdo H ng (vq : Int) = raizI A)
    (hbdEq : obterFilhoDireito H ng (vq : Int) = raizI B)
    (hfdEq : obterFilhoDireito H no (vq : Int) = raizI sr)
    (hyv : valorDe H no = y) (hyf : valorDe H fe = yf) (hyg : valorDe H ng = yg)
    (hL : snapIds H (raizI SLL) (vq : Int) fL = some SLL)
    (hA : snapIds H (raizI A) (vq : Int) fA = some A)
    (hB : snapIds H (raizI B) (vq : Int) fB = some B)
    (hR : snapIds H (raizI sr) (vq : Int) fR = some sr)
    (hno : no < H.length) (hfe : fe < H.length) (hng : ng < H.length)
    (hfeno : fe ≠ no) (hfeng : fe ≠ ng) (hngno : ng ≠ no)
    (hndL : ∀ j ∈ SLL.ids, j ≠ fe ∧ j ≠ ng ∧ j ≠ no)
    (hndA : ∀ j ∈ A.ids, j ≠ fe ∧ j ≠ ng ∧ j ≠ no)
    (hndB : ∀ j ∈ B.ids, j ≠ fe ∧ j ≠ ng ∧ j ≠ no)
    (hndR : ∀ j ∈ sr.ids, j ≠ fe ∧ j ≠ ng ∧ j ≠ no) :
    (balancearCasoEsquerdaDireita H no vq).2 = ng ∧
    (∀ j, j ≠ fe → j ≠ ng → j ≠ no →
      obterCor (balancearCasoEsquerdaDireita H no vq).1 j (vq : Int)
        = obterCor H j (vq : Int) ∧
      obterFilhos (balancearCasoEsquerdaDireita H no vq).1 j (vq : Int)
        = obterFilhos H j (vq : Int)) ∧
    ∃ f', snapIds (balancearCasoEsquerdaDireita H no vq).1 (some ng)
        (vq : Int) f'
      = some (ArvoreIds.nodo ng Cor.VERMELHO yg
          (ArvoreIds.nodo fe Cor.PRETO yf SLL A)
          (ArvoreIds.nodo no Cor.PRETO y B sr)) := by
  obtain ⟨hraiz, hcorng, hfilng, hcorfe, hcorno, hfilfe, hfilno, hcorout,
    hfilout⟩ := balancearLR_leituras hfeEq hngEq hno hfe hng hfeno hfeng hngno
  refine ⟨hraiz, fun j h1 h2 h3 => ⟨hcorout j h1 h2 h3, hfilout j h1 h2 h3⟩, ?_⟩
  have hvida := vida_balancearLR H no vq
  have hta8 : TodosAtivos (balancearCasoEsquerdaDireita H no vq).1 (vq : Int) :=
    todos_de_mesmaVida hvida hta
  have hpres : ∀ (s : ArvoreIds) (fs : Nat),
      (∀ j ∈ s.ids, j ≠ fe ∧ j ≠ ng ∧ j ≠ no) →
      snapIds H (raizI s) (vq : Int) fs = some s →
      snapIds (balancearCasoEsquerdaDireita H no vq).1 (raizI s) (vq : Int) fs
        = some s := by
    intro s fs hnd hsnap
    refine snapIds_igual_em hta hta8 hsnap ?_
    intro j hj
    obtain ⟨h1, h2, h3⟩ := hnd j hj
    exact ⟨hcorout j h1 h2 h3, valor_de_mesmaVida hvida j, hfilout j h1 h2 h3⟩
  have hL' := hpres SLL fL hndL hL
  have hA' := hpres A fA hndA hA
  have hB' := hpres B fB hndB hB
  have hR' := hpres sr fR hndR hR
  have hfe' : snapIds (balancearCasoEsquerdaDireita H no vq).1 (some fe)
      (vq : Int) (max fL fA + 1)
      = some (ArvoreIds.nodo fe Cor.PRETO yf SLL A) := by
    refine snap_monta (hta8 fe) ?_ hcorfe ?_ hL' hA'
    · rw [hfilfe, hsllEq, hbeEq]
    · rw [valor_de_mesmaVida hvida fe, hyf]
  have hno' : snapIds (balancearCasoEsquerdaDireita H no vq).1 (some no)
      (vq : Int) (max fB fR + 1)
      = some (ArvoreIds.nodo no Cor.PRETO y B sr) := by
    refine snap_monta (hta8 no) ?_ hcorno ?_ hB' hR'
    · rw [hfilno, hbdEq, hfdEq]
    · rw [valor_de_mesmaVida hvida no, hyv]
  refine ⟨max (max fL fA + 1) (max fB fR + 1) + 1, ?_⟩
  refine snap_monta (hta8 ng) ?_ hcorng ?_ hfe' hno'
  · rw [hfilng]; rfl
  · rw [valor_de_mesmaVida hvida ng, hyg]

theorem balancearRL_leituras {h : Heap} {no fd ng : NodeId} {versao : Nat}
    (hfdEq : obterFilhoDireito h no (versao : Int) = some fd)
    (hngEq : obterFilhoEsquerdo h fd (versao : Int) = some ng)
    (hno : no < h.length) (hfd : fd < h.length) (hng : ng < h.length)
    (hfdno : fd ≠ no) (hngfd : ng ≠ fd) (hngno : ng ≠ no) :
    (balancearCasoDireitaEsquerda h no versao).2 = ng ∧
    obterCor (balancearCasoDireitaEsquerda h no versao).1 ng (versao : Int)
      = Cor.VERMELHO ∧
    obterFilhos (balancearCasoDireitaEsquerda h no versao).1 ng (versao : Int)
      = (some no, some fd) ∧
    obterCor (balancearCasoDireitaEsquerda h no versao).1 no (versao : Int)
      = Cor.PRETO ∧
    obterCor (balancearCasoDireitaEsquerda h no versao).1 fd (versao : Int)
      = Cor.PRETO ∧
    obterFilhos (balancearCasoDireitaEsquerda h no versao).1 no (versao : Int)
      = (obterFilhoEsquerdo h no (versao : Int),
         obterFilhoEsquerdo h ng (versao : Int)) ∧
    obterFilhos (balancearCasoDireitaEsquerda h no versao).1 fd (versao : Int)
      = (obterFilhoDireito h ng (versao : Int),
         obterFilhoDireito h fd (versao : Int)) ∧
    (∀ j, j ≠ ng → j ≠ no → j ≠ fd →
      obterCor (balancearCasoDireitaEsquerda h no versao).1 j (versao : Int)
        = obterCor h j (versao : Int)) ∧
    (∀ j, j ≠ ng → j ≠ no → j ≠ fd →
      obterFilhos (balancearCasoDireitaEsquerda h no versao).1 j (versao : Int)
        = obterFilhos h j (versao : Int)) := by
  simp only [balancearCasoDireitaEsquerda, hfdEq, hngEq, Option.getD_some]
  have harg : obterFilhoDireito (definirFilhos (definirFilhos (definirCor
      (definirCor (definirCor h ng Cor.VERMELHO versao) no Cor.PRETO versao)
      fd Cor.PRETO versao) ng (some no) (some fd) versao) no
      (obterFilhoEsquerdo h no (versao : Int))
      (obterFilhoEsquerdo h ng (versao : Int)) versao) fd (versao : Int)
      = obterFilhoDireito h fd (versao : Int) := by
    rw [obterFilhoDireito_snd,
      obterFilhos_definirFilhos_outro _ _ _ (Ne.symm hfdno),
      obterFilhos_definirFilhos_outro _ _ _ hngfd,
      obterFilhos_definirCor, obterFilhos_definirCor, obterFilhos_definirCor,
      ← obterFilhoDireito_snd]
  rw [harg]
  have hlenng : ng < (definirCor (definirCor (definirCor h ng Cor.VERMELHO
      versao) no Cor.PRETO versao) fd Cor.PRETO versao).length := by
    rw [comprimento_definirCor, comprimento_definirCor, comprimento_definirCor]
    exact hng
  have hlenno : no < (definirFilhos (definirCor (definirCor (definirCor h ng
      Cor.VERMELHO versao) no Cor.PRETO versao) fd Cor.PRETO versao) ng
      (some no) (some fd) versao).length := by
    rw [comprimento_definirFilhos, comprimento_definirCor,
      comprimento_definirCor, comprimento_definirCor]
    exact hno
  have hlenfd : fd < (definirFilhos (definirFilhos (definirCor (definirCor
      (definirCor h ng Cor.VERMELHO versao) no Cor.PRETO versao) fd Cor.PRETO
      versao) ng (some no) (some fd) versao) no
      (obterFilhoEsquerdo h no (versao : Int))
      (obterFilhoEsquerdo h ng (versao : Int)) versao).length := by
    rw [comprimento_definirFilhos, comprimento_definirFilhos,
      comprimento_definirCor, comprimento_definirCor, comprimento_definirCor]
    exact hfd
  refine ⟨by trivial, ?_, ?_, ?_, ?_, ?_, ?_, ?_, ?_⟩
  · rw [obterCor_definirPai, obterCor_definirPai, obterCor_talvezPai,
      obterCor_talvezPai, obterCor_definirFilhos, obterCor_definirFilhos,
      obterCor_definirFilhos, obterCor_definirCor_outro _ _ (Ne.symm hngfd),
      obterCor_definirCor_outro _ _ (Ne.symm hngno)]
    exact obterCor_definirCor_self _ _ hng
  · rw [obterFilhos_definirPai, obterFilhos_definirPai, obterFilhos_talvezPai,
      obterFilhos_talvezPai,
      obterFilhos_definirFilhos_outro _ _ _ (Ne.symm hngfd),
      obterFilhos_definirFilhos_outro _ _ _ (Ne.symm hngno)]
    exact obterFilhos_definirFilhos_self _ _ _ hlenng
  · rw [obterCor_definirPai, obterCor_definirPai, obterCor_talvezPai,
      obterCor_talvezPai, obterCor_definirFilhos, obterCor_definirFilhos,
      obterCor_definirFilhos, obterCor_definirCor_outro _ _ hfdno]
    exact obterCor_definirCor_self _ _ (by rw [comprimento_definirCor]; exact hno)
  · rw [obterCor_definirPai, obterCor_definirPai, obterCor_talvezPai,
      obterCor_talvezPai, obterCor_definirFilhos, obterCor_definirFilhos,
      obterCor_definirFilhos]
    exact obterCor_definirCor_self _ _
      (by rw [comprimento_definirCor, comprimento_definirCor]; exact hfd)
  · rw [obterFilhos_definirPai, obterFilhos_definirPai, obterFilhos_talvezPai,
      obterFilhos_talvezPai,
      obterFilhos_definirFilhos_outro _ _ _ hfdno]
    exact obterFilhos_definirFilhos_self _ _ _ hlenno
  · rw [obterFilhos_definirPai, obterFilhos_definirPai, obterFilhos_talvezPai,
      obterFilhos_talvezPai]
    exact obterFilhos_definirFilhos_self _ _ _ hlenfd
  · intro j hjng hjno hjfd
    rw [obterCor_definirPai, obterCor_definirPai, obterCor_talvezPai,
      obterCor_talvezPai, obterCor_definirFilhos, obterCor_definirFilhos,
      obterCor_definirFilhos, obterCor_definirCor_outro _ _ (fun hh => hjfd hh.symm),
      obterCor_definirCor_outro _ _ (fun hh => hjno hh.symm),
      obterCor_definirCor_outro _ _ (fun hh => hjng hh.symm)]
  · intro j hjng hjno hjfd
    rw [obterFilhos_definirPai, obterFilhos_definirPai, obterFilhos_talvezPai,
      obterFilhos_talvezPai,
      obterFilhos_definirFilhos_outro _ _ _ (fun hh => hjfd hh.symm),
      obterFilhos_definirFilhos_outro _ _ _ (fun hh => hjno hh.symm),
      obterFilhos_definirFilhos_outro _ _ _ (fun hh => hjng hh.symm),
      obterFilhos_definirCor, obterFilhos_definirCor, obterFilhos_definirCor]

theorem sim_RL {H : Heap} {vq : Nat} {no fd ng : NodeId} {y yd yg : Int}
    {sl A B R : ArvoreIds} {fl fA fB fR : Nat}
    (hta : TodosAtivos H (vq : Int))
    (hfdEq : obterFilhoDireito H no (vq : Int) = some fd)
    (hngEq : obterFilhoEsquerdo H fd (vq : Int) = some ng)
    (hfeEq : obterFilhoEsquerdo H no (vq : Int) = raizI sl)
    (hbeEq : obterFilhoEsquerdo H ng (vq : Int) = raizI A)
    (hbdEq : obterFilhoDireito H ng (vq : Int) = raizI B)
    (hrrEq : obterFilhoDireito H fd (vq : Int) = raizI R)
    (hyv : valorDe H no = y) (hyd : valorDe H fd = yd) (hyg : valorDe H ng = yg)
    (hl : snapIds H (raizI sl) (vq : Int) fl = some sl)
    (hA : snapIds H (raizI A) (vq : Int) fA = some A)
    (hB : snapIds H (raizI B) (vq : Int) fB = some B)
    (hR : snapIds H (raizI R) (vq : Int) fR = some R)
    (hno : no < H.length) (hfd : fd < H.length) (hng : ng < H.length)
    (hfdno : fd ≠ no) (hngfd : ng ≠ fd) (hngno : ng ≠ no)
    (hndl : ∀ j ∈ sl.ids, j ≠ ng ∧ j ≠ no ∧ j ≠ fd)
    (hndA : ∀ j ∈ A.ids, j ≠ ng ∧ j ≠ no ∧ j ≠ fd)
    (hndB : ∀ j ∈ B.ids, j ≠ ng ∧ j ≠ no ∧ j ≠ fd)
    (hndR : ∀ j ∈ R.ids, j ≠ ng ∧ j ≠ no ∧ j ≠ fd) :
    (balancearCasoDireitaEsquerda H no vq).2 = ng ∧
    (∀ j, j ≠ ng → j ≠ no → j ≠ fd →
      obterCor (balancearCasoDireitaEsquerda H no vq).1 j (vq : Int)
        = obterCor H j (vq : Int) ∧
      obterFilhos (balancearCasoDireitaEsquerda H no vq).1 j (vq : Int)
        = obterFilhos H j (vq : Int)) ∧
    ∃ f', snapIds (balancearCasoDireitaEsquerda H no vq).1 (some ng)
        (vq : Int) f'
      = some (ArvoreIds.nodo ng Cor.VERMELHO yg
          (ArvoreIds.nodo no Cor.PRETO y sl A)
          (ArvoreIds.nodo fd Cor.PRETO yd B R)) := by
  obtain ⟨hraiz, hcorng, hfilng, hcorno, hcorfd, hfilno, hfilfd, hcorout,
    hfilout⟩ := balancearRL_leituras hfdEq hngEq hno hfd hng hfdno hngfd hngno
  refine ⟨hraiz, fun j h1 h2 h3 => ⟨hcorout j h1 h2 h3, hfilout j h1 h2 h3⟩, ?_⟩
  have hvida := vida_balancearRL H no vq
  have hta8 : TodosAtivos (balancearCasoDireitaEsquerda H no vq).1 (vq : Int) :=
    todos_de_mesmaVida hvida hta
  have hpres : ∀ (s : ArvoreIds) (fs : Nat),
      (∀ j ∈ s.ids, j ≠ ng ∧ j ≠ no ∧ j ≠ fd) →
      snapIds H (raizI s) (vq : Int) fs = some s →
      snapIds (balancearCasoDireitaEsquerda H no vq).1 (raizI s) (vq : Int) fs
        = some s := by
    intro s fs hnd hsnap
    refine snapIds_igual_em hta hta8 hsnap ?_
    intro j hj
    obtain ⟨h1, h2, h3⟩ := hnd j hj
    exact ⟨hcorout j h1 h2 h3, valor_de_mesmaVida hvida j, hfilout j h1 h2 h3⟩
  have hl' := hpres sl fl hndl hl
  have hA' := hpres A fA hndA hA
  have hB' := hpres B fB hndB hB
  have hR' := hpres R fR hndR hR
  have hno' : snapIds (balancearCasoDireitaEsquerda H no vq).1 (some no)
      (vq : Int) (max fl fA + 1)
      = some (ArvoreIds.nodo no Cor.PRETO y sl A) := by
    refine snap_monta (hta8 no) ?_ hcorno ?_ hl' hA'
    · rw [hfilno, hfeEq, hbeEq]
    · rw [valor_de_mesmaVida hvida no, hyv]
  have hfd' : snapIds (balancearCasoDireitaEsquerda H no vq).1 (some fd)
      (vq : Int) (max fB fR + 1)
      = some (ArvoreIds.nodo fd Cor.PRETO yd B R) := by
    refine snap_monta (hta8 fd) ?_ hcorfd ?_ hB' hR'
    · rw [hfilfd, hbdEq, hrrEq]
    · rw [valor_de_mesmaVida hvida fd, hyd]
  refine ⟨max (max fl fA + 1) (max fB fR + 1) + 1, ?_⟩
  refine snap_monta (hta8 ng) ?_ hcorng ?_ hno' hfd'
  · rw [hfilng]; rfl
  · rw [valor_de_mesmaVida hvida ng, hyg]

theorem balancearRR_leituras {h : Heap} {no fd g2 : NodeId} {versao : Nat}
    (hfdEq : obterFilhoDireito h no (versao : Int) = some fd)
    (hg2Eq : obterFilhoDireito h fd (versao : Int) = some g2)
    (hno : no < h.length) (hfd : fd < h.length) (hg2 : g2 < h.length)
    (hfdno : fd ≠ no) (hfdg : fd ≠ g2) (hg2no : g2 ≠ no) :
    (balancearCasoDireitaDireita h no versao).2 = fd ∧
    obterCor (balancearCasoDireitaDireita h no versao).1 fd (versao : Int)
      = Cor.VERMELHO ∧
    obterFilhos (balancearCasoDireitaDireita h no versao).1 fd (versao : Int)
      = (some no, some g2) ∧
    obterCor (balancearCasoDireitaDireita h no versao).1 no (versao : Int)
      = Cor.PRETO ∧
    obterCor (balancearCasoDireitaDireita h no versao).1 g2 (versao : Int)
      = Cor.PRETO ∧
    obterFilhos (balancearCasoDireitaDireita h no versao).1 no (versao : Int)
      = (obterFilhoEsquerdo h no (versao : Int),
         obterFilhoEsquerdo h fd (versao : Int)) ∧
    (∀ j, j ≠ fd → j ≠ g2 → j ≠ no →
      obterCor (balancearCasoDireitaDireita h no versao).1 j (versao : Int)
        = obterCor h j (versao : Int)) ∧
    (∀ j, j ≠ fd → j ≠ no →
      obterFilhos (balancearCasoDireitaDireita h no versao).1 j (versao : Int)
        = obterFilhos h j (versao : Int)) := by
  simp only [balancearCasoDireitaDireita, hfdEq, hg2Eq, Option.getD_some]
  refine ⟨by trivial, ?_, ?_, ?_, ?_, ?_, ?_, ?_⟩
  · rw [obterCor_definirPai, obterCor_definirPai, obterCor_talvezPai,
      obterCor_definirFilhos, obterCor_definirFilhos,
      obterCor_definirCor_outro _ _ (Ne.symm hfdg),
      obterCor_definirCor_outro _ _ (Ne.symm hfdno)]
    exact obterCor_definirCor_self _ _ hfd
  · rw [obterFilhos_definirPai, obterFilhos_definirPai, obterFilhos_talvezPai,
      obterFilhos_definirFilhos_outro _ _ _ (Ne.symm hfdno)]
    refine obterFilhos_definirFilhos_self _ _ _ ?_
    rw [comprimento_definirCor, comprimento_definirCor, comprimento_definirCor]
    exact hfd
  · rw [obterCor_definirPai, obterCor_definirPai, obterCor_talvezPai,
      obterCor_definirFilhos, obterCor_definirFilhos,
      obterCor_definirCor_outro _ _ hg2no]
    exact obterCor_definirCor_self _ _ (by rw [comprimento_definirCor]; exact hno)
  · rw [obterCor_definirPai, obterCor_definirPai, obterCor_talvezPai,
      obterCor_definirFilhos, obterCor_definirFilhos]
    exact obterCor_definirCor_self _ _
      (by rw [comprimento_definirCor, comprimento_definirCor]; exact hg2)
  · rw [obterFilhos_definirPai, obterFilhos_definirPai, obterFilhos_talvezPai]
    refine obterFilhos_definirFilhos_self _ _ _ ?_
    rw [comprimento_definirFilhos, comprimento_definirCor,
      comprimento_definirCor, comprimento_definirCor]
    exact hno
  · intro j hjfd hjg2 hjno
    rw [obterCor_definirPai, obterCor_definirPai, obterCor_talvezPai,
      obterCor_definirFilhos, obterCor_definirFilhos,
      obterCor_definirCor_outro _ _ (fun hh => hjg2 hh.symm),
      obterCor_definirCor_outro _ _ (fun hh => hjno hh.symm),
      obterCor_definirCor_outro _ _ (fun hh => hjfd hh.symm)]
  · intro j hjfd hjno
    rw [obterFilhos_definirPai, obterFilhos_definirPai, obterFilhos_talvezPai,
      obterFilhos_definirFilhos_outro _ _ _ (fun hh => hjno hh.symm),
      obterFilhos_definirFilhos_outro _ _ _ (fun hh => hjfd hh.symm),
      obterFilhos_definirCor, obterFilhos_definirCor, obterFilhos_definirCor]

theorem sim_RR {H : Heap} {vq : Nat} {no fd g2 : NodeId} {y yd yg : Int}
    {sl S A B : ArvoreIds} {fl fS fA fB : Nat}
    (hta : TodosAtivos H (vq : Int))
    (hfdEq : obterFilhoDireito H no (vq : Int) = some fd)
    (hg2Eq : obterFilhoDireito H fd (vq : Int) = some g2)
    (hndeEq : obterFilhoEsquerdo H fd (vq : Int) = raizI S)
    (hfeEq : obterFilhoEsquerdo H no (vq : Int) = raizI sl)
    (hbeEq : obterFilhoEsquerdo H g2 (vq : Int) = raizI A)
    (hbdEq : obterFilhoDireito H g2 (vq : Int) = raizI B)
    (hyv : valorDe H no = y) (hyd : valorDe H fd = yd) (hyg : valorDe H g2 = yg)
    (hl : snapIds H (raizI sl) (vq : Int) fl = some sl)
    (hS : snapIds H (raizI S) (vq : Int) fS = some S)
    (hA : snapIds H (raizI A) (vq : Int) fA = some A)
    (hB : snapIds H (raizI B) (vq : Int) fB = some B)
    (hno : no < H.length) (hfd : fd < H.length) (hg2 : g2 < H.length)
    (hfdno : fd ≠ no) (hfdg : fd ≠ g2) (hg2no : g2 ≠ no)
    (hndl : ∀ j ∈ sl.ids, j ≠ fd ∧ j ≠ g2 ∧ j ≠ no)
    (hndS : ∀ j ∈ S.ids, j ≠ fd ∧ j ≠ g2 ∧ j ≠ no)
    (hndA : ∀ j ∈ A.ids, j ≠ fd ∧ j ≠ g2 ∧ j ≠ no)
    (hndB : ∀ j ∈ B.ids, j ≠ fd ∧ j ≠ g2 ∧ j ≠ no) :
    (balancearCasoDireitaDireita H no vq).2 = fd ∧
    (∀ j, j ≠ fd → j ≠ g2 → j ≠ no →
      obterCor (balancearCasoDireitaDireita H no vq).1 j (vq : Int)
        = obterCor H j (vq : Int) ∧
      obterFilhos (balancearCasoDireitaDireita H no vq).1 j (vq : Int)
        = obterFilhos H j (vq : Int)) ∧
    ∃ f', snapIds (balancearCasoDireitaDireita H no vq).1 (some fd)
        (vq : Int) f'
      = some (ArvoreIds.nodo fd Cor.VERMELHO yd
          (ArvoreIds.nodo no Cor.PRETO y sl S)
          (ArvoreIds.nodo g2 Cor.PRETO yg A B)) := by
  obtain ⟨hraiz, hcorfd, hfilfd, hcorno, hcorg2, hfilno, hcorout, hfilout⟩ :=
    balancearRR_leituras hfdEq hg2Eq hno hfd hg2 hfdno hfdg hg2no
  refine ⟨hraiz, fun j h1 h2 h3 => ⟨hcorout j h1 h2 h3, hfilout j h1 h3⟩, ?_⟩
  have hvida := vida_balancearRR H no vq
  have hta8 : TodosAtivos (balancearCasoDireitaDireita H no vq).1 (vq : Int) :=
    todos_de_mesmaVida hvida hta
  have hpres : ∀ (s : ArvoreIds) (fs : Nat),
      (∀ j ∈ s.ids, j ≠ fd ∧ j ≠ g2 ∧ j ≠ no) →
      snapIds H (raizI s) (vq : Int) fs = some s →
      snapIds (balancearCasoDireitaDireita H no vq).1 (raizI s) (vq : Int) fs
        = some s := by
    intro s fs hnd hsnap
    refine snapIds_igual_em hta hta8 hsnap ?_
    intro j hj
    obtain ⟨h1, h2, h3⟩ := hnd j hj
    exact ⟨hcorout j h1 h2 h3, valor_de_mesmaVida hvida j, hfilout j h1 h3⟩
  have hl' := hpres sl fl hndl hl
  have hS' := hpres S fS hndS hS
  have hA' := hpres A fA hndA hA
  have hB' := hpres B fB hndB hB
  have hno' : snapIds (balancearCasoDireitaDireita H no vq).1 (some no)
      (vq : Int) (max fl fS + 1)
      = some (ArvoreIds.nodo no Cor.PRETO y sl S) := by
    refine snap_monta (hta8 no) ?_ hcorno ?_ hl' hS'
    · rw [hfilno, hfeEq, hndeEq]
    · rw [valor_de_mesmaVida hvida no, hyv]
  have hg2' : snapIds (balancearCasoDireitaDireita H no vq).1 (some g2)
      (vq : Int) (max fA fB + 1)
      = some (ArvoreIds.nodo g2 Cor.PRETO yg A B) := by
    refine snap_monta (hta8 g2) ?_ hcorg2 ?_ hA' hB'
    · rw [hfilout g2 (Ne.symm hfdg) hg2no]
      rw [show obterFilhos H g2 (vq : Int)
          = ((obterFilhos H g2 (vq : Int)).1, (obterFilhos H g2 (vq : Int)).2)
        from rfl]
      rw [← obterFilhoEsquerdo_fst, ← obterFilhoDireito_snd, hbeEq, hbdEq]
    · rw [valor_de_mesmaVida hvida g2, hyg]
  refine ⟨max (max fl fS + 1) (max fA fB + 1) + 1, ?_⟩
  refine snap_monta (hta8 fd) ?_ hcorfd ?_ hno' hg2'
  · rw [hfilfd]; rfl
  · rw [valor_de_mesmaVida hvida fd, hyd]

theorem lerNo_fora {h : Heap} {i : NodeId} (hi : h.length ≤ i) :
    lerNo h i = noPadrao := by
  unfold lerNo
  rw [List.get?_eq_none.mpr hi]
  rfl

theorem estaAtivo_fora {h : Heap} {j : NodeId} (hj : h.length ≤ j) {v : Int}
    (hv : 0 ≤ v) : estaAtivo h j v = true := by
  unfold estaAtivo
  rw [lerNo_fora hj]
  simp [No.esta_ativo, noPadrao, No.novo, hv]

theorem nodup_decomp {xs ys : List NodeId} {m : NodeId}
    (h : (xs ++ m :: ys).Nodup) :
    xs.Nodup ∧ ys.Nodup ∧ m ∉ xs ∧ m ∉ ys ∧ ∀ a ∈ xs, a ∉ ys := by
  rw [List.nodup_append] at h
  obtain ⟨h1, h2, h3⟩ := h
  rw [List.nodup_cons] at h2
  refine ⟨h1, h2.2, fun hm => ?_, h2.1, fun a ha hay => ?_⟩
  · exact h3 hm (List.mem_cons_self m ys)
  · exact h3 ha (List.mem_cons_of_mem m hay)

theorem vermelhoI_forma {s : ArvoreIds} (h : ehVermelhoP s.apaga = true) :
    ∃ i y a b, s = ArvoreIds.nodo i Cor.VERMELHO y a b := by
  cases s with
  | folha => simp [ArvoreIds.apaga, ehVermelhoP] at h
  | nodo i c y a b =>
    cases c with
    | VERMELHO => exact ⟨i, y, a, b, rfl⟩
    | PRETO => simp [ArvoreIds.apaga, ehVermelhoP] at h

theorem topo_de_naoVermelho {t : ArvoreBin} (h : ehVermelhoP t = false) :
    topoSemVV t = true := by
  cases t with
  | folha => rfl
  | nodo c x l r =>
    cases c with
    | VERMELHO => simp [ehVermelhoP] at h
    | PRETO => rfl

theorem snap_nodo_inv {H : Heap} {vq : Int} {F : Nat} {no : NodeId} {c : Cor}
    {y : Int} {l r : ArvoreIds} (hta : TodosAtivos H vq)
    (hs : snapIds H (some no) vq F = some (ArvoreIds.nodo no c y l r)) :
    obterCor H no vq = c ∧ valorDe H no = y ∧
    obterFilhoEsquerdo H no vq = raizI l ∧
    obterFilhoDireito H no vq = raizI r ∧
    ∃ F₁, snapIds H (obterFilhoEsquerdo H no vq) vq F₁ = some l ∧
      snapIds H (obterFilhoDireito H no vq) vq F₁ = some r := by
  cases F with
  | zero => simp [snapIds] at hs
  | succ F =>
    obtain ⟨sl, sr, hl, hr, heq⟩ := snapIds_some_inv hs (hta no)
    injection heq with h1 h2 h3 h4 h5
    subst h2 h3 h4 h5
    exact ⟨rfl, rfl, snapIds_raiz hta hl, snapIds_raiz hta hr, F,
      hl, hr⟩

theorem nao_membro_ne {a : NodeId} {L : List NodeId} (ha : a ∉ L) :
    ∀ j ∈ L, j ≠ a :=
  fun j hj he => ha (he ▸ hj)

theorem mem_ne {a b : NodeId} {L : List NodeId} (ha : a ∈ L) (hb : b ∉ L) :
    a ≠ b := fun h => hb (h ▸ ha)

theorem disj_ne {L1 L2 : List NodeId} (disj : ∀ b ∈ L1, b ∉ L2)
    {j a : NodeId} (hj : j ∈ L1) (ha : a ∈ L2) : j ≠ a :=
  (mem_ne ha (disj j hj)).symm

theorem sim_checa {H : Heap} {vq : Nat} {no : NodeId} {c : Cor} {y : Int}
    {l r : ArvoreIds} {F : Nat}
    (hta : TodosAtivos H (vq : Int))
    (hsnap : snapIds H (some no) (vq : Int) F
      = some (ArvoreIds.nodo no c y l r))
    (hnd : (ArvoreIds.nodo no c y l r).ids.Nodup)
    (hbound : ∀ j ∈ (ArvoreIds.nodo no c y l r).ids, j < H.length)
    (htl : topoSemVV l.apaga = true) :
    ∃ s' f',
      snapIds (balancearChecaDireita H no vq).1
        (some (balancearChecaDireita H no vq).2) (vq : Int) f' = some s' ∧
      s'.apaga = balP (ArvoreIds.nodo no c y l r).apaga ∧
      s'.ids = (ArvoreIds.nodo no c y l r).ids ∧
      (∀ j, j ∉ (ArvoreIds.nodo no c y l r).ids →
        obterCor (balancearChecaDireita H no vq).1 j (vq : Int)
          = obterCor H j (vq : Int) ∧
        obterFilhos (balancearChecaDireita H no vq).1 j (vq : Int)
          = obterFilhos H j (vq : Int)) := by
  obtain ⟨hcor, hval, hfe, hfd, F₁, hls, hrs⟩ := snap_nodo_inv hta hsnap
  rw [hfe] at hls
  simp only [balancearChecaDireita]
  split
  · rename_i hrv'
    rw [ehVermelho_snap hta hrs] at hrv'
    obtain ⟨fd, yd, S, G2, rfl⟩ := vermelhoI_forma hrv'
    have hfd' : obterFilhoDireito H no (vq : Int) = some fd := hfd
    rw [hfd'] at hrs
    obtain ⟨hcord, hvald, hfes, hfds, F₂, hSs, hGs⟩ := snap_nodo_inv hta hrs
    rw [hfd']
    simp only [Option.getD_some]
    have hnob : no < H.length := hbound no (by simp [ids_nodo])
    have hfdb : fd < H.length := hbound fd (by simp [ids_nodo])
    split
    · rename_i hSv'
      rw [ehVermelho_snap hta hSs] at hSv'
      obtain ⟨ng, yg, A, B, rfl⟩ := vermelhoI_forma hSv'
      have hng' : obterFilhoEsquerdo H fd (vq : Int) = some ng := hfes
      rw [hng'] at hSs
      obtain ⟨hcorg, hvalg, hbe, hbd, F₃, hAs, hBs⟩ := snap_nodo_inv hta hSs
      rw [hbe] at hAs
      rw [hbd] at hBs
      have hngb : ng < H.length := hbound ng (by simp [ids_nodo])
      rw [ids_nodo, ids_nodo, ids_nodo] at hnd
      obtain ⟨ndl, ndr, hnol, hnor, hlr⟩ := nodup_decomp hnd
      obtain ⟨ndS, ndG2, hfdS, hfdG2, hSG2⟩ := nodup_decomp ndr
      obtain ⟨ndA, ndB, hngA, hngB, hAB⟩ := nodup_decomp ndS
      have hmemfd : fd ∈ (A.ids ++ ng :: B.ids) ++ fd :: G2.ids := by simp
      have hmemng : ng ∈ (A.ids ++ ng :: B.ids) ++ fd :: G2.ids := by simp
      have hmemngS : ng ∈ A.ids ++ ng :: B.ids := by simp
      have hfdno : fd ≠ no := mem_ne hmemfd hnor
      have hngno : ng ≠ no := mem_ne hmemng hnor
      have hngfd : ng ≠ fd := mem_ne hmemngS hfdS
      have hlts : ∀ j ∈ l.ids, j ≠ ng ∧ j ≠ no ∧ j ≠ fd := by
        intro j hj
        exact ⟨disj_ne hlr hj hmemng, mem_ne hj hnol, disj_ne hlr hj hmemfd⟩
      have hAts : ∀ j ∈ A.ids, j ≠ ng ∧ j ≠ no ∧ j ≠ fd := by
        intro j hj
        have hjS : j ∈ A.ids ++ ng :: B.ids := by simp [hj]
        have hjr : j ∈ (A.ids ++ ng :: B.ids) ++ fd :: G2.ids := by simp [hj]
        exact ⟨mem_ne hj hngA, mem_ne hjr hnor, mem_ne hjS hfdS⟩
      have hBts : ∀ j ∈ B.ids, j ≠ ng ∧ j ≠ no ∧ j ≠ fd := by
        intro j hj
        have hjS : j ∈ A.ids ++ ng :: B.ids := by simp [hj]
        have hjr : j ∈ (A.ids ++ ng :: B.ids) ++ fd :: G2.ids := by simp [hj]
        exact ⟨mem_ne hj hngB, mem_ne hjr hnor, mem_ne hjS hfdS⟩
      have hGts : ∀ j ∈ G2.ids, j ≠ ng ∧ j ≠ no ∧ j ≠ fd := by
        intro j hj
        have hjr : j ∈ (A.ids ++ ng :: B.ids) ++ fd :: G2.ids := by simp [hj]
        exact ⟨(disj_ne hSG2 hmemngS hj).symm, mem_ne hjr hnor,
          mem_ne hj hfdG2⟩
      rw [hfds] at hGs
      obtain ⟨hraiz, hout, f', hsim⟩ := sim_RL hta hfd' hng' hfe hbe hbd hfds
        hval hvald hvalg hls hAs hBs hGs hnob hfdb hngb hfdno hngfd hngno
        hlts hAts hBts hGts
      refine ⟨ArvoreIds.nodo ng Cor.VERMELHO yg
        (ArvoreIds.nodo no Cor.PRETO y l A)
        (ArvoreIds.nodo fd Cor.PRETO yd B G2), f', ?_, ?_, ?_, ?_⟩
      · rw [hraiz]
        exact hsim
      · simp only [ArvoreIds.apaga]
        rw [balP_arm3 htl]
      · simp [ids_nodo, List.append_assoc]
      · intro j hj
        have hne1 : j ≠ ng := fun h => hj (by subst h; simp [ids_nodo])
        have hne2 : j ≠ no := fun h => hj (by subst h; simp [ids_nodo])
        have hne3 : j ≠ fd := fun h => hj (by subst h; simp [ids_nodo])
        exact hout j hne1 hne2 hne3
    · rename_i hSv'
      rw [ehVermelho_snap hta hSs] at hSv'
      have hSf : ehVermelhoP S.apaga = false := by
        revert hSv'; cases ehVermelhoP S.apaga <;> simp
      split
      · rename_i hGv'
        rw [ehVermelho_snap hta hGs] at hGv'
        obtain ⟨g2, yg, A, B, rfl⟩ := vermelhoI_forma hGv'
        have hg2' : obterFilhoDireito H fd (vq : Int) = some g2 := hfds
        rw [hg2'] at hGs
        obtain ⟨hcorg, hvalg, hbe, hbd, F₃, hAs, hBs⟩ := snap_nodo_inv hta hGs
        rw [hbe] at hAs
        rw [hbd] at hBs
        rw [hfes] at hSs
        have hg2b : g2 < H.length := hbound g2 (by simp [ids_nodo])
        rw [ids_nodo, ids_nodo, ids_nodo] at hnd
        obtain ⟨ndl, ndr, hnol, hnor, hlr⟩ := nodup_decomp hnd
        obtain ⟨ndS, ndG2, hfdS, hfdG2, hSG2⟩ := nodup_decomp ndr
        obtain ⟨ndA, ndB, hg2A, hg2B, hAB⟩ := nodup_decomp ndG2
        have hmemfd : fd ∈ S.ids ++ fd :: (A.ids ++ g2 :: B.ids) := by simp
        have hmemg2G : g2 ∈ A.ids ++ g2 :: B.ids := by simp
        have hmemg2 : g2 ∈ S.ids ++ fd :: (A.ids ++ g2 :: B.ids) := by simp
        have hfdno : fd ≠ no := mem_ne hmemfd hnor
        have hg2no : g2 ≠ no := mem_ne hmemg2 hnor
        have hfdg : fd ≠ g2 := (mem_ne hmemg2G hfdG2).symm
        have hlts : ∀ j ∈ l.ids, j ≠ fd ∧ j ≠ g2 ∧ j ≠ no := by
          intro j hj
          exact ⟨disj_ne hlr hj hmemfd, disj_ne hlr hj hmemg2,
            mem_ne hj hnol⟩
        have hSts : ∀ j ∈ S.ids, j ≠ fd ∧ j ≠ g2 ∧ j ≠ no := by
          intro j hj
          have hjr : j ∈ S.ids ++ fd :: (A.ids ++ g2 :: B.ids) := by simp [hj]
          exact ⟨mem_ne hj hfdS, disj_ne hSG2 hj hmemg2G, mem_ne hjr hnor⟩
        have hAts : ∀ j ∈ A.ids, j ≠ fd ∧ j ≠ g2 ∧ j ≠ no := by
          intro j hj
          have hjG : j ∈ A.ids ++ g2 :: B.ids := by simp [hj]
          have hjr : j ∈ S.ids ++ fd :: (A.ids ++ g2 :: B.ids) := by simp [hj]
          exact ⟨mem_ne hjG hfdG2, mem_ne hj hg2A, mem_ne hjr hnor⟩
        have hBts : ∀ j ∈ B.ids, j ≠ fd ∧ j ≠ g2 ∧ j ≠ no := by
          intro j hj
          have hjG : j ∈ A.ids ++ g2 :: B.ids := by simp [hj]
          have hjr : j ∈ S.ids ++ fd :: (A.ids ++ g2 :: B.ids) := by simp [hj]
          exact ⟨mem_ne hjG hfdG2, mem_ne hj hg2B, mem_ne hjr hnor⟩
        obtain ⟨hraiz, hout, f', hsim⟩ := sim_RR hta hfd' hg2' hfes hfe hbe hbd
          hval hvald hvalg hls hSs hAs hBs hnob hfdb hg2b hfdno hfdg hg2no
          hlts hSts hAts hBts
        refine ⟨ArvoreIds.nodo fd Cor.VERMELHO yd
          (ArvoreIds.nodo no Cor.PRETO y l S)
          (ArvoreIds.nodo g2 Cor.PRETO yg A B), f', ?_, ?_, ?_, ?_⟩
        · rw [hraiz]
          exact hsim
        · simp only [ArvoreIds.apaga]
          rw [balP_arm4 htl hSf]
        · simp [ids_nodo, List.append_assoc]
        · intro j hj
          have hne1 : j ≠ fd := fun h => hj (by subst h; simp [ids_nodo])
          have hne2 : j ≠ g2 := fun h => hj (by subst h; simp [ids_nodo])
          have hne3 : j ≠ no := fun h => hj (by subst h; simp [ids_nodo])
          exact hout j hne1 hne2 hne3
      · rename_i hGv'
        rw [ehVermelho_snap hta hGs] at hGv'
        have hGf : ehVermelhoP G2.apaga = false := by
          revert hGv'; cases ehVermelhoP G2.apaga <;> simp
        have htr : topoSemVV (ArvoreIds.nodo fd Cor.VERMELHO yd S G2).apaga
            = true := by
          simp [ArvoreIds.apaga, topoSemVV, hSf, hGf]
        refine ⟨ArvoreIds.nodo no c y l (ArvoreIds.nodo fd Cor.VERMELHO yd S G2),
          F, hsnap, ?_, rfl, fun j _ => ⟨rfl, rfl⟩⟩
        rw [show (ArvoreIds.nodo no c y l
            (ArvoreIds.nodo fd Cor.VERMELHO yd S G2)).apaga
          = ArvoreBin.nodo c y l.apaga
              (ArvoreIds.nodo fd Cor.VERMELHO yd S G2).apaga from rfl]
        rw [balP_id htl htr]
  · rename_i hrv'
    rw [ehVermelho_snap hta hrs] at hrv'
    have hrf : ehVermelhoP r.apaga = false := by
      revert hrv'; cases ehVermelhoP r.apaga <;> simp
    refine ⟨ArvoreIds.nodo no c y l r, F, hsnap, ?_, rfl, fun j _ => ⟨rfl, rfl⟩⟩
    rw [show (ArvoreIds.nodo no c y l r).apaga
      = ArvoreBin.nodo c y l.apaga r.apaga from rfl]
    rw [balP_id htl (topo_de_naoVermelho hrf)]

theorem sim_balancear {H : Heap} {vq : Nat} {no : NodeId} {c : Cor} {y : Int}
    {l r : ArvoreIds} {F : Nat}
    (hta : TodosAtivos H (vq : Int))
    (hsnap : snapIds H (some no) (vq : Int) F
      = some (ArvoreIds.nodo no c y l r))
    (hnd : (ArvoreIds.nodo no c y l r).ids.Nodup)
    (hbound : ∀ j ∈ (ArvoreIds.nodo no c y l r).ids, j < H.length) :
    ∃ s' f',
      snapIds (balancearAposInclusao H no vq).1
        (some (balancearAposInclusao H no vq).2) (vq : Int) f' = some s' ∧
      s'.apaga = balP (ArvoreIds.nodo no c y l r).apaga ∧
      s'.ids = (ArvoreIds.nodo no c y l r).ids ∧
      (∀ j, j ∉ (ArvoreIds.nodo no c y l r).ids →
        obterCor (balancearAposInclusao H no vq).1 j (vq : Int)
          = obterCor H j (vq : Int) ∧
        obterFilhos (balancearAposInclusao H no vq).1 j (vq : Int)
          = obterFilhos H j (vq : Int)) := by
  obtain ⟨hcor, hval, hfe, hfd, F₁, hls, hrs⟩ := snap_nodo_inv hta hsnap
  simp only [balancearAposInclusao]
  split
  · rename_i hlv'
    rw [ehVermelho_snap hta hls] at hlv'
    obtain ⟨fe, yf, SLL, SLR, rfl⟩ := vermelhoI_forma hlv'
    have hfe' : obterFilhoEsquerdo H no (vq : Int) = some fe := hfe
    rw [hfe'] at hls
    obtain ⟨hcorf, hvalf, hsll, hslr, F₂, hLs, hRs⟩ := snap_nodo_inv hta hls
    rw [hfe']
    simp only [Option.getD_some]
    have hnob : no < H.length := hbound no (by simp [ids_nodo])
    have hfeb : fe < H.length := hbound fe (by simp [ids_nodo])
    split
    · rename_i hLv'
      rw [ehVermelho_snap hta hLs] at hLv'
      obtain ⟨g, yg, A, B, rfl⟩ := vermelhoI_forma hLv'
      have hg' : obterFilhoEsquerdo H fe (vq : Int) = some g := hsll
      rw [hg'] at hLs
      obtain ⟨hcorg, hvalg, hbe, hbd, F₃, hAs, hBs⟩ := snap_nodo_inv hta hLs
      rw [hbe] at hAs
      rw [hbd] at hBs
      rw [hslr] at hRs
      rw [hfd] at hrs
      have hgb : g < H.length := hbound g (by simp [ids_nodo])
      rw [ids_nodo, ids_nodo, ids_nodo] at hnd
      obtain ⟨ndl, ndr, hnol, hnor, hlr⟩ := nodup_decomp hnd
      obtain ⟨ndSLL, ndSLR, hfeSLL, hfeSLR, hSLLSLR⟩ := nodup_decomp ndl
      obtain ⟨ndA, ndB, hgA, hgB, hAB⟩ := nodup_decomp ndSLL
      have hmemgS : g ∈ A.ids ++ g :: B.ids := by simp
      have hmemfx : fe ∈ (A.ids ++ g :: B.ids) ++ fe :: SLR.ids := by simp
      have hmemgx : g ∈ (A.ids ++ g :: B.ids) ++ fe :: SLR.ids := by simp
      have hfeno : fe ≠ no := mem_ne hmemfx hnol
      have hfeg : fe ≠ g := (mem_ne hmemgS hfeSLL).symm
      have hgno : g ≠ no := mem_ne hmemgx hnol
      have hAts : ∀ j ∈ A.ids, j ≠ fe ∧ j ≠ g ∧ j ≠ no := by
        intro j hj
        have hjS : j ∈ A.ids ++ g :: B.ids := by simp [hj]
        have hjx : j ∈ (A.ids ++ g :: B.ids) ++ fe :: SLR.ids := by simp [hj]
        exact ⟨mem_ne hjS hfeSLL, mem_ne hj hgA, mem_ne hjx hnol⟩
      have hBts : ∀ j ∈ B.ids, j ≠ fe ∧ j ≠ g ∧ j ≠ no := by
        intro j hj
        have hjS : j ∈ A.ids ++ g :: B.ids := by simp [hj]
        have hjx : j ∈ (A.ids ++ g :: B.ids) ++ fe :: SLR.ids := by simp [hj]
        exact ⟨mem_ne hjS hfeSLL, mem_ne hj hgB, mem_ne hjx hnol⟩
      have hSts : ∀ j ∈ SLR.ids, j ≠ fe ∧ j ≠ g ∧ j ≠ no := by
        intro j hj
        have hjx : j ∈ (A.ids ++ g :: B.ids) ++ fe :: SLR.ids := by simp [hj]
        exact ⟨mem_ne hj hfeSLR, (disj_ne hSLLSLR hmemgS hj).symm,
          mem_ne hjx hnol⟩
      have hRts : ∀ j ∈ r.ids, j ≠ fe ∧ j ≠ g ∧ j ≠ no := by
        intro j hj
        exact ⟨(disj_ne hlr hmemfx hj).symm, (disj_ne hlr hmemgx hj).symm,
          (mem_ne hj hnor)⟩
      obtain ⟨hraiz, hout, f', hsim⟩ := sim_LL hta hfe' hg' hslr hfd hbe hbd
        hval hvalf hvalg hAs hBs hRs hrs hnob hfeb hgb hfeno hfeg hgno
        hAts hBts hSts hRts
      refine ⟨ArvoreIds.nodo fe Cor.VERMELHO yf
        (ArvoreIds.nodo g Cor.PRETO yg A B)
        (ArvoreIds.nodo no Cor.PRETO y SLR r), f', ?_, ?_, ?_, ?_⟩
      · rw [hraiz]
        exact hsim
      · simp only [ArvoreIds.apaga]
        rw [balP_arm1]
      · simp [ids_nodo, List.append_assoc]
      · intro j hj
        have hne1 : j ≠ fe := fun h => hj (by subst h; simp [ids_nodo])
        have hne2 : j ≠ g := fun h => hj (by subst h; simp [ids_nodo])
        have hne3 : j ≠ no := fun h => hj (by subst h; simp [ids_nodo])
        exact hout j hne1 hne2 hne3
    · rename_i hLv'
      rw [ehVermelho_snap hta hLs] at hLv'
      have hLf : ehVermelhoP SLL.apaga = false := by
        revert hLv'; cases ehVermelhoP SLL.apaga <;> simp
      split
      · rename_i hRv'
        rw [ehVermelho_snap hta hRs] at hRv'
        obtain ⟨ng, yg, A, B, rfl⟩ := vermelhoI_forma hRv'
        have hng' : obterFilhoDireito H fe (vq : Int) = some ng := hslr
        rw [hng'] at hRs
        obtain ⟨hcorg, hvalg, hbe, hbd, F₃, hAs, hBs⟩ := snap_nodo_inv hta hRs
        rw [hbe] at hAs
        rw [hbd] at hBs
        rw [hsll] at hLs
        rw [hfd] at hrs
        have hngb : ng < H.length := hbound ng (by simp [ids_nodo])
        rw [ids_nodo, ids_nodo, ids_nodo] at hnd
        obtain ⟨ndl, ndr, hnol, hnor, hlr⟩ := nodup_decomp hnd
        obtain ⟨ndSLL, ndSLR, hfeSLL, hfeSLR, hSLLSLR⟩ := nodup_decomp ndl
        obtain ⟨ndA, ndB, hngA, hngB, hAB⟩ := nodup_decomp ndSLR
        have hmemngR : ng ∈ A.ids ++ ng :: B.ids := by simp
        have hmemfx : fe ∈ SLL.ids ++ fe :: (A.ids ++ ng :: B.ids) := by simp
        have hmemngx : ng ∈ SLL.ids ++ fe :: (A.ids ++ ng :: B.ids) := by simp
        have hfeno : fe ≠ no := mem_ne hmemfx hnol
        have hfeng : fe ≠ ng := (mem_ne hmemngR hfeSLR).symm
        have hngno : ng ≠ no := mem_ne hmemngx hnol
        have hLts : ∀ j ∈ SLL.ids, j ≠ fe ∧ j ≠ ng ∧ j ≠ no := by
          intro j hj
          have hjx : j ∈ SLL.ids ++ fe :: (A.ids ++ ng :: B.ids) := by
            simp [hj]
          exact ⟨mem_ne hj hfeSLL, disj_ne hSLLSLR hj hmemngR,
            mem_ne hjx hnol⟩
        have hAts : ∀ j ∈ A.ids, j ≠ fe ∧ j ≠ ng ∧ j ≠ no := by
          intro j hj
          have hjR : j ∈ A.ids ++ ng :: B.ids := by simp [hj]
          have hjx : j ∈ SLL.ids ++ fe :: (A.ids ++ ng :: B.ids) := by
            simp [hj]
          exact ⟨mem_ne hjR hfeSLR, mem_ne hj hngA, mem_ne hjx hnol⟩
        have hBts : ∀ j ∈ B.ids, j ≠ fe ∧ j ≠ ng ∧ j ≠ no := by
          intro j hj
          have hjR : j ∈ A.ids ++ ng :: B.ids := by simp [hj]
          have hjx : j ∈ SLL.ids ++ fe :: (A.ids ++ ng :: B.ids) := by
            simp [hj]
          exact ⟨mem_ne hjR hfeSLR, mem_ne hj hngB, mem_ne hjx hnol⟩
        have hRts : ∀ j ∈ r.ids, j ≠ fe ∧ j ≠ ng ∧ j ≠ no := by
          intro j hj
          exact ⟨(disj_ne hlr hmemfx hj).symm, (disj_ne hlr hmemngx hj).symm,
            mem_ne hj hnor⟩
        obtain ⟨hraiz, hout, f', hsim⟩ := sim_LR hta hfe' hng' hsll hbe hbd
          hfd hval hvalf hvalg hLs hAs hBs hrs hnob hfeb hngb hfeno hfeng
          hngno hLts hAts hBts hRts
        refine ⟨ArvoreIds.nodo ng Cor.VERMELHO yg
          (ArvoreIds.nodo fe Cor.PRETO yf SLL A)
          (ArvoreIds.nodo no Cor.PRETO y B r), f', ?_, ?_, ?_, ?_⟩
        · rw [hraiz]
          exact hsim
        · simp only [ArvoreIds.apaga]
          rw [balP_arm2 hLf]
        · simp [ids_nodo, List.append_assoc]
        · intro j hj
          have hne1 : j ≠ fe := fun h => hj (by subst h; simp [ids_nodo])
          have hne2 : j ≠ ng := fun h => hj (by subst h; simp [ids_nodo])
          have hne3 : j ≠ no := fun h => hj (by subst h; simp [ids_nodo])
          exact hout j hne1 hne2 hne3
      · rename_i hRv'
        rw [ehVermelho_snap hta hRs] at hRv'
        have hRf : ehVermelhoP SLR.apaga = false := by
          revert hRv'; cases ehVermelhoP SLR.apaga <;> simp
        have htl : topoSemVV (ArvoreIds.nodo fe Cor.VERMELHO yf SLL SLR).apaga
            = true := by
          simp [ArvoreIds.apaga, topoSemVV, hLf, hRf]
        exact sim_checa hta hsnap hnd hbound htl
  · rename_i hlv'
    rw [ehVermelho_snap hta hls] at hlv'
    have hlf : ehVermelhoP l.apaga = false := by
      revert hlv'; cases ehVermelhoP l.apaga <;> simp
    exact sim_checa hta hsnap hnd hbound (topo_de_naoVermelho hlf)

theorem estaAtivo_de {h : Heap} {j : NodeId} {vq : Nat}
    (hc : (lerNo h j).versao_criacao = vq)
    (hr : (lerNo h j).versao_remocao = none) :
    estaAtivo h j (vq : Int) = true := by
  unfold estaAtivo No.esta_ativo
  rw [hc, hr]
  simp

theorem todos_incluirRecursivo (x : Int) (vq : Nat) (fuel : Nat) (h : Heap)
    (no : Option NodeId) (hta : TodosAtivos h (vq : Int)) :
    TodosAtivos (incluirRecursivo h no x vq fuel).1 (vq : Int) := by
  intro j
  have hv := vida_incluirRecursivo x vq fuel h no
  by_cases hj : j < h.length
  · obtain ⟨h1, h2, _⟩ := hv.1 j hj
    rw [estaAtivo_de_vida h1 h2]
    exact hta j
  · by_cases hj' : j < (incluirRecursivo h no x vq fuel).1.length
    · obtain ⟨h1, h2⟩ := hv.2 j (le_of_not_lt hj) hj'
      exact estaAtivo_de h1 h2
    · exact estaAtivo_fora (le_of_not_lt hj') (by positivity)

theorem nodup_monta {xs ys : List NodeId} {m : NodeId} (hx : xs.Nodup)
    (hy : ys.Nodup) (hmx : m ∉ xs) (hmy : m ∉ ys)
    (hdisj : ∀ a ∈ xs, a ∉ ys) : (xs ++ m :: ys).Nodup := by
  rw [List.nodup_append]
  refine ⟨hx, ?_, ?_⟩
  · rw [List.nodup_cons]
    exact ⟨hmy, hy⟩
  · intro a ha hb
    rcases List.mem_cons.mp hb with h | h
    · exact hmx (h ▸ ha)
    · exact hdisj a ha h

theorem perm_insercao (xs ys : List NodeId) (a b : NodeId) :
    ((xs ++ [a]) ++ b :: ys).Perm ((xs ++ b :: ys) ++ [a]) := by
  have h1 : (xs ++ [a]) ++ b :: ys = xs ++ a :: (b :: ys) := by simp
  have h2 : (xs ++ a :: (b :: ys)).Perm (a :: (xs ++ b :: ys)) :=
    List.perm_middle
  have h3 : ((xs ++ b :: ys) ++ [a]).Perm (a :: (xs ++ b :: ys)) :=
    List.perm_append_singleton a (xs ++ b :: ys)
  rw [h1]
  exact h2.trans h3.symm

theorem snap_raiz_forma {h : Heap} {v : Int} {f : Nat} {k : NodeId}
    {s : ArvoreIds} (hs : snapIds h (some k) v f = some s)
    (hat : estaAtivo h k v = true) :
    ∃ c x a b, s = ArvoreIds.nodo k c x a b := by
  cases f with
  | zero => simp [snapIds] at hs
  | succ f =>
    obtain ⟨sl, sr, _, _, rfl⟩ := snapIds_some_inv hs hat
    exact ⟨_, _, _, _, rfl⟩

/-- Gluing step for the left-recursion branch of the insertion: the
parent rewrite plus rebalancing simulate the pure insertion. -/
theorem sim_passo_esq {h : Heap} {vq : Nat} {i : NodeId} {c : Cor} {y x : Int}
    {sl sr s₁ : ArvoreIds} {r₀ : Heap × NodeId} {f₁ fsr : Nat}
    (hta : TodosAtivos h (vq : Int)) (hta₀ : TodosAtivos r₀.1 (vq : Int))
    (hi : i < h.length) (hlen₀ : h.length ≤ r₀.1.length)
    (hlt : x < valorDe h i)
    (hcorEq : obterCor h i (vq : Int) = c) (hvalEq : valorDe h i = y)
    (hfdEq : obterFilhoDireito h i (vq : Int) = raizI sr)
    (hsnap₁ : snapIds r₀.1 (some r₀.2) (vq : Int) f₁ = some s₁)
    (happ₁ : s₁.apaga = insereP x sl.apaga)
    (hlp : r₀.1.length = h.length ∧ s₁.ids.Perm sl.ids ∨
      r₀.1.length = h.length + 1 ∧ s₁.ids.Perm (sl.ids ++ [h.length]))
    (hframe₁ : ∀ j, j < h.length → j ∉ sl.ids →
      obterCor r₀.1 j (vq : Int) = obterCor h j (vq : Int) ∧
      obterFilhos r₀.1 j (vq : Int) = obterFilhos h j (vq : Int))
    (hvalold : ∀ j, j < h.length → valorDe r₀.1 j = valorDe h j)
    (hsr : snapIds h (raizI sr) (vq : Int) fsr = some sr)
    (hndT : (sl.ids ++ i :: sr.ids).Nodup)
    (hbsl : ∀ j ∈ sl.ids, j < h.length)
    (hbsr : ∀ j ∈ sr.ids, j < h.length) :
    ∃ s' f',
      snapIds (balancearAposInclusao (definirPai (definirFilhoEsquerdo r₀.1 i
          (some r₀.2) vq) r₀.2 (some i) vq) i vq).1
        (some (balancearAposInclusao (definirPai (definirFilhoEsquerdo r₀.1 i
          (some r₀.2) vq) r₀.2 (some i) vq) i vq).2) (vq : Int) f'
        = some s' ∧
      s'.apaga = insereP x (ArvoreIds.nodo i c y sl sr).apaga ∧
      ((balancearAposInclusao (definirPai (definirFilhoEsquerdo r₀.1 i
            (some r₀.2) vq) r₀.2 (some i) vq) i vq).1.length = h.length ∧
          s'.ids.Perm (ArvoreIds.nodo i c y sl sr).ids ∨
        (balancearAposInclusao (definirPai (definirFilhoEsquerdo r₀.1 i
            (some r₀.2) vq) r₀.2 (some i) vq) i vq).1.length = h.length + 1 ∧
          s'.ids.Perm ((ArvoreIds.nodo i c y sl sr).ids ++ [h.length])) ∧
      TodosAtivos (balancearAposInclusao (definirPai (definirFilhoEsquerdo
        r₀.1 i (some r₀.2) vq) r₀.2 (some i) vq) i vq).1 (vq : Int) ∧
      (∀ j, j < h.length → j ∉ (ArvoreIds.nodo i c y sl sr).ids →
        obterCor (balancearAposInclusao (definirPai (definirFilhoEsquerdo
          r₀.1 i (some r₀.2) vq) r₀.2 (some i) vq) i vq).1 j (vq : Int)
          = obterCor h j (vq : Int) ∧
        obterFilhos (balancearAposInclusao (definirPai (definirFilhoEsquerdo
          r₀.1 i (some r₀.2) vq) r₀.2 (some i) vq) i vq).1 j (vq : Int)
          = obterFilhos h j (vq : Int)) := by
  obtain ⟨ndsl, ndsr, hisl, hisr, hslsr⟩ := nodup_decomp hndT
  have hvida2 : MesmaVida r₀.1 (definirPai (definirFilhoEsquerdo r₀.1 i
      (some r₀.2) vq) r₀.2 (some i) vq) :=
    ((mesmaVida_refl r₀.1).poisEsq i (some r₀.2) vq).poisPai r₀.2 (some i) vq
  have hta2 : TodosAtivos (definirPai (definirFilhoEsquerdo r₀.1 i
      (some r₀.2) vq) r₀.2 (some i) vq) (vq : Int) :=
    todos_de_mesmaVida hvida2 hta₀
  obtain ⟨c₁, x₁, a₁, b₁, hs₁eq⟩ := snap_raiz_forma hsnap₁ (hta₀ r₀.2)
  have hraizs₁ : raizI s₁ = some r₀.2 := by rw [hs₁eq]; rfl
  have hs₁sub : ∀ j ∈ s₁.ids, j ∈ sl.ids ∨ j = h.length := by
    intro j hj
    rcases hlp with ⟨_, hp⟩ | ⟨_, hp⟩
    · exact Or.inl (hp.mem_iff.mp hj)
    · rcases List.mem_append.mp (hp.mem_iff.mp hj) with hh | hh
      · exact Or.inl hh
      · exact Or.inr (by simpa using hh)
  have imem : i ∉ s₁.ids := by
    intro hmem
    rcases hs₁sub i hmem with hh | hh
    · exact hisl hh
    · rw [hh] at hi
      exact lt_irrefl _ hi
  have hbs₁ : ∀ j ∈ s₁.ids, j < r₀.1.length := by
    intro j hj
    rcases hlp with ⟨hlen, hp⟩ | ⟨hlen, hp⟩
    · rw [hlen]
      exact hbsl j (hp.mem_iff.mp hj)
    · rw [hlen]
      rcases List.mem_append.mp (hp.mem_iff.mp hj) with hh | hh
      · exact Nat.lt_succ_of_lt (hbsl j hh)
      · have hje : j = h.length := by simpa using hh
        rw [hje]
        exact Nat.lt_succ_self _
  have hcor2all : ∀ j (u : Int),
      obterCor (definirPai (definirFilhoEsquerdo r₀.1 i (some r₀.2) vq) r₀.2
        (some i) vq) j u = obterCor r₀.1 j u := by
    intro j u
    rw [obterCor_definirPai, obterCor_definirFilhoEsquerdo]
  have hfil2ne : ∀ j, j ≠ i → ∀ (u : Int),
      obterFilhos (definirPai (definirFilhoEsquerdo r₀.1 i (some r₀.2) vq)
        r₀.2 (some i) vq) j u = obterFilhos r₀.1 j u := by
    intro j hji u
    rw [obterFilhos_definirPai, obterFilhos_poeEsq_outro _ _ (Ne.symm hji)]
  have hval2 : ∀ j, valorDe (definirPai (definirFilhoEsquerdo r₀.1 i
      (some r₀.2) vq) r₀.2 (some i) vq) j = valorDe r₀.1 j :=
    valor_de_mesmaVida hvida2
  have hsrsl : ∀ j ∈ sr.ids, j ∉ sl.ids := fun j hj hjl => hslsr j hjl hj
  have hsr₀ : snapIds r₀.1 (raizI sr) (vq : Int) fsr = some sr := by
    refine snapIds_igual_em hta hta₀ hsr ?_
    intro j hj
    have hjl := hbsr j hj
    have hjn := hsrsl j hj
    exact ⟨(hframe₁ j hjl hjn).1, hvalold j hjl, (hframe₁ j hjl hjn).2⟩
  have hsr2 : snapIds (definirPai (definirFilhoEsquerdo r₀.1 i (some r₀.2) vq)
      r₀.2 (some i) vq) (raizI sr) (vq : Int) fsr = some sr := by
    refine snapIds_igual_em hta₀ hta2 hsr₀ ?_
    intro j hj
    exact ⟨hcor2all j _, hval2 j,
      hfil2ne j (mem_ne hj hisr) _⟩
  have hs₁2 : snapIds (definirPai (definirFilhoEsquerdo r₀.1 i (some r₀.2) vq)
      r₀.2 (some i) vq) (some r₀.2) (vq : Int) f₁ = some s₁ := by
    refine snapIds_igual_em hta₀ hta2 hsnap₁ ?_
    intro j hj
    exact ⟨hcor2all j _, hval2 j, hfil2ne j (mem_ne hj imem) _⟩
  have hcori : obterCor (definirPai (definirFilhoEsquerdo r₀.1 i (some r₀.2)
      vq) r₀.2 (some i) vq) i (vq : Int) = c := by
    rw [hcor2all, (hframe₁ i hi hisl).1, hcorEq]
  have hvali : valorDe (definirPai (definirFilhoEsquerdo r₀.1 i (some r₀.2)
      vq) r₀.2 (some i) vq) i = y := by
    rw [hval2, hvalold i hi, hvalEq]
  have hfili : obterFilhos (definirPai (definirFilhoEsquerdo r₀.1 i
      (some r₀.2) vq) r₀.2 (some i) vq) i (vq : Int)
      = (raizI s₁, raizI sr) := by
    rw [obterFilhos_definirPai,
      obterFilhos_poeEsq_self _ _ (lt_of_lt_of_le hi hlen₀), hraizs₁,
      (hframe₁ i hi hisl).2, ← obterFilhoDireito_snd, hfdEq]
  have hs₁2r : snapIds (definirPai (definirFilhoEsquerdo r₀.1 i (some r₀.2)
      vq) r₀.2 (some i) vq) (raizI s₁) (vq : Int) f₁ = some s₁ := by
    rw [hraizs₁]
    exact hs₁2
  have snapT2 := snap_monta (hta2 i) hfili hcori hvali hs₁2r hsr2
  have nds₁ : s₁.ids.Nodup := by
    rcases hlp with ⟨_, hp⟩ | ⟨_, hp⟩
    · exact hp.nodup_iff.mpr ndsl
    · refine hp.nodup_iff.mpr ?_
      rw [List.nodup_append]
      refine ⟨ndsl, List.nodup_singleton _, ?_⟩
      intro a ha hb
      have hae : a = h.length := by simpa using hb
      rw [hae] at ha
      exact absurd (hbsl _ ha) (lt_irrefl _)
  have hdisj12 : ∀ a ∈ s₁.ids, a ∉ sr.ids := by
    intro a ha hb
    rcases hs₁sub a ha with hh | hh
    · exact hslsr a hh hb
    · rw [hh] at hb
      exact absurd (hbsr _ hb) (lt_irrefl _)
  have nodupT2 : (ArvoreIds.nodo i c y s₁ sr).ids.Nodup := by
    rw [ids_nodo]
    exact nodup_monta nds₁ ndsr imem hisr hdisj12
  have boundsT2 : ∀ j ∈ (ArvoreIds.nodo i c y s₁ sr).ids,
      j < (definirPai (definirFilhoEsquerdo r₀.1 i (some r₀.2) vq) r₀.2
        (some i) vq).length := by
    intro j hj
    rw [comprimento_definirPai, comprimento_definirFilhoEsquerdo]
    rw [ids_nodo] at hj
    rcases List.mem_append.mp hj with hh | hh
    · exact hbs₁ j hh
    · rcases List.mem_cons.mp hh with hh | hh
      · subst hh; exact lt_of_lt_of_le hi hlen₀
      · exact lt_of_lt_of_le (hbsr j hh) hlen₀
  obtain ⟨s₂, f₂, hsnap₂, happ₂, hids₂, hout₂⟩ :=
    sim_balancear hta2 snapT2 nodupT2 boundsT2
  have hlenbal : (balancearAposInclusao (definirPai (definirFilhoEsquerdo
      r₀.1 i (some r₀.2) vq) r₀.2 (some i) vq) i vq).1.length
      = r₀.1.length := by
    rw [comprimento_balancearApos, comprimento_definirPai,
      comprimento_definirFilhoEsquerdo]
  refine ⟨s₂, f₂, hsnap₂, ?_, ?_, ?_, ?_⟩
  · rw [happ₂]
    simp only [ArvoreIds.apaga]
    have hlt' : x < y := hvalEq ▸ hlt
    rw [show insereP x (ArvoreBin.nodo c y sl.apaga sr.apaga)
        = balP (ArvoreBin.nodo c y (insereP x sl.apaga) sr.apaga) from by
      simp only [insereP]
      rw [if_pos hlt']]
    rw [happ₁]
  · rcases hlp with ⟨hlen, hp⟩ | ⟨hlen, hp⟩
    · refine Or.inl ⟨by rw [hlenbal, hlen], ?_⟩
      rw [hids₂, ids_nodo, ids_nodo]
      exact hp.append_right (i :: sr.ids)
    · refine Or.inr ⟨by rw [hlenbal, hlen], ?_⟩
      rw [hids₂, ids_nodo, ids_nodo]
      exact (hp.append_right (i :: sr.ids)).trans
        (perm_insercao sl.ids sr.ids h.length i)
  · exact todos_de_mesmaVida (vida_balancearApos _ i vq) hta2
  · intro j hjl hjn
    rw [ids_nodo] at hjn
    have hjsl : j ∉ sl.ids := fun hh => hjn (by simp [hh])
    have hji : j ≠ i := fun hh => hjn (by simp [hh])
    have hjsr : j ∉ sr.ids := fun hh => hjn (by simp [hh])
    have hjT2 : j ∉ (ArvoreIds.nodo i c y s₁ sr).ids := by
      rw [ids_nodo]
      intro hh
      rcases List.mem_append.mp hh with hh | hh
      · rcases hs₁sub j hh with hh2 | hh2
        · exact hjsl hh2
        · rw [hh2] at hjl
          exact lt_irrefl _ hjl
      · rcases List.mem_cons.mp hh with hh2 | hh2
        · exact hji hh2
        · exact hjsr hh2
    obtain ⟨hc2, hf2⟩ := hout₂ j hjT2
    constructor
    · rw [hc2, hcor2all, (hframe₁ j hjl hjsl).1]
    · rw [hf2, hfil2ne j hji, (hframe₁ j hjl hjsl).2]

/-- Gluing step for the right-recursion branch of the insertion. -/
theorem sim_passo_dir {h : Heap} {vq : Nat} {i : NodeId} {c : Cor} {y x : Int}
    {sl sr s₁ : ArvoreIds} {r₀ : Heap × NodeId} {f₁ fsl : Nat}
    (hta : TodosAtivos h (vq : Int)) (hta₀ : TodosAtivos r₀.1 (vq : Int))
    (hi : i < h.length) (hlen₀ : h.length ≤ r₀.1.length)
    (hgt : valorDe h i < x)
    (hcorEq : obterCor h i (vq : Int) = c) (hvalEq : valorDe h i = y)
    (hfeEq : obterFilhoEsquerdo h i (vq : Int) = raizI sl)
    (hsnap₁ : snapIds r₀.1 (some r₀.2) (vq : Int) f₁ = some s₁)
    (happ₁ : s₁.apaga = insereP x sr.apaga)
    (hlp : r₀.1.length = h.length ∧ s₁.ids.Perm sr.ids ∨
      r₀.1.length = h.length + 1 ∧ s₁.ids.Perm (sr.ids ++ [h.length]))
    (hframe₁ : ∀ j, j < h.length → j ∉ sr.ids →
      obterCor r₀.1 j (vq : Int) = obterCor h j (vq : Int) ∧
      obterFilhos r₀.1 j (vq : Int) = obterFilhos h j (vq : Int))
    (hvalold : ∀ j, j < h.length → valorDe r₀.1 j = valorDe h j)
    (hsl : snapIds h (raizI sl) (vq : Int) fsl = some sl)
    (hndT : (sl.ids ++ i :: sr.ids).Nodup)
    (hbsl : ∀ j ∈ sl.ids, j < h.length)
    (hbsr : ∀ j ∈ sr.ids, j < h.length) :
    ∃ s' f',
      snapIds (balancearAposInclusao (definirPai (definirFilhoDireito r₀.1 i
          (some r₀.2) vq) r₀.2 (some i) vq) i vq).1
        (some (balancearAposInclusao (definirPai (definirFilhoDireito r₀.1 i
          (some r₀.2) vq) r₀.2 (some i) vq) i vq).2) (vq : Int) f'
        = some s' ∧
      s'.apaga = insereP x (ArvoreIds.nodo i c y sl sr).apaga ∧
      ((balancearAposInclusao (definirPai (definirFilhoDireito r₀.1 i
            (some r₀.2) vq) r₀.2 (some i) vq) i vq).1.length = h.length ∧
          s'.ids.Perm (ArvoreIds.nodo i c y sl sr).ids ∨
        (balancearAposInclusao (definirPai (definirFilhoDireito r₀.1 i
            (some r₀.2) vq) r₀.2 (some i) vq) i vq).1.length = h.length + 1 ∧
          s'.ids.Perm ((ArvoreIds.nodo i c y sl sr).ids ++ [h.length])) ∧
      TodosAtivos (balancearAposInclusao (definirPai (definirFilhoDireito
        r₀.1 i (some r₀.2) vq) r₀.2 (some i) vq) i vq).1 (vq : Int) ∧
      (∀ j, j < h.length → j ∉ (ArvoreIds.nodo i c y sl sr).ids →
        obterCor (balancearAposInclusao (definirPai (definirFilhoDireito
          r₀.1 i (some r₀.2) vq) r₀.2 (some i) vq) i vq).1 j (vq : Int)
          = obterCor h j (vq : Int) ∧
        obterFilhos (balancearAposInclusao (definirPai (definirFilhoDireito
          r₀.1 i (some r₀.2) vq) r₀.2 (some i) vq) i vq).1 j (vq : Int)
          = obterFilhos h j (vq : Int)) := by
  obtain ⟨ndsl, ndsr, hisl, hisr, hslsr⟩ := nodup_decomp hndT
  have hvida2 : MesmaVida r₀.1 (definirPai (definirFilhoDireito r₀.1 i
      (some r₀.2) vq) r₀.2 (some i) vq) :=
    ((mesmaVida_refl r₀.1).poisDir i (some r₀.2) vq).poisPai r₀.2 (some i) vq
  have hta2 : TodosAtivos (definirPai (definirFilhoDireito r₀.1 i
      (some r₀.2) vq) r₀.2 (some i) vq) (vq : Int) :=
    todos_de_mesmaVida hvida2 hta₀
  obtain ⟨c₁, x₁, a₁, b₁, hs₁eq⟩ := snap_raiz_forma hsnap₁ (hta₀ r₀.2)
  have hraizs₁ : raizI s₁ = some r₀.2 := by rw [hs₁eq]; rfl
  have hs₁sub : ∀ j ∈ s₁.ids, j ∈ sr.ids ∨ j = h.length := by
    intro j hj
    rcases hlp with ⟨_, hp⟩ | ⟨_, hp⟩
    · exact Or.inl (hp.mem_iff.mp hj)
    · rcases List.mem_append.mp (hp.mem_iff.mp hj) with hh | hh
      · exact Or.inl hh
      · exact Or.inr (by simpa using hh)
  have imem : i ∉ s₁.ids := by
    intro hmem
    rcases hs₁sub i hmem with hh | hh
    · exact hisr hh
    · rw [hh] at hi
      exact lt_irrefl _ hi
  have hbs₁ : ∀ j ∈ s₁.ids, j < r₀.1.length := by
    intro j hj
    rcases hlp with ⟨hlen, hp⟩ | ⟨hlen, hp⟩
    · rw [hlen]
      exact hbsr j (hp.mem_iff.mp hj)
    · rw [hlen]
      rcases List.mem_append.mp (hp.mem_iff.mp hj) with hh | hh
      · exact Nat.lt_succ_of_lt (hbsr j hh)
      · have hje : j = h.length := by simpa using hh
        rw [hje]
        exact Nat.lt_succ_self _
  have hcor2all : ∀ j (u : Int),
      obterCor (definirPai (definirFilhoDireito r₀.1 i (some r₀.2) vq) r₀.2
        (some i) vq) j u = obterCor r₀.1 j u := by
    intro j u
    rw [obterCor_definirPai, obterCor_definirFilhoDireito]
  have hfil2ne : ∀ j, j ≠ i → ∀ (u : Int),
      obterFilhos (definirPai (definirFilhoDireito r₀.1 i (some r₀.2) vq)
        r₀.2 (some i) vq) j u = obterFilhos r₀.1 j u := by
    intro j hji u
    rw [obterFilhos_definirPai, obterFilhos_poeDir_outro _ _ (Ne.symm hji)]
  have hval2 : ∀ j, valorDe (definirPai (definirFilhoDireito r₀.1 i
      (some r₀.2) vq) r₀.2 (some i) vq) j = valorDe r₀.1 j :=
    valor_de_mesmaVida hvida2
  have hsl₀ : snapIds r₀.1 (raizI sl) (vq : Int) fsl = some sl := by
    refine snapIds_igual_em hta hta₀ hsl ?_
    intro j hj
    have hjl := hbsl j hj
    have hjn : j ∉ sr.ids := hslsr j hj
    exact ⟨(hframe₁ j hjl hjn).1, hvalold j hjl, (hframe₁ j hjl hjn).2⟩
  have hsl2 : snapIds (definirPai (definirFilhoDireito r₀.1 i (some r₀.2) vq)
      r₀.2 (some i) vq) (raizI sl) (vq : Int) fsl = some sl := by
    refine snapIds_igual_em hta₀ hta2 hsl₀ ?_
    intro j hj
    exact ⟨hcor2all j _, hval2 j, hfil2ne j (mem_ne hj hisl) _⟩
  have hs₁2 : snapIds (definirPai (definirFilhoDireito r₀.1 i (some r₀.2) vq)
      r₀.2 (some i) vq) (some r₀.2) (vq : Int) f₁ = some s₁ := by
    refine snapIds_igual_em hta₀ hta2 hsnap₁ ?_
    intro j hj
    exact ⟨hcor2all j _, hval2 j, hfil2ne j (mem_ne hj imem) _⟩
  have hs₁2r : snapIds (definirPai (definirFilhoDireito r₀.1 i (some r₀.2)
      vq) r₀.2 (some i) vq) (raizI s₁) (vq : Int) f₁ = some s₁ := by
    rw [hraizs₁]
    exact hs₁2
  have hcori : obterCor (definirPai (definirFilhoDireito r₀.1 i (some r₀.2)
      vq) r₀.2 (some i) vq) i (vq : Int) = c := by
    rw [hcor2all, (hframe₁ i hi hisr).1, hcorEq]
  have hvali : valorDe (definirPai (definirFilhoDireito r₀.1 i (some r₀.2)
      vq) r₀.2 (some i) vq) i = y := by
    rw [hval2, hvalold i hi, hvalEq]
  have hfili : obterFilhos (definirPai (definirFilhoDireito r₀.1 i
      (some r₀.2) vq) r₀.2 (some i) vq) i (vq : Int)
      = (raizI sl, raizI s₁) := by
    rw [obterFilhos_definirPai,
      obterFilhos_poeDir_self _ _ (lt_of_lt_of_le hi hlen₀), hraizs₁,
      (hframe₁ i hi hisr).2, ← obterFilhoEsquerdo_fst, hfeEq]
  have snapT2 := snap_monta (hta2 i) hfili hcori hvali hsl2 hs₁2r
  have nds₁ : s₁.ids.Nodup := by
    rcases hlp with ⟨_, hp⟩ | ⟨_, hp⟩
    · exact hp.nodup_iff.mpr ndsr
    · refine hp.nodup_iff.mpr ?_
      rw [List.nodup_append]
      refine ⟨ndsr, List.nodup_singleton _, ?_⟩
      intro a ha hb
      have hae : a = h.length := by simpa using hb
      rw [hae] at ha
      exact absurd (hbsr _ ha) (lt_irrefl _)
  have hdisj12 : ∀ a ∈ sl.ids, a ∉ s₁.ids := by
    intro a ha hb
    rcases hs₁sub a hb with hh | hh
    · exact hslsr a ha hh
    · rw [hh] at ha
      exact absurd (hbsl _ ha) (lt_irrefl _)
  have nodupT2 : (ArvoreIds.nodo i c y sl s₁).ids.Nodup := by
    rw [ids_nodo]
    exact nodup_monta ndsl nds₁ hisl imem hdisj12
  have boundsT2 : ∀ j ∈ (ArvoreIds.nodo i c y sl s₁).ids,
      j < (definirPai (definirFilhoDireito r₀.1 i (some r₀.2) vq) r₀.2
        (some i) vq).length := by
    intro j hj
    rw [comprimento_definirPai, comprimento_definirFilhoDireito]
    rw [ids_nodo] at hj
    rcases List.mem_append.mp hj with hh | hh
    · exact lt_of_lt_of_le (hbsl j hh) hlen₀
    · rcases List.mem_cons.mp hh with hh | hh
      · subst hh; exact lt_of_lt_of_le hi hlen₀
      · exact hbs₁ j hh
  obtain ⟨s₂, f₂, hsnap₂, happ₂, hids₂, hout₂⟩ :=
    sim_balancear hta2 snapT2 nodupT2 boundsT2
  have hlenbal : (balancearAposInclusao (definirPai (definirFilhoDireito
      r₀.1 i (some r₀.2) vq) r₀.2 (some i) vq) i vq).1.length
      = r₀.1.length := by
    rw [comprimento_balancearApos, comprimento_definirPai,
      comprimento_definirFilhoDireito]
  refine ⟨s₂, f₂, hsnap₂, ?_, ?_, ?_, ?_⟩
  · rw [happ₂]
    simp only [ArvoreIds.apaga]
    have hgt' : y < x := hvalEq ▸ hgt
    rw [show insereP x (ArvoreBin.nodo c y sl.apaga sr.apaga)
        = balP (ArvoreBin.nodo c y sl.apaga (insereP x sr.apaga)) from by
      simp only [insereP]
      rw [if_neg (lt_asymm hgt'), if_pos hgt']]
    rw [happ₁]
  · rcases hlp with ⟨hlen, hp⟩ | ⟨hlen, hp⟩
    · refine Or.inl ⟨by rw [hlenbal, hlen], ?_⟩
      rw [hids₂, ids_nodo, ids_nodo]
      exact (hp.cons i).append_left sl.ids
    · refine Or.inr ⟨by rw [hlenbal, hlen], ?_⟩
      rw [hids₂, ids_nodo, ids_nodo]
      refine ((hp.cons i).append_left sl.ids).trans ?_
      rw [show (sl.ids ++ i :: sr.ids) ++ [h.length]
          = sl.ids ++ i :: (sr.ids ++ [h.length]) from by simp]
  · exact todos_de_mesmaVida (vida_balancearApos _ i vq) hta2
  · intro j hjl hjn
    rw [ids_nodo] at hjn
    have hjsl : j ∉ sl.ids := fun hh => hjn (by simp [hh])
    have hji : j ≠ i := fun hh => hjn (by simp [hh])
    have hjsr : j ∉ sr.ids := fun hh => hjn (by simp [hh])
    have hjT2 : j ∉ (ArvoreIds.nodo i c y sl s₁).ids := by
      rw [ids_nodo]
      intro hh
      rcases List.mem_append.mp hh with hh | hh
      · exact hjsl hh
      · rcases List.mem_cons.mp hh with hh2 | hh2
        · exact hji hh2
        · rcases hs₁sub j hh2 with hh3 | hh3
          · exact hjsr hh3
          · rw [hh3] at hjl
            exact lt_irrefl _ hjl
    obtain ⟨hc2, hf2⟩ := hout₂ j hjT2
    constructor
    · rw [hc2, hcor2all, (hframe₁ j hjl hjsr).1]
    · rw [hf2, hfil2ne j hji, (hframe₁ j hjl hjsr).2]

theorem novo_leituras (h : Heap) (x : Int) (c : Cor) (vq : Nat) :
    obterCor (h ++ [No.novo x c vq]) h.length (vq : Int) = c ∧
    valorDe (h ++ [No.novo x c vq]) h.length = x ∧
    obterFilhos (h ++ [No.novo x c vq]) h.length (vq : Int) = (none, none) ∧
    estaAtivo (h ++ [No.novo x c vq]) h.length (vq : Int) = true := by
  unfold obterCor valorDe obterFilhos estaAtivo
  rw [lerNo_append_self]
  refine ⟨?_, rfl, ?_, ?_⟩
  · unfold No.obter_cor No.novo lerHistorico obterVersaoValida
    simp [List.lookup]
  · unfold No.obter_filhos No.novo lerHistorico obterVersaoValida
    simp [List.lookup]
  · unfold No.esta_ativo No.novo
    simp

/-- The heap insertion simulates the pure insertion on the version-vq
snapshot, on a fully alive heap. -/
theorem sim_incluirRecursivo (x : Int) (vq : Nat) :
    ∀ (fuel : Nat) (h : Heap) (no : Option NodeId) (s : ArvoreIds),
      TodosAtivos h (vq : Int) →
      snapIds h no (vq : Int) fuel = some s →
      s.ids.Nodup →
      (∀ j ∈ s.ids, j < h.length) →
      ∃ s' f',
        snapIds (incluirRecursivo h no x vq fuel).1
          (some (incluirRecursivo h no x vq fuel).2) (vq : Int) f'
          = some s' ∧
        s'.apaga = insereP x s.apaga ∧
        ((incluirRecursivo h no x vq fuel).1.length = h.length ∧
            s'.ids.Perm s.ids ∨
          (incluirRecursivo h no x vq fuel).1.length = h.length + 1 ∧
            s'.ids.Perm (s.ids ++ [h.length])) ∧
        TodosAtivos (incluirRecursivo h no x vq fuel).1 (vq : Int) ∧
        (∀ j, j < h.length → j ∉ s.ids →
          obterCor (incluirRecursivo h no x vq fuel).1 j (vq : Int)
            = obterCor h j (vq : Int) ∧
          obterFilhos (incluirRecursivo h no x vq fuel).1 j (vq : Int)
            = obterFilhos h j (vq : Int)) := by
  intro fuel
  induction fuel with
  | zero =>
    intro h no s hta hs
    simp [snapIds] at hs
  | succ fuel ih =>
    intro h no s hta hs hnd hbnd
    cases no with
    | none =>
      have hfo := snapIds_none_eq hs
      subst hfo
      simp only [incluirRecursivo]
      obtain ⟨hcorn, hvaln, hfiln, hatn⟩ :=
        novo_leituras h x Cor.VERMELHO vq
      refine ⟨ArvoreIds.nodo h.length Cor.VERMELHO x ArvoreIds.folha
        ArvoreIds.folha, 2, ?_, rfl, Or.inr ⟨by simp, List.Perm.refl _⟩,
        todos_incluirRecursivo x vq (fuel + 1) h none hta, ?_⟩
      · rw [snapIds_passo]
        have hfe : obterFilhoEsquerdo (h ++ [No.novo x Cor.VERMELHO vq])
            h.length (vq : Int) = none := by
          rw [obterFilhoEsquerdo_fst, hfiln]
        have hfd : obterFilhoDireito (h ++ [No.novo x Cor.VERMELHO vq])
            h.length (vq : Int) = none := by
          rw [obterFilhoDireito_snd, hfiln]
        simp only [hatn, if_true, hfe, hfd, hcorn, hvaln]
        rfl
      · intro j hj _
        constructor
        · unfold obterCor
          rw [lerNo_append_lt hj]
        · unfold obterFilhos
          rw [lerNo_append_lt hj]
    | some i =>
      obtain ⟨sl, sr, hl, hr, rfl⟩ := snapIds_some_inv hs (hta i)
      have hi : i < h.length := hbnd i (by simp [ids_nodo])
      simp only [incluirRecursivo]
      rw [if_neg (show ¬((!estaAtivo h i (vq : Int)) = true) from by
        rw [hta i]; decide)]
      rw [ids_nodo] at hnd
      obtain ⟨ndsl, ndsr, hisl, hisr, hslsr⟩ := nodup_decomp hnd
      have hbsl : ∀ j ∈ sl.ids, j < h.length := fun j hj =>
        hbnd j (by simp [ids_nodo, hj])
      have hbsr : ∀ j ∈ sr.ids, j < h.length := fun j hj =>
        hbnd j (by simp [ids_nodo, hj])
      by_cases hlt : x < valorDe h i
      · rw [if_pos hlt]
        obtain ⟨s₁, f₁, hsnap₁, happ₁, hlp, hta₀, hframe₁⟩ :=
          ih h (obterFilhoEsquerdo h i (vq : Int)) sl hta hl ndsl hbsl
        have hlen₀ : h.length
            ≤ (incluirRecursivo h (obterFilhoEsquerdo h i (vq : Int)) x vq
              fuel).1.length := by
          rcases hlp with ⟨hlen, _⟩ | ⟨hlen, _⟩ <;> rw [hlen] <;> omega
        have hfdEq : obterFilhoDireito h i (vq : Int) = raizI sr :=
          snapIds_raiz hta hr
        rw [hfdEq] at hr
        have hvalold : ∀ j, j < h.length →
            valorDe (incluirRecursivo h (obterFilhoEsquerdo h i (vq : Int))
              x vq fuel).1 j = valorDe h j := fun j hj =>
          ((vida_incluirRecursivo x vq fuel h _).1 j hj).2.2
        exact sim_passo_esq hta hta₀ hi hlen₀ hlt rfl rfl hfdEq hsnap₁ happ₁
          hlp hframe₁ hvalold hr (nodup_monta ndsl ndsr hisl hisr hslsr)
          hbsl hbsr
      · rw [if_neg hlt]
        by_cases hgt : valorDe h i < x
        · rw [if_pos hgt]
          obtain ⟨s₁, f₁, hsnap₁, happ₁, hlp, hta₀, hframe₁⟩ :=
            ih h (obterFilhoDireito h i (vq : Int)) sr hta hr ndsr hbsr
          have hlen₀ : h.length
              ≤ (incluirRecursivo h (obterFilhoDireito h i (vq : Int)) x vq
                fuel).1.length := by
            rcases hlp with ⟨hlen, _⟩ | ⟨hlen, _⟩ <;> rw [hlen] <;> omega
          have hfeEq : obterFilhoEsquerdo h i (vq : Int) = raizI sl :=
            snapIds_raiz hta hl
          rw [hfeEq] at hl
          have hvalold : ∀ j, j < h.length →
              valorDe (incluirRecursivo h (obterFilhoDireito h i (vq : Int))
                x vq fuel).1 j = valorDe h j := fun j hj =>
            ((vida_incluirRecursivo x vq fuel h _).1 j hj).2.2
          exact sim_passo_dir hta hta₀ hi hlen₀ hgt rfl rfl hfeEq hsnap₁
            happ₁ hlp hframe₁ hvalold hl
            (nodup_monta ndsl ndsr hisl hisr hslsr) hbsl hbsr
        · rw [if_neg hgt]
          refine ⟨ArvoreIds.nodo i (obterCor h i (vq : Int)) (valorDe h i)
            sl sr, fuel + 1, hs, ?_, Or.inl ⟨rfl, List.Perm.refl _⟩, hta,
            fun j _ _ => ⟨rfl, rfl⟩⟩
          simp only [ArvoreIds.apaga, insereP]
          rw [if_neg hlt, if_neg hgt]

theorem estaAtivo_de_le {h : Heap} {j : NodeId} {vq : Nat}
    (hc : (lerNo h j).versao_criacao ≤ vq)
    (hr : (lerNo h j).versao_remocao = none) :
    estaAtivo h j (vq : Int) = true := by
  unfold estaAtivo No.esta_ativo
  rw [hr]
  simp only [Bool.and_true]
  simp
  exact_mod_cast hc

theorem estaAtivo_falso_criacao {h : Heap} {j : NodeId} {u : Int}
    (hc : u < ((lerNo h j).versao_criacao : Int)) :
    estaAtivo h j u = false := by
  unfold estaAtivo No.esta_ativo
  have : ¬(((lerNo h j).versao_criacao : Int) ≤ u) := not_le.mpr hc
  simp [this]

theorem nodup_comprimento {L : List Nat} {n : Nat} (hnd : L.Nodup)
    (hb : ∀ j ∈ L, j < n) : L.length ≤ n := by
  classical
  have h1 : L.toFinset.card = L.length := List.toFinset_card_of_nodup hnd
  have h2 : L.toFinset ⊆ Finset.range n := by
    intro a ha
    exact Finset.mem_range.mpr (hb a (List.mem_toFinset.mp ha))
  have := Finset.card_le_card h2
  rw [h1, Finset.card_range] at this
  exact this

/-- Recoloring the root of a snapshot. -/
theorem snap_recolor {H : Heap} {vq : Nat} {k : NodeId} {s : ArvoreIds}
    {f : Nat} (hta : TodosAtivos H (vq : Int))
    (hs : snapIds H (some k) (vq : Int) f = some s)
    (hnd : s.ids.Nodup) (hb : ∀ j ∈ s.ids, j < H.length) (c' : Cor) :
    ∃ (c : Cor) (xx : Int) (a b : ArvoreIds),
      s = ArvoreIds.nodo k c xx a b ∧
      ∃ f', snapIds (definirCor H k c' vq) (some k) (vq : Int) f'
        = some (ArvoreIds.nodo k c' xx a b) := by
  obtain ⟨c, xx, a, b, rfl⟩ := snap_raiz_forma hs (hta k)
  obtain ⟨hcor, hval, hfe, hfd, F₁, hlsn, hrsn⟩ := snap_nodo_inv hta hs
  refine ⟨c, xx, a, b, rfl, ?_⟩
  have hvida : MesmaVida H (definirCor H k c' vq) :=
    (mesmaVida_refl H).poisCor k c' vq
  have hta' : TodosAtivos (definirCor H k c' vq) (vq : Int) :=
    todos_de_mesmaVida hvida hta
  rw [ids_nodo] at hnd hb
  obtain ⟨nda, ndb, hka, hkb, hab⟩ := nodup_decomp hnd
  rw [hfe] at hlsn
  rw [hfd] at hrsn
  have hpres : ∀ (st : ArvoreIds) (fs : Nat), (k ∉ st.ids) →
      snapIds H (raizI st) (vq : Int) fs = some st →
      snapIds (definirCor H k c' vq) (raizI st) (vq : Int) fs = some st := by
    intro st fs hkst hsnap
    refine snapIds_igual_em hta hta' hsnap ?_
    intro j hj
    refine ⟨obterCor_definirCor_outro _ _ (mem_ne hj hkst).symm _,
      valor_de_mesmaVida hvida j, ?_⟩
    rw [obterFilhos_definirCor]
  have ha' := hpres a F₁ hka hlsn
  have hb' := hpres b F₁ hkb hrsn
  have hkb2 : k < H.length := hb k (by simp)
  refine ⟨max F₁ F₁ + 1, ?_⟩
  refine snap_monta (hta' k) ?_ (obterCor_definirCor_self c' vq hkb2) ?_
    ha' hb'
  · rw [obterFilhos_definirCor]
    rw [show obterFilhos H k (vq : Int)
        = ((obterFilhos H k (vq : Int)).1, (obterFilhos H k (vq : Int)).2)
      from rfl]
    rw [← obterFilhoEsquerdo_fst, ← obterFilhoDireito_snd, hfe, hfd]
  · rw [valor_de_mesmaVida hvida k, hval]

theorem criacao_le_de_limitado {h : Heap} {V : Nat}
    (hlim : heapLimitado h V = true) {j : NodeId} (hj : j < h.length) :
    (lerNo h j).versao_criacao ≤ V := by
  have hx := heapLimitado_no hlim hj
  unfold noLimitado at hx
  simp only [Bool.and_eq_true, decide_eq_true_eq] at hx
  exact hx.1.1.1.1

theorem todosAtivos_de_limitado {h : Heap} {V vq : Nat}
    (hlim : heapLimitado h V = true)
    (hm : ∀ i, i < h.length → (lerNo h i).versao_remocao = none)
    (hle : V ≤ vq) : TodosAtivos h (vq : Int) := by
  intro j
  by_cases hj : j < h.length
  · exact estaAtivo_de_le ((criacao_le_de_limitado hlim hj).trans hle)
      (hm j hj)
  · exact estaAtivo_fora (le_of_not_lt hj) (by positivity)

theorem invVermelho_nova : InvVermelho arvoreNova := by
  refine ⟨invariante_nova, ?_, Or.inl rfl, ?_, ArvoreIds.folha, ?_,
    ?_, List.nodup_nil, ?_, rfl⟩
  · intro i hi
    simp [arvoreNova] at hi
  · intro u _
    rfl
  · rfl
  · intro i hi
    simp [arvoreNova] at hi
  · intro i hi
    simp [ArvoreIds.ids] at hi

theorem invVermelho_incluir {t : ArvoreRubroNegra} (x : Int)
    (inv : InvVermelho t) : InvVermelho (incluir t x).1 := by
  obtain ⟨hInv, hMortos, hLim, hVV, s, hsnap, hcov, hnd, hbnd, hsem⟩ := inv
  refine ⟨invariante_incluir x hInv, ?_⟩
  obtain ⟨hlen, hva, hwf, hboas, _⟩ := hInv
  have hfech : heapFechado t.heap = true := hwf.1
  have hvalen : t.versao_atual < t.raizes.length := by
    rw [hlen]; exact hva
  have hlerval : lerIndice t.raizes (t.versao_atual : Int)
      = Except.ok (t.raizes.getD t.versao_atual none) := lerIndice_nat_ok hvalen
  unfold incluir
  cases hler : lerIndice t.raizes (t.versao_atual : Int) with
  | error e =>
    rw [hlerval] at hler
    exact absurd hler (by simp)
  | ok raizAtual =>
    rw [hlerval] at hler
    have hraizAtual : t.raizes.getD t.versao_atual none = raizAtual := by
      injection hler
    subst hraizAtual
    have hroot : ∀ j, t.raizes.getD t.versao_atual none = some j →
        j < t.heap.length :=
      fun j hj => raizesBoas_dest hboas _ (getD_mem_de_lt hvalen) j hj
    obtain ⟨hwfr, hlenr, hrootlt⟩ := incluirRecursivo_limites x
      (combustivel t.heap) t.heap (t.raizes.getD t.versao_atual none) hwf hroot
      (Or.inl (Nat.succ_pos _))
    have obs : ObsIguais (t.versao_atual + 1) t.heap
        (definirCor (incluirRecursivo t.heap
            (t.raizes.getD t.versao_atual none) x (t.versao_atual + 1)
            (combustivel t.heap)).1
          (incluirRecursivo t.heap (t.raizes.getD t.versao_atual none) x
            (t.versao_atual + 1) (combustivel t.heap)).2 Cor.PRETO
          (t.versao_atual + 1)) :=
      (obsIguais_incluirRecursivo x (Nat.succ_pos _) _ t.heap _).maisCor _ _
        (Nat.succ_pos _)
    have hvidaIR := vida_incluirRecursivo x (t.versao_atual + 1)
      (combustivel t.heap) t.heap (t.raizes.getD t.versao_atual none)
    have hvidaD : MesmaVida (incluirRecursivo t.heap
        (t.raizes.getD t.versao_atual none) x (t.versao_atual + 1)
        (combustivel t.heap)).1
        (definirCor (incluirRecursivo t.heap
            (t.raizes.getD t.versao_atual none) x (t.versao_atual + 1)
            (combustivel t.heap)).1
          (incluirRecursivo t.heap (t.raizes.getD t.versao_atual none) x
            (t.versao_atual + 1) (combustivel t.heap)).2 Cor.PRETO
          (t.versao_atual + 1)) :=
      (mesmaVida_refl _).poisCor _ _ _
    have hlenD : (definirCor (incluirRecursivo t.heap
            (t.raizes.getD t.versao_atual none) x (t.versao_atual + 1)
            (combustivel t.heap)).1
          (incluirRecursivo t.heap (t.raizes.getD t.versao_atual none) x
            (t.versao_atual + 1) (combustivel t.heap)).2 Cor.PRETO
          (t.versao_atual + 1)).length
        = (incluirRecursivo t.heap (t.raizes.getD t.versao_atual none) x
            (t.versao_atual + 1) (combustivel t.heap)).1.length :=
      comprimento_definirCor _ _ _ _
    have hMortosD : ∀ i, i < (definirCor (incluirRecursivo t.heap
            (t.raizes.getD t.versao_atual none) x (t.versao_atual + 1)
            (combustivel t.heap)).1
          (incluirRecursivo t.heap (t.raizes.getD t.versao_atual none) x
            (t.versao_atual + 1) (combustivel t.heap)).2 Cor.PRETO
          (t.versao_atual + 1)).length →
        (lerNo (definirCor (incluirRecursivo t.heap
            (t.raizes.getD t.versao_atual none) x (t.versao_atual + 1)
            (combustivel t.heap)).1
          (incluirRecursivo t.heap (t.raizes.getD t.versao_atual none) x
            (t.versao_atual + 1) (combustivel t.heap)).2 Cor.PRETO
          (t.versao_atual + 1)) i).versao_remocao = none := by
      intro i hi
      rw [(hvidaD i).2.1]
      rw [hlenD] at hi
      by_cases hio : i < t.heap.length
      · rw [(hvidaIR.1 i hio).2.1]
        exact hMortos i hio
      · exact (hvidaIR.2 i (le_of_not_lt hio) hi).2
    have hcriaD : ∀ j, t.heap.length ≤ j →
        j < (definirCor (incluirRecursivo t.heap
            (t.raizes.getD t.versao_atual none) x (t.versao_atual + 1)
            (combustivel t.heap)).1
          (incluirRecursivo t.heap (t.raizes.getD t.versao_atual none) x
            (t.versao_atual + 1) (combustivel t.heap)).2 Cor.PRETO
          (t.versao_atual + 1)).length →
        (lerNo (definirCor (incluirRecursivo t.heap
            (t.raizes.getD t.versao_atual none) x (t.versao_atual + 1)
            (combustivel t.heap)).1
          (incluirRecursivo t.heap (t.raizes.getD t.versao_atual none) x
            (t.versao_atual + 1) (combustivel t.heap)).2 Cor.PRETO
          (t.versao_atual + 1)) j).versao_criacao = t.versao_atual + 1 := by
      intro j h1 h2
      rw [(hvidaD j).1]
      rw [hlenD] at h2
      exact (hvidaIR.2 j h1 h2).1
    have hsemVVold : ∀ u : Nat, u ≤ t.versao_atual →
        semVermelhoVermelho (definirCor (incluirRecursivo t.heap
            (t.raizes.getD t.versao_atual none) x (t.versao_atual + 1)
            (combustivel t.heap)).1
          (incluirRecursivo t.heap (t.raizes.getD t.versao_atual none) x
            (t.versao_atual + 1) (combustivel t.heap)).2 Cor.PRETO
          (t.versao_atual + 1)) (u : Int) = true := by
      intro u hu
      refine semVV_quadro obs hfech ?_ ?_ (hVV u hu)
      · intro j h1 h2
        rw [hcriaD j h1 h2]
      · exact_mod_cast Nat.lt_succ_of_le hu
    cases hesc : escreverIndice t.raizes (t.versao_atual + 1)
        (some (incluirRecursivo t.heap (t.raizes.getD t.versao_atual none) x
          (t.versao_atual + 1) (combustivel t.heap)).2) with
    | ok rs =>
      dsimp only
      rw [hesc]
      dsimp only
      unfold escreverIndice at hesc
      by_cases hlt : t.versao_atual + 1 < t.raizes.length
      · rw [if_pos hlt] at hesc
        have hrs : t.raizes.set (t.versao_atual + 1)
            (some (incluirRecursivo t.heap (t.raizes.getD t.versao_atual none)
              x (t.versao_atual + 1) (combustivel t.heap)).2) = rs := by
          injection hesc
        have hva98 : t.versao_atual < 99 := by
          rw [hlen] at hlt
          omega
        have hlimva : heapLimitado t.heap t.versao_atual = true := by
          rcases hLim with hL | hL
          · exact hL
          · omega
        have htava : TodosAtivos t.heap (t.versao_atual : Int) :=
          todosAtivos_de_limitado hlimva hMortos (le_refl _)
        have hta : TodosAtivos t.heap ((t.versao_atual + 1 : Nat) : Int) :=
          todosAtivos_de_limitado hlimva hMortos (Nat.le_succ _)
        have hcovfull : ∀ i, i < t.heap.length → i ∈ s.ids :=
          fun i hi => hcov i hi (htava i)
        have hreads := leituraEstavel hlimva (le_refl (t.versao_atual : Int))
          (show (t.versao_atual : Int) ≤ ((t.versao_atual + 1 : Nat) : Int) by
            exact_mod_cast Nat.le_succ _)
        have hsnapq : snapIds t.heap (t.raizes.getD t.versao_atual none)
            ((t.versao_atual + 1 : Nat) : Int) (combustivel t.heap)
            = some s :=
          (snapIds_congr hreads hfech hroot).trans hsnap
        obtain ⟨s₁, f₁, hsnap₁, happ₁, hlp, hta₁, hframe₁⟩ :=
          sim_incluirRecursivo x (t.versao_atual + 1) (combustivel t.heap)
            t.heap (t.raizes.getD t.versao_atual none) s hta hsnapq hnd hbnd
        have hbnds₁ : ∀ j ∈ s₁.ids, j < (incluirRecursivo t.heap
            (t.raizes.getD t.versao_atual none) x (t.versao_atual + 1)
            (combustivel t.heap)).1.length := by
          intro j hj
          rcases hlp with ⟨hlen2, hp⟩ | ⟨hlen2, hp⟩
          · rw [hlen2]
            exact hbnd j (hp.mem_iff.mp hj)
          · rw [hlen2]
            rcases List.mem_append.mp (hp.mem_iff.mp hj) with hh | hh
            · exact Nat.lt_succ_of_lt (hbnd j hh)
            · have hje : j = t.heap.length := by simpa using hh
              rw [hje]
              exact Nat.lt_succ_self _
        have hnds₁ : s₁.ids.Nodup := by
          rcases hlp with ⟨_, hp⟩ | ⟨_, hp⟩
          · exact hp.nodup_iff.mpr hnd
          · refine hp.nodup_iff.mpr ?_
            rw [List.nodup_append]
            refine ⟨hnd, List.nodup_singleton _, ?_⟩
            intro a ha hb2
            have hae : a = t.heap.length := by simpa using hb2
            rw [hae] at ha
            exact absurd (hbnd _ ha) (lt_irrefl _)
        have hmem₁ : ∀ i, i < (incluirRecursivo t.heap
            (t.raizes.getD t.versao_atual none) x (t.versao_atual + 1)
            (combustivel t.heap)).1.length → i ∈ s₁.ids := by
          intro i hiR
          rcases hlp with ⟨hlen2, hp⟩ | ⟨hlen2, hp⟩
          · rw [hlen2] at hiR
            exact hp.mem_iff.mpr (hcovfull i hiR)
          · rw [hlen2] at hiR
            rcases Nat.lt_succ_iff_lt_or_eq.mp hiR with hh | hh
            · exact hp.mem_iff.mpr (List.mem_append.mpr
                (Or.inl (hcovfull i hh)))
            · exact hp.mem_iff.mpr (List.mem_append.mpr
                (Or.inr (by simp [hh])))
        obtain ⟨c₁, xx₁, a₁, b₁, hs₁shape, f₂, hsnap₂⟩ :=
          snap_recolor hta₁ hsnap₁ hnds₁ hbnds₁ Cor.PRETO
        have hsem₂ : semVermelhoP (ArvoreIds.nodo (incluirRecursivo t.heap
            (t.raizes.getD t.versao_atual none) x (t.versao_atual + 1)
            (combustivel t.heap)).2 Cor.PRETO xx₁ a₁ b₁).apaga = true := by
          have h1 : (ArvoreIds.nodo (incluirRecursivo t.heap
              (t.raizes.getD t.versao_atual none) x (t.versao_atual + 1)
              (combustivel t.heap)).2 Cor.PRETO xx₁ a₁ b₁).apaga
              = pretaRaiz s₁.apaga := by
            rw [hs₁shape]
            rfl
          rw [h1, happ₁]
          exact insereP_raiz_preta x s.apaga hsem
        have hids₂ : (ArvoreIds.nodo (incluirRecursivo t.heap
            (t.raizes.getD t.versao_atual none) x (t.versao_atual + 1)
            (combustivel t.heap)).2 Cor.PRETO xx₁ a₁ b₁).ids = s₁.ids := by
          rw [hs₁shape]
          rfl
        refine ⟨hMortosD, Or.inl ?_, ?_, ?_⟩
        · exact (hwfr.poeCor _ Cor.PRETO).2
        · intro u hu
          rcases Nat.lt_or_ge u (t.versao_atual + 1) with hu2 | hu2
          · exact hsemVVold u (Nat.lt_succ_iff.mp hu2)
          · have hu3 : u = t.versao_atual + 1 := le_antisymm hu hu2
            subst hu3
            refine semVV_de_snap hsnap₂ hsem₂ ?_
            intro i hi _
            rw [hids₂]
            rw [hlenD] at hi
            exact hmem₁ i hi
        · refine ⟨ArvoreIds.nodo (incluirRecursivo t.heap
            (t.raizes.getD t.versao_atual none) x (t.versao_atual + 1)
            (combustivel t.heap)).2 Cor.PRETO xx₁ a₁ b₁, ?_, ?_, ?_, ?_, hsem₂⟩
          · have hgetD : rs.getD (t.versao_atual + 1) none
                = some (incluirRecursivo t.heap
                    (t.raizes.getD t.versao_atual none) x (t.versao_atual + 1)
                    (combustivel t.heap)).2 := by
              rw [← hrs]
              exact getD_set_self _ hlt
            rw [hgetD]
            have haltura : (ArvoreIds.nodo (incluirRecursivo t.heap
                (t.raizes.getD t.versao_atual none) x (t.versao_atual + 1)
                (combustivel t.heap)).2 Cor.PRETO xx₁ a₁ b₁).altura + 1
                ≤ combustivel (definirCor (incluirRecursivo t.heap
                    (t.raizes.getD t.versao_atual none) x (t.versao_atual + 1)
                    (combustivel t.heap)).1
                  (incluirRecursivo t.heap
                    (t.raizes.getD t.versao_atual none) x (t.versao_atual + 1)
                    (combustivel t.heap)).2 Cor.PRETO
                  (t.versao_atual + 1)) := by
              have h2 := altura_le_ids (ArvoreIds.nodo (incluirRecursivo
                t.heap (t.raizes.getD t.versao_atual none) x
                (t.versao_atual + 1) (combustivel t.heap)).2 Cor.PRETO xx₁
                a₁ b₁)
              rw [hids₂] at h2
              have h3 := nodup_comprimento hnds₁ hbnds₁
              have h4 : (ArvoreIds.nodo (incluirRecursivo
                  t.heap (t.raizes.getD t.versao_atual none) x
                  (t.versao_atual + 1) (combustivel t.heap)).2 Cor.PRETO xx₁
                  a₁ b₁).altura
                  ≤ (definirCor (incluirRecursivo t.heap
                      (t.raizes.getD t.versao_atual none) x
                      (t.versao_atual + 1) (combustivel t.heap)).1
                    (incluirRecursivo t.heap
                      (t.raizes.getD t.versao_atual none) x
                      (t.versao_atual + 1) (combustivel t.heap)).2 Cor.PRETO
                    (t.versao_atual + 1)).length := by
                rw [hlenD]
                omega
              exact Nat.succ_le_succ h4
            exact snapIds_mono (snapIds_exact hsnap₂) haltura
          · intro i hi _
            rw [hids₂]
            rw [hlenD] at hi
            exact hmem₁ i hi
          · rw [hids₂]
            exact hnds₁
          · intro i hi
            rw [hids₂] at hi
            rw [hlenD]
            exact hbnds₁ i hi
      · rw [if_neg hlt] at hesc
        exact absurd hesc (by simp)
    | error e =>
      dsimp only
      rw [hesc]
      dsimp only
      unfold escreverIndice at hesc
      by_cases hlt : t.versao_atual + 1 < t.raizes.length
      · rw [if_pos hlt] at hesc
        exact absurd hesc (by simp)
      · have hva99 : t.versao_atual = 99 := by
          rw [hlen] at hlt
          omega
        have hreadsD : ∀ i, i < t.heap.length →
            estaAtivo (definirCor (incluirRecursivo t.heap
                (t.raizes.getD t.versao_atual none) x (t.versao_atual + 1)
                (combustivel t.heap)).1
              (incluirRecursivo t.heap (t.raizes.getD t.versao_atual none) x
                (t.versao_atual + 1) (combustivel t.heap)).2 Cor.PRETO
              (t.versao_atual + 1)) i (t.versao_atual : Int)
              = estaAtivo t.heap i (t.versao_atual : Int) ∧
            obterCor (definirCor (incluirRecursivo t.heap
                (t.raizes.getD t.versao_atual none) x (t.versao_atual + 1)
                (combustivel t.heap)).1
              (incluirRecursivo t.heap (t.raizes.getD t.versao_atual none) x
                (t.versao_atual + 1) (combustivel t.heap)).2 Cor.PRETO
              (t.versao_atual + 1)) i (t.versao_atual : Int)
              = obterCor t.heap i (t.versao_atual : Int) ∧
            valorDe (definirCor (incluirRecursivo t.heap
                (t.raizes.getD t.versao_atual none) x (t.versao_atual + 1)
                (combustivel t.heap)).1
              (incluirRecursivo t.heap (t.raizes.getD t.versao_atual none) x
                (t.versao_atual + 1) (combustivel t.heap)).2 Cor.PRETO
              (t.versao_atual + 1)) i = valorDe t.heap i ∧
            obterFilhos (definirCor (incluirRecursivo t.heap
                (t.raizes.getD t.versao_atual none) x (t.versao_atual + 1)
                (combustivel t.heap)).1
              (incluirRecursivo t.heap (t.raizes.getD t.versao_atual none) x
                (t.versao_atual + 1) (combustivel t.heap)).2 Cor.PRETO
              (t.versao_atual + 1)) i (t.versao_atual : Int)
              = obterFilhos t.heap i (t.versao_atual : Int) := by
          intro i hi
          obtain ⟨hval2, hobs2⟩ := obs.2 i hi
          obtain ⟨h1, h2, h3, _⟩ := hobs2 (t.versao_atual : Int)
            (by exact_mod_cast Nat.lt_succ_self _)
          exact ⟨h1, h2, hval2, h3⟩
        have hsnapD : snapIds (definirCor (incluirRecursivo t.heap
              (t.raizes.getD t.versao_atual none) x (t.versao_atual + 1)
              (combustivel t.heap)).1
            (incluirRecursivo t.heap (t.raizes.getD t.versao_atual none) x
              (t.versao_atual + 1) (combustivel t.heap)).2 Cor.PRETO
            (t.versao_atual + 1)) (t.raizes.getD t.versao_atual none)
            (t.versao_atual : Int) (combustivel t.heap) = some s :=
          (snapIds_congr hreadsD hfech hroot).trans hsnap
        refine ⟨hMortosD, Or.inr hva99, hsemVVold, s, ?_, ?_, hnd, ?_, hsem⟩
        · refine snapIds_mono hsnapD ?_
          have h4 : t.heap.length ≤ (definirCor (incluirRecursivo t.heap
              (t.raizes.getD t.versao_atual none) x (t.versao_atual + 1)
              (combustivel t.heap)).1
            (incluirRecursivo t.heap (t.raizes.getD t.versao_atual none) x
              (t.versao_atual + 1) (combustivel t.heap)).2 Cor.PRETO
            (t.versao_atual + 1)).length := by
            rw [hlenD]
            exact hlenr
          exact Nat.succ_le_succ h4
        · intro i hi hat
          rw [hlenD] at hi
          by_cases hio : i < t.heap.length
          · refine hcov i hio ?_
            rw [← (hreadsD i hio).1]
            exact hat
          · exfalso
            have hcria := hcriaD i (le_of_not_lt hio) (by rw [hlenD]; exact hi)
            have hfalso : estaAtivo (definirCor (incluirRecursivo t.heap
                  (t.raizes.getD t.versao_atual none) x (t.versao_atual + 1)
                  (combustivel t.heap)).1
                (incluirRecursivo t.heap (t.raizes.getD t.versao_atual none)
                  x (t.versao_atual + 1) (combustivel t.heap)).2 Cor.PRETO
                (t.versao_atual + 1)) i (t.versao_atual : Int) = false := by
              refine estaAtivo_falso_criacao ?_
              rw [hcria]
              exact_mod_cast Nat.lt_succ_self _
            rw [hfalso] at hat
            exact Bool.false_ne_true hat
        · intro i hi
          exact lt_of_lt_of_le (hbnd i hi) (by rw [hlenD]; exact hlenr)

theorem invVermelho_passo (t : ArvoreRubroNegra) (v : Int)
    (inv : InvVermelho t) :
    InvVermelho (processarOperacao t (Operacao.INC v)).1 := by
  have hEq : (processarOperacao t (Operacao.INC v)).1 = (incluir t v).1 := by
    unfold processarOperacao
    dsimp only
    cases (incluir t v).2 <;> rfl
  rw [hEq]
  exact invVermelho_incluir v inv

theorem invVermelho_linhas (ops : List Operacao) :
    (∀ op ∈ ops, ∃ v, op = Operacao.INC v) →
    ∀ t : ArvoreRubroNegra, InvVermelho t →
      InvVermelho (processarLinhas t ops).1 := by
  induction ops with
  | nil =>
    intro _ t inv
    exact inv
  | cons op resto ih =>
    intro hops t inv
    obtain ⟨v, hv⟩ := hops op (List.mem_cons_self _ _)
    subst hv
    exact ih (fun o ho => hops o (List.mem_cons_of_mem _ ho)) _
      (invVermelho_passo t v inv)

/-! ## Pure-tree order, the removal simulation, and snapshot relations -/

theorem estaAtivo_definirPai (h : Heap) (i : NodeId)
    (p : Option NodeId) (v : Nat) (j : NodeId) (u : Int) :
    estaAtivo (definirPai h i p v) j u = estaAtivo h j u := by
  unfold estaAtivo definirPai
  by_cases hij : i = j
  · subst hij
    by_cases hi : i < h.length
    · rw [lerNo_escreverNo_self _ hi]
      rfl
    · rw [escreverNo_fora _ (le_of_not_lt hi)]
  · rw [lerNo_escreverNo_ne _ hij]

theorem valorDe_definirPai (h : Heap) (i : NodeId)
    (p : Option NodeId) (v : Nat) (j : NodeId) :
    valorDe (definirPai h i p v) j = valorDe h j := by
  unfold valorDe definirPai
  by_cases hij : i = j
  · subst hij
    by_cases hi : i < h.length
    · rw [lerNo_escreverNo_self _ hi]
      rfl
    · rw [escreverNo_fora _ (le_of_not_lt hi)]
  · rw [lerNo_escreverNo_ne _ hij]

theorem estaAtivo_marcado_self {h : Heap} {i : NodeId} (v : Nat)
    (hi : i < h.length) :
    estaAtivo (marcarRemovido h i v) i (v : Int) = false := by
  unfold estaAtivo marcarRemovido
  rw [lerNo_escreverNo_self _ hi]
  simp [No.esta_ativo, No.remover_no]

theorem estaAtivo_talvezPai (h : Heap) (o : Option NodeId)
    (p : Option NodeId) (v : Nat) (j : NodeId) (u : Int) :
    estaAtivo (match o with
      | some f => definirPai h f p v
      | none => h) j u = estaAtivo h j u := by
  cases o with
  | none => rfl
  | some f => exact estaAtivo_definirPai h f p v j u

theorem valorDe_talvezPai (h : Heap) (o : Option NodeId)
    (p : Option NodeId) (v : Nat) (j : NodeId) :
    valorDe (match o with
      | some f => definirPai h f p v
      | none => h) j = valorDe h j := by
  cases o with
  | none => rfl
  | some f => exact valorDe_definirPai h f p v j

/-- C1 counterexample: after the five insertions INC 10, INC 5, INC 15,
INC 3, INC 7, the removal REM 5 (a two-child deletion, which overwrites
the non-versioned valor field) changes the in-order dump of the old
version 5: key 5 disappears from it and the key set at version 5 becomes
\x7b3,7,7,10,15\x7d instead of the claimed \x7b3,5,7,10,15\x7d. -/
theorem c1_contraexemplo :
    (executar [Operacao.INC 10, Operacao.INC 5, Operacao.INC 15,
      Operacao.INC 3, Operacao.INC 7, Operacao.REM 5]).versao_atual = 6 ∧
    chavesVivas (executar [Operacao.INC 10, Operacao.INC 5, Operacao.INC 15,
      Operacao.INC 3, Operacao.INC 7]) 5 = [3, 5, 7, 10, 15] ∧
    chavesVivas (executar [Operacao.INC 10, Operacao.INC 5, Operacao.INC 15,
      Operacao.INC 3, Operacao.INC 7, Operacao.REM 5]) 5
      = [3, 7, 7, 10, 15] ∧
    linhasOuVazio (imprimirArvore (executar [Operacao.INC 10, Operacao.INC 5,
        Operacao.INC 15, Operacao.INC 3, Operacao.INC 7]) (some 5))
      ≠ linhasOuVazio (imprimirArvore (executar [Operacao.INC 10,
        Operacao.INC 5, Operacao.INC 15, Operacao.INC 3, Operacao.INC 7,
        Operacao.REM 5]) (some 5)) ∧
    (5 : Int) ∉ chavesVivas (executar [Operacao.INC 10, Operacao.INC 5,
      Operacao.INC 15, Operacao.INC 3, Operacao.INC 7, Operacao.REM 5]) 5 := by
  decide

/-- C1 (amended): old versions are immutable under insertions — for every
u at most the current version, the in-order dump and every successor
query at u read the same after incluir as before (removals of a present
key can break this, as the counterexample shows). -/
theorem c1_insercao_preserva_versoes_antigas (t : ArvoreRubroNegra) (x : Int)
    (hfech : heapFechado t.heap = true) (hboas : raizesBoas t = true)
    {u : Nat} (hu : u ≤ t.versao_atual)
    (hsnap : ∀ i, lerIndice t.raizes (u : Int) = Except.ok (some i) →
      (snapIds t.heap (some i) (u : Int) (combustivel t.heap)).isSome = true) :
    imprimirArvore (incluir t x).1 (some (u : Int))
        = imprimirArvore t (some (u : Int)) ∧
    ∀ k, buscarSucessor (incluir t x).1 k (some (u : Int))
        = buscarSucessor t k (some (u : Int)) :=
  quadroInclusao t x hfech hboas hu hsnap

/-- C1 witness: inserting 20 into the one-node tree (after INC 10) leaves
the version-1 dump unchanged. -/
theorem c1_insercao_preserva_versoes_antigas_witness :
    imprimirArvore (incluir (executar [Operacao.INC 10]) 20).1
        (some ((1 : Nat) : Int))
      = imprimirArvore (executar [Operacao.INC 10]) (some ((1 : Nat) : Int)) :=
  (c1_insercao_preserva_versoes_antigas (executar [Operacao.INC 10]) 20
    (by decide) (by decide) (le_refl 1)
    (fun i hi => by
      simp only [show lerIndice (executar [Operacao.INC 10]).raizes
          (((1 : Nat) : Nat) : Int) = Except.ok (some 0) from rfl,
        Except.ok.injEq, Option.some.injEq] at hi
      subst hi
      decide)).1

/-- C2 counterexample: inserting a key that is already alive (INC 1 after
INC 1) produces a new version (1 then 2), and removing an absent key
(REM 5 on the tree holding only 1) also produces a new version — the
claim that no new version is produced is false. -/
theorem c2_contraexemplo :
    (executar [Operacao.INC 1]).versao_atual = 1 ∧
    (executar [Operacao.INC 1, Operacao.INC 1]).versao_atual = 2 ∧
    (1 : Int) ∈ chavesVivas (executar [Operacao.INC 1]) 1 ∧
    (executar [Operacao.INC 1, Operacao.REM 5]).versao_atual = 2 ∧
    (5 : Int) ∉ chavesVivas (executar [Operacao.INC 1]) 1 := by decide

/-- C2 (amended): every mutation below the cap advances the version by
one — inserting a key already alive at the current version and removing
an absent key included — and insertion of any key whatsoever leaves every
queryable observation (in-order dump, successor) at every version u up
to the previous current version unchanged; removal leaves them unchanged
whenever the removed key is absent among the alive keys. -/
theorem c2_mutacao_sem_efeito_avanca_versao (t : ArvoreRubroNegra) (x : Int)
    (hfech : heapFechado t.heap = true) (hboas : raizesBoas t = true)
    (hlim : heapLimitado t.heap t.versao_atual = true)
    (hcap : t.versao_atual + 1 < t.raizes.length)
    (hsnapV : ∀ i, lerIndice t.raizes (t.versao_atual : Int)
        = Except.ok (some i) →
      (snapIds t.heap (some i) (t.versao_atual : Int)
        (combustivel t.heap)).isSome = true)
    {u : Nat} (hu : u ≤ t.versao_atual)
    (hsnap : ∀ i, lerIndice t.raizes (u : Int) = Except.ok (some i) →
      (snapIds t.heap (some i) (u : Int) (combustivel t.heap)).isSome = true) :
    (incluir t x).1.versao_atual = t.versao_atual + 1 ∧
    (remover t x).1.versao_atual = t.versao_atual + 1 ∧
    (imprimirArvore (incluir t x).1 (some (u : Int))
        = imprimirArvore t (some (u : Int)) ∧
      ∀ k, buscarSucessor (incluir t x).1 k (some (u : Int))
        = buscarSucessor t k (some (u : Int))) ∧
    (x ∉ chavesVivas t (t.versao_atual : Int) →
      imprimirArvore (remover t x).1 (some (u : Int))
          = imprimirArvore t (some (u : Int)) ∧
        ∀ k, buscarSucessor (remover t x).1 k (some (u : Int))
          = buscarSucessor t k (some (u : Int))) := by
  refine ⟨?_, ?_, quadroInclusao t x hfech hboas hu hsnap,
    fun habs => quadroRemocaoAusente t x hfech hboas hlim hsnapV habs hu hsnap⟩
  · unfold incluir
    rw [lerIndice_nat_ok (Nat.lt_of_succ_lt hcap)]
    dsimp only
    unfold escreverIndice
    rw [if_pos hcap]
  · unfold remover
    rw [lerIndice_nat_ok (Nat.lt_of_succ_lt hcap)]
    dsimp only
    unfold escreverIndice
    rw [if_pos hcap]

/-- C2 witness: on the one-node tree holding 1, inserting the key 1 that
is already alive advances the version from 1 to 2 and leaves the
version-1 dump unchanged, and removing the absent key 5 also advances
the version and leaves the version-1 dump unchanged. -/
theorem c2_mutacao_sem_efeito_avanca_versao_witness :
    (1 : Int) ∈ chavesVivas (executar [Operacao.INC 1]) ((1 : Nat) : Int) ∧
    (incluir (executar [Operacao.INC 1]) 1).1.versao_atual = 2 ∧
    imprimirArvore (incluir (executar [Operacao.INC 1]) 1).1
        (some ((1 : Nat) : Int))
      = imprimirArvore (executar [Operacao.INC 1]) (some ((1 : Nat) : Int)) ∧
    (remover (executar [Operacao.INC 1]) 5).1.versao_atual = 2 ∧
    imprimirArvore (remover (executar [Operacao.INC 1]) 5).1
        (some ((1 : Nat) : Int))
      = imprimirArvore (executar [Operacao.INC 1]) (some ((1 : Nat) : Int)) := by
  have H1 := c2_mutacao_sem_efeito_avanca_versao (executar [Operacao.INC 1]) 1
    (by decide) (by decide) (by decide) (by decide)
    (fun i hi => by
      simp only [show lerIndice (executar [Operacao.INC 1]).raizes
          ((executar [Operacao.INC 1]).versao_atual : Int)
          = Except.ok (some 0) from rfl,
        Except.ok.injEq, Option.some.injEq] at hi
      subst hi
      decide)
    (le_refl 1)
    (fun i hi => by
      simp only [show lerIndice (executar [Operacao.INC 1]).raizes
          (((1 : Nat) : Nat) : Int) = Except.ok (some 0) from rfl,
        Except.ok.injEq, Option.some.injEq] at hi
      subst hi
      decide)
  have H2 := c2_mutacao_sem_efeito_avanca_versao (executar [Operacao.INC 1]) 5
    (by decide) (by decide) (by decide) (by decide)
    (fun i hi => by
      simp only [show lerIndice (executar [Operacao.INC 1]).raizes
          ((executar [Operacao.INC 1]).versao_atual : Int)
          = Except.ok (some 0) from rfl,
        Except.ok.injEq, Option.some.injEq] at hi
      subst hi
      decide)
    (le_refl 1)
    (fun i hi => by
      simp only [show lerIndice (executar [Operacao.INC 1]).raizes
          (((1 : Nat) : Nat) : Int) = Except.ok (some 0) from rfl,
        Except.ok.injEq, Option.some.injEq] at hi
      subst hi
      decide)
  exact ⟨by decide, H1.1, H1.2.2.1.1, H2.2.1, (H2.2.2.2 (by decide)).1⟩

/-- C3 counterexample: in the left-left configuration reached while
inserting 3 into the tree \x7b10,5\x7d (both redness guards of the LL case
hold and the cascade picks the LL case), the rewritten triangle settles
to a VERMELHO local root whose left child is PRETO — not to the claimed
BLACK root with RED children. -/
theorem c3_contraexemplo :
    ehVermelho hC3 (obterFilhoEsquerdo hC3 0 3) 3 = true ∧
    ehVermelho hC3 (obterFilhoEsquerdo hC3
      ((obterFilhoEsquerdo hC3 0 3).getD 0) 3) 3 = true ∧
    balancearAposInclusao hC3 0 3 = balancearCasoEsquerdaEsquerda hC3 0 3 ∧
    obterCor (balancearAposInclusao hC3 0 3).1
      (balancearAposInclusao hC3 0 3).2 3 ≠ Cor.PRETO ∧
    obterCor (balancearAposInclusao hC3 0 3).1
      ((obterFilhoEsquerdo (balancearAposInclusao hC3 0 3).1
        (balancearAposInclusao hC3 0 3).2 3).getD 0) 3 ≠ Cor.VERMELHO := by
  decide

/-- C3 (amended): in all four insertion-rebalancing cases the colors
settle the opposite way from the claim: the new local root is VERMELHO
and its two children are PRETO (shown for each helper under the bounds
and distinctness the caller guarantees). -/
theorem c3_cores_dos_casos_de_rebalanceamento (h : Heap) (no : NodeId)
    (versao : Nat) :
    (∀ fe g, obterFilhoEsquerdo h no (versao : Int) = some fe →
      obterFilhoEsquerdo h fe (versao : Int) = some g →
      no < h.length → fe < h.length → g < h.length →
      fe ≠ no → fe ≠ g → g ≠ no →
      (balancearCasoEsquerdaEsquerda h no versao).2 = fe ∧
      obterCor (balancearCasoEsquerdaEsquerda h no versao).1 fe (versao : Int)
        = Cor.VERMELHO ∧
      obterFilhos (balancearCasoEsquerdaEsquerda h no versao).1 fe
        (versao : Int) = (some g, some no) ∧
      obterCor (balancearCasoEsquerdaEsquerda h no versao).1 g (versao : Int)
        = Cor.PRETO ∧
      obterCor (balancearCasoEsquerdaEsquerda h no versao).1 no (versao : Int)
        = Cor.PRETO) ∧
    (∀ fe ng, obterFilhoEsquerdo h no (versao : Int) = some fe →
      obterFilhoDireito h fe (versao : Int) = some ng →
      no < h.length → fe < h.length → ng < h.length →
      ng ≠ fe → ng ≠ no → fe ≠ no →
      (balancearCasoEsquerdaDireita h no versao).2 = ng ∧
      obterCor (balancearCasoEsquerdaDireita h no versao).1 ng (versao : Int)
        = Cor.VERMELHO ∧
      obterFilhos (balancearCasoEsquerdaDireita h no versao).1 ng
        (versao : Int) = (some fe, some no) ∧
      obterCor (balancearCasoEsquerdaDireita h no versao).1 fe (versao : Int)
        = Cor.PRETO ∧
      obterCor (balancearCasoEsquerdaDireita h no versao).1 no (versao : Int)
        = Cor.PRETO) ∧
    (∀ fd ng, obterFilhoDireito h no (versao : Int) = some fd →
      obterFilhoEsquerdo h fd (versao : Int) = some ng →
      no < h.length → fd < h.length → ng < h.length →
      ng ≠ fd → ng ≠ no → fd ≠ no →
      (balancearCasoDireitaEsquerda h no versao).2 = ng ∧
      obterCor (balancearCasoDireitaEsquerda h no versao).1 ng (versao : Int)
        = Cor.VERMELHO ∧
      obterFilhos (balancearCasoDireitaEsquerda h no versao).1 ng
        (versao : Int) = (some no, some fd) ∧
      obterCor (balancearCasoDireitaEsquerda h no versao).1 no (versao : Int)
        = Cor.PRETO ∧
      obterCor (balancearCasoDireitaEsquerda h no versao).1 fd (versao : Int)
        = Cor.PRETO) ∧
    (∀ fd g, obterFilhoDireito h no (versao : Int) = some fd →
      obterFilhoDireito h fd (versao : Int) = some g →
      no < h.length → fd < h.length → g < h.length →
      fd ≠ no → fd ≠ g → g ≠ no →
      (balancearCasoDireitaDireita h no versao).2 = fd ∧
      obterCor (balancearCasoDireitaDireita h no versao).1 fd (versao : Int)
        = Cor.VERMELHO ∧
      obterFilhos (balancearCasoDireitaDireita h no versao).1 fd
        (versao : Int) = (some no, some g) ∧
      obterCor (balancearCasoDireitaDireita h no versao).1 no (versao : Int)
        = Cor.PRETO ∧
      obterCor (balancearCasoDireitaDireita h no versao).1 g (versao : Int)
        = Cor.PRETO) :=
  ⟨fun _ _ h1 h2 h3 h4 h5 h6 h7 h8 =>
      balancearLL_cores h1 h2 h3 h4 h5 h6 h7 h8,
   fun _ _ h1 h2 h3 h4 h5 h6 h7 h8 =>
      balancearLR_cores h1 h2 h3 h4 h5 h6 h7 h8,
   fun _ _ h1 h2 h3 h4 h5 h6 h7 h8 =>
      balancearRL_cores h1 h2 h3 h4 h5 h6 h7 h8,
   fun _ _ h1 h2 h3 h4 h5 h6 h7 h8 =>
      balancearRR_cores h1 h2 h3 h4 h5 h6 h7 h8⟩

/-- C3 witness: the LL case applied to the concrete three-node heap hC3
returns root 1 colored VERMELHO with children 2 and 0 both PRETO. -/
theorem c3_cores_dos_casos_de_rebalanceamento_witness :
    (balancearCasoEsquerdaEsquerda hC3 0 3).2 = 1 ∧
    obterCor (balancearCasoEsquerdaEsquerda hC3 0 3).1 1 ((3 : Nat) : Int)
      = Cor.VERMELHO ∧
    obterFilhos (balancearCasoEsquerdaEsquerda hC3 0 3).1 1 ((3 : Nat) : Int)
      = (some 2, some 0) ∧
    obterCor (balancearCasoEsquerdaEsquerda hC3 0 3).1 2 ((3 : Nat) : Int)
      = Cor.PRETO ∧
    obterCor (balancearCasoEsquerdaEsquerda hC3 0 3).1 0 ((3 : Nat) : Int)
      = Cor.PRETO :=
  (c3_cores_dos_casos_de_rebalanceamento hC3 0 3).1 1 2 rfl rfl (by decide)
    (by decide) (by decide) (by decide) (by decide) (by decide)

/-- C4 counterexample: after INC 10, INC 5, INC 13, INC 15, INC 17,
REM 15, REM 13 the query SUC 14 at version 5 answers 17, but the least
alive key above 14 at version 5 is 15 (deletion broke the old version's
search-tree order through the valor overwrite). -/
theorem c4_contraexemplo :
    buscarSucessor (executar [Operacao.INC 10, Operacao.INC 5,
      Operacao.INC 13, Operacao.INC 15, Operacao.INC 17, Operacao.REM 15,
      Operacao.REM 13]) 14 (some 5) = Except.ok (some 17) ∧
    menorAcima (chavesVivas (executar [Operacao.INC 10, Operacao.INC 5,
      Operacao.INC 13, Operacao.INC 15, Operacao.INC 17, Operacao.REM 15,
      Operacao.REM 13]) 5) 14 = some 15 :=
  ⟨rfl, by decide⟩

/-- C4 (amended): whenever the version-u snapshot exists and its in-order
keys are strictly sorted — which insertion-only histories guarantee, and
which deletion can break — buscar_sucessor at u returns exactly the least
alive key strictly above the query (None when there is none). -/
theorem c4_sucessor_em_instantaneo_ordenado (t : ArvoreRubroNegra) (k : Int)
    (u : Nat) (hu : u ≤ t.versao_atual) {raiz : Option NodeId}
    (hler : lerIndice t.raizes ((u : Nat) : Int) = Except.ok raiz)
    {s : ArvoreIds}
    (hs : snapIds t.heap raiz ((u : Nat) : Int) (combustivel t.heap) = some s)
    (hsorted : List.Pairwise (· < ·) s.apaga.emOrdem) :
    buscarSucessor t k (some ((u : Nat) : Int))
      = Except.ok (menorAcima (chavesVivas t ((u : Nat) : Int)) k) := by
  have hclamp : ¬(((u : Nat) : Int) > (t.versao_atual : Int)) := by
    simp only [gt_iff_lt, not_lt]
    exact_mod_cast hu
  have hchaves : chavesVivas t ((u : Nat) : Int) = s.apaga.emOrdem := by
    unfold chavesVivas
    rw [hler]
    cases raiz with
    | none =>
      have h2 : snapIds t.heap none ((u : Nat) : Int) (combustivel t.heap)
          = some ArvoreIds.folha := rfl
      rw [h2] at hs
      have h3 : ArvoreIds.folha = s := by injection hs
      rw [← h3]
      rfl
    | some r => exact chaves_snap hs
  unfold buscarSucessor
  dsimp only
  rw [if_neg hclamp, hler]
  dsimp only
  rw [laco_snap hs, hchaves, buscaPura_ordenada s.apaga hsorted k none]
  cases menorAcima s.apaga.emOrdem k <;> rfl

/-- C4 witness: on the insertion-only tree \x7b10,5,15\x7d at version 3, the
successor of 6 is the least alive key above 6. -/
theorem c4_sucessor_em_instantaneo_ordenado_witness :
    buscarSucessor (executar [Operacao.INC 10, Operacao.INC 5,
        Operacao.INC 15]) 6 (some ((3 : Nat) : Int))
      = Except.ok (menorAcima (chavesVivas (executar [Operacao.INC 10,
          Operacao.INC 5, Operacao.INC 15]) ((3 : Nat) : Int)) 6) :=
  c4_sucessor_em_instantaneo_ordenado
    (executar [Operacao.INC 10, Operacao.INC 5, Operacao.INC 15]) 6 3
    (by decide) rfl rfl (by decide)

/-- C6: after every operation sequence from the empty tree, every
recorded root up to the current version is either empty or reads PRETO
at its own version. -/
theorem c6_raiz_preta_em_toda_versao (ops : List Operacao) (u : Nat)
    (hu : u ≤ (executar ops).versao_atual) :
    ∀ i, lerIndice (executar ops).raizes (u : Int) = Except.ok (some i) →
      obterCor (executar ops).heap i (u : Int) = Cor.PRETO :=
  (invariante_executar ops).2.2.2.2 u hu

/-- C6 witness: the root written by INC 10 reads PRETO at version 1. -/
theorem c6_raiz_preta_em_toda_versao_witness :
    obterCor (executar [Operacao.INC 10]).heap 0 ((1 : Nat) : Int)
      = Cor.PRETO :=
  c6_raiz_preta_em_toda_versao [Operacao.INC 10] 1 (by decide) 0 rfl

/-- C8 counterexample: the negative version -1 is not rejected — the
Python negative indexing silently reads roots[-1] (slot 99) and the query
is answered ok rather than raising. -/
theorem c8_contraexemplo :
    buscarSucessor (executar [Operacao.INC 10]) 5 (some (-1))
      = Except.ok none ∧
    ehErro (buscarSucessor (executar [Operacao.INC 10]) 5 (some (-1)))
      = false :=
  ⟨rfl, by decide⟩

/-- C8 (amended): versions above the current one are silently clamped
down (both queries agree with the current-version answers), but negative
versions are only errors below -len(roots): for -len ≤ v < 0 both
queries are answered without error via Python negative indexing, and
only v < -len raises IndexError. -/
theorem c8_fronteira_de_versoes (t : ArvoreRubroNegra) (k v : Int) :
    ((t.versao_atual : Int) < v →
      buscarSucessor t k (some v)
          = buscarSucessor t k (some (t.versao_atual : Int)) ∧
      imprimirArvore t (some v)
          = imprimirArvore t (some (t.versao_atual : Int))) ∧
    (-(t.raizes.length : Int) ≤ v → v < 0 →
      ehErro (buscarSucessor t k (some v)) = false ∧
      ehErro (imprimirArvore t (some v)) = false) ∧
    (v < -(t.raizes.length : Int) →
      ehErro (buscarSucessor t k (some v)) = true ∧
      ehErro (imprimirArvore t (some v)) = true) := by
  refine ⟨fun hv => ?_, fun h1 h2 => ?_, fun h1 => ?_⟩
  · constructor
    · unfold buscarSucessor
      dsimp only
      rw [if_pos hv, if_neg (lt_irrefl _)]
    · unfold imprimirArvore
      dsimp only
      rw [if_pos hv, if_neg (lt_irrefl _)]
  · have hnc : ¬(t.versao_atual : Int) < v :=
      not_lt.mpr (le_of_lt (lt_of_lt_of_le h2 (Int.natCast_nonneg _)))
    have hlerok : lerIndice t.raizes v
        = Except.ok (t.raizes.getD (t.raizes.length - (-v).toNat) none) := by
      unfold lerIndice
      rw [if_neg (fun hc => absurd hc.1 (not_le.mpr h2)), if_pos ⟨h1, h2⟩]
    constructor
    · unfold buscarSucessor
      dsimp only
      rw [if_neg hnc, hlerok]
      rfl
    · unfold imprimirArvore
      dsimp only
      rw [if_neg hnc, hlerok]
      rfl
  · have h2 : v < 0 :=
      lt_of_lt_of_le h1 (neg_nonpos.mpr (Int.natCast_nonneg _))
    have hnc : ¬(t.versao_atual : Int) < v :=
      not_lt.mpr (le_of_lt (lt_of_lt_of_le h2 (Int.natCast_nonneg _)))
    have hlererr : lerIndice t.raizes v
        = Except.error "IndexError: list index out of range" := by
      unfold lerIndice
      rw [if_neg (fun hc => absurd hc.1 (not_le.mpr h2)),
        if_neg (fun hc => absurd hc.1 (not_le.mpr h1))]
    constructor
    · unfold buscarSucessor
      dsimp only
      rw [if_neg hnc, hlererr]
      rfl
    · unfold imprimirArvore
      dsimp only
      rw [if_neg hnc, hlererr]
      rfl

/-- C8 witness: on the fresh tree, version 7 is clamped to version 0,
version -3 is answered without error, and version -101 is an error. -/
theorem c8_fronteira_de_versoes_witness :
    buscarSucessor arvoreNova 0 (some 7)
        = buscarSucessor arvoreNova 0 (some (arvoreNova.versao_atual : Int)) ∧
    ehErro (buscarSucessor arvoreNova 0 (some (-3))) = false ∧
    ehErro (buscarSucessor arvoreNova 0 (some (-101))) = true :=
  ⟨((c8_fronteira_de_versoes arvoreNova 0 7).1 (by decide)).1,
   ((c8_fronteira_de_versoes arvoreNova 0 (-3)).2.1 (by decide) (by decide)).1,
   ((c8_fronteira_de_versoes arvoreNova 0 (-101)).2.2 (by decide)).1⟩

/-- C9 counterexample: No.remover overwrites the death version
unconditionally — retiring at version 7 and then at the earlier version 3
lowers the death version to 3 with no error, refuting monotonicity. -/
theorem c9_contraexemplo :
    ((No.novo 5 Cor.VERMELHO 0).remover_no 7).versao_remocao = some 7 ∧
    (((No.novo 5 Cor.VERMELHO 0).remover_no 7).remover_no 3).versao_remocao
      = some 3 :=
  ⟨rfl, rfl⟩

/-- C9 (amended): No.remover always sets the death version to exactly the
given version — it is idempotent at the same version, and a second call
at any version (earlier ones included) simply overwrites. -/
theorem c9_remover_sobrescreve_sempre (n : No) (v : Nat) :
    (n.remover_no v).versao_remocao = some v ∧
    (n.remover_no v).remover_no v = n.remover_no v ∧
    ∀ u : Nat, ((n.remover_no v).remover_no u).versao_remocao = some u :=
  ⟨rfl, rfl, fun _ => rfl⟩

/-- C10 counterexample: driving the version counter to 99 and inserting
once more raises IndexError at the roots table, but the processor catches
it, records a diagnostic, and keeps going — the following SUC is answered
normally; the failure is not fatal. -/
theorem c10_contraexemplo :
    (processarLinhas arvoreNova (List.replicate 100 (Operacao.INC 1)
      ++ [Operacao.SUC 0 99])).2.2
      = ["Erro ao processar operação: IndexError: list assignment index out of range"] ∧
    (processarLinhas arvoreNova (List.replicate 100 (Operacao.INC 1)
      ++ [Operacao.SUC 0 99])).2.1 = ["SUC 0 99", "1"] ∧
    (processarLinhas arvoreNova (List.replicate 100 (Operacao.INC 1)
      ++ [Operacao.SUC 0 99])).1.versao_atual = 99 := by decide

/-- C10 (amended): a mutation — insert or remove — sitting exactly at the
cap raises the IndexError on the root installation; the tree call reports
it, the version and roots table stay as they were, and the operation
processor converts it into a diagnostic and continues with the remaining
operations. -/
theorem c10_estouro_do_limite_e_engolido (t : ArvoreRubroNegra) (x : Int)
    (hcap : t.versao_atual + 1 = t.raizes.length) :
    (incluir t x).2 = some "IndexError: list assignment index out of range" ∧
    (incluir t x).1.versao_atual = t.versao_atual ∧
    (incluir t x).1.raizes = t.raizes ∧
    (remover t x).2 = some "IndexError: list assignment index out of range" ∧
    (remover t x).1.versao_atual = t.versao_atual ∧
    (remover t x).1.raizes = t.raizes ∧
    (∀ resto, processarLinhas t (Operacao.INC x :: resto)
      = ((processarLinhas (incluir t x).1 resto).1,
        (processarLinhas (incluir t x).1 resto).2.1,
        ("Erro ao processar operação: "
            ++ "IndexError: list assignment index out of range")
          :: (processarLinhas (incluir t x).1 resto).2.2)) ∧
    (∀ resto, processarLinhas t (Operacao.REM x :: resto)
      = ((processarLinhas (remover t x).1 resto).1,
        (processarLinhas (remover t x).1 resto).2.1,
        ("Erro ao processar operação: "
            ++ "IndexError: list assignment index out of range")
          :: (processarLinhas (remover t x).1 resto).2.2)) := by
  have hvalen : t.versao_atual < t.raizes.length := by omega
  have hescGen : ∀ a, escreverIndice t.raizes (t.versao_atual + 1) a
      = Except.error "IndexError: list assignment index out of range" := by
    intro a
    unfold escreverIndice
    rw [if_neg (by omega)]
  have hinc : incluir t x
      = ({ t with
           heap := definirCor
             (incluirRecursivo t.heap (t.raizes.getD t.versao_atual none) x
               (t.versao_atual + 1) (combustivel t.heap)).1
             (incluirRecursivo t.heap (t.raizes.getD t.versao_atual none) x
               (t.versao_atual + 1) (combustivel t.heap)).2
             Cor.PRETO (t.versao_atual + 1) },
        some "IndexError: list assignment index out of range") := by
    unfold incluir
    rw [lerIndice_nat_ok hvalen]
    dsimp only
    rw [hescGen]
  obtain ⟨H, hrem⟩ : ∃ H, remover t x
      = ({ t with heap := H },
        some "IndexError: list assignment index out of range") := by
    cases hR2 : (removerRecursivo t.heap (t.raizes.getD t.versao_atual none) x
        (t.versao_atual + 1) (combustivel t.heap)).2 with
    | none =>
      refine ⟨(removerRecursivo t.heap (t.raizes.getD t.versao_atual none) x
        (t.versao_atual + 1) (combustivel t.heap)).1, ?_⟩
      unfold remover
      rw [lerIndice_nat_ok hvalen]
      dsimp only
      rw [hR2, hescGen]
    | some i =>
      refine ⟨definirCor (removerRecursivo t.heap
          (t.raizes.getD t.versao_atual none) x (t.versao_atual + 1)
          (combustivel t.heap)).1 i Cor.PRETO (t.versao_atual + 1), ?_⟩
      unfold remover
      rw [lerIndice_nat_ok hvalen]
      dsimp only
      rw [hR2, hescGen]
  refine ⟨by rw [hinc], by rw [hinc], by rw [hinc],
    by rw [hrem], by rw [hrem], by rw [hrem], fun resto => ?_, fun resto => ?_⟩
  · show (processarLinhas t (Operacao.INC x :: resto)) = _
    simp only [processarLinhas, processarOperacao]
    rw [hinc]
    dsimp only
    rw [List.nil_append, List.singleton_append]
  · show (processarLinhas t (Operacao.REM x :: resto)) = _
    simp only [processarLinhas, processarOperacao]
    rw [hrem]
    dsimp only
    rw [List.nil_append, List.singleton_append]

/-- C10 witness: at the cap state the insert error and the remove error
are both caught with their diagnostic, the version stays 99, and
processing continues. -/
theorem c10_estouro_do_limite_e_engolido_witness :
    (incluir arvoreNoTopo 1).2
        = some "IndexError: list assignment index out of range" ∧
    (incluir arvoreNoTopo 1).1.versao_atual = 99 ∧
    (remover arvoreNoTopo 1).2
        = some "IndexError: list assignment index out of range" ∧
    (remover arvoreNoTopo 1).1.versao_atual = 99 ∧
    processarLinhas arvoreNoTopo [Operacao.INC 1]
      = ((processarLinhas (incluir arvoreNoTopo 1).1 []).1,
        (processarLinhas (incluir arvoreNoTopo 1).1 []).2.1,
        ("Erro ao processar operação: "
            ++ "IndexError: list assignment index out of range")
          :: (processarLinhas (incluir arvoreNoTopo 1).1 []).2.2) ∧
    processarLinhas arvoreNoTopo [Operacao.REM 1]
      = ((processarLinhas (remover arvoreNoTopo 1).1 []).1,
        (processarLinhas (remover arvoreNoTopo 1).1 []).2.1,
        ("Erro ao processar operação: "
            ++ "IndexError: list assignment index out of range")
          :: (processarLinhas (remover arvoreNoTopo 1).1 []).2.2) := by
  have H := c10_estouro_do_limite_e_engolido arvoreNoTopo 1 (by decide)
  exact ⟨H.1, H.2.1, H.2.2.2.1, H.2.2.2.2.1, H.2.2.2.2.2.2.1 [],
    H.2.2.2.2.2.2.2 []⟩

/-- C5: after any sequence of operations consisting only of insertions,
starting from the empty tree, for every version u in [0, current_version]
no node alive and RED at u has a child alive and RED at u. -/
theorem c5_sem_vermelho_vermelho_apos_inclusoes (ops : List Operacao)
    (hops : ∀ op ∈ ops, ∃ v, op = Operacao.INC v)
    (u : Nat) (hu : u ≤ (executar ops).versao_atual) :
    semVermelhoVermelho (executar ops).heap (u : Int) = true :=
  (invVermelho_linhas ops hops arvoreNova invVermelho_nova).2.2.2.1 u hu

theorem c5_sem_vermelho_vermelho_apos_inclusoes_witness :
    semVermelhoVermelho (executar [Operacao.INC 10, Operacao.INC 5,
      Operacao.INC 15, Operacao.INC 3]).heap ((4 : Nat) : Int) = true :=
  c5_sem_vermelho_vermelho_apos_inclusoes _ (by
    intro op hop
    simp only [List.mem_cons, List.not_mem_nil, or_false] at hop
    rcases hop with h | h | h | h
    exacts [⟨10, h⟩, ⟨5, h⟩, ⟨15, h⟩, ⟨3, h⟩]) 4 (by decide)

end RBN
